import Mathlib

/-!
# nuevo-idp: control-plane command API

A shallow embedding of the command side of the control plane
(`control-plane-api/internal/application/services.go`), its in-memory
repositories (`internal/adapters/memoryrepo/memory.go`), the platform error
taxonomy (`platform/errors/errors.go`) and the status mapping of
`writeDomainError` (`internal/adapters/httpapi/handlers.go`).

Conventions of the embedding:

* Go's `error` interface is the inductive type `error`, with `error.nil` for
  the nil interface value.
* A repository is a record of functions over an explicit state `σ`; a
  `Services` value holds one optional repository per entity kind (`none` is
  Go's nil interface field).
* `time.Now().UTC()` is the extra argument `now` of every command.
* A Go `map[string]*T` keyed by the entity id is a list of entities, with
  lookup of the first entry that has the id and in-place replacement on save.
-/

namespace NuevoIDP

/-! ## platform/errors -/

/-- Kind classifies errors (`type Kind string`). -/
abbrev Kind := String

def KindDomain : Kind := "domain"
def KindValidation : Kind := "validation"
def KindConflict : Kind := "conflict"
def KindNotFound : Kind := "not_found"
def KindInternal : Kind := "internal"

/-- The predicate `unicode.IsSpace`, by code point. -/
def isSpace (c : Char) : Bool :=
  [0x09, 0x0A, 0x0B, 0x0C, 0x0D, 0x20, 0x85, 0xA0, 0x1680, 0x2028, 0x2029, 0x202F, 0x205F,
    0x3000].contains c.toNat || (0x2000 ≤ c.toNat && c.toNat ≤ 0x200A)

/-- The function `strings.TrimSpace`: leading and trailing white space removed. -/
def TrimSpace (s : String) : String :=
  String.mk ((s.data.dropWhile isSpace).reverse.dropWhile isSpace).reverse

/-- Go `error` values. `platform` is `*perrors.Error` (fields Kind, Code,
Message, Err), `errorf` is the result of `fmt.Errorf(msg + ": %w", err)`, and
`other` is an error of any other package, which wraps nothing. The workflow
engine adds the errors of its HTTP adapters, `*controlplanehttp.Error`,
`*gitproviderhttp.Error`, `*appenvprovhttp.Error` and
`*secretbindingshttp.Error`, and Temporal's `*temporal.ApplicationError` with
its message, type, non-retryable flag and cause. -/
inductive error where
  | nil : error
  | platform (kind : Kind) (code : String) (message : String) (err : error) : error
  | errorf (msg : String) (err : error) : error
  | other (msg : String) : error
  | controlplane (Status : Int) (Code : String) (Message : String) : error
  | gitprovider (Status : Int) (Message : String) : error
  | appenvprov (Status : Int) (Path : String) (Message : String) : error
  | secretbindings (Status : Int) (Message : String) : error
  | application (message : String) (errType : String) (nonRetryable : Bool)
      (cause : error) : error
deriving DecidableEq, Repr, Inhabited

namespace error

/-- The method `Error() string`. For `platform` it is `(*Error).Error` of the
platform package and for the HTTP adapters' errors the `Error` method of each
adapter; the nil interface has no such method and is given the empty string.
For a Temporal application error the text is its message: the SDK's own
rendering is outside this repository. -/
def Error : error → String
  | .nil => ""
  | .platform _ _ message .nil => message
  | .platform _ _ message err => message ++ ": " ++ err.Error
  | .errorf msg err => msg ++ ": " ++ err.Error
  | .other msg => msg
  | .controlplane status code message =>
    let code := if code = "" then "unknown_error" else code
    let msg := if TrimSpace message = "" then
      "control-plane-api returned status " ++ toString status else message
    "control-plane-api error: status=" ++ toString status ++ " code=" ++ code ++
      " message=" ++ msg
  | .gitprovider status message =>
    let msg := TrimSpace message
    let msg := if msg = "" then "execution-workers returned status " ++ toString status
      else msg
    "execution-workers git provider error: status=" ++ toString status ++ " message=" ++ msg
  | .appenvprov status path message =>
    let msg := TrimSpace message
    let msg := if msg = "" then
      "execution-workers returned status " ++ toString status ++ " for " ++ path else msg
    "execution-workers appenv provider error: status=" ++ toString status ++ " path=" ++
      path ++ " message=" ++ msg
  | .secretbindings status message =>
    let msg := TrimSpace message
    let msg := if msg = "" then "execution-workers returned status " ++ toString status
      else msg
    "execution-workers secret bindings provider error: status=" ++ toString status ++
      " message=" ++ msg
  | .application message _ _ _ => message

/-- The search `errors.As(err, &e)` with `e` of type `*perrors.Error`: the first
platform error met when unwrapping, as its kind and code. -/
def asPlatform : error → Option (Kind × String)
  | .nil => none
  | .platform kind code _ _ => some (kind, code)
  | .errorf _ err => err.asPlatform
  | .application _ _ _ cause => cause.asPlatform
  | _ => none

/-- The search `errors.As(err, &apiErr)` with `apiErr` of type
`*controlplanehttp.Error`: its status, code and message. -/
def asControlPlane : error → Option (Int × String × String)
  | .controlplane status code message => some (status, code, message)
  | .platform _ _ _ err => err.asControlPlane
  | .errorf _ err => err.asControlPlane
  | .application _ _ _ cause => cause.asControlPlane
  | _ => none

/-- The search `errors.As(err, &gitErr)` with `gitErr` of type
`*gitproviderhttp.Error`: its status and message. -/
def asGitProvider : error → Option (Int × String)
  | .gitprovider status message => some (status, message)
  | .platform _ _ _ err => err.asGitProvider
  | .errorf _ err => err.asGitProvider
  | .application _ _ _ cause => cause.asGitProvider
  | _ => none

/-- The search `errors.As(err, &appEnvErr)` with `appEnvErr` of type
`*appenvprovhttp.Error`: its status, path and message. -/
def asAppEnvProv : error → Option (Int × String × String)
  | .appenvprov status path message => some (status, path, message)
  | .platform _ _ _ err => err.asAppEnvProv
  | .errorf _ err => err.asAppEnvProv
  | .application _ _ _ cause => cause.asAppEnvProv
  | _ => none

/-- The search `errors.As(err, &appErr)` with `appErr` of type
`*temporal.ApplicationError`: its type and non-retryable flag. -/
def asApplication : error → Option (String × Bool)
  | .application _ errType nonRetryable _ => some (errType, nonRetryable)
  | .platform _ _ _ err => err.asApplication
  | .errorf _ err => err.asApplication
  | _ => none

end error

def Domain (code msg : String) (cause : error) : error := .platform KindDomain code msg cause
def Validation (code msg : String) (cause : error) : error := .platform KindValidation code msg cause
def Conflict (code msg : String) (cause : error) : error := .platform KindConflict code msg cause
def NotFound (code msg : String) (cause : error) : error := .platform KindNotFound code msg cause
def Internal (code msg : String) (cause : error) : error := .platform KindInternal code msg cause

/-- IsKind tells whether unwrapping `err` meets a platform error of that kind. -/
def IsKind (err : error) (kind : Kind) : Bool :=
  match err.asPlatform with
  | some (k, _) => k == kind
  | none => false

/-- Code is the stable code of `err` when it is a platform error, else "". -/
def Code (err : error) : String :=
  match err.asPlatform with
  | some (_, c) => c
  | none => ""

/-! ## domain/resources.go -/

abbrev TeamState := String
abbrev ApplicationState := String
abbrev CodeRepositoryState := String
abbrev DeploymentRepositoryState := String
abbrev EnvironmentState := String
abbrev ApplicationEnvironmentState := String
abbrev SecretState := String
abbrev SecretBindingState := String

def TeamStateDraft : TeamState := "Draft"
def TeamStateActive : TeamState := "Active"
def TeamStateSuspended : TeamState := "Suspended"
def TeamStateArchived : TeamState := "Archived"

def ApplicationStateProposed : ApplicationState := "Proposed"
def ApplicationStateApproved : ApplicationState := "Approved"
def ApplicationStateOnboarding : ApplicationState := "Onboarding"
def ApplicationStateActive : ApplicationState := "Active"
def ApplicationStateDeprecated : ApplicationState := "Deprecated"
def ApplicationStateDecommissioning : ApplicationState := "Decommissioning"
def ApplicationStateArchived : ApplicationState := "Archived"

def CodeRepositoryStateDeclared : CodeRepositoryState := "Declared"
def CodeRepositoryStateProvisioning : CodeRepositoryState := "Provisioning"
def CodeRepositoryStateActive : CodeRepositoryState := "Active"
def CodeRepositoryStateArchived : CodeRepositoryState := "Archived"

def DeploymentRepositoryStateDeclared : DeploymentRepositoryState := "Declared"
def DeploymentRepositoryStateProvisioning : DeploymentRepositoryState := "Provisioning"
def DeploymentRepositoryStateActive : DeploymentRepositoryState := "Active"
def DeploymentRepositoryStateArchived : DeploymentRepositoryState := "Archived"

def EnvironmentStatePlanned : EnvironmentState := "Planned"
def EnvironmentStateActive : EnvironmentState := "Active"
def EnvironmentStateFrozen : EnvironmentState := "Frozen"
def EnvironmentStateRetired : EnvironmentState := "Retired"

def ApplicationEnvironmentStateDeclared : ApplicationEnvironmentState := "Declared"
def ApplicationEnvironmentStateProvisioning : ApplicationEnvironmentState := "Provisioning"
def ApplicationEnvironmentStateActive : ApplicationEnvironmentState := "Active"
def ApplicationEnvironmentStateFrozen : ApplicationEnvironmentState := "Frozen"
def ApplicationEnvironmentStateDecommissioning : ApplicationEnvironmentState := "Decommissioning"
def ApplicationEnvironmentStateRetired : ApplicationEnvironmentState := "Retired"

def SecretStateDeclared : SecretState := "Declared"
def SecretStateProvisioning : SecretState := "Provisioning"
def SecretStateActive : SecretState := "Active"
def SecretStateRotating : SecretState := "Rotating"
def SecretStateSuspended : SecretState := "Suspended"
def SecretStateRevoked : SecretState := "Revoked"
def SecretStateArchived : SecretState := "Archived"

def SecretBindingStateDeclared : SecretBindingState := "Declared"
def SecretBindingStateProvisioning : SecretBindingState := "Provisioning"
def SecretBindingStateActive : SecretBindingState := "Active"
def SecretBindingStateSuspended : SecretBindingState := "Suspended"
def SecretBindingStateRevoked : SecretBindingState := "Revoked"

/-- Metadata of an entity; `CreatedAt` is the instant as a number. -/
structure Metadata where
  CreatedBy : String
  CreatedAt : Nat
  Tags : List String := []
deriving DecidableEq, Repr, Inhabited

structure Team where
  ID : String
  Name : String
  State : TeamState
  Metadata : Metadata
deriving DecidableEq, Repr, Inhabited

structure Application where
  ID : String
  Name : String
  TeamID : String
  State : ApplicationState
  Metadata : Metadata
deriving DecidableEq, Repr, Inhabited

structure CodeRepository where
  ID : String
  ApplicationID : String
  State : CodeRepositoryState
  Metadata : Metadata
deriving DecidableEq, Repr, Inhabited

structure DeploymentRepository where
  ID : String
  ApplicationID : String
  DeploymentModel : String
  State : DeploymentRepositoryState
  Metadata : Metadata
deriving DecidableEq, Repr, Inhabited

structure GitOpsIntegration where
  ID : String
  ApplicationID : String
  DeploymentRepositoryID : String
  Metadata : Metadata
deriving DecidableEq, Repr, Inhabited

structure Environment where
  ID : String
  Name : String
  State : EnvironmentState
  Metadata : Metadata
deriving DecidableEq, Repr, Inhabited

structure ApplicationEnvironment where
  ID : String
  ApplicationID : String
  EnvironmentID : String
  State : ApplicationEnvironmentState
  Metadata : Metadata
deriving DecidableEq, Repr, Inhabited

structure Secret where
  ID : String
  OwnerTeam : String
  Purpose : String
  Sensitivity : String
  State : SecretState
  Metadata : Metadata
deriving DecidableEq, Repr, Inhabited

structure SecretBinding where
  ID : String
  SecretID : String
  TargetID : String
  TargetType : String
  State : SecretBindingState
  Metadata : Metadata
deriving DecidableEq, Repr, Inhabited

/-! ## adapters/memoryrepo -/

/-- The key under which the memory repositories file an entity: its `ID`. -/
class Keyed (α : Type) where
  key : α → String

instance : Keyed Team := ⟨Team.ID⟩
instance : Keyed Application := ⟨Application.ID⟩
instance : Keyed CodeRepository := ⟨CodeRepository.ID⟩
instance : Keyed DeploymentRepository := ⟨DeploymentRepository.ID⟩
instance : Keyed GitOpsIntegration := ⟨GitOpsIntegration.ID⟩
instance : Keyed Environment := ⟨Environment.ID⟩
instance : Keyed ApplicationEnvironment := ⟨ApplicationEnvironment.ID⟩
instance : Keyed Secret := ⟨Secret.ID⟩
instance : Keyed SecretBinding := ⟨SecretBinding.ID⟩

/-- The field `items map[string]*T` of a memory repository. -/
abbrev Items (α : Type) := List α

namespace Items

/-- The lookup `r.items[id]`, as done by every `GetByID`. -/
def get {α : Type} [Keyed α] : Items α → String → Option α
  | [], _ => none
  | x :: xs, id => if Keyed.key x = id then some x else get xs id

/-- The assignment `r.items[x.ID] = &copy`, as done by every `Save`. -/
def put {α : Type} [Keyed α] : Items α → α → Items α
  | [], x => [x]
  | y :: ys, x => if Keyed.key y = Keyed.key x then x :: ys else y :: put ys x

end Items

/-- The contents of the nine memory repositories. -/
structure Store where
  teams : Items Team := []
  applications : Items Application := []
  codeRepositories : Items CodeRepository := []
  environments : Items Environment := []
  applicationEnvironments : Items ApplicationEnvironment := []
  secrets : Items Secret := []
  secretBindings : Items SecretBinding := []
  deploymentRepositories : Items DeploymentRepository := []
  gitOpsIntegrations : Items GitOpsIntegration := []
deriving DecidableEq, Repr, Inhabited

/-- The store right after the `New...Repository` constructors. -/
def Store.empty : Store := {}

/-! ## application/services.go: repository interfaces -/

/-- The shape shared by the repository interfaces: `GetByID` and `Save`, over
a state `σ` that holds whatever the implementation stores. -/
structure Repository (σ α : Type) where
  GetByID : σ → String → Option α × error
  Save : σ → α → σ × error

abbrev TeamRepository (σ : Type) := Repository σ Team
abbrev ApplicationRepository (σ : Type) := Repository σ Application
abbrev CodeRepositoryRepository (σ : Type) := Repository σ CodeRepository
abbrev EnvironmentRepository (σ : Type) := Repository σ Environment
abbrev SecretRepository (σ : Type) := Repository σ Secret
abbrev SecretBindingRepository (σ : Type) := Repository σ SecretBinding
abbrev DeploymentRepositoryRepository (σ : Type) := Repository σ DeploymentRepository
abbrev GitOpsIntegrationRepository (σ : Type) := Repository σ GitOpsIntegration

structure ApplicationEnvironmentRepository (σ : Type) extends
    Repository σ ApplicationEnvironment where
  GetByApplicationAndEnvironment : σ → String → String → Option ApplicationEnvironment × error

structure Services (σ : Type) where
  Teams : Option (TeamRepository σ)
  Applications : Option (ApplicationRepository σ)
  CodeRepositories : Option (CodeRepositoryRepository σ)
  Environments : Option (EnvironmentRepository σ)
  ApplicationEnvironments : Option (ApplicationEnvironmentRepository σ)
  Secrets : Option (SecretRepository σ)
  SecretBindings : Option (SecretBindingRepository σ)
  DeploymentRepositories : Option (DeploymentRepositoryRepository σ)
  GitOpsIntegrations : Option (GitOpsIntegrationRepository σ)

/-! ## adapters/memoryrepo: the repositories -/

namespace memoryrepo

def NewTeamRepository : TeamRepository Store where
  GetByID st id := (st.teams.get id, .nil)
  Save st team := ({ st with teams := st.teams.put team }, .nil)

def NewApplicationRepository : ApplicationRepository Store where
  GetByID st id := (st.applications.get id, .nil)
  Save st app := ({ st with applications := st.applications.put app }, .nil)

def NewCodeRepositoryRepository : CodeRepositoryRepository Store where
  GetByID st id := (st.codeRepositories.get id, .nil)
  Save st repo := ({ st with codeRepositories := st.codeRepositories.put repo }, .nil)

def NewEnvironmentRepository : EnvironmentRepository Store where
  GetByID st id := (st.environments.get id, .nil)
  Save st env := ({ st with environments := st.environments.put env }, .nil)

/-- The memory repository of application environments. Go ranges over the map
in an unspecified order in `GetByApplicationAndEnvironment`; the embedding
returns the first match in list order, and the services only test the result
against nil. -/
def NewApplicationEnvironmentRepository : ApplicationEnvironmentRepository Store where
  GetByID st id := (st.applicationEnvironments.get id, .nil)
  Save st appEnv :=
    ({ st with applicationEnvironments := st.applicationEnvironments.put appEnv }, .nil)
  GetByApplicationAndEnvironment st applicationID environmentID :=
    (st.applicationEnvironments.find?
      (fun ae => ae.ApplicationID == applicationID && ae.EnvironmentID == environmentID), .nil)

def NewDeploymentRepositoryRepository : DeploymentRepositoryRepository Store where
  GetByID st id := (st.deploymentRepositories.get id, .nil)
  Save st repo :=
    ({ st with deploymentRepositories := st.deploymentRepositories.put repo }, .nil)

def NewSecretRepository : SecretRepository Store where
  GetByID st id := (st.secrets.get id, .nil)
  Save st sec := ({ st with secrets := st.secrets.put sec }, .nil)

def NewSecretBindingRepository : SecretBindingRepository Store where
  GetByID st id := (st.secretBindings.get id, .nil)
  Save st b := ({ st with secretBindings := st.secretBindings.put b }, .nil)

def NewGitOpsIntegrationRepository : GitOpsIntegrationRepository Store where
  GetByID st id := (st.gitOpsIntegrations.get id, .nil)
  Save st gi := ({ st with gitOpsIntegrations := st.gitOpsIntegrations.put gi }, .nil)

end memoryrepo

/-! ## application/services.go: the commands -/

def ErrTeamAlreadyExists : error :=
  Conflict "team_already_exists" "team already exists" .nil
def ErrApplicationAlreadyExists : error :=
  Conflict "application_already_exists" "application already exists" .nil
def ErrApplicationEnvironmentNotFound : error :=
  NotFound "application_environment_not_found" "application environment not found" .nil

/-- The tail shared by all commands: `if err := repo.Save(...); err != nil
then return fmt.Errorf(msg + ": %w", err)`, else `return nil`. -/
def saveResult {σ : Type} (msg : String) (r : σ × error) : σ × error :=
  if r.2 ≠ .nil then (r.1, .errorf msg r.2) else (r.1, .nil)

namespace Services

variable {σ : Type}

def GetApplication (s : Services σ) (st : σ) (id : String) : Option Application × error :=
  match s.Applications with
  | none => (none, Internal "application_repository_not_configured"
      "application repository not configured" .nil)
  | some apps =>
    match apps.GetByID st id with
    | (app, .nil) =>
      match app with
      | none => (none, NotFound "application_not_found" "application not found" .nil)
      | some app => (some app, .nil)
    | (_, err) => (none, Internal "application_repository_error" "error loading application" err)

def GetEnvironment (s : Services σ) (st : σ) (id : String) : Option Environment × error :=
  match s.Environments with
  | none => (none, Internal "environment_repository_not_configured"
      "environment repository not configured" .nil)
  | some envs =>
    match envs.GetByID st id with
    | (env, .nil) =>
      match env with
      | none => (none, NotFound "environment_not_found" "environment not found" .nil)
      | some env => (some env, .nil)
    | (_, err) => (none, Internal "environment_repository_error" "error loading environment" err)

def GetApplicationEnvironment (s : Services σ) (st : σ) (id : String) :
    Option ApplicationEnvironment × error :=
  match s.ApplicationEnvironments with
  | none => (none, Internal "application_environment_repository_not_configured"
      "application environment repository not configured" .nil)
  | some appEnvs =>
    match appEnvs.GetByID st id with
    | (ae, .nil) =>
      match ae with
      | none => (none, NotFound "application_environment_not_found"
          "application environment not found" .nil)
      | some ae => (some ae, .nil)
    | (_, err) => (none, Internal "application_environment_repository_error"
        "error loading application environment" err)

def CreateTeam (s : Services σ) (st : σ) (now : Nat) (id name createdBy : String) : σ × error :=
  match s.Teams with
  | none => (st, Internal "team_repository_not_configured" "team repository not configured" .nil)
  | some teams =>
    if (teams.GetByID st id).1.isSome then (st, ErrTeamAlreadyExists) else
    saveResult "saving team" (teams.Save st
      { ID := id, Name := name, State := TeamStateDraft,
        Metadata := { CreatedBy := createdBy, CreatedAt := now } })

def CreateApplication (s : Services σ) (st : σ) (now : Nat)
    (id name teamID createdBy : String) : σ × error :=
  match s.Applications, s.Teams with
  | some apps, some teams =>
    if (apps.GetByID st id).1.isSome then (st, ErrApplicationAlreadyExists) else
    match teams.GetByID st teamID with
    | (some _, .nil) =>
      saveResult "saving application" (apps.Save st
        { ID := id, Name := name, TeamID := teamID, State := ApplicationStateProposed,
          Metadata := { CreatedBy := createdBy, CreatedAt := now } })
    | (_, err) => (st, NotFound "team_not_found" "team not found" err)
  | _, _ => (st, Internal "repositories_not_configured" "repositories not configured" .nil)

def ApproveApplication (s : Services σ) (st : σ) (id approvedBy : String) : σ × error :=
  match s.Applications with
  | none => (st, Internal "application_repository_not_configured"
      "application repository not configured" .nil)
  | some apps =>
    match apps.GetByID st id with
    | (some app, .nil) =>
      if app.State ≠ ApplicationStateProposed then
        (st, Domain "application_invalid_state_for_approval"
          "application can only be approved from Proposed state" .nil)
      else
        let _ := approvedBy
        saveResult "saving approved application"
          (apps.Save st { app with State := ApplicationStateApproved })
    | (_, err) => (st, NotFound "application_not_found" "application not found" err)

def StartApplicationOnboarding (s : Services σ) (st : σ) (id startedBy : String) : σ × error :=
  match s.Applications with
  | none => (st, Internal "application_repository_not_configured"
      "application repository not configured" .nil)
  | some apps =>
    match apps.GetByID st id with
    | (some app, .nil) =>
      if app.State ≠ ApplicationStateApproved then
        (st, Domain "application_invalid_state_for_onboarding"
          "application can only start onboarding from Approved state" .nil)
      else
        let _ := startedBy
        saveResult "starting application onboarding"
          (apps.Save st { app with State := ApplicationStateOnboarding })
    | (_, err) => (st, NotFound "application_not_found" "application not found" err)

def ActivateApplication (s : Services σ) (st : σ) (id activatedBy : String) : σ × error :=
  match s.Applications with
  | none => (st, Internal "application_repository_not_configured"
      "application repository not configured" .nil)
  | some apps =>
    match apps.GetByID st id with
    | (some app, .nil) =>
      if app.State ≠ ApplicationStateOnboarding then
        (st, Domain "application_invalid_state_for_activation"
          "application can only be activated from Onboarding state" .nil)
      else
        let _ := activatedBy
        saveResult "activating application"
          (apps.Save st { app with State := ApplicationStateActive })
    | (_, err) => (st, NotFound "application_not_found" "application not found" err)

def DeclareCodeRepository (s : Services σ) (st : σ) (now : Nat)
    (id applicationID createdBy : String) : σ × error :=
  match s.CodeRepositories, s.Applications with
  | some codeRepos, some apps =>
    if (codeRepos.GetByID st id).1.isSome then
      (st, Conflict "code_repository_already_exists" "code repository already exists" .nil)
    else
    match apps.GetByID st applicationID with
    | (some _, .nil) =>
      saveResult "saving code repository" (codeRepos.Save st
        { ID := id, ApplicationID := applicationID, State := CodeRepositoryStateDeclared,
          Metadata := { CreatedBy := createdBy, CreatedAt := now } })
    | (_, err) => (st, NotFound "application_not_found" "application not found" err)
  | _, _ => (st, Internal "repositories_not_configured" "repositories not configured" .nil)

def CreateEnvironment (s : Services σ) (st : σ) (now : Nat)
    (id name createdBy : String) : σ × error :=
  match s.Environments with
  | none => (st, Internal "environment_repository_not_configured"
      "environment repository not configured" .nil)
  | some envs =>
    if (envs.GetByID st id).1.isSome then
      (st, Conflict "environment_already_exists" "environment already exists" .nil)
    else
    saveResult "saving environment" (envs.Save st
      { ID := id, Name := name, State := EnvironmentStatePlanned,
        Metadata := { CreatedBy := createdBy, CreatedAt := now } })

def DeclareDeploymentRepository (s : Services σ) (st : σ) (now : Nat)
    (id applicationID deploymentModel createdBy : String) : σ × error :=
  match s.DeploymentRepositories, s.Applications with
  | some depRepos, some apps =>
    if (depRepos.GetByID st id).1.isSome then
      (st, Conflict "deployment_repository_already_exists"
        "deployment repository already exists" .nil)
    else
    match apps.GetByID st applicationID with
    | (some _, .nil) =>
      saveResult "saving deployment repository" (depRepos.Save st
        { ID := id, ApplicationID := applicationID, DeploymentModel := deploymentModel,
          State := DeploymentRepositoryStateDeclared,
          Metadata := { CreatedBy := createdBy, CreatedAt := now } })
    | (_, err) => (st, NotFound "application_not_found" "application not found" err)
  | _, _ => (st, Internal "repositories_not_configured" "repositories not configured" .nil)

def DeclareApplicationEnvironment (s : Services σ) (st : σ) (now : Nat)
    (id applicationID environmentID createdBy : String) : σ × error :=
  match s.ApplicationEnvironments, s.Applications, s.Environments with
  | some appEnvs, some apps, some envs =>
    if (appEnvs.GetByID st id).1.isSome then
      (st, Conflict "application_environment_already_exists"
        "application environment already exists" .nil)
    else
    match apps.GetByID st applicationID with
    | (some _, .nil) =>
      match envs.GetByID st environmentID with
      | (some _, .nil) =>
        if (appEnvs.GetByApplicationAndEnvironment st applicationID environmentID).1.isSome then
          (st, Conflict "application_environment_pair_already_exists"
            "application environment pair already exists" .nil)
        else
        saveResult "saving application environment" (appEnvs.Save st
          { ID := id, ApplicationID := applicationID, EnvironmentID := environmentID,
            State := ApplicationEnvironmentStateDeclared,
            Metadata := { CreatedBy := createdBy, CreatedAt := now } })
      | (_, err) => (st, NotFound "environment_not_found" "environment not found" err)
    | (_, err) => (st, NotFound "application_not_found" "application not found" err)
  | _, _, _ => (st, Internal "repositories_not_configured" "repositories not configured" .nil)

def CompleteApplicationEnvironmentProvisioning (s : Services σ) (st : σ)
    (id completedBy : String) : σ × error :=
  match s.ApplicationEnvironments with
  | none => (st, Internal "application_environment_repository_not_configured"
      "application environment repository not configured" .nil)
  | some appEnvs =>
    match appEnvs.GetByID st id with
    | (some appEnv, .nil) =>
      if appEnv.State ≠ ApplicationEnvironmentStateDeclared ∧
          appEnv.State ≠ ApplicationEnvironmentStateProvisioning then
        (st, Domain "application_environment_invalid_state_for_activation"
          "application environment cannot be activated from current state" .nil)
      else
        let _ := completedBy
        saveResult "completing application environment provisioning"
          (appEnvs.Save st { appEnv with State := ApplicationEnvironmentStateActive })
    | (_, _) => (st, ErrApplicationEnvironmentNotFound)

def DeprecateApplication (s : Services σ) (st : σ) (id deprecatedBy : String) : σ × error :=
  match s.Applications with
  | none => (st, Internal "application_repository_not_configured"
      "application repository not configured" .nil)
  | some apps =>
    match apps.GetByID st id with
    | (some app, .nil) =>
      if app.State ≠ ApplicationStateActive then
        (st, Domain "application_invalid_state_for_deprecation"
          "application can only be deprecated from Active state" .nil)
      else
        let _ := deprecatedBy
        saveResult "deprecating application"
          (apps.Save st { app with State := ApplicationStateDeprecated })
    | (_, err) => (st, NotFound "application_not_found" "application not found" err)

def DeclareGitOpsIntegration (s : Services σ) (st : σ) (now : Nat)
    (id applicationID deploymentRepoID createdBy : String) : σ × error :=
  match s.GitOpsIntegrations, s.DeploymentRepositories, s.Applications with
  | some gitops, some depRepos, some apps =>
    if (gitops.GetByID st id).1.isSome then
      (st, Conflict "gitops_integration_already_exists" "gitops integration already exists" .nil)
    else
    match apps.GetByID st applicationID with
    | (some _, .nil) =>
      match depRepos.GetByID st deploymentRepoID with
      | (some dep, .nil) =>
        if dep.ApplicationID ≠ applicationID then
          (st, Domain "deployment_repository_wrong_application"
            "deployment repository does not belong to application" .nil)
        else
        saveResult "saving gitops integration" (gitops.Save st
          { ID := id, ApplicationID := applicationID,
            DeploymentRepositoryID := deploymentRepoID,
            Metadata := { CreatedBy := createdBy, CreatedAt := now } })
      | (_, err) =>
        (st, NotFound "deployment_repository_not_found" "deployment repository not found" err)
    | (_, err) => (st, NotFound "application_not_found" "application not found" err)
  | _, _, _ => (st, Internal "repositories_not_configured" "repositories not configured" .nil)

def CreateSecret (s : Services σ) (st : σ) (now : Nat)
    (id ownerTeamID purpose sensitivity createdBy : String) : σ × error :=
  match s.Secrets, s.Teams with
  | some secrets, some teams =>
    if ownerTeamID = "" then
      (st, Validation "owner_team_required" "owner team is required" .nil)
    else
    if (secrets.GetByID st id).1.isSome then
      (st, Conflict "secret_already_exists" "secret already exists" .nil)
    else
    match teams.GetByID st ownerTeamID with
    | (some _, .nil) =>
      saveResult "saving secret" (secrets.Save st
        { ID := id, OwnerTeam := ownerTeamID, Purpose := purpose, Sensitivity := sensitivity,
          State := SecretStateDeclared,
          Metadata := { CreatedBy := createdBy, CreatedAt := now } })
    | (_, err) => (st, NotFound "owner_team_not_found" "owner team not found" err)
  | _, _ => (st, Internal "repositories_not_configured" "repositories not configured" .nil)

def StartSecretRotation (s : Services σ) (st : σ) (id startedBy : String) : σ × error :=
  match s.Secrets with
  | none => (st, Internal "secret_repository_not_configured"
      "secret repository not configured" .nil)
  | some secrets =>
    match secrets.GetByID st id with
    | (some sec, .nil) =>
      if sec.State ≠ SecretStateActive then
        (st, Domain "secret_invalid_state_for_start_rotation"
          "secret can only start rotation from Active state" .nil)
      else
        let _ := startedBy
        saveResult "starting secret rotation"
          (secrets.Save st { sec with State := SecretStateRotating })
    | (_, err) => (st, NotFound "secret_not_found" "secret not found" err)

def CompleteSecretRotation (s : Services σ) (st : σ) (id completedBy : String) : σ × error :=
  match s.Secrets with
  | none => (st, Internal "secret_repository_not_configured"
      "secret repository not configured" .nil)
  | some secrets =>
    match secrets.GetByID st id with
    | (some sec, .nil) =>
      if sec.State ≠ SecretStateRotating then
        (st, Domain "secret_invalid_state_for_complete_rotation"
          "secret can only complete rotation from Rotating state" .nil)
      else
        let _ := completedBy
        saveResult "completing secret rotation"
          (secrets.Save st { sec with State := SecretStateActive })
    | (_, err) => (st, NotFound "secret_not_found" "secret not found" err)

def DeclareSecretBinding (s : Services σ) (st : σ) (now : Nat)
    (id secretID targetID targetType createdBy : String) : σ × error :=
  match s.SecretBindings, s.Secrets with
  | some bindings, some secrets =>
    if (bindings.GetByID st id).1.isSome then
      (st, Conflict "secret_binding_already_exists" "secret binding already exists" .nil)
    else
    match secrets.GetByID st secretID with
    | (some secret, .nil) =>
      if secret.State ≠ SecretStateActive then
        (st, Domain "binding_requires_active_secret" "binding requires active secret" .nil)
      else
      saveResult "saving secret binding" (bindings.Save st
        { ID := id, SecretID := secretID, TargetID := targetID, TargetType := targetType,
          State := SecretBindingStateDeclared,
          Metadata := { CreatedBy := createdBy, CreatedAt := now } })
    | (_, err) => (st, NotFound "secret_not_found" "secret not found" err)
  | _, _ => (st, Internal "repositories_not_configured" "repositories not configured" .nil)

end Services

/-! ## The command surface as data -/

/-- One invocation of a command of `Services`, with its arguments (the clock
reading is passed separately). -/
inductive Command where
  | CreateTeam (id name createdBy : String)
  | CreateApplication (id name teamID createdBy : String)
  | ApproveApplication (id approvedBy : String)
  | StartApplicationOnboarding (id startedBy : String)
  | ActivateApplication (id activatedBy : String)
  | DeprecateApplication (id deprecatedBy : String)
  | CreateEnvironment (id name createdBy : String)
  | DeclareApplicationEnvironment (id applicationID environmentID createdBy : String)
  | CompleteApplicationEnvironmentProvisioning (id completedBy : String)
  | DeclareCodeRepository (id applicationID createdBy : String)
  | DeclareDeploymentRepository (id applicationID deploymentModel createdBy : String)
  | DeclareGitOpsIntegration (id applicationID deploymentRepoID createdBy : String)
  | CreateSecret (id ownerTeamID purpose sensitivity createdBy : String)
  | StartSecretRotation (id startedBy : String)
  | CompleteSecretRotation (id completedBy : String)
  | DeclareSecretBinding (id secretID targetID targetType createdBy : String)
deriving DecidableEq, Repr, Inhabited

/-- Running one command on the services `s` in state `st` at clock reading
`now`: the state afterwards and the returned error. -/
def Services.exec {σ : Type} (s : Services σ) (st : σ) (now : Nat) : Command → σ × error
  | .CreateTeam id name by_ => s.CreateTeam st now id name by_
  | .CreateApplication id name teamID by_ => s.CreateApplication st now id name teamID by_
  | .ApproveApplication id by_ => s.ApproveApplication st id by_
  | .StartApplicationOnboarding id by_ => s.StartApplicationOnboarding st id by_
  | .ActivateApplication id by_ => s.ActivateApplication st id by_
  | .DeprecateApplication id by_ => s.DeprecateApplication st id by_
  | .CreateEnvironment id name by_ => s.CreateEnvironment st now id name by_
  | .DeclareApplicationEnvironment id app env by_ =>
    s.DeclareApplicationEnvironment st now id app env by_
  | .CompleteApplicationEnvironmentProvisioning id by_ =>
    s.CompleteApplicationEnvironmentProvisioning st id by_
  | .DeclareCodeRepository id app by_ => s.DeclareCodeRepository st now id app by_
  | .DeclareDeploymentRepository id app model by_ =>
    s.DeclareDeploymentRepository st now id app model by_
  | .DeclareGitOpsIntegration id app dep by_ => s.DeclareGitOpsIntegration st now id app dep by_
  | .CreateSecret id owner purpose sens by_ => s.CreateSecret st now id owner purpose sens by_
  | .StartSecretRotation id by_ => s.StartSecretRotation st id by_
  | .CompleteSecretRotation id by_ => s.CompleteSecretRotation st id by_
  | .DeclareSecretBinding id sec tid tty by_ => s.DeclareSecretBinding st now id sec tid tty by_

/-- The services as wired by `cmd/api/main.go` when every repository is the
memory one (no reachable `DATABASE_URL`). -/
def memServices : Services Store where
  Teams := some memoryrepo.NewTeamRepository
  Applications := some memoryrepo.NewApplicationRepository
  CodeRepositories := some memoryrepo.NewCodeRepositoryRepository
  Environments := some memoryrepo.NewEnvironmentRepository
  ApplicationEnvironments := some memoryrepo.NewApplicationEnvironmentRepository
  Secrets := some memoryrepo.NewSecretRepository
  SecretBindings := some memoryrepo.NewSecretBindingRepository
  DeploymentRepositories := some memoryrepo.NewDeploymentRepositoryRepository
  GitOpsIntegrations := some memoryrepo.NewGitOpsIntegrationRepository

/-- Running a command on the memory-backed services. -/
def run (st : Store) (now : Nat) (c : Command) : Store × error :=
  memServices.exec st now c

/-- Running a finite sequence of commands, each with its clock reading, from a
store, ignoring the returned errors. -/
def runAll (st : Store) : List (Nat × Command) → Store
  | [] => st
  | (now, c) :: rest => runAll (run st now c).1 rest

/-- The store states reachable from the empty store by commands. -/
inductive Reachable : Store → Prop where
  | empty : Reachable Store.empty
  | step {st : Store} (now : Nat) (c : Command) : Reachable st → Reachable (run st now c).1

/-! ## adapters/httpapi/handlers.go: writeDomainError -/

structure errorResponse where
  Code : String
  Message : String
deriving DecidableEq, Repr, Inhabited

def StatusBadRequest : Nat := 400
def StatusNotFound : Nat := 404
def StatusConflict : Nat := 409
def StatusInternalServerError : Nat := 500

/-- The status and JSON body that `writeDomainError` passes to
`httpx.WriteJSON`. -/
def writeDomainError (err : error) : Nat × errorResponse :=
  let status :=
    if IsKind err KindNotFound then StatusNotFound
    else if IsKind err KindConflict then StatusConflict
    else if IsKind err KindInternal then StatusInternalServerError
    else if IsKind err KindDomain || IsKind err KindValidation then StatusBadRequest
    else StatusBadRequest
  let code := Code err
  let code := if code = "" then "unknown_error" else code
  (status, { Code := code, Message := err.Error })

/-! ## Referential consistency of a store -/

/-- The cross-entity invariants of the data model, read through the lookups
the repositories offer: every reference resolves, an (application,
environment) pair is declared under one id only, a GitOps integration and its
deployment repository belong to the same application, and every secret has an
owner team. -/
structure Store.Consistent (st : Store) : Prop where
  application_team : ∀ id a, st.applications.get id = some a → (st.teams.get a.TeamID).isSome
  codeRepository_application : ∀ id r, st.codeRepositories.get id = some r →
    (st.applications.get r.ApplicationID).isSome
  deploymentRepository_application : ∀ id r, st.deploymentRepositories.get id = some r →
    (st.applications.get r.ApplicationID).isSome
  applicationEnvironment_application : ∀ id ae, st.applicationEnvironments.get id = some ae →
    (st.applications.get ae.ApplicationID).isSome
  applicationEnvironment_environment : ∀ id ae, st.applicationEnvironments.get id = some ae →
    (st.environments.get ae.EnvironmentID).isSome
  applicationEnvironment_pair : ∀ i j a b, st.applicationEnvironments.get i = some a →
    st.applicationEnvironments.get j = some b → a.ApplicationID = b.ApplicationID →
    a.EnvironmentID = b.EnvironmentID → i = j
  gitOpsIntegration_deploymentRepository : ∀ id g, st.gitOpsIntegrations.get id = some g →
    ∃ d, st.deploymentRepositories.get g.DeploymentRepositoryID = some d ∧
      d.ApplicationID = g.ApplicationID
  secret_ownerTeam : ∀ id s, st.secrets.get id = some s →
    s.OwnerTeam ≠ "" ∧ (st.teams.get s.OwnerTeam).isSome

/-! ## Sample data -/

/-- A command history: one team, two applications, an environment, an
application environment, a deployment repository of app-2 with its GitOps
integration, and a secret. -/
def sampleTrace : List (Nat × Command) :=
  [(1, .CreateTeam "team-1" "Platform" "api"),
   (2, .CreateApplication "app-1" "App" "team-1" "api"),
   (3, .CreateApplication "app-2" "Other" "team-1" "api"),
   (4, .CreateEnvironment "env-dev" "Dev" "api"),
   (5, .DeclareApplicationEnvironment "ae-1" "app-1" "env-dev" "api"),
   (6, .DeclareDeploymentRepository "dep-1" "app-2" "GitOpsPerApplication" "api"),
   (7, .DeclareGitOpsIntegration "gi-1" "app-2" "dep-1" "api"),
   (8, .CreateSecret "sec-1" "team-1" "runtime" "high" "api")]

/-- The store that `sampleTrace` produces from the empty store. -/
def sampleStore : Store := runAll Store.empty sampleTrace

/-- The secret sec-1 of `sampleStore`, forced to Active through the repository
as the tests of the services do. -/
def activeSecret : Secret :=
  { ID := "sec-1", OwnerTeam := "team-1", Purpose := "runtime", Sensitivity := "high",
    State := SecretStateActive, Metadata := { CreatedBy := "api", CreatedAt := 8 } }

/-- The store `sampleStore` with sec-1 forced to Active. -/
def activeSecretStore : Store :=
  { sampleStore with secrets := sampleStore.secrets.put activeSecret }

/-- The application app-1 as `sampleTrace` creates it. -/
def sampleApp1 : Application :=
  { ID := "app-1", Name := "App", TeamID := "team-1", State := ApplicationStateProposed,
    Metadata := { CreatedBy := "api", CreatedAt := 2 } }

/-- The application app-1 after its approval. -/
def approvedApp1 : Application := { sampleApp1 with State := ApplicationStateApproved }

/-- The sample store after ApproveApplication on app-1. -/
def approvedStore : Store := (run sampleStore 9 (.ApproveApplication "app-1" "api")).1

/-- The application environment ae-1 as `sampleTrace` declares it. -/
def sampleAppEnv1 : ApplicationEnvironment :=
  { ID := "ae-1", ApplicationID := "app-1", EnvironmentID := "env-dev",
    State := ApplicationEnvironmentStateDeclared,
    Metadata := { CreatedBy := "api", CreatedAt := 5 } }

/-- The deployment repository dep-1 as `sampleTrace` declares it, for app-2. -/
def sampleDep1 : DeploymentRepository :=
  { ID := "dep-1", ApplicationID := "app-2", DeploymentModel := "GitOpsPerApplication",
    State := DeploymentRepositoryStateDeclared,
    Metadata := { CreatedBy := "api", CreatedAt := 6 } }

/-- The secret sec-1 of `sampleStore`, forced to Revoked through the
repository. -/
def revokedSecret : Secret := { activeSecret with State := SecretStateRevoked }

/-- The store `sampleStore` with sec-1 forced to Revoked. -/
def revokedSecretStore : Store :=
  { sampleStore with secrets := sampleStore.secrets.put revokedSecret }

/-! # The workflow engine

The workflows of `workflow-engine/internal/workflow` and the HTTP adapters of
`workflow-engine/internal/adapters`. A workflow or an activity is a function on
a `World`: the state of whatever lies behind the ports (`outside`), the event
history that the Temporal runtime keeps of the run, and the observations
recorded through `platform/observability`. Log lines and tracing spans are left
out. -/

/-! ## platform/observability/metrics.go -/

/-- One observation recorded by `platform/observability`, with the label values
of its metric: `domain_events_total{event, result}`,
`downstream_errors_total{target, code, status}`,
`workflow_run_duration_seconds{workflow, result}` (the measured seconds, a
float64, are left out) and `workflow_retries_total{workflow}` with the amount
added. -/
inductive Metric where
  | domainEvent (event result : String)
  | downstreamError (target code status : String)
  | workflowDuration (workflow result : String)
  | workflowRetries (workflow : String) (retries : Int)
deriving DecidableEq, Repr, Inhabited

/-- The events that the Temporal runtime records for a run of the workflows
here: an activity scheduled with its input, its completion or its final
failure after the retries, a timer started with its duration in seconds, and
the outcome of a wait (the signal received, or the timer fired). -/
inductive HistoryEvent where
  | activityScheduled (name input : String)
  | activityCompleted (name : String)
  | activityFailed (name : String) (err : error)
  | timerStarted (seconds : Nat)
  | signalReceived (name : String)
  | timerFired (seconds : Nat)
deriving DecidableEq, Repr, Inhabited

/-- The state a workflow run acts on. -/
structure World (ω : Type) where
  outside : ω
  history : List HistoryEvent := []
  metrics : List Metric := []

/-- The world at the start of a run. -/
def World.start {ω : Type} (o : ω) : World ω := { outside := o }

section observability

variable {ω : Type}

def ObserveDomainEvent (w : World ω) (event result : String) : World ω :=
  { w with metrics := w.metrics ++ [Metric.domainEvent event result] }

def ObserveDownstreamError (w : World ω) (target code : String) (status : Int) : World ω :=
  let statusStr := toString status
  let code := if code = "" then "unknown_error" else code
  { w with metrics := w.metrics ++ [Metric.downstreamError target code statusStr] }

def ObserveWorkflowDuration (w : World ω) (workflowName result : String) : World ω :=
  let workflowName := if workflowName = "" then "unknown" else workflowName
  let result := if result = "" then "unknown" else result
  { w with metrics := w.metrics ++ [Metric.workflowDuration workflowName result] }

def ObserveWorkflowRetries (w : World ω) (workflowName : String) (retries : Int) : World ω :=
  let workflowName := if workflowName = "" then "unknown" else workflowName
  if retries ≤ 0 then w
  else { w with metrics := w.metrics ++ [Metric.workflowRetries workflowName retries] }

end observability

/-! ## The Temporal SDK, as the workflows use it -/

/-- Durations are counted in seconds. -/
def Second : Nat := 1
def Minute : Nat := 60 * Second

structure RetryPolicy where
  InitialInterval : Nat
  BackoffCoefficient : Nat
  MaximumInterval : Nat
  MaximumAttempts : Nat
deriving DecidableEq, Repr, Inhabited

structure ActivityOptions where
  StartToCloseTimeout : Nat
  RetryPolicy : RetryPolicy
deriving DecidableEq, Repr, Inhabited

/-- The part of `workflow.GetInfo(ctx)` that the workflows read. -/
structure WorkflowInfo where
  Attempt : Int
deriving DecidableEq, Repr, Inhabited

/-- What the runtime supplies to a run: its info, and for the one signal the
workflow waits for, the delay in seconds between the start of the wait and the
arrival of the signal (`none` when it never arrives, 0 when it was buffered
before the wait). -/
structure Runtime where
  info : WorkflowInfo
  signalAfter : Option Nat
deriving DecidableEq, Repr, Inhabited

def NewNonRetryableApplicationError (msg errType : String) (cause : error) : error :=
  .application msg errType true cause

/-- Modelled from the spec: an activity error that Temporal does not retry, a
"non-retriable workflow failure", is an application error with the non-retryable
flag set. -/
def isNonRetryable (err : error) : Bool :=
  match err.asApplication with
  | some (_, nonRetryable) => nonRetryable
  | none => false

section temporal

variable {ω : Type}

/-- Modelled from the spec: "each step is retried on transient failure and
classified non-retriable on domain failure". The activity is attempted once,
and again after each failure that is not non-retryable, at most `retries` more
times; the result is the result of the last attempt. -/
def attempt (activity : World ω → World ω × error) : Nat → World ω → World ω × error
  | 0, w => activity w
  | retries + 1, w =>
    let r := activity w
    if r.2 = .nil ∨ isNonRetryable r.2 = true then r else attempt activity retries r.1

/-- Modelled from the spec: `workflow.ExecuteActivity(ctx, activity,
input).Get(ctx, nil)` under the activity options of the context. The activity is
scheduled, attempted up to `MaximumAttempts` times, and its completion or final
failure is recorded; the error returned is that of the last attempt (Temporal
wraps it in an activity error, through which `errors.As` finds it). -/
def ExecuteActivity (opts : ActivityOptions) (name : String)
    (activity : World ω → String → World ω × error) (w : World ω) (input : String) :
    World ω × error :=
  let w := { w with history := w.history ++ [HistoryEvent.activityScheduled name input] }
  let r := attempt (fun w => activity w input) (opts.RetryPolicy.MaximumAttempts - 1) w
  if r.2 = .nil then
    ({ r.1 with history := r.1.history ++ [HistoryEvent.activityCompleted name] }, .nil)
  else
    ({ r.1 with history := r.1.history ++ [HistoryEvent.activityFailed name r.2] }, r.2)

/-- Modelled from the spec: "a workflow waiting on a signal uses a selector that
races the signal arrival against a timer; the first to fire wins". The timer of
`seconds` is started; the signal is received, and the result is `true`, when it
arrives no later than the timer fires. -/
def selectSignalOrTimer (w : World ω) (signalName : String) (seconds : Nat)
    (signalAfter : Option Nat) : World ω × Bool :=
  let w := { w with history := w.history ++ [HistoryEvent.timerStarted seconds] }
  match signalAfter with
  | some delay =>
    if delay ≤ seconds then
      ({ w with history := w.history ++ [HistoryEvent.signalReceived signalName] }, true)
    else ({ w with history := w.history ++ [HistoryEvent.timerFired seconds] }, false)
  | none => ({ w with history := w.history ++ [HistoryEvent.timerFired seconds] }, false)

end temporal

/-! ## workflow: the ports -/

structure ApplicationOnboardingPort (ω : Type) where
  DeclareCodeRepository : ω → String → ω × error
  DeclareDeploymentRepository : ω → String → ω × error
  DeclareGitOpsIntegration : ω → String → ω × error
  DeclareApplicationEnvironments : ω → String → ω × error
  MarkApplicationOnboarding : ω → String → ω × error
  ActivateApplication : ω → String → ω × error

structure ControlPlaneAPI (ω : Type) where
  CompleteApplicationEnvironmentProvisioning : ω → String → ω × error

structure GitProvider (ω : Type) where
  CreateRepository : ω → String → String → Bool → ω × error

structure AppEnvProvisioningProvider (ω : Type) where
  ApplyBranchProtection : ω → String → ω × error
  ProvisionSecrets : ω → String → ω × error
  CreateSecretBindings : ω → String → ω × error
  VerifyGitOpsReconciliation : ω → String → ω × error

structure SecretRotationPort (ω : Type) where
  CompleteSecretRotation : ω → String → ω × error

structure SecretBindingsRotationPort (ω : Type) where
  UpdateSecretBindingsForSecret : ω → String → ω × error

/-- The package-level port variables of the workflow package, each nil
(`none`) until its setter is called. -/
structure Ports (ω : Type) where
  applicationOnboardingPort : Option (ApplicationOnboardingPort ω) := none
  controlPlaneClient : Option (ControlPlaneAPI ω) := none
  gitProvider : Option (GitProvider ω) := none
  appEnvProvisioningProvider : Option (AppEnvProvisioningProvider ω) := none
  secretRotationPort : Option (SecretRotationPort ω) := none
  secretBindingsRotationPort : Option (SecretBindingsRotationPort ω) := none

structure ApplicationOnboardingInput where
  ApplicationID : String
deriving DecidableEq, Repr, Inhabited

structure ApplicationActivationInput where
  ApplicationID : String
deriving DecidableEq, Repr, Inhabited

structure ApplicationEnvironmentProvisioningInput where
  ApplicationEnvironmentID : String
deriving DecidableEq, Repr, Inhabited

structure SecretRotationInput where
  SecretID : String
deriving DecidableEq, Repr, Inhabited

def securityScanPassedSignalName : String := "SecurityScanPassed"
def rotationValidatedSignalName : String := "RotationValidatedExternally"

/-! ## workflow: error classification -/

section workflow

variable {ω : Type}

/-- The function `mapControlPlaneError` of application_onboarding.go. -/
def mapControlPlaneError (w : World ω) (err : error) : World ω × error :=
  if err = .nil then (w, .nil)
  else
    match err.asControlPlane with
    | some (status, apiCode, apiMessage) =>
      if status ≥ 400 ∧ status < 500 then
        let code := if apiCode = "" then "control_plane_client_error" else apiCode
        let msg := if apiMessage = "" then err.Error else apiMessage
        (ObserveDownstreamError w "control-plane-api" code status,
          NewNonRetryableApplicationError msg code err)
      else (w, err)
    | none => (w, err)

/-- The function `mapExecutionWorkersError` of appenv_provisioning.go. -/
def mapExecutionWorkersError (w : World ω) (err : error) : World ω × error :=
  if err = .nil then (w, .nil)
  else
    match (match err.asGitProvider with
      | some (status, message) =>
        if status ≥ 400 ∧ status < 500 then some (status, message) else none
      | none => none) with
    | some (status, message) =>
      let msg := if message = "" then err.Error else message
      (ObserveDownstreamError w "execution-workers" "execution_workers_client_error" status,
        NewNonRetryableApplicationError msg "execution_workers_client_error" err)
    | none =>
      match err.asAppEnvProv with
      | some (status, _, message) =>
        if status ≥ 400 ∧ status < 500 then
          let msg := if message = "" then err.Error else message
          (ObserveDownstreamError w "execution-workers" "execution_workers_client_error"
            status,
            NewNonRetryableApplicationError msg "execution_workers_client_error" err)
        else (w, err)
      | none => (w, err)

/-! ## workflow: the activities -/

def CreateCodeRepositoryForApplication (ports : Ports ω) (w : World ω)
    (applicationID : String) : World ω × error :=
  match ports.applicationOnboardingPort with
  | none => (w, .nil)
  | some port =>
    let r := port.DeclareCodeRepository w.outside applicationID
    mapControlPlaneError { w with outside := r.1 } r.2

def CreateDeploymentRepositoryForApplication (ports : Ports ω) (w : World ω)
    (applicationID : String) : World ω × error :=
  match ports.applicationOnboardingPort with
  | none => (w, .nil)
  | some port =>
    let r := port.DeclareDeploymentRepository w.outside applicationID
    mapControlPlaneError { w with outside := r.1 } r.2

def CreateGitOpsIntegrationForApplication (ports : Ports ω) (w : World ω)
    (applicationID : String) : World ω × error :=
  match ports.applicationOnboardingPort with
  | none => (w, .nil)
  | some port =>
    let r := port.DeclareGitOpsIntegration w.outside applicationID
    mapControlPlaneError { w with outside := r.1 } r.2

def DeclareApplicationEnvironmentsForApplication (ports : Ports ω) (w : World ω)
    (applicationID : String) : World ω × error :=
  match ports.applicationOnboardingPort with
  | none => (w, .nil)
  | some port =>
    let r := port.DeclareApplicationEnvironments w.outside applicationID
    mapControlPlaneError { w with outside := r.1 } r.2

def TransitionApplicationToOnboarding (ports : Ports ω) (w : World ω)
    (applicationID : String) : World ω × error :=
  match ports.applicationOnboardingPort with
  | none => (w, .nil)
  | some port =>
    let r := port.MarkApplicationOnboarding w.outside applicationID
    mapControlPlaneError { w with outside := r.1 } r.2

def TransitionApplicationToActive (ports : Ports ω) (w : World ω)
    (applicationID : String) : World ω × error :=
  match ports.applicationOnboardingPort with
  | none => (w, .nil)
  | some port =>
    let r := port.ActivateApplication w.outside applicationID
    mapControlPlaneError { w with outside := r.1 } r.2

def MaterializeRepositories (ports : Ports ω) (w : World ω) (appEnvID : String) :
    World ω × error :=
  match ports.gitProvider with
  | none => (w, .nil)
  | some provider =>
    let repoName := "appenv-" ++ appEnvID
    let owner := "platform"
    let r := provider.CreateRepository w.outside owner repoName true
    mapExecutionWorkersError { w with outside := r.1 } r.2

def ApplyBranchProtection (ports : Ports ω) (w : World ω) (appEnvID : String) :
    World ω × error :=
  match ports.appEnvProvisioningProvider with
  | none => (w, .nil)
  | some provider =>
    let r := provider.ApplyBranchProtection w.outside appEnvID
    mapExecutionWorkersError { w with outside := r.1 } r.2

def ProvisionSecrets (ports : Ports ω) (w : World ω) (appEnvID : String) :
    World ω × error :=
  match ports.appEnvProvisioningProvider with
  | none => (w, .nil)
  | some provider =>
    let r := provider.ProvisionSecrets w.outside appEnvID
    mapExecutionWorkersError { w with outside := r.1 } r.2

def CreateSecretBindings (ports : Ports ω) (w : World ω) (appEnvID : String) :
    World ω × error :=
  match ports.appEnvProvisioningProvider with
  | none => (w, .nil)
  | some provider =>
    let r := provider.CreateSecretBindings w.outside appEnvID
    mapExecutionWorkersError { w with outside := r.1 } r.2

def VerifyGitOpsReconciliation (ports : Ports ω) (w : World ω) (appEnvID : String) :
    World ω × error :=
  match ports.appEnvProvisioningProvider with
  | none => (w, .nil)
  | some provider =>
    let r := provider.VerifyGitOpsReconciliation w.outside appEnvID
    mapExecutionWorkersError { w with outside := r.1 } r.2

def FinalizeApplicationEnvironmentProvisioning (ports : Ports ω) (w : World ω)
    (appEnvID : String) : World ω × error :=
  match ports.controlPlaneClient with
  | none => (w, .nil)
  | some client =>
    let r := client.CompleteApplicationEnvironmentProvisioning w.outside appEnvID
    let w := { w with outside := r.1 }
    let err := r.2
    if err = .nil then (w, .nil)
    else
      match err.asControlPlane with
      | some (status, apiCode, apiMessage) =>
        if status ≥ 400 ∧ status < 500 then
          let code := if apiCode = "" then "control_plane_client_error" else apiCode
          let msg := if apiMessage = "" then err.Error else apiMessage
          (ObserveDownstreamError w "control-plane-api" code status,
            NewNonRetryableApplicationError msg code err)
        else (w, err)
      | none => (w, err)

def PerformSecretRotation (_ports : Ports ω) (w : World ω) (_secretID : String) :
    World ω × error :=
  (w, .nil)

def UpdateSecretBindingsForSecret (ports : Ports ω) (w : World ω) (secretID : String) :
    World ω × error :=
  match ports.secretBindingsRotationPort with
  | none => (w, .nil)
  | some port =>
    let r := port.UpdateSecretBindingsForSecret w.outside secretID
    if r.2 ≠ .nil then ({ w with outside := r.1 }, r.2)
    else ({ w with outside := r.1 }, .nil)

def CompleteSecretRotationActivity (ports : Ports ω) (w : World ω) (secretID : String) :
    World ω × error :=
  match ports.secretRotationPort with
  | none => (w, .nil)
  | some port =>
    let r := port.CompleteSecretRotation w.outside secretID
    mapControlPlaneError { w with outside := r.1 } r.2

/-! ## workflow: the waits -/

def waitForSecurityScanPassed (rt : Runtime) (w : World ω) : World ω × error :=
  let r := selectSignalOrTimer w securityScanPassedSignalName (15 * Minute) rt.signalAfter
  if r.2 = true then (r.1, .nil)
  else (r.1,
    NewNonRetryableApplicationError "security scan timeout" "security_scan_timeout" .nil)

def waitForRotationValidatedExternally (rt : Runtime) (w : World ω) : World ω × error :=
  let r := selectSignalOrTimer w rotationValidatedSignalName (60 * Minute) rt.signalAfter
  if r.2 = true then (r.1, .nil)
  else (r.1,
    NewNonRetryableApplicationError "secret rotation timeout" "secret_rotation_timeout" .nil)

/-! ## workflow: the workflows

Each workflow is its body, with the early returns of the source, wrapped in
what the source does before it (the retries counter when the attempt is not the
first) and in its deferred function (the duration observed with the result). -/

/-- The activity options that every workflow sets on its context. -/
def activityOptions : ActivityOptions :=
  { StartToCloseTimeout := 5 * Minute,
    RetryPolicy :=
      { InitialInterval := 5 * Second, BackoffCoefficient := 2, MaximumInterval := 1 * Minute,
        MaximumAttempts := 5 } }

/-- The statements of `ApplicationOnboarding` from the check of the input on. -/
def ApplicationOnboarding.body (ports : Ports ω) (rt : Runtime) (w : World ω)
    (input : ApplicationOnboardingInput) : World ω × error :=
  if input.ApplicationID = "" then
    (w, NewNonRetryableApplicationError "ApplicationID is required" "bad_input" .nil)
  else
    let opts := activityOptions
    let r := ExecuteActivity opts "CreateCodeRepositoryForApplication"
      (CreateCodeRepositoryForApplication ports) w input.ApplicationID
    if r.2 ≠ .nil then
      (ObserveDomainEvent r.1 "workflow_application_onboarding_failed" "error", r.2)
    else
    let r := ExecuteActivity opts "CreateDeploymentRepositoryForApplication"
      (CreateDeploymentRepositoryForApplication ports) r.1 input.ApplicationID
    if r.2 ≠ .nil then
      (ObserveDomainEvent r.1 "workflow_application_onboarding_failed" "error", r.2)
    else
    let r := ExecuteActivity opts "CreateGitOpsIntegrationForApplication"
      (CreateGitOpsIntegrationForApplication ports) r.1 input.ApplicationID
    if r.2 ≠ .nil then
      (ObserveDomainEvent r.1 "workflow_application_onboarding_failed" "error", r.2)
    else
    let r := ExecuteActivity opts "DeclareApplicationEnvironmentsForApplication"
      (DeclareApplicationEnvironmentsForApplication ports) r.1 input.ApplicationID
    if r.2 ≠ .nil then
      (ObserveDomainEvent r.1 "workflow_application_onboarding_failed" "error", r.2)
    else
    let r := waitForSecurityScanPassed rt r.1
    if r.2 ≠ .nil then
      (ObserveDomainEvent r.1 "workflow_application_onboarding_failed" "error", r.2)
    else
    let r := ExecuteActivity opts "TransitionApplicationToOnboarding"
      (TransitionApplicationToOnboarding ports) r.1 input.ApplicationID
    if r.2 ≠ .nil then
      (ObserveDomainEvent r.1 "workflow_application_onboarding_failed" "error", r.2)
    else
      (ObserveDomainEvent r.1 "workflow_application_onboarding_completed" "success", .nil)

def ApplicationOnboarding (ports : Ports ω) (rt : Runtime) (w : World ω)
    (input : ApplicationOnboardingInput) : World ω × error :=
  let w := if rt.info.Attempt > 1 then ObserveWorkflowRetries w "ApplicationOnboarding" 1
    else w
  let r := ApplicationOnboarding.body ports rt w input
  let result := if r.2 ≠ .nil then "error" else "success"
  (ObserveWorkflowDuration r.1 "ApplicationOnboarding" result, r.2)

/-- The statements of `ApplicationActivation` from the check of the input on. -/
def ApplicationActivation.body (ports : Ports ω) (w : World ω)
    (input : ApplicationActivationInput) : World ω × error :=
  if input.ApplicationID = "" then
    (w, NewNonRetryableApplicationError "ApplicationID is required" "bad_input" .nil)
  else
    let opts := activityOptions
    let r := ExecuteActivity opts "TransitionApplicationToActive"
      (TransitionApplicationToActive ports) w input.ApplicationID
    if r.2 ≠ .nil then (r.1, r.2) else (r.1, .nil)

def ApplicationActivation (ports : Ports ω) (rt : Runtime) (w : World ω)
    (input : ApplicationActivationInput) : World ω × error :=
  let w := if rt.info.Attempt > 1 then ObserveWorkflowRetries w "ApplicationActivation" 1
    else w
  let r := ApplicationActivation.body ports w input
  let result := if r.2 ≠ .nil then "error" else "success"
  (ObserveWorkflowDuration r.1 "ApplicationActivation" result, r.2)

/-- The slice `steps` of `ApplicationEnvironmentProvisioning`, each activity with
the name under which it is registered. -/
def provisioningSteps (ports : Ports ω) :
    List (String × (World ω → String → World ω × error)) :=
  [("MaterializeRepositories", MaterializeRepositories ports),
   ("ApplyBranchProtection", ApplyBranchProtection ports),
   ("ProvisionSecrets", ProvisionSecrets ports),
   ("CreateSecretBindings", CreateSecretBindings ports),
   ("VerifyGitOpsReconciliation", VerifyGitOpsReconciliation ports),
   ("FinalizeApplicationEnvironmentProvisioning",
     FinalizeApplicationEnvironmentProvisioning ports)]

/-- The loop `for _, step := range steps` of `ApplicationEnvironmentProvisioning`
and the statements after it. -/
def ApplicationEnvironmentProvisioning.loop (opts : ActivityOptions) (input : String) :
    List (String × (World ω → String → World ω × error)) → World ω → World ω × error
  | [], w => (ObserveDomainEvent w "workflow_appenv_provisioning_completed" "success", .nil)
  | step :: rest, w =>
    let r := ExecuteActivity opts step.1 step.2 w input
    if r.2 ≠ .nil then
      (ObserveDomainEvent r.1 "workflow_appenv_provisioning_failed" "error", r.2)
    else ApplicationEnvironmentProvisioning.loop opts input rest r.1

/-- The statements of `ApplicationEnvironmentProvisioning` from the check of the
input on. -/
def ApplicationEnvironmentProvisioning.body (ports : Ports ω) (w : World ω)
    (input : ApplicationEnvironmentProvisioningInput) : World ω × error :=
  if input.ApplicationEnvironmentID = "" then
    (w, NewNonRetryableApplicationError "ApplicationEnvironmentID is required" "bad_input"
      .nil)
  else
    ApplicationEnvironmentProvisioning.loop activityOptions input.ApplicationEnvironmentID
      (provisioningSteps ports) w

def ApplicationEnvironmentProvisioning (ports : Ports ω) (rt : Runtime) (w : World ω)
    (input : ApplicationEnvironmentProvisioningInput) : World ω × error :=
  let w := if rt.info.Attempt > 1 then
      ObserveWorkflowRetries w "ApplicationEnvironmentProvisioning" 1
    else w
  let r := ApplicationEnvironmentProvisioning.body ports w input
  let result := if r.2 ≠ .nil then "error" else "success"
  (ObserveWorkflowDuration r.1 "ApplicationEnvironmentProvisioning" result, r.2)

/-- The statements of `SecretRotation` from the check of the input on. -/
def SecretRotation.body (ports : Ports ω) (rt : Runtime) (w : World ω)
    (input : SecretRotationInput) : World ω × error :=
  if input.SecretID = "" then
    (w, NewNonRetryableApplicationError "SecretID is required" "bad_input" .nil)
  else
    let opts := activityOptions
    let r := ExecuteActivity opts "PerformSecretRotation" (PerformSecretRotation ports) w
      input.SecretID
    if r.2 ≠ .nil then
      (ObserveDomainEvent r.1 "workflow_secret_rotation_failed" "error", r.2)
    else
    let r := waitForRotationValidatedExternally rt r.1
    if r.2 ≠ .nil then
      (ObserveDomainEvent r.1 "workflow_secret_rotation_failed" "error", r.2)
    else
    let r := ExecuteActivity opts "UpdateSecretBindingsForSecret"
      (UpdateSecretBindingsForSecret ports) r.1 input.SecretID
    if r.2 ≠ .nil then
      (ObserveDomainEvent r.1 "workflow_secret_rotation_failed" "error", r.2)
    else
    let r := ExecuteActivity opts "CompleteSecretRotationActivity"
      (CompleteSecretRotationActivity ports) r.1 input.SecretID
    if r.2 ≠ .nil then
      (ObserveDomainEvent r.1 "workflow_secret_rotation_failed" "error", r.2)
    else
      (ObserveDomainEvent r.1 "workflow_secret_rotation_completed" "success", .nil)

def SecretRotation (ports : Ports ω) (rt : Runtime) (w : World ω)
    (input : SecretRotationInput) : World ω × error :=
  let w := if rt.info.Attempt > 1 then ObserveWorkflowRetries w "SecretRotation" 1 else w
  let r := SecretRotation.body ports rt w input
  let result := if r.2 ≠ .nil then "error" else "success"
  (ObserveWorkflowDuration r.1 "SecretRotation" result, r.2)

end workflow

/-! ## workflow-engine/internal/adapters: the HTTP clients

A request is its method, URL, headers and the JSON object that `json.Marshal`
encodes, field by field in the order of the struct. `json.Marshal` of these
structs of strings and booleans and `http.NewRequestWithContext` on a
well-formed base URL do not fail, so their error branches are left out. -/

inductive JSONValue where
  | str (s : String)
  | bool (b : Bool)
deriving DecidableEq, Repr, Inhabited

structure Request where
  Method : String
  URL : String
  Header : List (String × String)
  Body : List (String × JSONValue)
deriving DecidableEq, Repr, Inhabited

structure Response where
  StatusCode : Int
  Body : String
deriving DecidableEq, Repr, Inhabited

/-- The method `Do` of `*http.Client`: the peer's state after the request, and
the response or the transport error. -/
structure HTTPClient (ω : Type) where
  Do : ω → Request → ω × Except error Response

def MethodPost : String := "POST"
def internalAuthHeader : String := "X-Internal-Token"

/-- The headers of a request after `req.Header.Set("Content-Type",
"application/json")` and `setInternalAuthHeader(req)`, where `token` is the
value of INTERNAL_AUTH_TOKEN. -/
def requestHeader (token : String) : List (String × String) :=
  [("Content-Type", "application/json")] ++
    (if token ≠ "" then [(internalAuthHeader, token)] else [])

namespace controlplanehttp

/-- The client of the control plane. Besides the fields of the Go struct it
carries what the methods read from outside it: the value of
INTERNAL_AUTH_TOKEN, and `json.Unmarshal` of a response body into the payload
with the fields code and message (both empty when the body does not decode). -/
structure Client (ω : Type) where
  baseURL : String
  httpClient : HTTPClient ω
  internalAuthToken : String
  unmarshal : String → String × String

variable {ω : Type}

/-- The function `newErrorFromResponse`, for a response that is not nil. -/
def newErrorFromResponse (c : Client ω) (resp : Response) : error :=
  let payload := c.unmarshal resp.Body
  let msg := payload.2
  let msg := if TrimSpace msg = "" then TrimSpace resp.Body else msg
  .controlplane resp.StatusCode payload.1 msg

/-- The request that every method builds and sends: a POST of a JSON body to a
path under the base URL. -/
def Client.send (c : Client ω) (o : ω) (path : String) (body : List (String × JSONValue)) :
    ω × Except error Response :=
  c.httpClient.Do o
    { Method := MethodPost, URL := c.baseURL ++ path,
      Header := requestHeader c.internalAuthToken, Body := body }

def Client.CompleteApplicationEnvironmentProvisioning (c : Client ω) (o : ω)
    (appEnvID : String) : ω × error :=
  match c.send o "/commands/application-environments/complete-provisioning"
      [("id", .str appEnvID)] with
  | (o, .error err) => (o, .errorf "call complete appenv provisioning endpoint" err)
  | (o, .ok resp) =>
    if resp.StatusCode < 200 ∨ resp.StatusCode ≥ 300 then (o, newErrorFromResponse c resp)
    else (o, .nil)

def Client.DeclareCodeRepository (c : Client ω) (o : ω) (applicationID : String) :
    ω × error :=
  match c.send o "/commands/code-repositories"
      [("id", .str ("code-" ++ applicationID)), ("applicationId", .str applicationID)] with
  | (o, .error err) => (o, .errorf "call declare code repository endpoint" err)
  | (o, .ok resp) =>
    if resp.StatusCode < 200 ∨ resp.StatusCode ≥ 300 then (o, newErrorFromResponse c resp)
    else (o, .nil)

def Client.DeclareDeploymentRepository (c : Client ω) (o : ω) (applicationID : String) :
    ω × error :=
  match c.send o "/commands/deployment-repositories"
      [("id", .str ("dep-" ++ applicationID)), ("applicationId", .str applicationID),
        ("deploymentModel", .str "GitOpsPerApplication")] with
  | (o, .error err) => (o, .errorf "call declare deployment repository endpoint" err)
  | (o, .ok resp) =>
    if resp.StatusCode < 200 ∨ resp.StatusCode ≥ 300 then (o, newErrorFromResponse c resp)
    else (o, .nil)

def Client.DeclareGitOpsIntegration (c : Client ω) (o : ω) (applicationID : String) :
    ω × error :=
  let depID := "dep-" ++ applicationID
  match c.send o "/commands/gitops-integrations"
      [("id", .str ("gi-" ++ applicationID)), ("applicationId", .str applicationID),
        ("deploymentRepositoryId", .str depID)] with
  | (o, .error err) => (o, .errorf "call declare gitops integration endpoint" err)
  | (o, .ok resp) =>
    if resp.StatusCode < 200 ∨ resp.StatusCode ≥ 300 then (o, newErrorFromResponse c resp)
    else (o, .nil)

/-- The loop `for _, envID := range envs` of `DeclareApplicationEnvironments` and
the `return nil` after it. -/
def Client.declareEach (c : Client ω) (applicationID : String) : List String → ω → ω × error
  | [], o => (o, .nil)
  | envID :: rest, o =>
    match c.send o "/commands/application-environments"
        [("id", .str (applicationID ++ "-" ++ envID)), ("applicationId", .str applicationID),
          ("environmentId", .str envID)] with
    | (o, .error err) => (o, .errorf "call declare application environment endpoint" err)
    | (o, .ok resp) =>
      if resp.StatusCode < 200 ∨ resp.StatusCode ≥ 300 then
        match newErrorFromResponse c resp with
        | .controlplane status code message =>
          (o, .controlplane status code (message ++ " (environment=" ++ envID ++ ")"))
        | _ =>
          (o, .other ("control-plane-api returned status " ++ toString resp.StatusCode ++
            " for environment " ++ envID))
      else c.declareEach applicationID rest o

def Client.DeclareApplicationEnvironments (c : Client ω) (o : ω) (applicationID : String) :
    ω × error :=
  let envs := ["env-dev", "env-prod"]
  c.declareEach applicationID envs o

def Client.MarkApplicationOnboarding (c : Client ω) (o : ω) (applicationID : String) :
    ω × error :=
  match c.send o "/commands/applications/start-onboarding" [("id", .str applicationID)] with
  | (o, .error err) => (o, err)
  | (o, .ok resp) =>
    if resp.StatusCode < 200 ∨ resp.StatusCode ≥ 300 then (o, newErrorFromResponse c resp)
    else (o, .nil)

def Client.ActivateApplication (c : Client ω) (o : ω) (applicationID : String) : ω × error :=
  match c.send o "/commands/applications/activate" [("id", .str applicationID)] with
  | (o, .error err) => (o, err)
  | (o, .ok resp) =>
    if resp.StatusCode < 200 ∨ resp.StatusCode ≥ 300 then (o, newErrorFromResponse c resp)
    else (o, .nil)

def Client.CompleteSecretRotation (c : Client ω) (o : ω) (secretID : String) : ω × error :=
  match c.send o "/commands/secrets/complete-rotation" [("id", .str secretID)] with
  | (o, .error err) => (o, err)
  | (o, .ok resp) =>
    if resp.StatusCode < 200 ∨ resp.StatusCode ≥ 300 then (o, newErrorFromResponse c resp)
    else (o, .nil)

/-- The client as the port of the onboarding and activation workflows. -/
def Client.onboardingPort (c : Client ω) : ApplicationOnboardingPort ω where
  DeclareCodeRepository := c.DeclareCodeRepository
  DeclareDeploymentRepository := c.DeclareDeploymentRepository
  DeclareGitOpsIntegration := c.DeclareGitOpsIntegration
  DeclareApplicationEnvironments := c.DeclareApplicationEnvironments
  MarkApplicationOnboarding := c.MarkApplicationOnboarding
  ActivateApplication := c.ActivateApplication

/-- The client as the port of the provisioning workflow. -/
def Client.controlPlaneAPI (c : Client ω) : ControlPlaneAPI ω where
  CompleteApplicationEnvironmentProvisioning := c.CompleteApplicationEnvironmentProvisioning

/-- The client as the port of the rotation workflow. -/
def Client.secretRotationPort (c : Client ω) : SecretRotationPort ω where
  CompleteSecretRotation := c.CompleteSecretRotation

end controlplanehttp

namespace gitproviderhttp

structure Client (ω : Type) where
  baseURL : String
  httpClient : HTTPClient ω
  internalAuthToken : String

variable {ω : Type}

def newErrorFromResponse (resp : Response) : error :=
  .gitprovider resp.StatusCode resp.Body

def Client.CreateRepository (c : Client ω) (o : ω) (owner name : String) (isPrivate : Bool) :
    ω × error :=
  match c.httpClient.Do o
      { Method := MethodPost, URL := c.baseURL ++ "/github/repos",
        Header := requestHeader c.internalAuthToken,
        Body := [("owner", .str owner), ("name", .str name), ("private", .bool isPrivate)] }
    with
  | (o, .error err) => (o, .errorf "call github repos endpoint" err)
  | (o, .ok resp) =>
    if resp.StatusCode < 200 ∨ resp.StatusCode ≥ 300 then (o, newErrorFromResponse resp)
    else (o, .nil)

/-- The client as the Git provider port. -/
def Client.gitProvider (c : Client ω) : GitProvider ω where
  CreateRepository := c.CreateRepository

end gitproviderhttp

namespace appenvprovhttp

structure Client (ω : Type) where
  baseURL : String
  httpClient : HTTPClient ω
  internalAuthToken : String

variable {ω : Type}

def newErrorFromResponse (resp : Response) (path : String) : error :=
  .appenvprov resp.StatusCode path resp.Body

def Client.post (c : Client ω) (o : ω) (path : String) (appEnvID : String) : ω × error :=
  match c.httpClient.Do o
      { Method := MethodPost, URL := c.baseURL ++ path,
        Header := requestHeader c.internalAuthToken,
        Body := [("applicationEnvironmentId", .str appEnvID)] } with
  | (o, .error err) => (o, .errorf ("call appenv provider " ++ path) err)
  | (o, .ok resp) =>
    if resp.StatusCode < 200 ∨ resp.StatusCode ≥ 300 then
      (o, newErrorFromResponse resp path)
    else (o, .nil)

def Client.ApplyBranchProtection (c : Client ω) (o : ω) (appEnvID : String) : ω × error :=
  c.post o "/appenv/branch-protection" appEnvID

def Client.ProvisionSecrets (c : Client ω) (o : ω) (appEnvID : String) : ω × error :=
  c.post o "/appenv/secrets" appEnvID

def Client.CreateSecretBindings (c : Client ω) (o : ω) (appEnvID : String) : ω × error :=
  c.post o "/appenv/secret-bindings" appEnvID

def Client.VerifyGitOpsReconciliation (c : Client ω) (o : ω) (appEnvID : String) :
    ω × error :=
  c.post o "/appenv/gitops-verify" appEnvID

/-- The client as the provisioning provider port. -/
def Client.provider (c : Client ω) : AppEnvProvisioningProvider ω where
  ApplyBranchProtection := c.ApplyBranchProtection
  ProvisionSecrets := c.ProvisionSecrets
  CreateSecretBindings := c.CreateSecretBindings
  VerifyGitOpsReconciliation := c.VerifyGitOpsReconciliation

end appenvprovhttp

namespace secretbindingshttp

structure Client (ω : Type) where
  baseURL : String
  httpClient : HTTPClient ω
  internalAuthToken : String

variable {ω : Type}

def newErrorFromResponse (resp : Response) : error :=
  .secretbindings resp.StatusCode resp.Body

def Client.UpdateSecretBindingsForSecret (c : Client ω) (o : ω) (secretID : String) :
    ω × error :=
  match c.httpClient.Do o
      { Method := MethodPost, URL := c.baseURL ++ "/secrets/bindings/update",
        Header := requestHeader c.internalAuthToken,
        Body := [("secretId", .str secretID)] } with
  | (o, .error err) => (o, .errorf "call secret bindings endpoint" err)
  | (o, .ok resp) =>
    if resp.StatusCode < 200 ∨ resp.StatusCode ≥ 300 then (o, newErrorFromResponse resp)
    else (o, .nil)

/-- The client as the port of the bindings update. -/
def Client.rotationPort (c : Client ω) : SecretBindingsRotationPort ω where
  UpdateSecretBindingsForSecret := c.UpdateSecretBindingsForSecret

end secretbindingshttp

/-! ## An HTTP peer that records what it receives -/

/-- The answers of the servers: from the requests received so far and the
request, the response or the transport error. -/
abbrev Responder := List Request → Request → Except error Response

/-- An `*http.Client` whose peer keeps the list of the requests it received, in
order, and answers as `respond` says. -/
def recordingClient (respond : Responder) : HTTPClient (List Request) where
  Do log req := (log ++ [req], respond log req)

/-- The ports as `cmd/engine/main.go` sets them: every port an HTTP client, the
control plane at `cpURL` and the execution workers at `ewURL`. -/
def httpPorts (respond : Responder) (cpURL ewURL token : String)
    (unmarshal : String → String × String) : Ports (List Request) :=
  let cp : controlplanehttp.Client (List Request) :=
    { baseURL := cpURL, httpClient := recordingClient respond, internalAuthToken := token,
      unmarshal := unmarshal }
  { applicationOnboardingPort := some cp.onboardingPort,
    controlPlaneClient := some cp.controlPlaneAPI,
    gitProvider := some (gitproviderhttp.Client.gitProvider
      { baseURL := ewURL, httpClient := recordingClient respond, internalAuthToken := token }),
    appEnvProvisioningProvider := some (appenvprovhttp.Client.provider
      { baseURL := ewURL, httpClient := recordingClient respond, internalAuthToken := token }),
    secretRotationPort := some cp.secretRotationPort,
    secretBindingsRotationPort := some (secretbindingshttp.Client.rotationPort
      { baseURL := ewURL, httpClient := recordingClient respond,
        internalAuthToken := token }) }

/-! ## Reading a history -/

/-- The names of the activities that a history schedules, in order. -/
def scheduledActivities (history : List HistoryEvent) : List String :=
  history.filterMap fun e =>
    match e with
    | HistoryEvent.activityScheduled name _ => some name
    | _ => none

/-- Ports of which none is set, over an outside world without state. -/
def noPorts : Ports Unit := {}

/-- A runtime that never delivers the signal. -/
def silentRuntime : Runtime := { info := { Attempt := 1 }, signalAfter := none }

/-- A runtime that has the signal buffered when the wait starts. -/
def promptRuntime : Runtime := { info := { Attempt := 1 }, signalAfter := some 0 }

/-! ## The requests that the specification expects -/

/-- A POST of a JSON object with the headers that the clients set. -/
def postRequest (url token : String) (body : List (String × JSONValue)) : Request :=
  { Method := MethodPost, URL := url, Header := requestHeader token, Body := body }

/-- The requests that the specification lists for ApplicationOnboarding of the
application `a`, in its order. -/
def onboardingRequests (cpURL token a : String) : List Request :=
  [postRequest (cpURL ++ "/commands/code-repositories") token
     [("id", .str ("code-" ++ a)), ("applicationId", .str a)],
   postRequest (cpURL ++ "/commands/deployment-repositories") token
     [("id", .str ("dep-" ++ a)), ("applicationId", .str a),
       ("deploymentModel", .str "GitOpsPerApplication")],
   postRequest (cpURL ++ "/commands/gitops-integrations") token
     [("id", .str ("gi-" ++ a)), ("applicationId", .str a),
       ("deploymentRepositoryId", .str ("dep-" ++ a))],
   postRequest (cpURL ++ "/commands/application-environments") token
     [("id", .str (a ++ "-env-dev")), ("applicationId", .str a),
       ("environmentId", .str "env-dev")],
   postRequest (cpURL ++ "/commands/application-environments") token
     [("id", .str (a ++ "-env-prod")), ("applicationId", .str a),
       ("environmentId", .str "env-prod")],
   postRequest (cpURL ++ "/commands/applications/start-onboarding") token
     [("id", .str a)]]

/-- The requests that the specification lists for
ApplicationEnvironmentProvisioning of the application environment `x`, in its
order. -/
def provisioningRequests (cpURL ewURL token x : String) : List Request :=
  [postRequest (ewURL ++ "/github/repos") token
     [("owner", .str "platform"), ("name", .str ("appenv-" ++ x)), ("private", .bool true)],
   postRequest (ewURL ++ "/appenv/branch-protection") token
     [("applicationEnvironmentId", .str x)],
   postRequest (ewURL ++ "/appenv/secrets") token [("applicationEnvironmentId", .str x)],
   postRequest (ewURL ++ "/appenv/secret-bindings") token
     [("applicationEnvironmentId", .str x)],
   postRequest (ewURL ++ "/appenv/gitops-verify") token
     [("applicationEnvironmentId", .str x)],
   postRequest (cpURL ++ "/commands/application-environments/complete-provisioning") token
     [("id", .str x)]]

/-- The log `after` is the log `before` followed by requests that are all among
`allowed`. -/
def Appended (allowed before after : List Request) : Prop :=
  ∃ sent, after = before ++ sent ∧ ∀ req ∈ sent, req ∈ allowed

/-- Servers that answer every request 201. -/
def created : Responder := fun _ _ => .ok { StatusCode := 201, Body := "" }

/-- Servers that answer every request 400. -/
def badRequest : Responder := fun _ _ => .ok { StatusCode := 400, Body := "bad request" }

/-- A decoder of error payloads that finds no field. -/
def noPayload : String → String × String := fun _ => ("", "")

/-- The activities of ApplicationEnvironmentProvisioning in the order in which the
specification lists them. -/
def provisioningOrder : List String :=
  ["MaterializeRepositories", "ApplyBranchProtection", "ProvisionSecrets",
    "CreateSecretBindings", "VerifyGitOpsReconciliation",
    "FinalizeApplicationEnvironmentProvisioning"]

/-! ## The secrets that commands can produce -/

/-- Every stored secret is in state Declared and no secret binding is stored. -/
def Store.SecretsDeclared (st : Store) : Prop :=
  (∀ s ∈ st.secrets, s.State = SecretStateDeclared) ∧ st.secretBindings = []

/-! ## Reading the observations -/

/-- The domain events among the observations, each with its result, in order. -/
def domainEvents (metrics : List Metric) : List (String × String) :=
  metrics.filterMap fun m =>
    match m with
    | Metric.domainEvent event result => some (event, result)
    | _ => none

/-! # The HTTP surface of the control plane

The handlers of `control-plane-api/internal/adapters/httpapi` and the helpers of
`platform/httpx` that they use. A handler is a function of the store, the clock
reading and the request; it gives the store afterwards, the domain events it
observed and the response it wrote. The handlers of `handlers_environments.go`
(environments, application environments) are not part of the sources at hand and
are left out. -/

def MethodGet : String := "GET"

def StatusOK : Nat := 200
def StatusCreated : Nat := 201
def StatusAccepted : Nat := 202
def StatusUnauthorized : Nat := 401
def StatusMethodNotAllowed : Nat := 405
def StatusBadGateway : Nat := 502

namespace httpapi

/-- An incoming request as the handlers read it: the method, the headers, the
query parameters, and what `json.NewDecoder(r.Body).Decode` makes of the body
for a struct of string fields: `none` when it fails, else the string members of
the object by their JSON names. -/
structure Request where
  Method : String
  Header : List (String × String) := []
  Query : List (String × String) := []
  Body : Option (List (String × String)) := none
deriving DecidableEq, Repr, Inhabited

/-- The value of a field of the decoded struct: the member with its JSON name,
or the zero value "". -/
def field (req : List (String × String)) (name : String) : String :=
  (req.lookup name).getD ""

/-- The call `r.Header.Get(key)`: the value of the header, "" when absent. -/
def Request.headerGet (r : Request) (key : String) : String :=
  (r.Header.lookup key).getD ""

/-- The call `r.URL.Query().Get(key)`: the value of the parameter, "" when
absent. -/
def Request.queryGet (r : Request) (key : String) : String :=
  (r.Query.lookup key).getD ""

/-- What a handler writes after the status line: nothing, the plain text of
`httpx.WriteText`, or the JSON encoding by `httpx.WriteJSON` of an error
response or of an entity (`null` for a nil pointer). -/
inductive Body where
  | empty
  | text (msg : String)
  | error (resp : errorResponse)
  | application (a : Application)
  | environment (e : Environment)
  | applicationEnvironment (ae : ApplicationEnvironment)
  | null
deriving DecidableEq, Repr, Inhabited

structure Response where
  Status : Nat
  Body : Body
deriving DecidableEq, Repr, Inhabited

/-- The function `httpx.WriteText`. -/
def WriteText (status : Nat) (msg : String) : Response := { Status := status, Body := .text msg }

/-- The function `httpx.RequireMethod`: the 405 it writes when the method is not
the expected one. -/
def RequireMethod (r : Request) (method : String) : Option Response :=
  if r.Method ≠ method then some (WriteText StatusMethodNotAllowed "method not allowed")
  else none

/-- The function `httpx.DecodeJSON`: the decoded struct, or the 400 it writes
when decoding fails. -/
def DecodeJSON (r : Request) (msg : String) : Except Response (List (String × String)) :=
  match r.Body with
  | some req => .ok req
  | none => .error (WriteText StatusBadRequest (if msg = "" then "invalid json" else msg))

/-- The function `requireInternalAuth`, with `token` the value of
INTERNAL_AUTH_TOKEN ("" when unset): the 401 it writes when the token is
enforced and the header differs from it. -/
def requireInternalAuth (token : String) (r : Request) : Option Response :=
  if token = "" then none
  else if r.headerGet internalAuthHeader ≠ token then
    some (WriteText StatusUnauthorized "missing or invalid internal auth token")
  else none

/-- The response that `writeDomainError` writes. -/
def writeDomainErrorResponse (err : error) : Response :=
  { Status := (writeDomainError err).1, Body := .error (writeDomainError err).2 }

/-- The server: its services and the value of INTERNAL_AUTH_TOKEN in its
environment. -/
structure Server (σ : Type) where
  services : Services σ
  internalAuthToken : String := ""

/-- What handling a request gives: the store afterwards, the domain events
observed, and the response. -/
structure Outcome (σ : Type) where
  store : σ
  metrics : List Metric
  response : Response

variable {σ : Type}

def Server.createTeam (s : Server σ) (st : σ) (now : Nat) (r : Request) : Outcome σ :=
  match RequireMethod r MethodPost with
  | some resp => ⟨st, [], resp⟩
  | none =>
  match DecodeJSON r "invalid json" with
  | .error resp => ⟨st, [], resp⟩
  | .ok req =>
    if field req "id" = "" ∨ field req "name" = "" then
      ⟨st, [], WriteText StatusBadRequest "id and name are required"⟩
    else
      let res := s.services.CreateTeam st now (field req "id") (field req "name") "api"
      if res.2 ≠ .nil then
        ⟨res.1, [Metric.domainEvent "team_created" "error"], writeDomainErrorResponse res.2⟩
      else
        ⟨res.1, [Metric.domainEvent "team_created" "success"],
          { Status := StatusCreated, Body := .empty }⟩

def Server.createApplication (s : Server σ) (st : σ) (now : Nat) (r : Request) : Outcome σ :=
  match RequireMethod r MethodPost with
  | some resp => ⟨st, [], resp⟩
  | none =>
  match DecodeJSON r "invalid json" with
  | .error resp => ⟨st, [], resp⟩
  | .ok req =>
    if field req "id" = "" ∨ field req "name" = "" ∨ field req "teamId" = "" then
      ⟨st, [], WriteText StatusBadRequest "id, name and teamId are required"⟩
    else
      let res := s.services.CreateApplication st now (field req "id") (field req "name") (field req "teamId") "api"
      if res.2 ≠ .nil then
        ⟨res.1, [Metric.domainEvent "application_created" "error"], writeDomainErrorResponse res.2⟩
      else
        ⟨res.1, [Metric.domainEvent "application_created" "success"],
          { Status := StatusCreated, Body := .empty }⟩

def Server.approveApplication (s : Server σ) (st : σ) (_now : Nat) (r : Request) : Outcome σ :=
  match RequireMethod r MethodPost with
  | some resp => ⟨st, [], resp⟩
  | none =>
  match DecodeJSON r "invalid json" with
  | .error resp => ⟨st, [], resp⟩
  | .ok req =>
    if field req "id" = "" then
      ⟨st, [], WriteText StatusBadRequest "id is required"⟩
    else
      let res := s.services.ApproveApplication st (field req "id") "api"
      if res.2 ≠ .nil then
        ⟨res.1, [Metric.domainEvent "application_approved" "error"], writeDomainErrorResponse res.2⟩
      else
        ⟨res.1, [Metric.domainEvent "application_approved" "success"],
          { Status := StatusAccepted, Body := .empty }⟩

def Server.deprecateApplication (s : Server σ) (st : σ) (_now : Nat) (r : Request) : Outcome σ :=
  match RequireMethod r MethodPost with
  | some resp => ⟨st, [], resp⟩
  | none =>
  match DecodeJSON r "invalid json" with
  | .error resp => ⟨st, [], resp⟩
  | .ok req =>
    if field req "id" = "" then
      ⟨st, [], WriteText StatusBadRequest "id is required"⟩
    else
      let res := s.services.DeprecateApplication st (field req "id") "api"
      if res.2 ≠ .nil then
        ⟨res.1, [Metric.domainEvent "application_deprecated" "error"], writeDomainErrorResponse res.2⟩
      else
        ⟨res.1, [Metric.domainEvent "application_deprecated" "success"],
          { Status := StatusAccepted, Body := .empty }⟩

def Server.startApplicationOnboarding (s : Server σ) (st : σ) (_now : Nat) (r : Request) : Outcome σ :=
  match requireInternalAuth s.internalAuthToken r with
  | some resp => ⟨st, [], resp⟩
  | none =>
  match RequireMethod r MethodPost with
  | some resp => ⟨st, [], resp⟩
  | none =>
  match DecodeJSON r "invalid json" with
  | .error resp => ⟨st, [], resp⟩
  | .ok req =>
    if field req "id" = "" then
      ⟨st, [], WriteText StatusBadRequest "id is required"⟩
    else
      let res := s.services.StartApplicationOnboarding st (field req "id") "workflow-engine"
      if res.2 ≠ .nil then
        ⟨res.1, [Metric.domainEvent "application_onboarding_started" "error"], writeDomainErrorResponse res.2⟩
      else
        ⟨res.1, [Metric.domainEvent "application_onboarding_started" "success"],
          { Status := StatusAccepted, Body := .empty }⟩

def Server.activateApplication (s : Server σ) (st : σ) (_now : Nat) (r : Request) : Outcome σ :=
  match requireInternalAuth s.internalAuthToken r with
  | some resp => ⟨st, [], resp⟩
  | none =>
  match RequireMethod r MethodPost with
  | some resp => ⟨st, [], resp⟩
  | none =>
  match DecodeJSON r "invalid json" with
  | .error resp => ⟨st, [], resp⟩
  | .ok req =>
    if field req "id" = "" then
      ⟨st, [], WriteText StatusBadRequest "id is required"⟩
    else
      let res := s.services.ActivateApplication st (field req "id") "workflow-engine"
      if res.2 ≠ .nil then
        ⟨res.1, [Metric.domainEvent "application_activated" "error"], writeDomainErrorResponse res.2⟩
      else
        ⟨res.1, [Metric.domainEvent "application_activated" "success"],
          { Status := StatusAccepted, Body := .empty }⟩

def Server.createSecret (s : Server σ) (st : σ) (now : Nat) (r : Request) : Outcome σ :=
  match RequireMethod r MethodPost with
  | some resp => ⟨st, [], resp⟩
  | none =>
  match DecodeJSON r "invalid json" with
  | .error resp => ⟨st, [], resp⟩
  | .ok req =>
    if field req "id" = "" ∨ field req "ownerTeamId" = "" then
      ⟨st, [], WriteText StatusBadRequest "id and ownerTeamId are required"⟩
    else
      let res := s.services.CreateSecret st now (field req "id") (field req "ownerTeamId") (field req "purpose")
        (field req "sensitivity") "api"
      if res.2 ≠ .nil then
        ⟨res.1, [Metric.domainEvent "secret_created" "error"], writeDomainErrorResponse res.2⟩
      else
        ⟨res.1, [Metric.domainEvent "secret_created" "success"],
          { Status := StatusCreated, Body := .empty }⟩

def Server.declareSecretBinding (s : Server σ) (st : σ) (now : Nat) (r : Request) : Outcome σ :=
  match RequireMethod r MethodPost with
  | some resp => ⟨st, [], resp⟩
  | none =>
  match DecodeJSON r "invalid json" with
  | .error resp => ⟨st, [], resp⟩
  | .ok req =>
    if field req "id" = "" ∨ field req "secretId" = "" ∨ field req "targetId" = "" ∨ field req "targetType" = "" then
      ⟨st, [], WriteText StatusBadRequest "id, secretId, targetId and targetType are required"⟩
    else
      let res := s.services.DeclareSecretBinding st now (field req "id") (field req "secretId")
        (field req "targetId") (field req "targetType") "api"
      if res.2 ≠ .nil then
        ⟨res.1, [Metric.domainEvent "secret_binding_declared" "error"], writeDomainErrorResponse res.2⟩
      else
        ⟨res.1, [Metric.domainEvent "secret_binding_declared" "success"],
          { Status := StatusCreated, Body := .empty }⟩

def Server.startSecretRotation (s : Server σ) (st : σ) (_now : Nat) (r : Request) : Outcome σ :=
  match RequireMethod r MethodPost with
  | some resp => ⟨st, [], resp⟩
  | none =>
  match DecodeJSON r "invalid json" with
  | .error resp => ⟨st, [], resp⟩
  | .ok req =>
    if field req "id" = "" then
      ⟨st, [], WriteText StatusBadRequest "id is required"⟩
    else
      let res := s.services.StartSecretRotation st (field req "id") "api"
      if res.2 ≠ .nil then
        ⟨res.1, [Metric.domainEvent "secret_rotation_started" "error"], writeDomainErrorResponse res.2⟩
      else
        ⟨res.1, [Metric.domainEvent "secret_rotation_started" "success"],
          { Status := StatusAccepted, Body := .empty }⟩

def Server.completeSecretRotation (s : Server σ) (st : σ) (_now : Nat) (r : Request) : Outcome σ :=
  match requireInternalAuth s.internalAuthToken r with
  | some resp => ⟨st, [], resp⟩
  | none =>
  match RequireMethod r MethodPost with
  | some resp => ⟨st, [], resp⟩
  | none =>
  match DecodeJSON r "invalid json" with
  | .error resp => ⟨st, [], resp⟩
  | .ok req =>
    if field req "id" = "" then
      ⟨st, [], WriteText StatusBadRequest "id is required"⟩
    else
      let res := s.services.CompleteSecretRotation st (field req "id") "workflow-engine"
      if res.2 ≠ .nil then
        ⟨res.1, [Metric.domainEvent "secret_rotation_completed" "error"], writeDomainErrorResponse res.2⟩
      else
        ⟨res.1, [Metric.domainEvent "secret_rotation_completed" "success"],
          { Status := StatusAccepted, Body := .empty }⟩

def Server.declareCodeRepository (s : Server σ) (st : σ) (now : Nat) (r : Request) : Outcome σ :=
  match RequireMethod r MethodPost with
  | some resp => ⟨st, [], resp⟩
  | none =>
  match DecodeJSON r "invalid json" with
  | .error resp => ⟨st, [], resp⟩
  | .ok req =>
    if field req "id" = "" ∨ field req "applicationId" = "" then
      ⟨st, [], WriteText StatusBadRequest "id and applicationId are required"⟩
    else
      let res := s.services.DeclareCodeRepository st now (field req "id") (field req "applicationId") "api"
      if res.2 ≠ .nil then
        ⟨res.1, [Metric.domainEvent "code_repository_declared" "error"], writeDomainErrorResponse res.2⟩
      else
        ⟨res.1, [Metric.domainEvent "code_repository_declared" "success"],
          { Status := StatusCreated, Body := .empty }⟩

def Server.declareDeploymentRepository (s : Server σ) (st : σ) (now : Nat) (r : Request) : Outcome σ :=
  match RequireMethod r MethodPost with
  | some resp => ⟨st, [], resp⟩
  | none =>
  match DecodeJSON r "invalid json" with
  | .error resp => ⟨st, [], resp⟩
  | .ok req =>
    if field req "id" = "" ∨ field req "applicationId" = "" then
      ⟨st, [], WriteText StatusBadRequest "id and applicationId are required"⟩
    else
      let res := s.services.DeclareDeploymentRepository st now (field req "id") (field req "applicationId")
        (field req "deploymentModel") "api"
      if res.2 ≠ .nil then
        ⟨res.1, [Metric.domainEvent "deployment_repository_declared" "error"], writeDomainErrorResponse res.2⟩
      else
        ⟨res.1, [Metric.domainEvent "deployment_repository_declared" "success"],
          { Status := StatusCreated, Body := .empty }⟩

def Server.declareGitOpsIntegration (s : Server σ) (st : σ) (now : Nat) (r : Request) : Outcome σ :=
  match RequireMethod r MethodPost with
  | some resp => ⟨st, [], resp⟩
  | none =>
  match DecodeJSON r "invalid json" with
  | .error resp => ⟨st, [], resp⟩
  | .ok req =>
    if field req "id" = "" ∨ field req "applicationId" = "" ∨ field req "deploymentRepositoryId" = "" then
      ⟨st, [], WriteText StatusBadRequest "id, applicationId and deploymentRepositoryId are required"⟩
    else
      let res := s.services.DeclareGitOpsIntegration st now (field req "id") (field req "applicationId")
        (field req "deploymentRepositoryId") "api"
      if res.2 ≠ .nil then
        ⟨res.1, [Metric.domainEvent "gitops_integration_declared" "error"], writeDomainErrorResponse res.2⟩
      else
        ⟨res.1, [Metric.domainEvent "gitops_integration_declared" "success"],
          { Status := StatusCreated, Body := .empty }⟩

def Server.getApplication (s : Server σ) (st : σ) (_now : Nat) (r : Request) : Outcome σ :=
  match RequireMethod r MethodGet with
  | some resp => ⟨st, [], resp⟩
  | none =>
  let id := r.queryGet "id"
  if id = "" then ⟨st, [], WriteText StatusBadRequest "id is required"⟩
  else
    let res := s.services.GetApplication st id
    if res.2 ≠ .nil then ⟨st, [], writeDomainErrorResponse res.2⟩
    else
      match res.1 with
      | some x => ⟨st, [], { Status := StatusOK, Body := .application x }⟩
      | none => ⟨st, [], { Status := StatusOK, Body := .null }⟩

def Server.getEnvironment (s : Server σ) (st : σ) (_now : Nat) (r : Request) : Outcome σ :=
  match RequireMethod r MethodGet with
  | some resp => ⟨st, [], resp⟩
  | none =>
  let id := r.queryGet "id"
  if id = "" then ⟨st, [], WriteText StatusBadRequest "id is required"⟩
  else
    let res := s.services.GetEnvironment st id
    if res.2 ≠ .nil then ⟨st, [], writeDomainErrorResponse res.2⟩
    else
      match res.1 with
      | some x => ⟨st, [], { Status := StatusOK, Body := .environment x }⟩
      | none => ⟨st, [], { Status := StatusOK, Body := .null }⟩

def Server.getApplicationEnvironment (s : Server σ) (st : σ) (_now : Nat) (r : Request) : Outcome σ :=
  match RequireMethod r MethodGet with
  | some resp => ⟨st, [], resp⟩
  | none =>
  let id := r.queryGet "id"
  if id = "" then ⟨st, [], WriteText StatusBadRequest "id is required"⟩
  else
    let res := s.services.GetApplicationEnvironment st id
    if res.2 ≠ .nil then ⟨st, [], writeDomainErrorResponse res.2⟩
    else
      match res.1 with
      | some x => ⟨st, [], { Status := StatusOK, Body := .applicationEnvironment x }⟩
      | none => ⟨st, [], { Status := StatusOK, Body := .null }⟩

/-- The command and query handlers that `Routes` registers, those of
`handlers_environments.go` apart. -/
inductive Endpoint where
  | createTeam
  | createApplication
  | approveApplication
  | deprecateApplication
  | startApplicationOnboarding
  | activateApplication
  | createSecret
  | declareSecretBinding
  | startSecretRotation
  | completeSecretRotation
  | declareCodeRepository
  | declareDeploymentRepository
  | declareGitOpsIntegration
  | getApplication
  | getEnvironment
  | getApplicationEnvironment
deriving DecidableEq, Repr, Inhabited

/-- The handler that `Routes` registers for an endpoint. -/
def Server.handle (s : Server σ) (st : σ) (now : Nat) (r : Request) : Endpoint → Outcome σ
  | .createTeam => s.createTeam st now r
  | .createApplication => s.createApplication st now r
  | .approveApplication => s.approveApplication st now r
  | .deprecateApplication => s.deprecateApplication st now r
  | .startApplicationOnboarding => s.startApplicationOnboarding st now r
  | .activateApplication => s.activateApplication st now r
  | .createSecret => s.createSecret st now r
  | .declareSecretBinding => s.declareSecretBinding st now r
  | .startSecretRotation => s.startSecretRotation st now r
  | .completeSecretRotation => s.completeSecretRotation st now r
  | .declareCodeRepository => s.declareCodeRepository st now r
  | .declareDeploymentRepository => s.declareDeploymentRepository st now r
  | .declareGitOpsIntegration => s.declareGitOpsIntegration st now r
  | .getApplication => s.getApplication st now r
  | .getEnvironment => s.getEnvironment st now r
  | .getApplicationEnvironment => s.getApplicationEnvironment st now r

end httpapi

/-! ## adapters/pgrepo: the team repository on Postgres -/

namespace pgrepo

/-- The part of `*pgxpool.Pool` that the repository uses, over whatever state
`σ` the database holds: `QueryRow(...).Scan(...)` of the select by id (the team
of the row, `none` for `pgx.ErrNoRows`, or another error) and `Exec` of the
upsert. -/
structure Pool (σ : Type) where
  QueryRow : σ → String → Except error (Option Team)
  Exec : σ → Team → σ × error

def NewTeamRepository {σ : Type} (pool : Pool σ) : TeamRepository σ where
  GetByID st id :=
    match pool.QueryRow st id with
    | .ok (some team) => (some team, .nil)
    | .ok none => (none, .nil)
    | .error err => (none, .errorf "scanning team" err)
  Save st team :=
    let r := pool.Exec st team
    if r.2 ≠ .nil then (r.1, .errorf "saving team" r.2) else (r.1, .nil)

end pgrepo

/-- The services as wired by `cmd/api/main.go` when `DATABASE_URL` is set and
reachable: the team repository on Postgres, the others in memory. -/
def pgServices (pool : pgrepo.Pool Store) : Services Store :=
  { memServices with Teams := some (pgrepo.NewTeamRepository pool) }

/-- A pool whose database has become unreachable: every call fails. -/
def brokenPool : pgrepo.Pool Store where
  QueryRow _ _ := .error (.other "connection refused")
  Exec st _ := (st, .other "connection refused")

/-- The server on the memory-backed services, with the token that the handler
tests set. -/
def memServer (token : String) : httpapi.Server Store :=
  { services := memServices, internalAuthToken := token }

/-- A POST of a JSON object of string members, without headers. -/
def postOf (members : List (String × String)) : httpapi.Request :=
  { Method := MethodPost, Body := some members }

/-- The responses that the handlers write as plain text: the status and the
message of each. -/
def plainTextErrors : List (Nat × String) :=
  [(405, "method not allowed"), (400, "invalid json"),
   (401, "missing or invalid internal auth token"),
   (400, "id is required"), (400, "id and name are required"),
   (400, "id, name and teamId are required"), (400, "id and ownerTeamId are required"),
   (400, "id, secretId, targetId and targetType are required"),
   (400, "id and applicationId are required"),
   (400, "id, applicationId and deploymentRepositoryId are required")]

/-- The three shapes of what a handler gives from the store `st`: the answer of
`writeDomainError` to an error of the service, a plain text written before the
service is invoked, or a success. -/
def httpapi.Outcome.Shaped {σ : Type} (st : σ) (o : httpapi.Outcome σ) : Prop :=
  (∃ err, err ≠ error.nil ∧
    o.response = { Status := (writeDomainError err).1,
                   Body := httpapi.Body.error (writeDomainError err).2 }) ∨
  (∃ status msg, (status, msg) ∈ plainTextErrors ∧
    o.response = { Status := status, Body := httpapi.Body.text msg } ∧ o.store = st) ∨
  ((o.response.Status = 200 ∨ o.response.Status = 201 ∨ o.response.Status = 202) ∧
    (∀ msg, o.response.Body ≠ httpapi.Body.text msg) ∧
    ∀ resp, o.response.Body ≠ httpapi.Body.error resp)

/-- A repository whose store has become unreachable: every call fails. -/
def brokenRepository {α : Type} : Repository Store α where
  GetByID _ _ := (none, .other "connection refused")
  Save st _ := (st, .other "connection refused")

/-- The server wired as `cmd/api/main.go` does with `DATABASE_URL` set, after the
database has become unreachable. -/
def pgServer : httpapi.Server Store :=
  { services := pgServices brokenPool }

/-- The memory-backed server after its application store has become
unreachable. -/
def brokenApplicationsServer : httpapi.Server Store :=
  { services := { memServices with Applications := some brokenRepository } }

/-! # Two requests in flight

`net/http` serves each request on a goroutine of its own. A memory repository
holds its mutex for the length of one call, so a `GetByID` or a `Save` is one
atomic step; the services hold no lock from the lookup to the save. A call of
a command is therefore at one of three points: called, past its lookup and its
checks with the entity it goes on to save, or returned. -/

/-- A call of ApproveApplication in flight. -/
inductive Approval where
  | called (id approvedBy : String)
  | checked (app : Application)
  | returned (err : error)
deriving DecidableEq, Repr, Inhabited

/-- One atomic step of a call of `Services.ApproveApplication`: from `called`,
the lookup and the checks up to the assignment of the new state; from `checked`,
the save and the return. -/
def Services.ApproveApplication.step {σ : Type} (s : Services σ) (st : σ) :
    Approval → σ × Approval
  | .called id approvedBy =>
    match s.Applications with
    | none => (st, .returned (Internal "application_repository_not_configured"
        "application repository not configured" .nil))
    | some apps =>
      match apps.GetByID st id with
      | (some app, .nil) =>
        if app.State ≠ ApplicationStateProposed then
          (st, .returned (Domain "application_invalid_state_for_approval"
            "application can only be approved from Proposed state" .nil))
        else
          let _ := approvedBy
          (st, .checked { app with State := ApplicationStateApproved })
      | (_, err) =>
        (st, .returned (NotFound "application_not_found" "application not found" err))
  | .checked app =>
    match s.Applications with
    | none => (st, .returned (Internal "application_repository_not_configured"
        "application repository not configured" .nil))
    | some apps =>
      let r := saveResult "saving approved application" (apps.Save st app)
      (r.1, .returned r.2)
  | .returned err => (st, .returned err)

/-- Modelled from the spec: "concurrency between requests is unbounded per
process". Two calls of ApproveApplication run on the same store; the schedule
says, step by step, which of the two takes its next atomic step (`false` the
first call, `true` the second). -/
def Services.approveConcurrently {σ : Type} (s : Services σ) :
    List Bool → σ × Approval × Approval → σ × Approval × Approval
  | [], c => c
  | false :: rest, (st, a, b) =>
    let r := Services.ApproveApplication.step s st a
    Services.approveConcurrently s rest (r.1, r.2, b)
  | true :: rest, (st, a, b) =>
    let r := Services.ApproveApplication.step s st b
    Services.approveConcurrently s rest (r.1, a, r.2)

/-! # execution-workers

The process environment is the function `os.Getenv`, "" for a variable that is
unset. A handler is a function from the environment, the world outside and the
request to what the handler does: the calls it makes, in order, the lines it
logs, the domain events it records and the response it writes. Spans are left
out. -/

/-- The process environment: `os.Getenv`. -/
abbrev Env : Type := String → String

namespace config

/-- The function `config.Get` of platform/config. -/
def Get (env : Env) (key fallback : String) : String :=
  let v := env key
  if v = "" then fallback else v

/-- The function `config.Require` of platform/config. -/
def Require (env : Env) (key : String) : String × Bool :=
  let v := env key
  if v = "" then ("", false) else (v, true)

end config

namespace worker

/-- An incoming request as the handlers read it: the method, the headers, and
the body as `json.NewDecoder(r.Body)` reads it, `none` when it is not JSON,
else the members of the object. -/
structure Request where
  Method : String
  Header : List (String × String) := []
  Body : Option (List (String × JSONValue)) := none
deriving DecidableEq, Repr, Inhabited

/-- The call `r.Header.Get(key)`: the value of the header, "" when absent. -/
def Request.headerGet (r : Request) (key : String) : String :=
  (r.Header.lookup key).getD ""

/-- What a handler writes after the status line: nothing, the plain text of
`httpx.WriteText`, or the JSON that `httpx.WriteJSON` encodes. -/
inductive Body where
  | empty
  | text (msg : String)
  | json (value : String)
deriving DecidableEq, Repr, Inhabited

structure Response where
  Status : Nat
  Body : Body
deriving DecidableEq, Repr, Inhabited

/-- The function `httpx.WriteText`. -/
def WriteText (status : Nat) (msg : String) : Response := { Status := status, Body := .text msg }

/-- The function `httpx.RequireMethod`: the 405 it writes when the method is not
the expected one. -/
def RequireMethod (r : Request) (method : String) : Option Response :=
  if r.Method ≠ method then some (WriteText StatusMethodNotAllowed "method not allowed")
  else none

/-- Decoding into a field of type string: the zero value when the member is
absent, a failure when the member is not a string. -/
def stringMember (members : List (String × JSONValue)) (name : String) : Option String :=
  match members.lookup name with
  | none => some ""
  | some (.str s) => some s
  | some (.bool _) => none

/-- Decoding into a field of type bool. -/
def boolMember (members : List (String × JSONValue)) (name : String) : Option Bool :=
  match members.lookup name with
  | none => some false
  | some (.bool b) => some b
  | some (.str _) => none

/-- The function `httpx.DecodeJSON` for a destination that `decode` fills from
the members of the object: the decoded struct, or the 400 it writes when
decoding fails. -/
def DecodeJSON {α : Type} (r : Request) (decode : List (String × JSONValue) → Option α)
    (msg : String) : Except Response α :=
  match r.Body.bind decode with
  | some req => .ok req
  | none => .error (WriteText StatusBadRequest (if msg = "" then "invalid json" else msg))

structure createRepoRequest where
  Owner : String
  Name : String
  Private : Bool
deriving DecidableEq, Repr, Inhabited

def createRepoRequest.decode (members : List (String × JSONValue)) : Option createRepoRequest :=
  match stringMember members "owner", stringMember members "name",
      boolMember members "private" with
  | some owner, some name, some isPrivate =>
    some { Owner := owner, Name := name, Private := isPrivate }
  | _, _, _ => none

structure appEnvRequest where
  ApplicationEnvironmentID : String
deriving DecidableEq, Repr, Inhabited

def appEnvRequest.decode (members : List (String × JSONValue)) : Option appEnvRequest :=
  (stringMember members "applicationEnvironmentId").map
    fun id => { ApplicationEnvironmentID := id }

structure secretBindingsUpdateRequest where
  SecretID : String
deriving DecidableEq, Repr, Inhabited

def secretBindingsUpdateRequest.decode (members : List (String × JSONValue)) :
    Option secretBindingsUpdateRequest :=
  (stringMember members "secretId").map fun id => { SecretID := id }

/-- A call that a handler makes to the world outside: the two calls of the
go-github client, with the base URL and the token of the client and the
arguments as the handler passes them; the POST without body and with basic
auth of the Harbor client; and a POST through `http.DefaultClient` with its
content type and body. -/
inductive Call where
  | githubCreate (baseURL token org name : String) (isPrivate : Bool)
  | githubUpdateBranchProtection (baseURL token owner repo branch : String)
      (requiredApprovingReviewCount : Nat)
  | harborRotate (url username password : String)
  | post (url contentType body : String)
deriving DecidableEq, Repr, Inhabited

/-- The world outside the worker. `parseError` is the error of `url.Parse`, and
with it of `http.NewRequestWithContext`, on a string, nil when it parses;
`github` is the result of a call of the go-github client, the created
repository as JSON or the error; `Do` is `Do` of an HTTP client, the status
code or the transport error; `harborToken` is what decoding the body of the
Harbor response gives for the field token, or the error of the decoder. -/
structure Outside where
  parseError : String → error
  github : Call → Except error String
  Do : Call → Except error Int
  harborToken : Call → Except error String

/-- What a handler does. -/
structure Outcome where
  calls : List Call := []
  logs : List (String × String) := []
  events : List (String × String) := []
  response : Response
deriving DecidableEq, Repr, Inhabited

/-- The function `requireInternalAuth` of the worker: the 401 it writes when
INTERNAL_AUTH_TOKEN is set and the header differs from it. -/
def requireInternalAuth (env : Env) (r : Request) : Option Response :=
  let (token, ok) := config.Require env "INTERNAL_AUTH_TOKEN"
  if !ok || token = "" then none
  else if r.headerGet internalAuthHeader ≠ token then
    some (WriteText StatusUnauthorized "missing or invalid internal auth token")
  else none

/-- The base URL of the GitHub client of the handlers and the warning logged
with it: GITHUB_API_URL when it is set and parses, else the default of
go-github. -/
def githubBaseURL (env : Env) (out : Outside) : String × List (String × String) :=
  let apiURL := config.Get env "GITHUB_API_URL" ""
  if apiURL ≠ "" then
    if out.parseError apiURL = .nil then (apiURL, [])
    else ("https://api.github.com/",
      [("warn", "invalid GITHUB_API_URL, falling back to default")])
  else ("https://api.github.com/", [])

def handleCreateGitHubRepo (env : Env) (out : Outside) (r : Request) : Outcome :=
  match requireInternalAuth env r with
  | some resp => { response := resp }
  | none =>
  match RequireMethod r MethodPost with
  | some resp => { response := resp }
  | none =>
  match DecodeJSON r createRepoRequest.decode "invalid json body" with
  | .error resp => { response := resp }
  | .ok req =>
  if req.Name = "" then { response := WriteText StatusBadRequest "name is required" }
  else if req.Owner = "" then { response := WriteText StatusBadRequest "owner is required" }
  else
    match config.Require env "GITHUB_TOKEN" with
    | (_, false) =>
      { logs := [("error", "GITHUB_TOKEN not configured")],
        events := [("github_repo_created", "error")],
        response := WriteText StatusInternalServerError "GITHUB_TOKEN not configured" }
    | (token, true) =>
      let base := githubBaseURL env out
      let call := Call.githubCreate base.1 token "" req.Name req.Private
      match out.github call with
      | .error _ =>
        { calls := [call],
          logs := base.2 ++ [("error", "error creating repo in GitHub")],
          events := [("github_repo_created", "error")],
          response := WriteText StatusBadGateway "failed to create repository in GitHub" }
      | .ok created =>
        { calls := [call],
          logs := base.2,
          events := [("github_repo_created", "success")],
          response := { Status := StatusCreated, Body := .json created } }

def handleAppEnvBranchProtection (env : Env) (out : Outside) (r : Request) : Outcome :=
  match requireInternalAuth env r with
  | some resp => { response := resp }
  | none =>
  match RequireMethod r MethodPost with
  | some resp => { response := resp }
  | none =>
  match DecodeJSON r appEnvRequest.decode "invalid json body" with
  | .error resp => { response := resp }
  | .ok req =>
  if req.ApplicationEnvironmentID = "" then
    { response := WriteText StatusBadRequest "applicationEnvironmentId is required" }
  else
    let appEnvID := req.ApplicationEnvironmentID
    match config.Require env "GITHUB_TOKEN" with
    | (_, false) =>
      { logs := [("error", "GITHUB_TOKEN not configured for branch protection")],
        events := [("appenv_branch_protection_applied", "error")],
        response := WriteText StatusInternalServerError "GITHUB_TOKEN not configured" }
    | (token, true) =>
      let base := githubBaseURL env out
      let owner := "platform"
      let repo := "appenv-" ++ appEnvID
      let branch := "main"
      let call := Call.githubUpdateBranchProtection base.1 token owner repo branch 1
      match out.github call with
      | .error _ =>
        { calls := [call],
          logs := base.2 ++ [("error", "error applying branch protection in GitHub")],
          events := [("appenv_branch_protection_applied", "error")],
          response := WriteText StatusBadGateway "failed to apply branch protection in GitHub" }
      | .ok _ =>
        { calls := [call],
          logs := base.2,
          events := [("appenv_branch_protection_applied", "success")],
          response := { Status := StatusAccepted, Body := .empty } }

/-- The function `handleAppEnvAction`, without the name of its span. -/
def handleAppEnvAction (env : Env) (out : Outside) (r : Request)
    (endpointEnvVar domainEvent endpointNotConfiguredLog endpointNotConfiguredText
      requestErrorLog requestErrorText callErrorLog callErrorText non2xxLog non2xxText : String) :
    Outcome :=
  match requireInternalAuth env r with
  | some resp => { response := resp }
  | none =>
  match RequireMethod r MethodPost with
  | some resp => { response := resp }
  | none =>
  match DecodeJSON r appEnvRequest.decode "invalid json body" with
  | .error resp => { response := resp }
  | .ok req =>
  if req.ApplicationEnvironmentID = "" then
    { response := WriteText StatusBadRequest "applicationEnvironmentId is required" }
  else
    let appEnvID := req.ApplicationEnvironmentID
    let endpoint := config.Get env endpointEnvVar ""
    if endpoint = "" then
      { logs := [("error", endpointNotConfiguredLog)],
        events := [(domainEvent, "error")],
        response := WriteText StatusInternalServerError endpointNotConfiguredText }
    else
      let body := "\x7b\"applicationEnvironmentId\":\"" ++ appEnvID ++ "\"\x7d"
      if out.parseError endpoint ≠ .nil then
        { logs := [("error", requestErrorLog)],
          events := [(domainEvent, "error")],
          response := WriteText StatusBadGateway requestErrorText }
      else
        let call := Call.post endpoint "application/json" body
        match out.Do call with
        | .error _ =>
          { calls := [call],
            logs := [("error", callErrorLog)],
            events := [(domainEvent, "error")],
            response := WriteText StatusBadGateway callErrorText }
        | .ok status =>
          if status < 200 || status ≥ 300 then
            { calls := [call],
              logs := [("error", non2xxLog)],
              events := [(domainEvent, "error")],
              response := WriteText StatusBadGateway non2xxText }
          else
            { calls := [call],
              events := [(domainEvent, "success")],
              response := { Status := StatusAccepted, Body := .empty } }

def handleAppEnvSecrets (env : Env) (out : Outside) (r : Request) : Outcome :=
  handleAppEnvAction env out r
    "APPENV_SECRETS_ENDPOINT"
    "appenv_secrets_provisioned"
    "APPENV_SECRETS_ENDPOINT not configured"
    "APPENV_SECRETS_ENDPOINT not configured"
    "error creating appenv secrets request"
    "failed to provision appenv secrets"
    "error calling appenv secrets endpoint"
    "failed to provision appenv secrets"
    "appenv secrets endpoint returned non-2xx"
    "failed to provision appenv secrets"

def handleAppEnvSecretBindings (env : Env) (out : Outside) (r : Request) : Outcome :=
  handleAppEnvAction env out r
    "APPENV_SECRET_BINDINGS_ENDPOINT"
    "appenv_secret_bindings_created"
    "APPENV_SECRET_BINDINGS_ENDPOINT not configured"
    "APPENV_SECRET_BINDINGS_ENDPOINT not configured"
    "error creating appenv secret bindings request"
    "failed to create appenv secret bindings"
    "error calling appenv secret bindings endpoint"
    "failed to create appenv secret bindings"
    "appenv secret bindings endpoint returned non-2xx"
    "failed to create appenv secret bindings"

def handleAppEnvGitOpsVerify (env : Env) (out : Outside) (r : Request) : Outcome :=
  handleAppEnvAction env out r
    "APPENV_GITOPS_VERIFY_ENDPOINT"
    "appenv_gitops_verified"
    "APPENV_GITOPS_VERIFY_ENDPOINT not configured"
    "APPENV_GITOPS_VERIFY_ENDPOINT not configured"
    "error creating appenv gitops verify request"
    "failed to verify appenv gitops reconciliation"
    "error calling appenv gitops verify endpoint"
    "failed to verify appenv gitops reconciliation"
    "appenv gitops verify endpoint returned non-2xx"
    "failed to verify appenv gitops reconciliation"

end worker

/-! ## execution-workers/internal/harbor/client.go -/

namespace harbor

structure Client where
  baseURL : String
  username : String
  password : String
deriving DecidableEq, Repr, Inhabited

def NewClientFromEnv (env : Env) : Except error Client :=
  match config.Require env "HARBOR_URL" with
  | (baseURL, ok) =>
  if !ok || baseURL = "" then .error (.other "HARBOR_URL not configured")
  else
    match config.Require env "HARBOR_ROBOT_USERNAME" with
    | (username, ok) =>
    if !ok || username = "" then .error (.other "HARBOR_ROBOT_USERNAME not configured")
    else
      match config.Require env "HARBOR_ROBOT_PASSWORD" with
      | (password, ok) =>
      if !ok || password = "" then .error (.other "HARBOR_ROBOT_PASSWORD not configured")
      else .ok { baseURL := baseURL, username := username, password := password }

/-- The method `RotateRobotToken`: the calls it makes and the token or the
error. -/
def Client.RotateRobotToken (c : Client) (out : worker.Outside) :
    List worker.Call × Except error String :=
  if out.parseError c.baseURL ≠ .nil then
    ([], .error (.errorf "creating harbor request" (out.parseError c.baseURL)))
  else
    let call := worker.Call.harborRotate c.baseURL c.username c.password
    match out.Do call with
    | .error err => ([call], .error (.errorf "calling harbor endpoint" err))
    | .ok status =>
      if status < 200 || status ≥ 300 then
        ([call], .error (.other ("harbor endpoint returned status " ++ toString status)))
      else
        match out.harborToken call with
        | .error err => ([call], .error (.errorf "decoding harbor response" err))
        | .ok token =>
          if token = "" then ([call], .error (.other "harbor response missing token field"))
          else ([call], .ok token)

end harbor

namespace worker

/-- The rotation step of `handleSecretBindingsUpdate`: the calls, the line
logged and the token, "" when there is none. -/
def rotateToken (env : Env) (out : Outside) : List Call × List (String × String) × String :=
  match harbor.NewClientFromEnv env with
  | .error _ =>
    ([], [("warn", "Harbor client not configured; skipping robot token rotation")], "")
  | .ok hClient =>
    match hClient.RotateRobotToken out with
    | (calls, .error _) => (calls, [("error", "error rotating Harbor robot token")], "")
    | (calls, .ok rotatedToken) =>
      (calls, [("info", "Harbor robot token rotated successfully")], rotatedToken)

/-- The propagation step of `handleSecretBindingsUpdate`: the calls and the
line logged. -/
def propagate (env : Env) (out : Outside) (secretID token : String) :
    List Call × List (String × String) :=
  let bindingsEndpoint := config.Get env "SECRET_BINDINGS_UPDATE_ENDPOINT" ""
  if bindingsEndpoint = "" then
    ([], [("info",
      "SECRET_BINDINGS_UPDATE_ENDPOINT not configured; skipping bindings propagation")])
  else if token = "" then
    ([], [("warn", "no rotated token available; skipping bindings propagation")])
  else
    let body := "\x7b\"secretId\":\"" ++ secretID ++ "\",\"token\":\"" ++ token ++ "\"\x7d"
    if out.parseError bindingsEndpoint ≠ .nil then
      ([], [("error", "error creating secret bindings propagation request")])
    else
      let call := Call.post bindingsEndpoint "application/json" body
      match out.Do call with
      | .error _ => ([call], [("error", "error calling secret bindings propagation endpoint")])
      | .ok status =>
        if status < 200 || status ≥ 300 then
          ([call], [("error", "secret bindings propagation endpoint returned non-2xx")])
        else
          ([call], [("info", "secret bindings propagation completed successfully")])

def handleSecretBindingsUpdate (env : Env) (out : Outside) (r : Request) : Outcome :=
  match requireInternalAuth env r with
  | some resp => { response := resp }
  | none =>
  match RequireMethod r MethodPost with
  | some resp => { response := resp }
  | none =>
  match DecodeJSON r secretBindingsUpdateRequest.decode "invalid json body" with
  | .error resp => { response := resp }
  | .ok req =>
  if req.SecretID = "" then { response := WriteText StatusBadRequest "secretId is required" }
  else
    let rotated := rotateToken env out
    let token := rotated.2.2
    let propagated := propagate env out req.SecretID token
    { calls := rotated.1 ++ propagated.1,
      logs := rotated.2.1 ++ propagated.2 ++
        [("info", "accepted secret bindings update request")],
      events := [("secret_bindings_update_accepted", "success")],
      response := { Status := StatusAccepted, Body := .empty } }

end worker

/-! ## Sample environments of the worker -/

/-- An environment with the variables of `vars` and no other. -/
def envOf (vars : List (String × String)) : Env := fun key => (vars.lookup key).getD ""

/-- A world outside in which every URL parses, GitHub and every endpoint
answer with success, and Harbor hands out `token`. -/
def obligingOutside (token : String) : worker.Outside :=
  { parseError := fun _ => .nil,
    github := fun _ => .ok "\x7b\x7d",
    Do := fun _ => .ok 200,
    harborToken := fun _ => .ok token }

/-- A request of the workflow engine as the worker reads it: the method, the
headers and the members of the JSON object. -/
def receivedByWorker (req : Request) : worker.Request :=
  { Method := req.Method, Header := req.Header, Body := some req.Body }

/-- The request that `gitproviderhttp.Client.CreateRepository` sends for the
repository of the application environment `x`, as the worker reads it. -/
def createRepositoryPost (ewURL token x : String) : worker.Request :=
  receivedByWorker (postRequest (ewURL ++ "/github/repos") token
    [("owner", .str "platform"), ("name", .str ("appenv-" ++ x)), ("private", .bool true)])

/-- The request that the appenv client sends to `path` for the application
environment `x`, as the worker reads it. -/
def appEnvPost (ewURL path token x : String) : worker.Request :=
  receivedByWorker (postRequest (ewURL ++ path) token [("applicationEnvironmentId", .str x)])

/-- The request that the secret bindings client sends for the secret
`secretID`, as the worker reads it. -/
def secretBindingsPost (ewURL token secretID : String) : worker.Request :=
  receivedByWorker (postRequest (ewURL ++ "/secrets/bindings/update") token
    [("secretId", .str secretID)])

/-- An environment of the worker with GitHub, Harbor and the forward endpoints
configured, and no internal auth token. -/
def configuredEnv : Env :=
  envOf [("GITHUB_TOKEN", "gh-token"),
    ("APPENV_SECRETS_ENDPOINT", "http://provisioner/secrets"),
    ("HARBOR_URL", "http://harbor/rotate"),
    ("HARBOR_ROBOT_USERNAME", "robot"),
    ("HARBOR_ROBOT_PASSWORD", "secret"),
    ("SECRET_BINDINGS_UPDATE_ENDPOINT", "http://bindings/update")]

/-- The three handlers that forward through `handleAppEnvAction`, each with the
variable of its endpoint and its domain event. -/
def appEnvActions :
    List (String × String × (Env → worker.Outside → worker.Request → worker.Outcome)) :=
  [("APPENV_SECRETS_ENDPOINT", "appenv_secrets_provisioned", worker.handleAppEnvSecrets),
   ("APPENV_SECRET_BINDINGS_ENDPOINT", "appenv_secret_bindings_created",
     worker.handleAppEnvSecretBindings),
   ("APPENV_GITOPS_VERIFY_ENDPOINT", "appenv_gitops_verified", worker.handleAppEnvGitOpsVerify)]

/-- What a create handler answers to a request whose id is in use: the store
stays as it was; when a field that the handler requires is empty (`missing`)
the answer is the 400 with the plain text `text`, written before the service is
called, and no event is observed; otherwise the answer is the 409 with the JSON
body of `code` and `message`. -/
def httpapi.Outcome.RejectsUsedID {σ : Type} (st : σ) (missing : Prop)
    (text code message : String) (o : httpapi.Outcome σ) : Prop :=
  o.store = st ∧
  (missing → o.response = { Status := 400, Body := .text text } ∧ o.metrics = []) ∧
  (¬ missing →
    o.response = { Status := 409, Body := .error { Code := code, Message := message } })

/-! # Theorems -/

/-! ## The map operations -/

theorem Items.get_put {α : Type} [Keyed α] (xs : Items α) (x : α) (id : String) :
    (xs.put x).get id = if id = Keyed.key x then some x else xs.get id := by
  induction xs with
  | nil =>
    by_cases h : id = Keyed.key x
    · simp [Items.put, Items.get, h]
    · have h2 : ¬ Keyed.key x = id := fun e => h e.symm
      simp [Items.put, Items.get, h, h2]
  | cons y ys ih =>
    by_cases hy : Keyed.key y = Keyed.key x
    · by_cases h : id = Keyed.key x
      · simp [Items.put, Items.get, hy, h]
      · have h2 : ¬ Keyed.key x = id := fun e => h e.symm
        simp [Items.put, Items.get, hy, h, h2]
    · by_cases h : id = Keyed.key x
      · subst h
        simpa [Items.put, Items.get, hy] using ih
      · by_cases hk : Keyed.key y = id
        · simp [Items.put, Items.get, hy, h, hk]
        · simpa [Items.put, Items.get, hy, h, hk] using ih

theorem Items.key_of_get {α : Type} [Keyed α] {xs : Items α} {x : α} {id : String}
    (h : xs.get id = some x) : Keyed.key x = id := by
  induction xs with
  | nil => simp [Items.get] at h
  | cons y ys ih =>
    by_cases hk : Keyed.key y = id
    · simp [Items.get, hk] at h
      subst h
      exact hk
    · simp [Items.get, hk] at h
      exact ih h

theorem Items.mem_of_get {α : Type} [Keyed α] {xs : Items α} {x : α} {id : String}
    (h : xs.get id = some x) : x ∈ xs := by
  induction xs with
  | nil => simp [Items.get] at h
  | cons y ys ih =>
    by_cases hk : Keyed.key y = id
    · simp [Items.get, hk] at h
      subst h
      exact List.mem_cons_self _ _
    · simp [Items.get, hk] at h
      exact List.mem_cons_of_mem _ (ih h)

theorem Items.put_put_restore {α : Type} [Keyed α] {xs : Items α} {x y : α} {id : String}
    (h : xs.get id = some x) (hy : Keyed.key y = id) : (xs.put y).put x = xs := by
  have hx : Keyed.key x = id := Items.key_of_get h
  induction xs with
  | nil => simp [Items.get] at h
  | cons z zs ih =>
    by_cases hk : Keyed.key z = id
    · simp [Items.get, hk] at h
      subst h
      simp [Items.put, hk, hy]
    · simp [Items.get, hk] at h
      have h1 : ¬ Keyed.key z = Keyed.key y := by rw [hy]; exact hk
      have h2 : ¬ Keyed.key z = Keyed.key x := by rw [hx]; exact hk
      simp [Items.put, h1, h2, ih h]


/-! ## The commands on the memory-backed services, in closed form -/

theorem run_CreateTeam (st : Store) (now : Nat) (id name createdBy : String) :
    run st now (.CreateTeam id name createdBy) =
      if (st.teams.get id).isSome then (st, ErrTeamAlreadyExists)
      else
        ({ st with
            teams := st.teams.put
              { ID := id, Name := name, State := TeamStateDraft,
                Metadata := { CreatedBy := createdBy, CreatedAt := now } } }, .nil) := by
  simp [run, Services.exec, memServices, Services.CreateTeam, memoryrepo.NewTeamRepository,
    saveResult]

theorem run_CreateApplication (st : Store) (now : Nat) (id name teamID createdBy : String) :
    run st now (.CreateApplication id name teamID createdBy) =
      if (st.applications.get id).isSome then (st, ErrApplicationAlreadyExists)
      else if (st.teams.get teamID).isSome then
        ({ st with
            applications := st.applications.put
              { ID := id, Name := name, TeamID := teamID, State := ApplicationStateProposed,
                Metadata := { CreatedBy := createdBy, CreatedAt := now } } }, .nil)
      else (st, NotFound "team_not_found" "team not found" .nil) := by
  cases h : st.teams.get teamID <;>
  simp [run, Services.exec, memServices, Services.CreateApplication,
    memoryrepo.NewTeamRepository, memoryrepo.NewApplicationRepository, saveResult, h]

theorem run_ApproveApplication (st : Store) (now : Nat) (id approvedBy : String) :
    run st now (.ApproveApplication id approvedBy) =
      match st.applications.get id with
      | some app =>
        if app.State = ApplicationStateProposed then
          ({ st with
              applications :=
                st.applications.put { app with State := ApplicationStateApproved } }, .nil)
        else (st, Domain "application_invalid_state_for_approval"
          "application can only be approved from Proposed state" .nil)
      | none => (st, NotFound "application_not_found" "application not found" .nil) := by
  cases h : st.applications.get id <;>
  simp [run, Services.exec, memServices, Services.ApproveApplication,
    memoryrepo.NewApplicationRepository, saveResult, h]

theorem run_StartApplicationOnboarding (st : Store) (now : Nat) (id startedBy : String) :
    run st now (.StartApplicationOnboarding id startedBy) =
      match st.applications.get id with
      | some app =>
        if app.State = ApplicationStateApproved then
          ({ st with
              applications :=
                st.applications.put { app with State := ApplicationStateOnboarding } }, .nil)
        else (st, Domain "application_invalid_state_for_onboarding"
          "application can only start onboarding from Approved state" .nil)
      | none => (st, NotFound "application_not_found" "application not found" .nil) := by
  cases h : st.applications.get id <;>
  simp [run, Services.exec, memServices, Services.StartApplicationOnboarding,
    memoryrepo.NewApplicationRepository, saveResult, h]

theorem run_ActivateApplication (st : Store) (now : Nat) (id activatedBy : String) :
    run st now (.ActivateApplication id activatedBy) =
      match st.applications.get id with
      | some app =>
        if app.State = ApplicationStateOnboarding then
          ({ st with
              applications :=
                st.applications.put { app with State := ApplicationStateActive } }, .nil)
        else (st, Domain "application_invalid_state_for_activation"
          "application can only be activated from Onboarding state" .nil)
      | none => (st, NotFound "application_not_found" "application not found" .nil) := by
  cases h : st.applications.get id <;>
  simp [run, Services.exec, memServices, Services.ActivateApplication,
    memoryrepo.NewApplicationRepository, saveResult, h]

theorem run_DeprecateApplication (st : Store) (now : Nat) (id deprecatedBy : String) :
    run st now (.DeprecateApplication id deprecatedBy) =
      match st.applications.get id with
      | some app =>
        if app.State = ApplicationStateActive then
          ({ st with
              applications :=
                st.applications.put { app with State := ApplicationStateDeprecated } }, .nil)
        else (st, Domain "application_invalid_state_for_deprecation"
          "application can only be deprecated from Active state" .nil)
      | none => (st, NotFound "application_not_found" "application not found" .nil) := by
  cases h : st.applications.get id <;>
  simp [run, Services.exec, memServices, Services.DeprecateApplication,
    memoryrepo.NewApplicationRepository, saveResult, h]

theorem run_CreateEnvironment (st : Store) (now : Nat) (id name createdBy : String) :
    run st now (.CreateEnvironment id name createdBy) =
      if (st.environments.get id).isSome then
        (st, Conflict "environment_already_exists" "environment already exists" .nil)
      else
        ({ st with
            environments := st.environments.put
              { ID := id, Name := name, State := EnvironmentStatePlanned,
                Metadata := { CreatedBy := createdBy, CreatedAt := now } } }, .nil) := by
  simp [run, Services.exec, memServices, Services.CreateEnvironment,
    memoryrepo.NewEnvironmentRepository, saveResult]

theorem run_DeclareCodeRepository (st : Store) (now : Nat) (id applicationID createdBy : String) :
    run st now (.DeclareCodeRepository id applicationID createdBy) =
      if (st.codeRepositories.get id).isSome then
        (st, Conflict "code_repository_already_exists" "code repository already exists" .nil)
      else if (st.applications.get applicationID).isSome then
        ({ st with
            codeRepositories := st.codeRepositories.put
              { ID := id, ApplicationID := applicationID, State := CodeRepositoryStateDeclared,
                Metadata := { CreatedBy := createdBy, CreatedAt := now } } }, .nil)
      else (st, NotFound "application_not_found" "application not found" .nil) := by
  cases h : st.applications.get applicationID <;>
  simp [run, Services.exec, memServices, Services.DeclareCodeRepository,
    memoryrepo.NewCodeRepositoryRepository, memoryrepo.NewApplicationRepository, saveResult, h]

theorem run_DeclareDeploymentRepository (st : Store) (now : Nat)
    (id applicationID deploymentModel createdBy : String) :
    run st now (.DeclareDeploymentRepository id applicationID deploymentModel createdBy) =
      if (st.deploymentRepositories.get id).isSome then
        (st, Conflict "deployment_repository_already_exists"
          "deployment repository already exists" .nil)
      else if (st.applications.get applicationID).isSome then
        ({ st with
            deploymentRepositories := st.deploymentRepositories.put
              { ID := id, ApplicationID := applicationID, DeploymentModel := deploymentModel,
                State := DeploymentRepositoryStateDeclared,
                Metadata := { CreatedBy := createdBy, CreatedAt := now } } }, .nil)
      else (st, NotFound "application_not_found" "application not found" .nil) := by
  cases h : st.applications.get applicationID <;>
  simp [run, Services.exec, memServices, Services.DeclareDeploymentRepository,
    memoryrepo.NewDeploymentRepositoryRepository, memoryrepo.NewApplicationRepository,
    saveResult, h]

theorem run_DeclareApplicationEnvironment (st : Store) (now : Nat)
    (id applicationID environmentID createdBy : String) :
    run st now (.DeclareApplicationEnvironment id applicationID environmentID createdBy) =
      if (st.applicationEnvironments.get id).isSome then
        (st, Conflict "application_environment_already_exists"
          "application environment already exists" .nil)
      else if (st.applications.get applicationID).isSome then
        if (st.environments.get environmentID).isSome then
          if (st.applicationEnvironments.find? (fun ae =>
              ae.ApplicationID == applicationID && ae.EnvironmentID == environmentID)).isSome then
            (st, Conflict "application_environment_pair_already_exists"
              "application environment pair already exists" .nil)
          else
            ({ st with
                applicationEnvironments := st.applicationEnvironments.put
                  { ID := id, ApplicationID := applicationID, EnvironmentID := environmentID,
                    State := ApplicationEnvironmentStateDeclared,
                    Metadata := { CreatedBy := createdBy, CreatedAt := now } } }, .nil)
        else (st, NotFound "environment_not_found" "environment not found" .nil)
      else (st, NotFound "application_not_found" "application not found" .nil) := by
  cases h : st.applications.get applicationID <;>
  cases h2 : st.environments.get environmentID <;>
  simp [run, Services.exec, memServices, Services.DeclareApplicationEnvironment,
    memoryrepo.NewApplicationEnvironmentRepository, memoryrepo.NewApplicationRepository,
    memoryrepo.NewEnvironmentRepository, saveResult, h, h2]

theorem run_CompleteApplicationEnvironmentProvisioning (st : Store) (now : Nat)
    (id completedBy : String) :
    run st now (.CompleteApplicationEnvironmentProvisioning id completedBy) =
      match st.applicationEnvironments.get id with
      | some appEnv =>
        if appEnv.State = ApplicationEnvironmentStateDeclared ∨
            appEnv.State = ApplicationEnvironmentStateProvisioning then
          ({ st with
              applicationEnvironments := st.applicationEnvironments.put
                { appEnv with State := ApplicationEnvironmentStateActive } }, .nil)
        else (st, Domain "application_environment_invalid_state_for_activation"
          "application environment cannot be activated from current state" .nil)
      | none => (st, ErrApplicationEnvironmentNotFound) := by
  cases h : st.applicationEnvironments.get id with
  | none =>
    simp [run, Services.exec, memServices, Services.CompleteApplicationEnvironmentProvisioning,
      memoryrepo.NewApplicationEnvironmentRepository, saveResult, h]
  | some appEnv =>
    by_cases h1 : appEnv.State = ApplicationEnvironmentStateDeclared <;>
    by_cases h2 : appEnv.State = ApplicationEnvironmentStateProvisioning <;>
    simp [run, Services.exec, memServices, Services.CompleteApplicationEnvironmentProvisioning,
      memoryrepo.NewApplicationEnvironmentRepository, saveResult, h, h1, h2]

theorem run_DeclareGitOpsIntegration (st : Store) (now : Nat)
    (id applicationID deploymentRepoID createdBy : String) :
    run st now (.DeclareGitOpsIntegration id applicationID deploymentRepoID createdBy) =
      if (st.gitOpsIntegrations.get id).isSome then
        (st, Conflict "gitops_integration_already_exists"
          "gitops integration already exists" .nil)
      else if (st.applications.get applicationID).isSome then
        match st.deploymentRepositories.get deploymentRepoID with
        | some dep =>
          if dep.ApplicationID = applicationID then
            ({ st with
                gitOpsIntegrations := st.gitOpsIntegrations.put
                  { ID := id, ApplicationID := applicationID,
                    DeploymentRepositoryID := deploymentRepoID,
                    Metadata := { CreatedBy := createdBy, CreatedAt := now } } }, .nil)
          else (st, Domain "deployment_repository_wrong_application"
            "deployment repository does not belong to application" .nil)
        | none => (st, NotFound "deployment_repository_not_found"
            "deployment repository not found" .nil)
      else (st, NotFound "application_not_found" "application not found" .nil) := by
  cases h : st.applications.get applicationID <;>
  cases h2 : st.deploymentRepositories.get deploymentRepoID <;>
  simp [run, Services.exec, memServices, Services.DeclareGitOpsIntegration,
    memoryrepo.NewGitOpsIntegrationRepository, memoryrepo.NewApplicationRepository,
    memoryrepo.NewDeploymentRepositoryRepository, saveResult, h, h2]

theorem run_CreateSecret (st : Store) (now : Nat)
    (id ownerTeamID purpose sensitivity createdBy : String) :
    run st now (.CreateSecret id ownerTeamID purpose sensitivity createdBy) =
      if ownerTeamID = "" then
        (st, Validation "owner_team_required" "owner team is required" .nil)
      else if (st.secrets.get id).isSome then
        (st, Conflict "secret_already_exists" "secret already exists" .nil)
      else if (st.teams.get ownerTeamID).isSome then
        ({ st with
            secrets := st.secrets.put
              { ID := id, OwnerTeam := ownerTeamID, Purpose := purpose,
                Sensitivity := sensitivity, State := SecretStateDeclared,
                Metadata := { CreatedBy := createdBy, CreatedAt := now } } }, .nil)
      else (st, NotFound "owner_team_not_found" "owner team not found" .nil) := by
  cases h : st.teams.get ownerTeamID <;>
  simp [run, Services.exec, memServices, Services.CreateSecret,
    memoryrepo.NewSecretRepository, memoryrepo.NewTeamRepository, saveResult, h]

theorem run_StartSecretRotation (st : Store) (now : Nat) (id startedBy : String) :
    run st now (.StartSecretRotation id startedBy) =
      match st.secrets.get id with
      | some sec =>
        if sec.State = SecretStateActive then
          ({ st with secrets := st.secrets.put { sec with State := SecretStateRotating } }, .nil)
        else (st, Domain "secret_invalid_state_for_start_rotation"
          "secret can only start rotation from Active state" .nil)
      | none => (st, NotFound "secret_not_found" "secret not found" .nil) := by
  cases h : st.secrets.get id <;>
  simp [run, Services.exec, memServices, Services.StartSecretRotation,
    memoryrepo.NewSecretRepository, saveResult, h]

theorem run_CompleteSecretRotation (st : Store) (now : Nat) (id completedBy : String) :
    run st now (.CompleteSecretRotation id completedBy) =
      match st.secrets.get id with
      | some sec =>
        if sec.State = SecretStateRotating then
          ({ st with secrets := st.secrets.put { sec with State := SecretStateActive } }, .nil)
        else (st, Domain "secret_invalid_state_for_complete_rotation"
          "secret can only complete rotation from Rotating state" .nil)
      | none => (st, NotFound "secret_not_found" "secret not found" .nil) := by
  cases h : st.secrets.get id <;>
  simp [run, Services.exec, memServices, Services.CompleteSecretRotation,
    memoryrepo.NewSecretRepository, saveResult, h]

theorem run_DeclareSecretBinding (st : Store) (now : Nat)
    (id secretID targetID targetType createdBy : String) :
    run st now (.DeclareSecretBinding id secretID targetID targetType createdBy) =
      if (st.secretBindings.get id).isSome then
        (st, Conflict "secret_binding_already_exists" "secret binding already exists" .nil)
      else
        match st.secrets.get secretID with
        | some secret =>
          if secret.State = SecretStateActive then
            ({ st with
                secretBindings := st.secretBindings.put
                  { ID := id, SecretID := secretID, TargetID := targetID,
                    TargetType := targetType, State := SecretBindingStateDeclared,
                    Metadata := { CreatedBy := createdBy, CreatedAt := now } } }, .nil)
          else (st, Domain "binding_requires_active_secret"
            "binding requires active secret" .nil)
        | none => (st, NotFound "secret_not_found" "secret not found" .nil) := by
  cases h : st.secrets.get secretID <;>
  simp [run, Services.exec, memServices, Services.DeclareSecretBinding,
    memoryrepo.NewSecretBindingRepository, memoryrepo.NewSecretRepository, saveResult, h]

/-! ## Lookups after a save -/


theorem Items.get_put_of_key {α : Type} [Keyed α] (xs : Items α) {x : α} {i : String}
    (hx : Keyed.key x = i) (id : String) :
    (xs.put x).get id = if id = i then some x else xs.get id := by
  rw [Items.get_put, hx]

/-- Saving an application with a new state: what a lookup sees afterwards. -/
theorem applications_after_transition {xs : Items Application} {i id : String}
    {app a : Application} (s : ApplicationState)
    (happ : xs.get i = some app) (h : xs.get id = some a) :
    ∃ b, (xs.put { app with State := s }).get id = some b ∧
      ((id = i ∧ a = app ∧ b.State = s) ∨ b = a) := by
  have hk : Keyed.key ({ app with State := s } : Application) = i :=
    (Items.key_of_get happ : Keyed.key app = i)
  rw [Items.get_put_of_key xs hk]
  by_cases hid : id = i
  · subst hid
    rw [h] at happ
    cases happ
    exact ⟨{ app with State := s }, by simp, Or.inl ⟨rfl, rfl, rfl⟩⟩
  · exact ⟨a, by simp [hid, h], Or.inr rfl⟩

theorem Items.isSome_get_put {α : Type} [Keyed α] (xs : Items α) (x : α) (id : String)
    (h : (xs.get id).isSome) : ((xs.put x).get id).isSome := by
  rw [Items.get_put]
  split
  · rfl
  · exact h

/-- A lookup after a save sees the saved entity or an entity stored before. -/
theorem Items.get_put_cases {α : Type} [Keyed α] {xs : Items α} {x y : α} {id : String}
    (h : (xs.put x).get id = some y) : (id = Keyed.key x ∧ y = x) ∨ xs.get id = some y := by
  rw [Items.get_put] at h
  split at h
  · rename_i hid
    exact Or.inl ⟨hid, (Option.some.inj h).symm⟩
  · exact Or.inr h

/-! ## Preservation of consistency -/

theorem consistent_empty : Store.empty.Consistent := by
  constructor <;> intros <;> simp_all [Store.empty, Items.get]

theorem consistent_put_team {st : Store} (h : st.Consistent) (t : Team) :
    Store.Consistent { st with teams := st.teams.put t } :=
  { h with
    application_team := fun id a ha =>
      Items.isSome_get_put _ _ _ (h.application_team id a ha)
    secret_ownerTeam := fun id s hs =>
      ⟨(h.secret_ownerTeam id s hs).1,
        Items.isSome_get_put _ _ _ (h.secret_ownerTeam id s hs).2⟩ }

theorem consistent_put_application {st : Store} (h : st.Consistent) (a : Application)
    (ht : (st.teams.get a.TeamID).isSome) :
    Store.Consistent { st with applications := st.applications.put a } :=
  { h with
    application_team := fun id b hb => by
      rcases Items.get_put_cases hb with ⟨_, rfl⟩ | hold
      · exact ht
      · exact h.application_team id b hold
    codeRepository_application := fun id r hr =>
      Items.isSome_get_put _ _ _ (h.codeRepository_application id r hr)
    deploymentRepository_application := fun id r hr =>
      Items.isSome_get_put _ _ _ (h.deploymentRepository_application id r hr)
    applicationEnvironment_application := fun id ae hae =>
      Items.isSome_get_put _ _ _ (h.applicationEnvironment_application id ae hae) }

theorem consistent_put_environment {st : Store} (h : st.Consistent) (e : Environment) :
    Store.Consistent { st with environments := st.environments.put e } :=
  { h with
    applicationEnvironment_environment := fun id ae hae =>
      Items.isSome_get_put _ _ _ (h.applicationEnvironment_environment id ae hae) }

theorem consistent_put_codeRepository {st : Store} (h : st.Consistent) (r : CodeRepository)
    (ha : (st.applications.get r.ApplicationID).isSome) :
    Store.Consistent { st with codeRepositories := st.codeRepositories.put r } :=
  { h with
    codeRepository_application := fun id q hq => by
      rcases Items.get_put_cases hq with ⟨_, rfl⟩ | hold
      · exact ha
      · exact h.codeRepository_application id q hold }

theorem consistent_put_deploymentRepository {st : Store} (h : st.Consistent)
    (r : DeploymentRepository) (ha : (st.applications.get r.ApplicationID).isSome)
    (hfresh : st.deploymentRepositories.get r.ID = none) :
    Store.Consistent { st with deploymentRepositories := st.deploymentRepositories.put r } :=
  { h with
    deploymentRepository_application := fun id q hq => by
      rcases Items.get_put_cases hq with ⟨_, rfl⟩ | hold
      · exact ha
      · exact h.deploymentRepository_application id q hold
    gitOpsIntegration_deploymentRepository := fun id g hg => by
      obtain ⟨d, hd, hda⟩ := h.gitOpsIntegration_deploymentRepository id g hg
      refine ⟨d, ?_, hda⟩
      have hne : g.DeploymentRepositoryID ≠ Keyed.key r := by
        intro e
        rw [e] at hd
        exact absurd (hfresh.symm.trans hd) (by simp)
      simp only [Items.get_put, if_neg hne]
      exact hd }

theorem consistent_put_applicationEnvironment {st : Store} (h : st.Consistent)
    (ae : ApplicationEnvironment) (ha : (st.applications.get ae.ApplicationID).isSome)
    (he : (st.environments.get ae.EnvironmentID).isSome)
    (hpair : ∀ j b, st.applicationEnvironments.get j = some b →
      b.ApplicationID = ae.ApplicationID → b.EnvironmentID = ae.EnvironmentID → j = ae.ID) :
    Store.Consistent
      { st with applicationEnvironments := st.applicationEnvironments.put ae } :=
  { h with
    applicationEnvironment_application := fun id q hq => by
      rcases Items.get_put_cases hq with ⟨_, rfl⟩ | hold
      · exact ha
      · exact h.applicationEnvironment_application id q hold
    applicationEnvironment_environment := fun id q hq => by
      rcases Items.get_put_cases hq with ⟨_, rfl⟩ | hold
      · exact he
      · exact h.applicationEnvironment_environment id q hold
    applicationEnvironment_pair := fun i j a b hi hj hab heb => by
      rcases Items.get_put_cases hi with ⟨hi1, rfl⟩ | hiold <;>
      rcases Items.get_put_cases hj with ⟨hj1, rfl⟩ | hjold
      · exact hi1.trans hj1.symm
      · exact hi1.trans (hpair j b hjold hab.symm heb.symm).symm
      · exact (hpair i a hiold hab heb).trans hj1.symm
      · exact h.applicationEnvironment_pair i j a b hiold hjold hab heb }

theorem consistent_put_gitOpsIntegration {st : Store} (h : st.Consistent)
    (g : GitOpsIntegration)
    (hd : ∃ d, st.deploymentRepositories.get g.DeploymentRepositoryID = some d ∧
      d.ApplicationID = g.ApplicationID) :
    Store.Consistent { st with gitOpsIntegrations := st.gitOpsIntegrations.put g } :=
  { h with
    gitOpsIntegration_deploymentRepository := fun id q hq => by
      rcases Items.get_put_cases hq with ⟨_, rfl⟩ | hold
      · exact hd
      · exact h.gitOpsIntegration_deploymentRepository id q hold }

theorem consistent_put_secret {st : Store} (h : st.Consistent) (s : Secret)
    (ho : s.OwnerTeam ≠ "" ∧ (st.teams.get s.OwnerTeam).isSome) :
    Store.Consistent { st with secrets := st.secrets.put s } :=
  { h with
    secret_ownerTeam := fun id q hq => by
      rcases Items.get_put_cases hq with ⟨_, rfl⟩ | hold
      · exact ho
      · exact h.secret_ownerTeam id q hold }

theorem consistent_put_secretBinding {st : Store} (h : st.Consistent) (b : SecretBinding) :
    Store.Consistent { st with secretBindings := st.secretBindings.put b } :=
  { h with }


theorem Items.find_isSome_of_get {α : Type} [Keyed α] {xs : Items α} {x : α} {id : String}
    (p : α → Bool) (h : xs.get id = some x) (hp : p x = true) : (xs.find? p).isSome := by
  rw [List.find?_isSome]
  exact ⟨x, Items.mem_of_get h, hp⟩

theorem consistent_step {st : Store} (h : st.Consistent) (now : Nat) (c : Command) :
    (run st now c).1.Consistent := by
  cases c
  case CreateTeam i n cb =>
    rw [run_CreateTeam]
    split
    · exact h
    · exact consistent_put_team h _
  case CreateApplication i n t cb =>
    rw [run_CreateApplication]
    split
    · exact h
    · split
      · rename_i ht
        exact consistent_put_application h _ ht
      · exact h
  case ApproveApplication i cb =>
    rw [run_ApproveApplication]
    split
    · rename_i app happ
      split
      · exact consistent_put_application h _ (h.application_team i app happ)
      · exact h
    · exact h
  case StartApplicationOnboarding i cb =>
    rw [run_StartApplicationOnboarding]
    split
    · rename_i app happ
      split
      · exact consistent_put_application h _ (h.application_team i app happ)
      · exact h
    · exact h
  case ActivateApplication i cb =>
    rw [run_ActivateApplication]
    split
    · rename_i app happ
      split
      · exact consistent_put_application h _ (h.application_team i app happ)
      · exact h
    · exact h
  case DeprecateApplication i cb =>
    rw [run_DeprecateApplication]
    split
    · rename_i app happ
      split
      · exact consistent_put_application h _ (h.application_team i app happ)
      · exact h
    · exact h
  case CreateEnvironment i n cb =>
    rw [run_CreateEnvironment]
    split
    · exact h
    · exact consistent_put_environment h _
  case DeclareApplicationEnvironment i a e cb =>
    rw [run_DeclareApplicationEnvironment]
    split
    · exact h
    · split
      · rename_i ha
        split
        · rename_i he
          split
          · exact h
          · rename_i hfind
            refine consistent_put_applicationEnvironment h _ ha he ?_
            intro j b hb hba hbe
            exfalso
            apply hfind
            exact Items.find_isSome_of_get _ hb (by simp [hba, hbe])
        · exact h
      · exact h
  case CompleteApplicationEnvironmentProvisioning i cb =>
    rw [run_CompleteApplicationEnvironmentProvisioning]
    split
    · rename_i ae hae
      split
      · refine consistent_put_applicationEnvironment h _
          (h.applicationEnvironment_application i ae hae)
          (h.applicationEnvironment_environment i ae hae) ?_
        intro j b hb hba hbe
        exact (h.applicationEnvironment_pair j i b ae hb hae hba hbe).trans
          (Items.key_of_get hae : Keyed.key ae = i).symm
      · exact h
    · exact h
  case DeclareCodeRepository i a cb =>
    rw [run_DeclareCodeRepository]
    split
    · exact h
    · split
      · rename_i ha
        exact consistent_put_codeRepository h _ ha
      · exact h
  case DeclareDeploymentRepository i a m cb =>
    rw [run_DeclareDeploymentRepository]
    split
    · exact h
    · rename_i hfresh
      split
      · rename_i ha
        exact consistent_put_deploymentRepository h _ ha (by simpa using hfresh)
      · exact h
  case DeclareGitOpsIntegration i a d cb =>
    rw [run_DeclareGitOpsIntegration]
    split
    · exact h
    · split
      · split
        · rename_i dep hdep
          split
          · rename_i hda
            exact consistent_put_gitOpsIntegration h _ ⟨dep, hdep, hda⟩
          · exact h
        · exact h
      · exact h
  case CreateSecret i o p s cb =>
    rw [run_CreateSecret]
    split
    · exact h
    · rename_i ho
      split
      · exact h
      · split
        · rename_i ht
          exact consistent_put_secret h _ ⟨ho, ht⟩
        · exact h
  case StartSecretRotation i cb =>
    rw [run_StartSecretRotation]
    split
    · rename_i sec hsec
      split
      · exact consistent_put_secret h _ (h.secret_ownerTeam i sec hsec)
      · exact h
    · exact h
  case CompleteSecretRotation i cb =>
    rw [run_CompleteSecretRotation]
    split
    · rename_i sec hsec
      split
      · exact consistent_put_secret h _ (h.secret_ownerTeam i sec hsec)
      · exact h
    · exact h
  case DeclareSecretBinding i s t ty cb =>
    rw [run_DeclareSecretBinding]
    split
    · exact h
    · split
      · split
        · exact consistent_put_secretBinding h _
        · exact h
      · exact h

theorem reachable_consistent {st : Store} (h : Reachable st) : st.Consistent := by
  induction h with
  | empty => exact consistent_empty
  | step now c _ ih => exact consistent_step ih now c

theorem reachable_runAll {st : Store} (h : Reachable st) (cs : List (Nat × Command)) :
    Reachable (runAll st cs) := by
  induction cs generalizing st with
  | nil => exact h
  | cons x xs ih => exact ih (Reachable.step x.1 x.2 h)

/-! ## C1: the edges of the Application state machine -/

/-- C1. For every store, clock reading and command, an application stored
before the command is still stored after it, and if its state differs then the
change is Proposed to Approved by ApproveApplication, Approved to Onboarding by
StartApplicationOnboarding, Onboarding to Active by ActivateApplication, or
Active to Deprecated by DeprecateApplication, each invoked on that
application's id. -/
theorem C1_application_state_edges (st : Store) (now : Nat) (c : Command) (id : String)
    (a : Application) (h : st.applications.get id = some a) :
    ∃ b, (run st now c).1.applications.get id = some b ∧
      (a.State ≠ b.State →
        (a.State = ApplicationStateProposed ∧ b.State = ApplicationStateApproved ∧
          ∃ by_, c = .ApproveApplication id by_) ∨
        (a.State = ApplicationStateApproved ∧ b.State = ApplicationStateOnboarding ∧
          ∃ by_, c = .StartApplicationOnboarding id by_) ∨
        (a.State = ApplicationStateOnboarding ∧ b.State = ApplicationStateActive ∧
          ∃ by_, c = .ActivateApplication id by_) ∨
        (a.State = ApplicationStateActive ∧ b.State = ApplicationStateDeprecated ∧
          ∃ by_, c = .DeprecateApplication id by_)) := by
  have same : ∀ st2 : Store, st2.applications = st.applications →
      ∃ b, st2.applications.get id = some b ∧
      (a.State ≠ b.State →
        (a.State = ApplicationStateProposed ∧ b.State = ApplicationStateApproved ∧
          ∃ by_, c = .ApproveApplication id by_) ∨
        (a.State = ApplicationStateApproved ∧ b.State = ApplicationStateOnboarding ∧
          ∃ by_, c = .StartApplicationOnboarding id by_) ∨
        (a.State = ApplicationStateOnboarding ∧ b.State = ApplicationStateActive ∧
          ∃ by_, c = .ActivateApplication id by_) ∨
        (a.State = ApplicationStateActive ∧ b.State = ApplicationStateDeprecated ∧
          ∃ by_, c = .DeprecateApplication id by_)) :=
    fun st2 e => ⟨a, by rw [e]; exact h, fun hne => absurd rfl hne⟩
  cases c
  case CreateTeam =>
    rw [run_CreateTeam]
    repeat' split
    all_goals exact same _ rfl
  case CreateApplication i n t cb =>
    rw [run_CreateApplication]
    split
    · exact same _ rfl
    · rename_i hfresh
      split
      · refine ⟨a, ?_, fun hne => absurd rfl hne⟩
        have : id ≠ i := by
          rintro rfl
          simp [h] at hfresh
        simp [Items.get_put, this, h, Keyed.key]
      · exact same _ rfl
  case ApproveApplication i cb =>
    rw [run_ApproveApplication]
    split
    · rename_i app happ
      split
      · rename_i hs
        obtain ⟨b, hb, hcase⟩ := applications_after_transition ApplicationStateApproved happ h
        refine ⟨b, hb, fun hne => ?_⟩
        rcases hcase with ⟨rfl, rfl, hbs⟩ | rfl
        · exact Or.inl ⟨hs, hbs, cb, rfl⟩
        · exact absurd rfl hne
      · exact same _ rfl
    · exact same _ rfl
  case StartApplicationOnboarding i cb =>
    rw [run_StartApplicationOnboarding]
    split
    · rename_i app happ
      split
      · rename_i hs
        obtain ⟨b, hb, hcase⟩ := applications_after_transition ApplicationStateOnboarding happ h
        refine ⟨b, hb, fun hne => ?_⟩
        rcases hcase with ⟨rfl, rfl, hbs⟩ | rfl
        · exact Or.inr (Or.inl ⟨hs, hbs, cb, rfl⟩)
        · exact absurd rfl hne
      · exact same _ rfl
    · exact same _ rfl
  case ActivateApplication i cb =>
    rw [run_ActivateApplication]
    split
    · rename_i app happ
      split
      · rename_i hs
        obtain ⟨b, hb, hcase⟩ := applications_after_transition ApplicationStateActive happ h
        refine ⟨b, hb, fun hne => ?_⟩
        rcases hcase with ⟨rfl, rfl, hbs⟩ | rfl
        · exact Or.inr (Or.inr (Or.inl ⟨hs, hbs, cb, rfl⟩))
        · exact absurd rfl hne
      · exact same _ rfl
    · exact same _ rfl
  case DeprecateApplication i cb =>
    rw [run_DeprecateApplication]
    split
    · rename_i app happ
      split
      · rename_i hs
        obtain ⟨b, hb, hcase⟩ := applications_after_transition ApplicationStateDeprecated happ h
        refine ⟨b, hb, fun hne => ?_⟩
        rcases hcase with ⟨rfl, rfl, hbs⟩ | rfl
        · exact Or.inr (Or.inr (Or.inr ⟨hs, hbs, cb, rfl⟩))
        · exact absurd rfl hne
      · exact same _ rfl
    · exact same _ rfl
  case CreateEnvironment =>
    rw [run_CreateEnvironment]
    repeat' split
    all_goals exact same _ rfl
  case DeclareApplicationEnvironment =>
    rw [run_DeclareApplicationEnvironment]
    repeat' split
    all_goals exact same _ rfl
  case CompleteApplicationEnvironmentProvisioning =>
    rw [run_CompleteApplicationEnvironmentProvisioning]
    repeat' split
    all_goals exact same _ rfl
  case DeclareCodeRepository =>
    rw [run_DeclareCodeRepository]
    repeat' split
    all_goals exact same _ rfl
  case DeclareDeploymentRepository =>
    rw [run_DeclareDeploymentRepository]
    repeat' split
    all_goals exact same _ rfl
  case DeclareGitOpsIntegration =>
    rw [run_DeclareGitOpsIntegration]
    repeat' split
    all_goals exact same _ rfl
  case CreateSecret =>
    rw [run_CreateSecret]
    repeat' split
    all_goals exact same _ rfl
  case StartSecretRotation =>
    rw [run_StartSecretRotation]
    repeat' split
    all_goals exact same _ rfl
  case CompleteSecretRotation =>
    rw [run_CompleteSecretRotation]
    repeat' split
    all_goals exact same _ rfl
  case DeclareSecretBinding =>
    rw [run_DeclareSecretBinding]
    repeat' split
    all_goals exact same _ rfl

/-- Witness of C1: approving the Proposed application app-1 of the sample
store. -/
theorem C1_application_state_edges_witness :
    sampleStore.applications.get "app-1" = some sampleApp1 ∧
    ∃ b, (run sampleStore 9 (.ApproveApplication "app-1" "api")).1.applications.get "app-1"
        = some b ∧
      (sampleApp1.State ≠ b.State →
        (sampleApp1.State = ApplicationStateProposed ∧ b.State = ApplicationStateApproved ∧
          ∃ by_, Command.ApproveApplication "app-1" "api" = .ApproveApplication "app-1" by_) ∨
        (sampleApp1.State = ApplicationStateApproved ∧ b.State = ApplicationStateOnboarding ∧
          ∃ by_, Command.ApproveApplication "app-1" "api" =
            .StartApplicationOnboarding "app-1" by_) ∨
        (sampleApp1.State = ApplicationStateOnboarding ∧ b.State = ApplicationStateActive ∧
          ∃ by_, Command.ApproveApplication "app-1" "api" = .ActivateApplication "app-1" by_) ∨
        (sampleApp1.State = ApplicationStateActive ∧ b.State = ApplicationStateDeprecated ∧
          ∃ by_, Command.ApproveApplication "app-1" "api" =
            .DeprecateApplication "app-1" by_)) :=
  ⟨by decide,
    C1_application_state_edges sampleStore 9 (.ApproveApplication "app-1" "api") "app-1"
      sampleApp1 (by decide)⟩

/-! ## C2: strict guards of the application transitions -/

/-- C2. When the application exists but is not in the state a transition
requires (Proposed for ApproveApplication, Approved for
StartApplicationOnboarding, Onboarding for ActivateApplication, Active for
DeprecateApplication), the command leaves the store as it was and returns a
domain-kind error with the code application_invalid_state_for_approval,
_for_onboarding, _for_activation or _for_deprecation respectively; the target
state itself is such a state. -/
theorem C2_invalid_state_is_rejected (st : Store) (now : Nat) (id by_ : String)
    (a : Application) (h : st.applications.get id = some a) :
    (a.State ≠ ApplicationStateProposed →
      (run st now (.ApproveApplication id by_)).1 = st ∧
      IsKind (run st now (.ApproveApplication id by_)).2 KindDomain = true ∧
      Code (run st now (.ApproveApplication id by_)).2 =
        "application_invalid_state_for_approval") ∧
    (a.State ≠ ApplicationStateApproved →
      (run st now (.StartApplicationOnboarding id by_)).1 = st ∧
      IsKind (run st now (.StartApplicationOnboarding id by_)).2 KindDomain = true ∧
      Code (run st now (.StartApplicationOnboarding id by_)).2 =
        "application_invalid_state_for_onboarding") ∧
    (a.State ≠ ApplicationStateOnboarding →
      (run st now (.ActivateApplication id by_)).1 = st ∧
      IsKind (run st now (.ActivateApplication id by_)).2 KindDomain = true ∧
      Code (run st now (.ActivateApplication id by_)).2 =
        "application_invalid_state_for_activation") ∧
    (a.State ≠ ApplicationStateActive →
      (run st now (.DeprecateApplication id by_)).1 = st ∧
      IsKind (run st now (.DeprecateApplication id by_)).2 KindDomain = true ∧
      Code (run st now (.DeprecateApplication id by_)).2 =
        "application_invalid_state_for_deprecation") := by
  refine ⟨fun hs => ?_, fun hs => ?_, fun hs => ?_, fun hs => ?_⟩
  · have e : run st now (.ApproveApplication id by_) =
        (st, Domain "application_invalid_state_for_approval"
          "application can only be approved from Proposed state" .nil) := by
      rw [run_ApproveApplication, h]
      exact if_neg hs
    rw [e]
    exact ⟨rfl, rfl, rfl⟩
  · have e : run st now (.StartApplicationOnboarding id by_) =
        (st, Domain "application_invalid_state_for_onboarding"
          "application can only start onboarding from Approved state" .nil) := by
      rw [run_StartApplicationOnboarding, h]
      exact if_neg hs
    rw [e]
    exact ⟨rfl, rfl, rfl⟩
  · have e : run st now (.ActivateApplication id by_) =
        (st, Domain "application_invalid_state_for_activation"
          "application can only be activated from Onboarding state" .nil) := by
      rw [run_ActivateApplication, h]
      exact if_neg hs
    rw [e]
    exact ⟨rfl, rfl, rfl⟩
  · have e : run st now (.DeprecateApplication id by_) =
        (st, Domain "application_invalid_state_for_deprecation"
          "application can only be deprecated from Active state" .nil) := by
      rw [run_DeprecateApplication, h]
      exact if_neg hs
    rw [e]
    exact ⟨rfl, rfl, rfl⟩

/-- Witness of C2: the application app-1 of the sample store, once approved,
is in the target state of ApproveApplication; approving it again is rejected,
and so are activation and deprecation. -/
theorem C2_invalid_state_is_rejected_witness :
    approvedStore.applications.get "app-1" = some approvedApp1 ∧
    approvedApp1.State = ApplicationStateApproved ∧
    (run approvedStore 10 (.ApproveApplication "app-1" "api")).1 = approvedStore ∧
    IsKind (run approvedStore 10 (.ApproveApplication "app-1" "api")).2 KindDomain = true ∧
    Code (run approvedStore 10 (.ApproveApplication "app-1" "api")).2 =
      "application_invalid_state_for_approval" :=
  ⟨by decide, by decide,
    (C2_invalid_state_is_rejected approvedStore 10 "app-1" "api" approvedApp1 (by decide)).1
      (by decide)⟩

/-! ## C3: atomicity -/

/-- C3. Every command is atomic on the memory-backed services: for every store,
clock reading and command, if the command returns an error then the store
afterwards is the store before, in all nine repositories. -/
theorem C3_commands_atomic (st : Store) (now : Nat) (c : Command)
    (h : (run st now c).2 ≠ error.nil) : (run st now c).1 = st := by
  cases c <;>
    simp only [run_CreateTeam, run_CreateApplication, run_ApproveApplication,
      run_StartApplicationOnboarding, run_ActivateApplication, run_DeprecateApplication,
      run_CreateEnvironment, run_DeclareApplicationEnvironment,
      run_CompleteApplicationEnvironmentProvisioning, run_DeclareCodeRepository,
      run_DeclareDeploymentRepository, run_DeclareGitOpsIntegration, run_CreateSecret,
      run_StartSecretRotation, run_CompleteSecretRotation, run_DeclareSecretBinding] at h ⊢ <;>
    (repeat' split) <;>
    first | rfl | simp_all

/-- Witness of C3: declaring a second id for the pair (app-1, env-dev) of the
sample store fails and leaves the store as it was. -/
theorem C3_commands_atomic_witness :
    (run sampleStore 9 (.DeclareApplicationEnvironment "ae-2" "app-1" "env-dev" "api")).2
      ≠ error.nil ∧
    (run sampleStore 9 (.DeclareApplicationEnvironment "ae-2" "app-1" "env-dev" "api")).1
      = sampleStore :=
  ⟨by decide,
    C3_commands_atomic sampleStore 9
      (.DeclareApplicationEnvironment "ae-2" "app-1" "env-dev" "api") (by decide)⟩

/-! ## C4: one id per (application, environment) pair -/

/-- C4. In every store reachable from the empty store by commands, two
application environments stored under different ids never have the same
(applicationId, environmentId) pair; and DeclareApplicationEnvironment with an
id not in use, for a pair that some stored application environment already
has, leaves the store as it was and returns the conflict-kind error
application_environment_pair_already_exists. -/
theorem C4_application_environment_pair_unique (st : Store) (hr : Reachable st) :
    (∀ i j a b, st.applicationEnvironments.get i = some a →
      st.applicationEnvironments.get j = some b → i ≠ j →
      ¬ (a.ApplicationID = b.ApplicationID ∧ a.EnvironmentID = b.EnvironmentID)) ∧
    (∀ now id app env by_ j ae, st.applicationEnvironments.get id = none →
      st.applicationEnvironments.get j = some ae →
      ae.ApplicationID = app → ae.EnvironmentID = env →
      (run st now (.DeclareApplicationEnvironment id app env by_)).1 = st ∧
      IsKind (run st now (.DeclareApplicationEnvironment id app env by_)).2 KindConflict
        = true ∧
      Code (run st now (.DeclareApplicationEnvironment id app env by_)).2 =
        "application_environment_pair_already_exists") := by
  have hc := reachable_consistent hr
  refine ⟨fun i j a b hi hj hne hab =>
    hne (hc.applicationEnvironment_pair i j a b hi hj hab.1 hab.2), ?_⟩
  intro now id app env by_ j ae hfresh hj happ henv
  have ha : (st.applications.get app).isSome := by
    rw [← happ]
    exact hc.applicationEnvironment_application j ae hj
  have he : (st.environments.get env).isSome := by
    rw [← henv]
    exact hc.applicationEnvironment_environment j ae hj
  have hf : (st.applicationEnvironments.find? (fun x =>
      x.ApplicationID == app && x.EnvironmentID == env)).isSome :=
    Items.find_isSome_of_get _ hj (by simp [happ, henv])
  have e : run st now (.DeclareApplicationEnvironment id app env by_) =
      (st, Conflict "application_environment_pair_already_exists"
        "application environment pair already exists" .nil) := by
    rw [run_DeclareApplicationEnvironment, hfresh]
    simp only [Option.isSome_none, Bool.false_eq_true, if_false, ha, he, hf, if_true]
  rw [e]
  exact ⟨rfl, rfl, rfl⟩

/-- Witness of C4: in the sample store, reached by `sampleTrace`, ae-1 holds
the pair (app-1, env-dev); declaring ae-2 for it is rejected. -/
theorem C4_application_environment_pair_unique_witness :
    Reachable sampleStore ∧
    (run sampleStore 9 (.DeclareApplicationEnvironment "ae-2" "app-1" "env-dev" "api")).1
      = sampleStore ∧
    IsKind (run sampleStore 9
      (.DeclareApplicationEnvironment "ae-2" "app-1" "env-dev" "api")).2 KindConflict = true ∧
    Code (run sampleStore 9 (.DeclareApplicationEnvironment "ae-2" "app-1" "env-dev" "api")).2
      = "application_environment_pair_already_exists" :=
  ⟨reachable_runAll Reachable.empty sampleTrace,
    (C4_application_environment_pair_unique sampleStore
      (reachable_runAll Reachable.empty sampleTrace)).2 9 "ae-2" "app-1" "env-dev" "api"
      "ae-1" sampleAppEnv1 (by decide) (by decide) rfl rfl⟩

/-! ## C5: a GitOps integration and its deployment repository -/

/-- C5 as stated fails on the reachable sample store, whose deployment
repository dep-1 belongs to app-2: declaring an integration of app-1 with dep-1
under the id gi-1, which is in use, is answered with the conflict
gitops_integration_already_exists (409); and declaring one for the missing
application app-9 is answered with application_not_found (404). Neither is the
domain error deployment_repository_wrong_application (400). -/
theorem C5_counterexample :
    Reachable sampleStore ∧
    (∃ d, sampleStore.deploymentRepositories.get "dep-1" = some d ∧
      d.ApplicationID = "app-2") ∧
    (sampleStore.applications.get "app-1").isSome = true ∧
    Code (run sampleStore 9 (.DeclareGitOpsIntegration "gi-1" "app-1" "dep-1" "api")).2
      = "gitops_integration_already_exists" ∧
    (writeDomainError
      (run sampleStore 9 (.DeclareGitOpsIntegration "gi-1" "app-1" "dep-1" "api")).2).1
      = 409 ∧
    sampleStore.gitOpsIntegrations.get "gi-2" = none ∧
    Code (run sampleStore 9 (.DeclareGitOpsIntegration "gi-2" "app-9" "dep-1" "api")).2
      = "application_not_found" ∧
    (writeDomainError
      (run sampleStore 9 (.DeclareGitOpsIntegration "gi-2" "app-9" "dep-1" "api")).2).1
      = 404 :=
  ⟨reachable_runAll Reachable.empty sampleTrace, by decide, by decide, by decide, by decide,
    by decide, by decide, by decide⟩

/-- C5, amended. In every store reachable from the empty store by commands,
every stored GitOps integration references a stored deployment repository of
the same application. DeclareGitOpsIntegration naming a stored deployment
repository of a different application always fails and leaves the store as it
was; when the integration id is not in use and the named application is
stored, the error is the domain error deployment_repository_wrong_application,
answered with 400. -/
theorem C5_gitops_integration_same_application (st : Store) (hr : Reachable st) :
    (∀ id g, st.gitOpsIntegrations.get id = some g →
      ∃ d, st.deploymentRepositories.get g.DeploymentRepositoryID = some d ∧
        d.ApplicationID = g.ApplicationID) ∧
    (∀ now id app dep by_ d, st.deploymentRepositories.get dep = some d →
      d.ApplicationID ≠ app →
      (run st now (.DeclareGitOpsIntegration id app dep by_)).1 = st ∧
      (run st now (.DeclareGitOpsIntegration id app dep by_)).2 ≠ error.nil ∧
      (st.gitOpsIntegrations.get id = none → (st.applications.get app).isSome = true →
        IsKind (run st now (.DeclareGitOpsIntegration id app dep by_)).2 KindDomain = true ∧
        Code (run st now (.DeclareGitOpsIntegration id app dep by_)).2 =
          "deployment_repository_wrong_application" ∧
        (writeDomainError (run st now (.DeclareGitOpsIntegration id app dep by_)).2).1
          = 400)) := by
  refine ⟨(reachable_consistent hr).gitOpsIntegration_deploymentRepository, ?_⟩
  intro now id app dep by_ d hd hne
  have e : run st now (.DeclareGitOpsIntegration id app dep by_) =
      if (st.gitOpsIntegrations.get id).isSome then
        (st, Conflict "gitops_integration_already_exists"
          "gitops integration already exists" .nil)
      else if (st.applications.get app).isSome then
        (st, Domain "deployment_repository_wrong_application"
          "deployment repository does not belong to application" .nil)
      else (st, NotFound "application_not_found" "application not found" .nil) := by
    rw [run_DeclareGitOpsIntegration, hd]
    simp only [if_neg hne]
  rw [e]
  refine ⟨?_, ?_, ?_⟩
  · split_ifs <;> rfl
  · split_ifs <;> exact fun hnil => by cases hnil
  · intro hfresh happ
    simp only [hfresh, Option.isSome_none, Bool.false_eq_true, if_false, happ, if_true]
    exact ⟨rfl, rfl, rfl⟩

/-- Witness of C5, amended: on the sample store, a new integration gi-2 of
app-1 with dep-1, which belongs to app-2, is rejected with
deployment_repository_wrong_application and 400. -/
theorem C5_gitops_integration_same_application_witness :
    Reachable sampleStore ∧
    (run sampleStore 9 (.DeclareGitOpsIntegration "gi-2" "app-1" "dep-1" "api")).1
      = sampleStore ∧
    Code (run sampleStore 9 (.DeclareGitOpsIntegration "gi-2" "app-1" "dep-1" "api")).2
      = "deployment_repository_wrong_application" ∧
    (writeDomainError
      (run sampleStore 9 (.DeclareGitOpsIntegration "gi-2" "app-1" "dep-1" "api")).2).1
      = 400 :=
  have h := (C5_gitops_integration_same_application sampleStore
    (reachable_runAll Reachable.empty sampleTrace)).2 9 "gi-2" "app-1" "dep-1" "api"
    sampleDep1 (by decide) (by decide)
  ⟨reachable_runAll Reachable.empty sampleTrace, h.1,
    (h.2.2 (by decide) (by decide)).2.1, (h.2.2 (by decide) (by decide)).2.2⟩

/-! ## C6: a binding needs an Active secret -/

/-- C6. DeclareSecretBinding changes the store only if the referenced secret is
stored and Active. For a binding id not in use: if the secret is stored in a
state other than Active the command leaves the store as it was and returns the
domain error binding_requires_active_secret; if the secret is not stored it
returns the not_found error secret_not_found; and if the secret is Active the
command succeeds and the binding is stored in state Declared with the given
secret, target and target type. -/
theorem C6_binding_requires_active_secret (st : Store) (now : Nat)
    (id secretID targetID targetType by_ : String) :
    ((run st now (.DeclareSecretBinding id secretID targetID targetType by_)).1 ≠ st →
      ∃ s, st.secrets.get secretID = some s ∧ s.State = SecretStateActive) ∧
    (st.secretBindings.get id = none →
      (∀ s, st.secrets.get secretID = some s → s.State ≠ SecretStateActive →
        (run st now (.DeclareSecretBinding id secretID targetID targetType by_)).1 = st ∧
        IsKind (run st now (.DeclareSecretBinding id secretID targetID targetType by_)).2
          KindDomain = true ∧
        Code (run st now (.DeclareSecretBinding id secretID targetID targetType by_)).2 =
          "binding_requires_active_secret") ∧
      (st.secrets.get secretID = none →
        (run st now (.DeclareSecretBinding id secretID targetID targetType by_)).1 = st ∧
        IsKind (run st now (.DeclareSecretBinding id secretID targetID targetType by_)).2
          KindNotFound = true ∧
        Code (run st now (.DeclareSecretBinding id secretID targetID targetType by_)).2 =
          "secret_not_found") ∧
      (∀ s, st.secrets.get secretID = some s → s.State = SecretStateActive →
        (run st now (.DeclareSecretBinding id secretID targetID targetType by_)).2
          = error.nil ∧
        (run st now (.DeclareSecretBinding id secretID targetID targetType
          by_)).1.secretBindings.get id =
          some { ID := id, SecretID := secretID, TargetID := targetID,
                 TargetType := targetType, State := SecretBindingStateDeclared,
                 Metadata := { CreatedBy := by_, CreatedAt := now } })) := by
  refine ⟨?_, fun hfresh => ⟨?_, ?_, ?_⟩⟩
  · intro hchg
    rw [run_DeclareSecretBinding] at hchg
    split at hchg
    · exact absurd rfl hchg
    · split at hchg
      · rename_i s hs
        split at hchg
        · rename_i hact
          exact ⟨s, hs, hact⟩
        · exact absurd rfl hchg
      · exact absurd rfl hchg
  · intro s hs hna
    have e : run st now (.DeclareSecretBinding id secretID targetID targetType by_) =
        (st, Domain "binding_requires_active_secret" "binding requires active secret" .nil) := by
      rw [run_DeclareSecretBinding, hfresh, hs]
      simp only [Option.isSome_none, Bool.false_eq_true, if_false, if_neg hna]
    rw [e]
    exact ⟨rfl, rfl, rfl⟩
  · intro hs
    have e : run st now (.DeclareSecretBinding id secretID targetID targetType by_) =
        (st, NotFound "secret_not_found" "secret not found" .nil) := by
      rw [run_DeclareSecretBinding, hfresh, hs]
      simp only [Option.isSome_none, Bool.false_eq_true, if_false]
    rw [e]
    exact ⟨rfl, rfl, rfl⟩
  · intro s hs hact
    have e : run st now (.DeclareSecretBinding id secretID targetID targetType by_) =
        ({ st with
            secretBindings := st.secretBindings.put
              { ID := id, SecretID := secretID, TargetID := targetID,
                TargetType := targetType, State := SecretBindingStateDeclared,
                Metadata := { CreatedBy := by_, CreatedAt := now } } }, .nil) := by
      rw [run_DeclareSecretBinding, hfresh, hs]
      simp only [Option.isSome_none, Bool.false_eq_true, if_false, if_pos hact]
    rw [e]
    refine ⟨rfl, ?_⟩
    simp [Items.get_put, Keyed.key]

/-- Witness of C6: with sec-1 Active, the new binding bind-1 is stored in state
Declared. -/
theorem C6_binding_requires_active_secret_witness :
    activeSecretStore.secretBindings.get "bind-1" = none ∧
    activeSecretStore.secrets.get "sec-1" = some activeSecret ∧
    activeSecret.State = SecretStateActive ∧
    (run activeSecretStore 9
      (.DeclareSecretBinding "bind-1" "sec-1" "target-1" "CodeRepository" "api")).2
      = error.nil ∧
    (run activeSecretStore 9 (.DeclareSecretBinding "bind-1" "sec-1" "target-1"
      "CodeRepository" "api")).1.secretBindings.get "bind-1" =
      some { ID := "bind-1", SecretID := "sec-1", TargetID := "target-1",
             TargetType := "CodeRepository", State := SecretBindingStateDeclared,
             Metadata := { CreatedBy := "api", CreatedAt := 9 } } :=
  ⟨by decide, by decide, by decide,
    (C6_binding_requires_active_secret activeSecretStore 9 "bind-1" "sec-1" "target-1"
      "CodeRepository" "api").2 (by decide) |>.2.2 activeSecret (by decide) (by decide)⟩

/-! ## C7: create commands on an id in use -/

/-- C7 as stated fails for CreateSecret: in the sample store the id sec-1 is in
use, yet CreateSecret on sec-1 with an empty ownerTeamId returns the validation
error owner_team_required, which is not of kind conflict and is answered with
400, not 409. It fails over HTTP as well: the ids team-1 and sec-1 are in use,
yet a POST to the create handler of teams without a name, or to that of secrets
without an ownerTeamId, is answered 400 in plain text. -/
theorem C7_counterexample :
    (sampleStore.secrets.get "sec-1").isSome = true ∧
    IsKind (run sampleStore 9 (.CreateSecret "sec-1" "" "runtime" "high" "api")).2
      KindConflict = false ∧
    IsKind (run sampleStore 9 (.CreateSecret "sec-1" "" "runtime" "high" "api")).2
      KindValidation = true ∧
    Code (run sampleStore 9 (.CreateSecret "sec-1" "" "runtime" "high" "api")).2
      = "owner_team_required" ∧
    (writeDomainError (run sampleStore 9 (.CreateSecret "sec-1" "" "runtime" "high" "api")).2).1
      = 400 ∧
    (sampleStore.teams.get "team-1").isSome = true ∧
    ((memServer "").handle sampleStore 9 (postOf [("id", "team-1")])
        httpapi.Endpoint.createTeam).response =
      { Status := 400, Body := .text "id and name are required" } ∧
    ((memServer "").handle sampleStore 9 (postOf [("id", "sec-1")])
        httpapi.Endpoint.createSecret).response =
      { Status := 400, Body := .text "id and ownerTeamId are required" } :=
  ⟨by decide, by decide, by decide, by decide, by decide, by decide, by decide, by decide⟩

/-- C7, amended. For each create command, when the id is already in use by an
entity of that kind - and, for CreateSecret, the ownerTeamId is not empty - the
command leaves the store as it was and returns a conflict-kind error, which
writeDomainError answers with 409. CreateSecret with an empty ownerTeamId
leaves the store as it was and returns the validation error
owner_team_required, answered with 400, whether or not the id is in use. Over
HTTP, for each of the seven create handlers and every POST of a JSON object
whose id is in use: the store stays as it was; when every field that the handler
requires is non-empty the answer is the 409 with the JSON code of the conflict,
and when one of them is empty the answer is the 400 with the plain text of the
handler, written before the command is invoked. -/
theorem C7_create_on_used_id_conflicts (st : Store) (now : Nat) (id : String) :
    (∀ name by_, (st.teams.get id).isSome = true →
      (run st now (.CreateTeam id name by_)).1 = st ∧
      IsKind (run st now (.CreateTeam id name by_)).2 KindConflict = true ∧
      (writeDomainError (run st now (.CreateTeam id name by_)).2).1 = 409) ∧
    (∀ name team by_, (st.applications.get id).isSome = true →
      (run st now (.CreateApplication id name team by_)).1 = st ∧
      IsKind (run st now (.CreateApplication id name team by_)).2 KindConflict = true ∧
      (writeDomainError (run st now (.CreateApplication id name team by_)).2).1 = 409) ∧
    (∀ name by_, (st.environments.get id).isSome = true →
      (run st now (.CreateEnvironment id name by_)).1 = st ∧
      IsKind (run st now (.CreateEnvironment id name by_)).2 KindConflict = true ∧
      (writeDomainError (run st now (.CreateEnvironment id name by_)).2).1 = 409) ∧
    (∀ app env by_, (st.applicationEnvironments.get id).isSome = true →
      (run st now (.DeclareApplicationEnvironment id app env by_)).1 = st ∧
      IsKind (run st now (.DeclareApplicationEnvironment id app env by_)).2 KindConflict
        = true ∧
      (writeDomainError (run st now (.DeclareApplicationEnvironment id app env by_)).2).1
        = 409) ∧
    (∀ app by_, (st.codeRepositories.get id).isSome = true →
      (run st now (.DeclareCodeRepository id app by_)).1 = st ∧
      IsKind (run st now (.DeclareCodeRepository id app by_)).2 KindConflict = true ∧
      (writeDomainError (run st now (.DeclareCodeRepository id app by_)).2).1 = 409) ∧
    (∀ app model by_, (st.deploymentRepositories.get id).isSome = true →
      (run st now (.DeclareDeploymentRepository id app model by_)).1 = st ∧
      IsKind (run st now (.DeclareDeploymentRepository id app model by_)).2 KindConflict
        = true ∧
      (writeDomainError (run st now (.DeclareDeploymentRepository id app model by_)).2).1
        = 409) ∧
    (∀ app dep by_, (st.gitOpsIntegrations.get id).isSome = true →
      (run st now (.DeclareGitOpsIntegration id app dep by_)).1 = st ∧
      IsKind (run st now (.DeclareGitOpsIntegration id app dep by_)).2 KindConflict = true ∧
      (writeDomainError (run st now (.DeclareGitOpsIntegration id app dep by_)).2).1 = 409) ∧
    (∀ owner purpose sens by_, (st.secrets.get id).isSome = true → owner ≠ "" →
      (run st now (.CreateSecret id owner purpose sens by_)).1 = st ∧
      IsKind (run st now (.CreateSecret id owner purpose sens by_)).2 KindConflict = true ∧
      (writeDomainError (run st now (.CreateSecret id owner purpose sens by_)).2).1 = 409) ∧
    (∀ purpose sens by_,
      (run st now (.CreateSecret id "" purpose sens by_)).1 = st ∧
      IsKind (run st now (.CreateSecret id "" purpose sens by_)).2 KindValidation = true ∧
      Code (run st now (.CreateSecret id "" purpose sens by_)).2 = "owner_team_required" ∧
      (writeDomainError (run st now (.CreateSecret id "" purpose sens by_)).2).1 = 400) ∧
    (∀ sec tid tty by_, (st.secretBindings.get id).isSome = true →
      (run st now (.DeclareSecretBinding id sec tid tty by_)).1 = st ∧
      IsKind (run st now (.DeclareSecretBinding id sec tid tty by_)).2 KindConflict = true ∧
      (writeDomainError (run st now (.DeclareSecretBinding id sec tid tty by_)).2).1 = 409) ∧
    (∀ (token : String) (r : httpapi.Request) (req : List (String × String)),
      r.Method = MethodPost → r.Body = some req → httpapi.field req "id" = id →
      ((st.teams.get id).isSome = true →
        ((memServer token).handle st now r httpapi.Endpoint.createTeam).RejectsUsedID st
          (httpapi.field req "id" = "" ∨ httpapi.field req "name" = "")
          "id and name are required" "team_already_exists" "team already exists") ∧
      ((st.applications.get id).isSome = true →
        ((memServer token).handle st now r httpapi.Endpoint.createApplication).RejectsUsedID st
          (httpapi.field req "id" = "" ∨ httpapi.field req "name" = "" ∨ httpapi.field req "teamId" = "")
          "id, name and teamId are required" "application_already_exists"
          "application already exists") ∧
      ((st.codeRepositories.get id).isSome = true →
        ((memServer token).handle st now r httpapi.Endpoint.declareCodeRepository).RejectsUsedID st
          (httpapi.field req "id" = "" ∨ httpapi.field req "applicationId" = "")
          "id and applicationId are required" "code_repository_already_exists"
          "code repository already exists") ∧
      ((st.deploymentRepositories.get id).isSome = true →
        ((memServer token).handle st now r httpapi.Endpoint.declareDeploymentRepository).RejectsUsedID st
          (httpapi.field req "id" = "" ∨ httpapi.field req "applicationId" = "")
          "id and applicationId are required" "deployment_repository_already_exists"
          "deployment repository already exists") ∧
      ((st.gitOpsIntegrations.get id).isSome = true →
        ((memServer token).handle st now r httpapi.Endpoint.declareGitOpsIntegration).RejectsUsedID st
          (httpapi.field req "id" = "" ∨ httpapi.field req "applicationId" = "" ∨
            httpapi.field req "deploymentRepositoryId" = "")
          "id, applicationId and deploymentRepositoryId are required"
          "gitops_integration_already_exists" "gitops integration already exists") ∧
      ((st.secrets.get id).isSome = true →
        ((memServer token).handle st now r httpapi.Endpoint.createSecret).RejectsUsedID st
          (httpapi.field req "id" = "" ∨ httpapi.field req "ownerTeamId" = "")
          "id and ownerTeamId are required" "secret_already_exists"
          "secret already exists") ∧
      ((st.secretBindings.get id).isSome = true →
        ((memServer token).handle st now r httpapi.Endpoint.declareSecretBinding).RejectsUsedID st
          (httpapi.field req "id" = "" ∨ httpapi.field req "secretId" = "" ∨ httpapi.field req "targetId" = "" ∨
            httpapi.field req "targetType" = "")
          "id, secretId, targetId and targetType are required"
          "secret_binding_already_exists" "secret binding already exists")) := by
  refine ⟨?_, ?_, ?_, ?_, ?_, ?_, ?_, ?_, ?_, ?_, ?_⟩
  · intro name by_ h
    rw [run_CreateTeam, if_pos h]
    exact ⟨rfl, rfl, rfl⟩
  · intro name team by_ h
    rw [run_CreateApplication, if_pos h]
    exact ⟨rfl, rfl, rfl⟩
  · intro name by_ h
    rw [run_CreateEnvironment, if_pos h]
    exact ⟨rfl, rfl, rfl⟩
  · intro app env by_ h
    rw [run_DeclareApplicationEnvironment, if_pos h]
    exact ⟨rfl, rfl, rfl⟩
  · intro app by_ h
    rw [run_DeclareCodeRepository, if_pos h]
    exact ⟨rfl, rfl, rfl⟩
  · intro app model by_ h
    rw [run_DeclareDeploymentRepository, if_pos h]
    exact ⟨rfl, rfl, rfl⟩
  · intro app dep by_ h
    rw [run_DeclareGitOpsIntegration, if_pos h]
    exact ⟨rfl, rfl, rfl⟩
  · intro owner purpose sens by_ h ho
    rw [run_CreateSecret, if_neg ho, if_pos h]
    exact ⟨rfl, rfl, rfl⟩
  · intro purpose sens by_
    rw [run_CreateSecret, if_pos rfl]
    exact ⟨rfl, rfl, rfl, rfl⟩
  · intro sec tid tty by_ h
    rw [run_DeclareSecretBinding, if_pos h]
    exact ⟨rfl, rfl, rfl⟩
  · intro token r req hm hb hid
    subst hid
    refine ⟨?_, ?_, ?_, ?_, ?_, ?_, ?_⟩
    · intro h
      by_cases hmiss : httpapi.field req "id" = "" ∨ httpapi.field req "name" = ""
      · simp [httpapi.Outcome.RejectsUsedID, httpapi.Server.handle, httpapi.Server.createTeam, memServer, httpapi.RequireMethod,
          hm, httpapi.DecodeJSON, hb, hmiss, httpapi.WriteText, StatusBadRequest]
      · have hrun := run_CreateTeam st now (httpapi.field req "id") (httpapi.field req "name") "api"
        rw [if_pos h] at hrun
        simp only [run, Services.exec] at hrun
        simp only [httpapi.Outcome.RejectsUsedID, httpapi.Server.handle, httpapi.Server.createTeam, memServer, httpapi.RequireMethod,
          hm, httpapi.DecodeJSON, hb, hmiss, hrun, ne_eq, not_true, if_false]
        refine ⟨by split <;> rfl, fun hc => hc.elim, fun _ => ?_⟩
        split
        · show httpapi.writeDomainErrorResponse _ = _
          decide
        · rename_i hn
          exact absurd (not_not.mp hn) (by decide)
    · intro h
      by_cases hmiss : httpapi.field req "id" = "" ∨ httpapi.field req "name" = "" ∨ httpapi.field req "teamId" = ""
      · simp [httpapi.Outcome.RejectsUsedID, httpapi.Server.handle, httpapi.Server.createApplication, memServer, httpapi.RequireMethod,
          hm, httpapi.DecodeJSON, hb, hmiss, httpapi.WriteText, StatusBadRequest]
      · have hrun := run_CreateApplication st now (httpapi.field req "id") (httpapi.field req "name") (httpapi.field req "teamId") "api"
        rw [if_pos h] at hrun
        simp only [run, Services.exec] at hrun
        simp only [httpapi.Outcome.RejectsUsedID, httpapi.Server.handle, httpapi.Server.createApplication, memServer, httpapi.RequireMethod,
          hm, httpapi.DecodeJSON, hb, hmiss, hrun, ne_eq, not_true, if_false]
        refine ⟨by split <;> rfl, fun hc => hc.elim, fun _ => ?_⟩
        split
        · show httpapi.writeDomainErrorResponse _ = _
          decide
        · rename_i hn
          exact absurd (not_not.mp hn) (by decide)
    · intro h
      by_cases hmiss : httpapi.field req "id" = "" ∨ httpapi.field req "applicationId" = ""
      · simp [httpapi.Outcome.RejectsUsedID, httpapi.Server.handle, httpapi.Server.declareCodeRepository, memServer, httpapi.RequireMethod,
          hm, httpapi.DecodeJSON, hb, hmiss, httpapi.WriteText, StatusBadRequest]
      · have hrun := run_DeclareCodeRepository st now (httpapi.field req "id") (httpapi.field req "applicationId") "api"
        rw [if_pos h] at hrun
        simp only [run, Services.exec] at hrun
        simp only [httpapi.Outcome.RejectsUsedID, httpapi.Server.handle, httpapi.Server.declareCodeRepository, memServer, httpapi.RequireMethod,
          hm, httpapi.DecodeJSON, hb, hmiss, hrun, ne_eq, not_true, if_false]
        refine ⟨by split <;> rfl, fun hc => hc.elim, fun _ => ?_⟩
        split
        · show httpapi.writeDomainErrorResponse _ = _
          decide
        · rename_i hn
          exact absurd (not_not.mp hn) (by decide)
    · intro h
      by_cases hmiss : httpapi.field req "id" = "" ∨ httpapi.field req "applicationId" = ""
      · simp [httpapi.Outcome.RejectsUsedID, httpapi.Server.handle, httpapi.Server.declareDeploymentRepository, memServer, httpapi.RequireMethod,
          hm, httpapi.DecodeJSON, hb, hmiss, httpapi.WriteText, StatusBadRequest]
      · have hrun := run_DeclareDeploymentRepository st now (httpapi.field req "id") (httpapi.field req "applicationId") (httpapi.field req "deploymentModel") "api"
        rw [if_pos h] at hrun
        simp only [run, Services.exec] at hrun
        simp only [httpapi.Outcome.RejectsUsedID, httpapi.Server.handle, httpapi.Server.declareDeploymentRepository, memServer, httpapi.RequireMethod,
          hm, httpapi.DecodeJSON, hb, hmiss, hrun, ne_eq, not_true, if_false]
        refine ⟨by split <;> rfl, fun hc => hc.elim, fun _ => ?_⟩
        split
        · show httpapi.writeDomainErrorResponse _ = _
          decide
        · rename_i hn
          exact absurd (not_not.mp hn) (by decide)
    · intro h
      by_cases hmiss : httpapi.field req "id" = "" ∨ httpapi.field req "applicationId" = "" ∨
          httpapi.field req "deploymentRepositoryId" = ""
      · simp [httpapi.Outcome.RejectsUsedID, httpapi.Server.handle, httpapi.Server.declareGitOpsIntegration, memServer, httpapi.RequireMethod,
          hm, httpapi.DecodeJSON, hb, hmiss, httpapi.WriteText, StatusBadRequest]
      · have hrun := run_DeclareGitOpsIntegration st now (httpapi.field req "id") (httpapi.field req "applicationId") (httpapi.field req "deploymentRepositoryId") "api"
        rw [if_pos h] at hrun
        simp only [run, Services.exec] at hrun
        simp only [httpapi.Outcome.RejectsUsedID, httpapi.Server.handle, httpapi.Server.declareGitOpsIntegration, memServer, httpapi.RequireMethod,
          hm, httpapi.DecodeJSON, hb, hmiss, hrun, ne_eq, not_true, if_false]
        refine ⟨by split <;> rfl, fun hc => hc.elim, fun _ => ?_⟩
        split
        · show httpapi.writeDomainErrorResponse _ = _
          decide
        · rename_i hn
          exact absurd (not_not.mp hn) (by decide)
    · intro h
      by_cases hmiss : httpapi.field req "id" = "" ∨ httpapi.field req "ownerTeamId" = ""
      · simp [httpapi.Outcome.RejectsUsedID, httpapi.Server.handle, httpapi.Server.createSecret, memServer, httpapi.RequireMethod,
          hm, httpapi.DecodeJSON, hb, hmiss, httpapi.WriteText, StatusBadRequest]
      · have hrun := run_CreateSecret st now (httpapi.field req "id") (httpapi.field req "ownerTeamId") (httpapi.field req "purpose") (httpapi.field req "sensitivity") "api"
        have ho : ¬ httpapi.field req "ownerTeamId" = "" := fun ho => hmiss (Or.inr ho)
        rw [if_neg ho, if_pos h] at hrun
        simp only [run, Services.exec] at hrun
        simp only [httpapi.Outcome.RejectsUsedID, httpapi.Server.handle, httpapi.Server.createSecret, memServer, httpapi.RequireMethod,
          hm, httpapi.DecodeJSON, hb, hmiss, hrun, ne_eq, not_true, if_false]
        refine ⟨by split <;> rfl, fun hc => hc.elim, fun _ => ?_⟩
        split
        · show httpapi.writeDomainErrorResponse _ = _
          decide
        · rename_i hn
          exact absurd (not_not.mp hn) (by decide)
    · intro h
      by_cases hmiss : httpapi.field req "id" = "" ∨ httpapi.field req "secretId" = "" ∨ httpapi.field req "targetId" = "" ∨
          httpapi.field req "targetType" = ""
      · simp [httpapi.Outcome.RejectsUsedID, httpapi.Server.handle, httpapi.Server.declareSecretBinding, memServer, httpapi.RequireMethod,
          hm, httpapi.DecodeJSON, hb, hmiss, httpapi.WriteText, StatusBadRequest]
      · have hrun := run_DeclareSecretBinding st now (httpapi.field req "id") (httpapi.field req "secretId") (httpapi.field req "targetId") (httpapi.field req "targetType") "api"
        rw [if_pos h] at hrun
        simp only [run, Services.exec] at hrun
        simp only [httpapi.Outcome.RejectsUsedID, httpapi.Server.handle, httpapi.Server.declareSecretBinding, memServer, httpapi.RequireMethod,
          hm, httpapi.DecodeJSON, hb, hmiss, hrun, ne_eq, not_true, if_false]
        refine ⟨by split <;> rfl, fun hc => hc.elim, fun _ => ?_⟩
        split
        · show httpapi.writeDomainErrorResponse _ = _
          decide
        · rename_i hn
          exact absurd (not_not.mp hn) (by decide)

/-- Witness of C7, amended: creating the application app-1 of the sample store
again is a conflict, answered with 409, and changes nothing; the create handler
answers the same request 409 with the code application_already_exists. -/
theorem C7_create_on_used_id_conflicts_witness :
    (sampleStore.applications.get "app-1").isSome = true ∧
    (run sampleStore 9 (.CreateApplication "app-1" "App" "team-1" "api")).1 = sampleStore ∧
    IsKind (run sampleStore 9 (.CreateApplication "app-1" "App" "team-1" "api")).2
      KindConflict = true ∧
    (writeDomainError (run sampleStore 9 (.CreateApplication "app-1" "App" "team-1" "api")).2).1
      = 409 ∧
    ((memServer "").handle sampleStore 9
        (postOf [("id", "app-1"), ("name", "App"), ("teamId", "team-1")])
        httpapi.Endpoint.createApplication).response =
      { Status := 409,
        Body := .error { Code := "application_already_exists",
                         Message := "application already exists" } } :=
  have h := (C7_create_on_used_id_conflicts sampleStore 9 "app-1").2.1 "App" "team-1" "api"
    (by decide)
  ⟨by decide, h.1, h.2.1, h.2.2,
    (((C7_create_on_used_id_conflicts sampleStore 9 "app-1").2.2.2.2.2.2.2.2.2.2 ""
      (postOf [("id", "app-1"), ("name", "App"), ("teamId", "team-1")])
      [("id", "app-1"), ("name", "App"), ("teamId", "team-1")] rfl rfl (by decide)).2.1
      (by decide)).2.2 (by decide)⟩

/-! ## C8: no dangling references -/

/-- C8 as stated fails when the id is in use: in the sample store team-9 is not
stored, yet CreateApplication on the stored id app-1 naming team-9 returns the
conflict application_already_exists, which is not of kind not_found. -/
theorem C8_counterexample :
    sampleStore.teams.get "team-9" = none ∧
    (sampleStore.applications.get "app-1").isSome = true ∧
    IsKind (run sampleStore 9 (.CreateApplication "app-1" "App" "team-9" "api")).2
      KindNotFound = false ∧
    IsKind (run sampleStore 9 (.CreateApplication "app-1" "App" "team-9" "api")).2
      KindConflict = true ∧
    Code (run sampleStore 9 (.CreateApplication "app-1" "App" "team-9" "api")).2
      = "application_already_exists" :=
  ⟨by decide, by decide, by decide, by decide, by decide⟩

/-- C8, amended. In every store reachable from the empty store by commands,
every application's team, every code repository's and deployment repository's
application, and every application environment's application and environment
are stored. CreateApplication, DeclareCodeRepository,
DeclareDeploymentRepository and DeclareApplicationEnvironment naming a parent
that is not stored always fail and leave the store as it was; when the id of
the command is not in use the error is of kind not_found, with code
team_not_found, application_not_found or (for an application environment whose
application is stored) environment_not_found. -/
theorem C8_no_dangling_references (st : Store) (hr : Reachable st) :
    (∀ id a, st.applications.get id = some a → ∃ t, st.teams.get a.TeamID = some t) ∧
    (∀ id r, st.codeRepositories.get id = some r →
      ∃ a, st.applications.get r.ApplicationID = some a) ∧
    (∀ id r, st.deploymentRepositories.get id = some r →
      ∃ a, st.applications.get r.ApplicationID = some a) ∧
    (∀ id ae, st.applicationEnvironments.get id = some ae →
      (∃ a, st.applications.get ae.ApplicationID = some a) ∧
      ∃ e, st.environments.get ae.EnvironmentID = some e) ∧
    (∀ now id name team by_, st.teams.get team = none →
      (run st now (.CreateApplication id name team by_)).1 = st ∧
      (run st now (.CreateApplication id name team by_)).2 ≠ error.nil ∧
      (st.applications.get id = none →
        IsKind (run st now (.CreateApplication id name team by_)).2 KindNotFound = true ∧
        Code (run st now (.CreateApplication id name team by_)).2 = "team_not_found")) ∧
    (∀ now id app by_, st.applications.get app = none →
      (run st now (.DeclareCodeRepository id app by_)).1 = st ∧
      (run st now (.DeclareCodeRepository id app by_)).2 ≠ error.nil ∧
      (st.codeRepositories.get id = none →
        IsKind (run st now (.DeclareCodeRepository id app by_)).2 KindNotFound = true ∧
        Code (run st now (.DeclareCodeRepository id app by_)).2 = "application_not_found")) ∧
    (∀ now id app model by_, st.applications.get app = none →
      (run st now (.DeclareDeploymentRepository id app model by_)).1 = st ∧
      (run st now (.DeclareDeploymentRepository id app model by_)).2 ≠ error.nil ∧
      (st.deploymentRepositories.get id = none →
        IsKind (run st now (.DeclareDeploymentRepository id app model by_)).2 KindNotFound
          = true ∧
        Code (run st now (.DeclareDeploymentRepository id app model by_)).2 =
          "application_not_found")) ∧
    (∀ now id app env by_,
      st.applications.get app = none ∨ st.environments.get env = none →
      (run st now (.DeclareApplicationEnvironment id app env by_)).1 = st ∧
      (run st now (.DeclareApplicationEnvironment id app env by_)).2 ≠ error.nil ∧
      (st.applicationEnvironments.get id = none →
        IsKind (run st now (.DeclareApplicationEnvironment id app env by_)).2 KindNotFound
          = true ∧
        Code (run st now (.DeclareApplicationEnvironment id app env by_)).2 =
          if (st.applications.get app).isSome then "environment_not_found"
          else "application_not_found")) := by
  have hc := reachable_consistent hr
  refine ⟨?_, ?_, ?_, ?_, ?_, ?_, ?_, ?_⟩
  · intro id a ha
    exact Option.isSome_iff_exists.mp (hc.application_team id a ha)
  · intro id r h
    exact Option.isSome_iff_exists.mp (hc.codeRepository_application id r h)
  · intro id r h
    exact Option.isSome_iff_exists.mp (hc.deploymentRepository_application id r h)
  · intro id ae h
    exact ⟨Option.isSome_iff_exists.mp (hc.applicationEnvironment_application id ae h),
      Option.isSome_iff_exists.mp (hc.applicationEnvironment_environment id ae h)⟩
  · intro now id name team by_ hmiss
    rw [run_CreateApplication, hmiss]
    simp only [Option.isSome_none, Bool.false_eq_true, if_false]
    refine ⟨?_, ?_, ?_⟩
    · split_ifs <;> rfl
    · split_ifs <;> exact fun hnil => by cases hnil
    · intro hfresh
      rw [hfresh]
      exact ⟨rfl, rfl⟩
  · intro now id app by_ hmiss
    rw [run_DeclareCodeRepository, hmiss]
    simp only [Option.isSome_none, Bool.false_eq_true, if_false]
    refine ⟨?_, ?_, ?_⟩
    · split_ifs <;> rfl
    · split_ifs <;> exact fun hnil => by cases hnil
    · intro hfresh
      rw [hfresh]
      exact ⟨rfl, rfl⟩
  · intro now id app model by_ hmiss
    rw [run_DeclareDeploymentRepository, hmiss]
    simp only [Option.isSome_none, Bool.false_eq_true, if_false]
    refine ⟨?_, ?_, ?_⟩
    · split_ifs <;> rfl
    · split_ifs <;> exact fun hnil => by cases hnil
    · intro hfresh
      rw [hfresh]
      exact ⟨rfl, rfl⟩
  · intro now id app env by_ hmiss
    rw [run_DeclareApplicationEnvironment]
    rcases hmiss with hm | hm
    · rw [hm]
      simp only [Option.isSome_none, Bool.false_eq_true, if_false]
      refine ⟨?_, ?_, ?_⟩
      · split_ifs <;> rfl
      · split_ifs <;> exact fun hnil => by cases hnil
      · intro hfresh
        rw [hfresh]
        exact ⟨rfl, rfl⟩
    · rw [hm]
      simp only [Option.isSome_none, Bool.false_eq_true, if_false]
      refine ⟨?_, ?_, ?_⟩
      · split_ifs <;> rfl
      · split_ifs <;> exact fun hnil => by cases hnil
      · intro hfresh
        rw [hfresh]
        cases st.applications.get app <;> exact ⟨rfl, rfl⟩

/-- Witness of C8, amended: on the sample store, creating the new application
app-3 for the missing team team-9 fails with team_not_found and changes
nothing. -/
theorem C8_no_dangling_references_witness :
    Reachable sampleStore ∧
    sampleStore.teams.get "team-9" = none ∧
    sampleStore.applications.get "app-3" = none ∧
    (run sampleStore 9 (.CreateApplication "app-3" "App" "team-9" "api")).1 = sampleStore ∧
    IsKind (run sampleStore 9 (.CreateApplication "app-3" "App" "team-9" "api")).2
      KindNotFound = true ∧
    Code (run sampleStore 9 (.CreateApplication "app-3" "App" "team-9" "api")).2
      = "team_not_found" :=
  have h := (C8_no_dangling_references sampleStore
    (reachable_runAll Reachable.empty sampleTrace)).2.2.2.2.1 9 "app-3" "App" "team-9" "api"
    (by decide)
  ⟨reachable_runAll Reachable.empty sampleTrace, by decide, by decide, h.1,
    (h.2.2 (by decide)).1, (h.2.2 (by decide)).2⟩

/-! ## C9: the owner team of a secret -/

/-- C9 as stated fails when the id is in use: in the sample store team-9 is not
stored and sec-1 is, and CreateSecret on sec-1 with ownerTeamId team-9 returns
the conflict secret_already_exists, which is not of kind not_found. -/
theorem C9_counterexample :
    sampleStore.teams.get "team-9" = none ∧
    (sampleStore.secrets.get "sec-1").isSome = true ∧
    IsKind (run sampleStore 9 (.CreateSecret "sec-1" "team-9" "runtime" "high" "api")).2
      KindNotFound = false ∧
    IsKind (run sampleStore 9 (.CreateSecret "sec-1" "team-9" "runtime" "high" "api")).2
      KindConflict = true ∧
    Code (run sampleStore 9 (.CreateSecret "sec-1" "team-9" "runtime" "high" "api")).2
      = "secret_already_exists" :=
  ⟨by decide, by decide, by decide, by decide, by decide⟩

/-- C9, amended. CreateSecret with an empty ownerTeamId returns the validation
error owner_team_required; with a non-empty ownerTeamId that matches no stored
team it fails, and when its id is not in use the error is of kind not_found
(code owner_team_not_found); in both cases the store stays as it was. In every
store reachable from the empty store by commands every stored secret has a
non-empty ownerTeamId that refers to a stored team, and a CreateSecret that
succeeds stores the secret in state Declared. -/
theorem C9_secret_owner_team (st : Store) (now : Nat)
    (id owner purpose sens by_ : String) :
    ((run st now (.CreateSecret id "" purpose sens by_)).1 = st ∧
      IsKind (run st now (.CreateSecret id "" purpose sens by_)).2 KindValidation = true ∧
      Code (run st now (.CreateSecret id "" purpose sens by_)).2 = "owner_team_required") ∧
    (owner ≠ "" → st.teams.get owner = none →
      (run st now (.CreateSecret id owner purpose sens by_)).1 = st ∧
      (run st now (.CreateSecret id owner purpose sens by_)).2 ≠ error.nil ∧
      (st.secrets.get id = none →
        IsKind (run st now (.CreateSecret id owner purpose sens by_)).2 KindNotFound = true ∧
        Code (run st now (.CreateSecret id owner purpose sens by_)).2 =
          "owner_team_not_found")) ∧
    (Reachable st → ∀ i s, st.secrets.get i = some s →
      s.OwnerTeam ≠ "" ∧ ∃ t, st.teams.get s.OwnerTeam = some t) ∧
    ((run st now (.CreateSecret id owner purpose sens by_)).2 = error.nil →
      (run st now (.CreateSecret id owner purpose sens by_)).1.secrets.get id =
        some { ID := id, OwnerTeam := owner, Purpose := purpose, Sensitivity := sens,
               State := SecretStateDeclared,
               Metadata := { CreatedBy := by_, CreatedAt := now } }) := by
  refine ⟨?_, ?_, ?_, ?_⟩
  · rw [run_CreateSecret, if_pos rfl]
    exact ⟨rfl, rfl, rfl⟩
  · intro ho hmiss
    rw [run_CreateSecret, if_neg ho, hmiss]
    simp only [Option.isSome_none, Bool.false_eq_true, if_false]
    refine ⟨?_, ?_, ?_⟩
    · split_ifs <;> rfl
    · split_ifs <;> exact fun hnil => by cases hnil
    · intro hfresh
      rw [hfresh]
      exact ⟨rfl, rfl⟩
  · intro hr i s hs
    have h := (reachable_consistent hr).secret_ownerTeam i s hs
    exact ⟨h.1, Option.isSome_iff_exists.mp h.2⟩
  · rw [run_CreateSecret]
    split_ifs
    · intro hnil; cases hnil
    · intro hnil; cases hnil
    · intro _
      simp [Items.get_put, Keyed.key]
    · intro hnil; cases hnil

/-- Witness of C9, amended: on the sample store, creating the new secret sec-2
for the missing team team-9 fails with owner_team_not_found and changes
nothing. -/
theorem C9_secret_owner_team_witness :
    sampleStore.teams.get "team-9" = none ∧
    sampleStore.secrets.get "sec-2" = none ∧
    (run sampleStore 9 (.CreateSecret "sec-2" "team-9" "runtime" "high" "api")).1
      = sampleStore ∧
    IsKind (run sampleStore 9 (.CreateSecret "sec-2" "team-9" "runtime" "high" "api")).2
      KindNotFound = true ∧
    Code (run sampleStore 9 (.CreateSecret "sec-2" "team-9" "runtime" "high" "api")).2
      = "owner_team_not_found" :=
  have h := (C9_secret_owner_team sampleStore 9 "sec-2" "team-9" "runtime" "high" "api").2.1
    (by decide) (by decide)
  ⟨by decide, by decide, h.1, (h.2.2 (by decide)).1, (h.2.2 (by decide)).2⟩

/-! ## C10: the rotation of a secret -/

/-- C10. StartSecretRotation succeeds exactly when the secret is stored in state
Active, and then stores it in state Rotating; CompleteSecretRotation succeeds
exactly when the secret is stored in state Rotating, and then stores it in
state Active; from any other state they leave the store as it was and return
the domain errors secret_invalid_state_for_start_rotation and
secret_invalid_state_for_complete_rotation. For a store in which the secret is
Active, StartSecretRotation followed by CompleteSecretRotation both succeed and
the store at the end equals the store at the start. -/
theorem C10_secret_rotation_round_trip (st : Store) (now now2 : Nat) (id by_ by2 : String) :
    ((run st now (.StartSecretRotation id by_)).2 = error.nil ↔
      ∃ s, st.secrets.get id = some s ∧ s.State = SecretStateActive) ∧
    (∀ s, st.secrets.get id = some s → s.State = SecretStateActive →
      (run st now (.StartSecretRotation id by_)).1.secrets.get id =
        some { s with State := SecretStateRotating }) ∧
    (∀ s, st.secrets.get id = some s → s.State ≠ SecretStateActive →
      (run st now (.StartSecretRotation id by_)).1 = st ∧
      IsKind (run st now (.StartSecretRotation id by_)).2 KindDomain = true ∧
      Code (run st now (.StartSecretRotation id by_)).2 =
        "secret_invalid_state_for_start_rotation") ∧
    ((run st now (.CompleteSecretRotation id by_)).2 = error.nil ↔
      ∃ s, st.secrets.get id = some s ∧ s.State = SecretStateRotating) ∧
    (∀ s, st.secrets.get id = some s → s.State = SecretStateRotating →
      (run st now (.CompleteSecretRotation id by_)).1.secrets.get id =
        some { s with State := SecretStateActive }) ∧
    (∀ s, st.secrets.get id = some s → s.State ≠ SecretStateRotating →
      (run st now (.CompleteSecretRotation id by_)).1 = st ∧
      IsKind (run st now (.CompleteSecretRotation id by_)).2 KindDomain = true ∧
      Code (run st now (.CompleteSecretRotation id by_)).2 =
        "secret_invalid_state_for_complete_rotation") ∧
    (∀ s, st.secrets.get id = some s → s.State = SecretStateActive →
      (run st now (.StartSecretRotation id by_)).2 = error.nil ∧
      (run (run st now (.StartSecretRotation id by_)).1 now2
        (.CompleteSecretRotation id by2)).2 = error.nil ∧
      (run (run st now (.StartSecretRotation id by_)).1 now2
        (.CompleteSecretRotation id by2)).1 = st) := by
  have hstart : ∀ s, st.secrets.get id = some s → s.State = SecretStateActive →
      run st now (.StartSecretRotation id by_) =
        ({ st with secrets := st.secrets.put { s with State := SecretStateRotating } },
          .nil) := by
    intro s hs hact
    rw [run_StartSecretRotation, hs]
    exact if_pos hact
  have hcomplete : ∀ (st2 : Store) (n : Nat) (b : String) (s : Secret),
      st2.secrets.get id = some s → s.State = SecretStateRotating →
      run st2 n (.CompleteSecretRotation id b) =
        ({ st2 with secrets := st2.secrets.put { s with State := SecretStateActive } },
          .nil) := by
    intro st2 n b s hs hrot
    rw [run_CompleteSecretRotation, hs]
    exact if_pos hrot
  have hkey : ∀ (s : Secret) (x : SecretState), st.secrets.get id = some s →
      Keyed.key ({ s with State := x } : Secret) = id :=
    fun s x hs => (Items.key_of_get hs : Keyed.key s = id)
  refine ⟨?_, ?_, ?_, ?_, ?_, ?_, ?_⟩
  · constructor
    · intro hnil
      rw [run_StartSecretRotation] at hnil
      split at hnil
      · rename_i s hs
        split at hnil
        · rename_i hact
          exact ⟨s, hs, hact⟩
        · cases hnil
      · cases hnil
    · rintro ⟨s, hs, hact⟩
      rw [hstart s hs hact]
  · intro s hs hact
    rw [hstart s hs hact]
    simp only [Items.get_put_of_key _ (hkey s SecretStateRotating hs), if_true]
  · intro s hs hna
    have e : run st now (.StartSecretRotation id by_) =
        (st, Domain "secret_invalid_state_for_start_rotation"
          "secret can only start rotation from Active state" .nil) := by
      rw [run_StartSecretRotation, hs]
      exact if_neg hna
    rw [e]
    exact ⟨rfl, rfl, rfl⟩
  · constructor
    · intro hnil
      rw [run_CompleteSecretRotation] at hnil
      split at hnil
      · rename_i s hs
        split at hnil
        · rename_i hrot
          exact ⟨s, hs, hrot⟩
        · cases hnil
      · cases hnil
    · rintro ⟨s, hs, hrot⟩
      rw [hcomplete st now by_ s hs hrot]
  · intro s hs hrot
    rw [hcomplete st now by_ s hs hrot]
    simp only [Items.get_put_of_key _ (hkey s SecretStateActive hs), if_true]
  · intro s hs hnr
    have e : run st now (.CompleteSecretRotation id by_) =
        (st, Domain "secret_invalid_state_for_complete_rotation"
          "secret can only complete rotation from Rotating state" .nil) := by
      rw [run_CompleteSecretRotation, hs]
      exact if_neg hnr
    rw [e]
    exact ⟨rfl, rfl, rfl⟩
  · intro s hs hact
    have hmid : ({ st with
        secrets := st.secrets.put { s with State := SecretStateRotating } } : Store).secrets.get id
        = some { s with State := SecretStateRotating } := by
      simp only [Items.get_put_of_key _ (hkey s SecretStateRotating hs), if_true]
    rw [hstart s hs hact]
    refine ⟨rfl, ?_, ?_⟩
    · rw [hcomplete _ now2 by2 _ hmid rfl]
    · rw [hcomplete _ now2 by2 _ hmid rfl]
      have hback : ({ ({ s with State := SecretStateRotating } : Secret) with
          State := SecretStateActive } : Secret) = s := by
        cases s
        simp only [Secret.mk.injEq, true_and, and_true]
        exact hact.symm
      simp only [hback]
      have hrestore := Items.put_put_restore (y := { s with State := SecretStateRotating }) hs
        (hkey s SecretStateRotating hs)
      simp only [hrestore]

/-- Witness of C10: with sec-1 Active, starting and then completing its rotation
both succeed and give back the store. -/
theorem C10_secret_rotation_round_trip_witness :
    activeSecretStore.secrets.get "sec-1" = some activeSecret ∧
    activeSecret.State = SecretStateActive ∧
    (run activeSecretStore 9 (.StartSecretRotation "sec-1" "api")).2 = error.nil ∧
    (run (run activeSecretStore 9 (.StartSecretRotation "sec-1" "api")).1 10
      (.CompleteSecretRotation "sec-1" "workflow")).2 = error.nil ∧
    (run (run activeSecretStore 9 (.StartSecretRotation "sec-1" "api")).1 10
      (.CompleteSecretRotation "sec-1" "workflow")).1 = activeSecretStore :=
  ⟨by decide, by decide,
    (C10_secret_rotation_round_trip activeSecretStore 9 10 "sec-1" "api" "workflow").2.2.2.2.2.2
      activeSecret (by decide) (by decide)⟩

/-! ## C11: completing the provisioning of an application environment -/

/-- C11. CompleteApplicationEnvironmentProvisioning succeeds exactly when an
application environment with that id is stored in state Declared or
Provisioning, and then the stored entity is the same one with state Active (id,
applicationId, environmentId and metadata as before); when it is stored in any
other state the command leaves the store as it was and returns the domain error
application_environment_invalid_state_for_activation; when it is not stored the
command returns the not_found error application_environment_not_found. -/
theorem C11_complete_provisioning (st : Store) (now : Nat) (id by_ : String) :
    ((run st now (.CompleteApplicationEnvironmentProvisioning id by_)).2 = error.nil ↔
      ∃ ae, st.applicationEnvironments.get id = some ae ∧
        (ae.State = ApplicationEnvironmentStateDeclared ∨
          ae.State = ApplicationEnvironmentStateProvisioning)) ∧
    (∀ ae, st.applicationEnvironments.get id = some ae →
      ae.State = ApplicationEnvironmentStateDeclared ∨
        ae.State = ApplicationEnvironmentStateProvisioning →
      (run st now (.CompleteApplicationEnvironmentProvisioning id
        by_)).1.applicationEnvironments.get id =
        some { ae with State := ApplicationEnvironmentStateActive }) ∧
    (∀ ae, st.applicationEnvironments.get id = some ae →
      ¬ (ae.State = ApplicationEnvironmentStateDeclared ∨
        ae.State = ApplicationEnvironmentStateProvisioning) →
      (run st now (.CompleteApplicationEnvironmentProvisioning id by_)).1 = st ∧
      IsKind (run st now (.CompleteApplicationEnvironmentProvisioning id by_)).2 KindDomain
        = true ∧
      Code (run st now (.CompleteApplicationEnvironmentProvisioning id by_)).2 =
        "application_environment_invalid_state_for_activation") ∧
    (st.applicationEnvironments.get id = none →
      (run st now (.CompleteApplicationEnvironmentProvisioning id by_)).1 = st ∧
      IsKind (run st now (.CompleteApplicationEnvironmentProvisioning id by_)).2 KindNotFound
        = true ∧
      Code (run st now (.CompleteApplicationEnvironmentProvisioning id by_)).2 =
        "application_environment_not_found") := by
  have hok : ∀ ae, st.applicationEnvironments.get id = some ae →
      ae.State = ApplicationEnvironmentStateDeclared ∨
        ae.State = ApplicationEnvironmentStateProvisioning →
      run st now (.CompleteApplicationEnvironmentProvisioning id by_) =
        ({ st with
            applicationEnvironments := st.applicationEnvironments.put
              { ae with State := ApplicationEnvironmentStateActive } }, .nil) := by
    intro ae hae hs
    rw [run_CompleteApplicationEnvironmentProvisioning, hae]
    exact if_pos hs
  refine ⟨⟨?_, ?_⟩, ?_, ?_, ?_⟩
  · intro hnil
    rw [run_CompleteApplicationEnvironmentProvisioning] at hnil
    split at hnil
    · rename_i ae hae
      split at hnil
      · rename_i hs
        exact ⟨ae, hae, hs⟩
      · cases hnil
    · cases hnil
  · rintro ⟨ae, hae, hs⟩
    rw [hok ae hae hs]
  · intro ae hae hs
    rw [hok ae hae hs]
    have hk : Keyed.key ({ ae with State := ApplicationEnvironmentStateActive } :
        ApplicationEnvironment) = id := (Items.key_of_get hae : Keyed.key ae = id)
    simp only [Items.get_put_of_key _ hk, if_true]
  · intro ae hae hs
    have e : run st now (.CompleteApplicationEnvironmentProvisioning id by_) =
        (st, Domain "application_environment_invalid_state_for_activation"
          "application environment cannot be activated from current state" .nil) := by
      rw [run_CompleteApplicationEnvironmentProvisioning, hae]
      exact if_neg hs
    rw [e]
    exact ⟨rfl, rfl, rfl⟩
  · intro hnone
    have e : run st now (.CompleteApplicationEnvironmentProvisioning id by_) =
        (st, ErrApplicationEnvironmentNotFound) := by
      rw [run_CompleteApplicationEnvironmentProvisioning, hnone]
    rw [e]
    exact ⟨rfl, rfl, rfl⟩

/-- Witness of C11: completing the provisioning of the Declared ae-1 of the
sample store stores it as Active, with everything else as before. -/
theorem C11_complete_provisioning_witness :
    sampleStore.applicationEnvironments.get "ae-1" = some sampleAppEnv1 ∧
    sampleAppEnv1.State = ApplicationEnvironmentStateDeclared ∧
    (run sampleStore 9 (.CompleteApplicationEnvironmentProvisioning "ae-1"
      "workflow")).1.applicationEnvironments.get "ae-1" =
      some { sampleAppEnv1 with State := ApplicationEnvironmentStateActive } :=
  ⟨by decide, by decide,
    (C11_complete_provisioning sampleStore 9 "ae-1" "workflow").2.1 sampleAppEnv1 (by decide)
      (Or.inl (by decide))⟩

/-! ## C12: a revoked secret stays revoked -/

/-- C12. For every store in which a secret is Revoked and for every command, the
secret is stored unchanged afterwards, so it is still Revoked; StartSecretRotation
and CompleteSecretRotation on it return an error. -/
theorem C12_revoked_is_terminal (st : Store) (now : Nat) (c : Command) (id : String)
    (s : Secret) (h : st.secrets.get id = some s) (hr : s.State = SecretStateRevoked) :
    (run st now c).1.secrets.get id = some s ∧
    (∀ by_, (run st now (.StartSecretRotation id by_)).2 ≠ error.nil) ∧
    (∀ by_, (run st now (.CompleteSecretRotation id by_)).2 ≠ error.nil) := by
  have hna : s.State ≠ SecretStateActive := by rw [hr]; decide
  have hnr : s.State ≠ SecretStateRotating := by rw [hr]; decide
  refine ⟨?_, ?_, ?_⟩
  · cases c
    case CreateSecret i o p se cb =>
      rw [run_CreateSecret]
      split_ifs with h1 h2 h3
      · exact h
      · exact h
      · have hne : id ≠ i := by
          rintro rfl
          simp [h] at h2
        simp [Items.get_put, Keyed.key, hne, h]
      · exact h
    case StartSecretRotation i cb =>
      rw [run_StartSecretRotation]
      split
      · rename_i sec hsec
        split
        · rename_i hact
          have hne : id ≠ i := by
            rintro rfl
            rw [h] at hsec
            cases hsec
            exact hna hact
          have hk : Keyed.key ({ sec with State := SecretStateRotating } : Secret) = i :=
            (Items.key_of_get hsec : Keyed.key sec = i)
          simp only [Items.get_put_of_key _ hk, if_neg hne]
          exact h
        · exact h
      · exact h
    case CompleteSecretRotation i cb =>
      rw [run_CompleteSecretRotation]
      split
      · rename_i sec hsec
        split
        · rename_i hrot
          have hne : id ≠ i := by
            rintro rfl
            rw [h] at hsec
            cases hsec
            exact hnr hrot
          have hk : Keyed.key ({ sec with State := SecretStateActive } : Secret) = i :=
            (Items.key_of_get hsec : Keyed.key sec = i)
          simp only [Items.get_put_of_key _ hk, if_neg hne]
          exact h
        · exact h
      · exact h
    all_goals
      simp only [run_CreateTeam, run_CreateApplication, run_ApproveApplication,
        run_StartApplicationOnboarding, run_ActivateApplication, run_DeprecateApplication,
        run_CreateEnvironment, run_DeclareApplicationEnvironment,
        run_CompleteApplicationEnvironmentProvisioning, run_DeclareCodeRepository,
        run_DeclareDeploymentRepository, run_DeclareGitOpsIntegration,
        run_DeclareSecretBinding]
      (repeat' split) <;> exact h
  · intro by_
    rw [run_StartSecretRotation, h]
    simp only [if_neg hna]
    exact fun hnil => by cases hnil
  · intro by_
    rw [run_CompleteSecretRotation, h]
    simp only [if_neg hnr]
    exact fun hnil => by cases hnil

/-- Witness of C12: with sec-1 forced to Revoked, completing a rotation leaves it
Revoked. -/
theorem C12_revoked_is_terminal_witness :
    revokedSecretStore.secrets.get "sec-1" = some revokedSecret ∧
    revokedSecret.State = SecretStateRevoked ∧
    (run revokedSecretStore 9 (.CompleteSecretRotation "sec-1" "api")).1.secrets.get "sec-1"
      = some revokedSecret :=
  ⟨by decide, by decide,
    (C12_revoked_is_terminal revokedSecretStore 9 (.CompleteSecretRotation "sec-1" "api")
      "sec-1" revokedSecret (by decide) (by decide)).1⟩

/-! ## C20: the HTTP answer to an error -/

/-- C20 as stated fails for a platform error whose code is empty: the body's
code is then unknown_error, not the error's code. -/
theorem C20_counterexample :
    (Domain "" "rejected" error.nil).asPlatform = some (KindDomain, "") ∧
    Code (Domain "" "rejected" error.nil) = "" ∧
    (writeDomainError (Domain "" "rejected" error.nil)).2.Code = "unknown_error" :=
  ⟨by decide, by decide, by decide⟩

/-- C20, amended. For every error in which unwrapping first meets a platform
error of kind k and code c, writeDomainError answers 404 when k is not_found,
409 when it is conflict, 500 when it is internal and 400 when it is domain or
validation; and the body's code is c, or unknown_error when c is empty. -/
theorem C20_status_by_kind (err : error) (k : Kind) (c : String)
    (h : err.asPlatform = some (k, c)) :
    (k = KindNotFound → (writeDomainError err).1 = 404) ∧
    (k = KindConflict → (writeDomainError err).1 = 409) ∧
    (k = KindInternal → (writeDomainError err).1 = 500) ∧
    (k = KindDomain ∨ k = KindValidation → (writeDomainError err).1 = 400) ∧
    (c ≠ "" → (writeDomainError err).2.Code = c) ∧
    (c = "" → (writeDomainError err).2.Code = "unknown_error") ∧
    Code err = c := by
  have hk : ∀ kind, IsKind err kind = (k == kind) := by
    intro kind
    simp [IsKind, h]
  have hc : Code err = c := by simp [Code, h]
  refine ⟨?_, ?_, ?_, ?_, ?_, ?_, hc⟩
  · rintro rfl
    simp [writeDomainError, hk, StatusNotFound]
  · rintro rfl
    simp [writeDomainError, hk, StatusConflict, KindConflict, KindNotFound]
  · rintro rfl
    simp [writeDomainError, hk, StatusInternalServerError, KindInternal, KindConflict,
      KindNotFound]
  · rintro (rfl | rfl) <;>
      simp [writeDomainError, hk, StatusBadRequest, KindInternal, KindConflict,
        KindNotFound, KindDomain, KindValidation]
  · intro hne
    simp [writeDomainError, hc, hne]
  · intro he
    simp [writeDomainError, hc, he]

/-- Witness of C20, amended: a save error that wraps the not_found error
team_not_found is answered with 404 and code team_not_found. -/
theorem C20_status_by_kind_witness :
    (error.errorf "saving application"
      (NotFound "team_not_found" "team not found" error.nil)).asPlatform
      = some (KindNotFound, "team_not_found") ∧
    (writeDomainError (error.errorf "saving application"
      (NotFound "team_not_found" "team not found" error.nil))).1 = 404 ∧
    (writeDomainError (error.errorf "saving application"
      (NotFound "team_not_found" "team not found" error.nil))).2.Code = "team_not_found" :=
  have h := C20_status_by_kind (error.errorf "saving application"
    (NotFound "team_not_found" "team not found" error.nil)) KindNotFound "team_not_found"
    (by decide)
  ⟨by decide, h.1 rfl, h.2.2.2.2.1 (by decide)⟩

/-! ## The errors that an HTTP adapter's error excludes -/

theorem error.asGitProvider_of_asAppEnvProv {err : error} {x : Int × String × String}
    (h : err.asAppEnvProv = some x) : err.asGitProvider = none := by
  induction err with
  | nil => simp [error.asAppEnvProv] at h
  | platform _ _ _ e ih => exact ih h
  | errorf _ e ih => exact ih h
  | other _ => simp [error.asAppEnvProv] at h
  | controlplane _ _ _ => simp [error.asAppEnvProv] at h
  | gitprovider _ _ => simp [error.asAppEnvProv] at h
  | appenvprov _ _ _ => rfl
  | secretbindings _ _ => simp [error.asAppEnvProv] at h
  | application _ _ _ e ih => exact ih h

/-! ## C13: classification of the errors of the control plane -/

/-- C13. For every error e: if unwrapping e meets a controlplanehttp error with
a status from 400 to 499, mapControlPlaneError returns a non-retryable
application error that wraps e and whose type is that error's code, or
control_plane_client_error when the code is empty; in every other case (e is
nil, the status is outside 400 to 499, or e holds no controlplanehttp error)
it returns e itself and records nothing. -/
theorem C13_mapControlPlaneError {ω : Type} (w : World ω) (err : error) :
    (∀ status code message, err.asControlPlane = some (status, code, message) →
      400 ≤ status → status < 500 →
      ∃ msg, (mapControlPlaneError w err).2 =
          error.application msg (if code = "" then "control_plane_client_error" else code)
            true err ∧
        isNonRetryable (mapControlPlaneError w err).2 = true) ∧
    (err = error.nil → mapControlPlaneError w err = (w, error.nil)) ∧
    (∀ status code message, err.asControlPlane = some (status, code, message) →
      ¬ (400 ≤ status ∧ status < 500) → mapControlPlaneError w err = (w, err)) ∧
    (err.asControlPlane = none → mapControlPlaneError w err = (w, err)) := by
  refine ⟨?_, ?_, ?_, ?_⟩
  · intro status code message h h4 h5
    have hne : err ≠ error.nil := by
      rintro rfl
      simp [error.asControlPlane] at h
    refine ⟨if message = "" then err.Error else message, ?_, ?_⟩ <;>
      simp [mapControlPlaneError, hne, h, h4, h5, NewNonRetryableApplicationError,
        isNonRetryable, error.asApplication]
  · rintro rfl
    simp [mapControlPlaneError]
  · intro status code message h hn
    have hne : err ≠ error.nil := by
      rintro rfl
      simp [error.asControlPlane] at h
    have hn2 : ¬ (status ≥ 400 ∧ status < 500) := hn
    simp [mapControlPlaneError, hne, h]
    intro h4 h5
    exact absurd ⟨h4, h5⟩ hn
  · intro h
    by_cases hne : err = error.nil
    · subst hne
      simp [mapControlPlaneError]
    · simp [mapControlPlaneError, hne, h]

/-- Witness of C13: the error of the onboarding test, a 400 with the code
application_invalid_state_for_onboarding, becomes a non-retryable error of that
type. -/
theorem C13_mapControlPlaneError_witness :
    (error.controlplane 400 "application_invalid_state_for_onboarding"
      "application can only start onboarding from Approved state").asControlPlane =
      some (400, "application_invalid_state_for_onboarding",
        "application can only start onboarding from Approved state") ∧
    ∃ msg, (mapControlPlaneError (World.start ())
        (error.controlplane 400 "application_invalid_state_for_onboarding"
          "application can only start onboarding from Approved state")).2 =
        error.application msg
          (if "application_invalid_state_for_onboarding" = "" then "control_plane_client_error"
            else "application_invalid_state_for_onboarding")
          true
          (error.controlplane 400 "application_invalid_state_for_onboarding"
            "application can only start onboarding from Approved state") ∧
      isNonRetryable (mapControlPlaneError (World.start ())
        (error.controlplane 400 "application_invalid_state_for_onboarding"
          "application can only start onboarding from Approved state")).2 = true :=
  ⟨rfl,
    (C13_mapControlPlaneError (World.start ())
      (error.controlplane 400 "application_invalid_state_for_onboarding"
        "application can only start onboarding from Approved state")).1 400
      "application_invalid_state_for_onboarding"
      "application can only start onboarding from Approved state" rfl (by decide) (by decide)⟩

/-! ## C14: classification of the errors of the execution workers -/

/-- C14. For every error e: if unwrapping e meets a gitproviderhttp error or an
appenvprovhttp error with a status from 400 to 499, mapExecutionWorkersError
returns a non-retryable application error of type
execution_workers_client_error that wraps e; when e is nil, or holds neither
kind of error, or holds one with a status outside 400 to 499, it returns e
itself and records nothing. -/
theorem C14_mapExecutionWorkersError {ω : Type} (w : World ω) (err : error) :
    (∀ status message, err.asGitProvider = some (status, message) →
      400 ≤ status → status < 500 →
      ∃ msg, (mapExecutionWorkersError w err).2 =
          error.application msg "execution_workers_client_error" true err ∧
        isNonRetryable (mapExecutionWorkersError w err).2 = true) ∧
    (∀ status path message, err.asAppEnvProv = some (status, path, message) →
      400 ≤ status → status < 500 →
      ∃ msg, (mapExecutionWorkersError w err).2 =
          error.application msg "execution_workers_client_error" true err ∧
        isNonRetryable (mapExecutionWorkersError w err).2 = true) ∧
    (err = error.nil → mapExecutionWorkersError w err = (w, error.nil)) ∧
    ((∀ status message, err.asGitProvider = some (status, message) →
        ¬ (400 ≤ status ∧ status < 500)) →
      (∀ status path message, err.asAppEnvProv = some (status, path, message) →
        ¬ (400 ≤ status ∧ status < 500)) →
      mapExecutionWorkersError w err = (w, err)) := by
  refine ⟨?_, ?_, ?_, ?_⟩
  · intro status message h h4 h5
    have hne : err ≠ error.nil := by
      rintro rfl
      simp [error.asGitProvider] at h
    refine ⟨if message = "" then err.Error else message, ?_, ?_⟩ <;>
      simp [mapExecutionWorkersError, hne, h, h4, h5, NewNonRetryableApplicationError,
        isNonRetryable, error.asApplication]
  · intro status path message h h4 h5
    have hne : err ≠ error.nil := by
      rintro rfl
      simp [error.asAppEnvProv] at h
    have hg := error.asGitProvider_of_asAppEnvProv h
    refine ⟨if message = "" then err.Error else message, ?_, ?_⟩ <;>
      simp [mapExecutionWorkersError, hne, h, hg, h4, h5, NewNonRetryableApplicationError,
        isNonRetryable, error.asApplication]
  · rintro rfl
    simp [mapExecutionWorkersError]
  · intro hg ha
    by_cases hne : err = error.nil
    · subst hne
      simp [mapExecutionWorkersError]
    · have hg2 : (match err.asGitProvider with
          | some (status, message) =>
            if status ≥ 400 ∧ status < 500 then some (status, message) else none
          | none => none) = none := by
        cases hgp : err.asGitProvider with
        | none => rfl
        | some p =>
          obtain ⟨s, m⟩ := p
          have := hg s m hgp
          simp only []
          rw [if_neg this]
      cases hap : err.asAppEnvProv with
      | none => simp [mapExecutionWorkersError, hne, hg2, hap]
      | some p =>
        obtain ⟨s, pa, m⟩ := p
        have := ha s pa m hap
        simp only [mapExecutionWorkersError, hne, hg2, hap, if_false]
        rw [if_neg this]

/-- Witness of C14: the errors of the two tests, a 400 of the Git provider and a
409 of the provisioning provider, become non-retryable errors of type
execution_workers_client_error. -/
theorem C14_mapExecutionWorkersError_witness :
    (∃ msg, (mapExecutionWorkersError (World.start ())
        (error.gitprovider 400 "bad request")).2 =
        error.application msg "execution_workers_client_error" true
          (error.gitprovider 400 "bad request") ∧
      isNonRetryable (mapExecutionWorkersError (World.start ())
        (error.gitprovider 400 "bad request")).2 = true) ∧
    (∃ msg, (mapExecutionWorkersError (World.start ())
        (error.appenvprov 409 "/appenv/secrets" "conflict")).2 =
        error.application msg "execution_workers_client_error" true
          (error.appenvprov 409 "/appenv/secrets" "conflict") ∧
      isNonRetryable (mapExecutionWorkersError (World.start ())
        (error.appenvprov 409 "/appenv/secrets" "conflict")).2 = true) :=
  ⟨(C14_mapExecutionWorkersError (World.start ()) (error.gitprovider 400 "bad request")).1
      400 "bad request" rfl (by decide) (by decide),
    (C14_mapExecutionWorkersError (World.start ())
      (error.appenvprov 409 "/appenv/secrets" "conflict")).2.1 409 "/appenv/secrets"
      "conflict" rfl (by decide) (by decide)⟩

/-! ## What the activities leave untouched -/

section frames

variable {ω : Type}

@[simp] theorem ObserveDomainEvent_history (w : World ω) (e r : String) :
    (ObserveDomainEvent w e r).history = w.history := rfl

@[simp] theorem ObserveDomainEvent_outside (w : World ω) (e r : String) :
    (ObserveDomainEvent w e r).outside = w.outside := rfl

@[simp] theorem ObserveWorkflowDuration_history (w : World ω) (n r : String) :
    (ObserveWorkflowDuration w n r).history = w.history := rfl

@[simp] theorem ObserveWorkflowDuration_outside (w : World ω) (n r : String) :
    (ObserveWorkflowDuration w n r).outside = w.outside := rfl

@[simp] theorem ObserveWorkflowRetries_history (w : World ω) (n : String) (k : Int) :
    (ObserveWorkflowRetries w n k).history = w.history := by
  unfold ObserveWorkflowRetries
  simp only []
  split_ifs <;> rfl

@[simp] theorem ObserveWorkflowRetries_outside (w : World ω) (n : String) (k : Int) :
    (ObserveWorkflowRetries w n k).outside = w.outside := by
  unfold ObserveWorkflowRetries
  simp only []
  split_ifs <;> rfl

@[simp] theorem mapControlPlaneError_history (w : World ω) (err : error) :
    (mapControlPlaneError w err).1.history = w.history := by
  unfold mapControlPlaneError
  (repeat' split) <;> rfl

@[simp] theorem mapControlPlaneError_outside (w : World ω) (err : error) :
    (mapControlPlaneError w err).1.outside = w.outside := by
  unfold mapControlPlaneError
  (repeat' split) <;> rfl

@[simp] theorem mapExecutionWorkersError_history (w : World ω) (err : error) :
    (mapExecutionWorkersError w err).1.history = w.history := by
  unfold mapExecutionWorkersError
  (repeat' split) <;> rfl

@[simp] theorem mapExecutionWorkersError_outside (w : World ω) (err : error) :
    (mapExecutionWorkersError w err).1.outside = w.outside := by
  unfold mapExecutionWorkersError
  (repeat' split) <;> rfl

/-- An activity that records nothing in the history of the run. -/
theorem attempt_preserves {β : Type} (f : World ω → β) (activity : World ω → World ω × error)
    (h : ∀ w, f (activity w).1 = f w) (n : Nat) (w : World ω) :
    f (attempt activity n w).1 = f w := by
  induction n generalizing w with
  | zero => exact h w
  | succ n ih =>
    unfold attempt
    simp only []
    split
    · exact h w
    · rw [ih, h]

/-- The outside world after the attempts of an activity is related to the one
before by every reflexive and transitive relation that each attempt respects. -/
theorem attempt_outside_rel (R : ω → ω → Prop)
    (htrans : ∀ a b c, R a b → R b c → R a c) (activity : World ω → World ω × error)
    (h : ∀ w, R w.outside (activity w).1.outside) (n : Nat) (w : World ω) :
    R w.outside (attempt activity n w).1.outside := by
  induction n generalizing w with
  | zero => exact h w
  | succ n ih =>
    unfold attempt
    simp only []
    split
    · exact h w
    · exact htrans _ _ _ (h w) (ih _)

/-- When the first attempt of an activity succeeds, it is the only one. -/
theorem attempt_of_success (activity : World ω → World ω × error) (n : Nat) (w : World ω)
    (h : (activity w).2 = error.nil) : attempt activity n w = activity w := by
  cases n with
  | zero => rfl
  | succ n =>
    unfold attempt
    simp [h]

/-- When the first attempt fails with a non-retryable error, it is the only one. -/
theorem attempt_of_nonRetryable (activity : World ω → World ω × error) (n : Nat)
    (w : World ω) (h : isNonRetryable (activity w).2 = true) :
    attempt activity n w = activity w := by
  cases n with
  | zero => rfl
  | succ n =>
    unfold attempt
    simp [h]

theorem ExecuteActivity_error (opts : ActivityOptions) (name : String)
    (activity : World ω → String → World ω × error) (w : World ω) (input : String) :
    (ExecuteActivity opts name activity w input).2 =
      (attempt (fun w => activity w input) (opts.RetryPolicy.MaximumAttempts - 1)
        { w with history := w.history ++ [HistoryEvent.activityScheduled name input] }).2 := by
  unfold ExecuteActivity
  simp only []
  split
  · rename_i h
    exact h.symm
  · rfl

/-- The history after an activity was executed: the activity scheduled, and its
completion or its failure with the error returned. -/
theorem ExecuteActivity_history (opts : ActivityOptions) (name : String)
    (activity : World ω → String → World ω × error)
    (hact : ∀ w x, (activity w x).1.history = w.history) (w : World ω) (input : String) :
    (ExecuteActivity opts name activity w input).1.history =
      w.history ++ [HistoryEvent.activityScheduled name input,
        if (ExecuteActivity opts name activity w input).2 = error.nil then
          HistoryEvent.activityCompleted name
        else HistoryEvent.activityFailed name
          (ExecuteActivity opts name activity w input).2] := by
  have hp := attempt_preserves (fun w : World ω => w.history) (fun w => activity w input)
    (fun w => hact w input) (opts.RetryPolicy.MaximumAttempts - 1)
    { w with history := w.history ++ [HistoryEvent.activityScheduled name input] }
  rw [ExecuteActivity_error]
  unfold ExecuteActivity
  simp only [] at hp ⊢
  split
  · simp [hp]
  · simp [hp]

theorem selectSignalOrTimer_outside (w : World ω) (name : String) (seconds : Nat)
    (signalAfter : Option Nat) :
    (selectSignalOrTimer w name seconds signalAfter).1.outside = w.outside := by
  unfold selectSignalOrTimer
  (repeat' split) <;> rfl

end frames

/-! ## The activities record nothing in the history -/

section activities

variable {ω : Type}

@[simp] theorem CreateCodeRepositoryForApplication_history (ports : Ports ω) (w : World ω) (x : String) :
    (CreateCodeRepositoryForApplication ports w x).1.history = w.history := by
  unfold CreateCodeRepositoryForApplication
  (repeat' split) <;> simp

@[simp] theorem CreateDeploymentRepositoryForApplication_history (ports : Ports ω) (w : World ω) (x : String) :
    (CreateDeploymentRepositoryForApplication ports w x).1.history = w.history := by
  unfold CreateDeploymentRepositoryForApplication
  (repeat' split) <;> simp

@[simp] theorem CreateGitOpsIntegrationForApplication_history (ports : Ports ω) (w : World ω) (x : String) :
    (CreateGitOpsIntegrationForApplication ports w x).1.history = w.history := by
  unfold CreateGitOpsIntegrationForApplication
  (repeat' split) <;> simp

@[simp] theorem DeclareApplicationEnvironmentsForApplication_history (ports : Ports ω) (w : World ω) (x : String) :
    (DeclareApplicationEnvironmentsForApplication ports w x).1.history = w.history := by
  unfold DeclareApplicationEnvironmentsForApplication
  (repeat' split) <;> simp

@[simp] theorem TransitionApplicationToOnboarding_history (ports : Ports ω) (w : World ω) (x : String) :
    (TransitionApplicationToOnboarding ports w x).1.history = w.history := by
  unfold TransitionApplicationToOnboarding
  (repeat' split) <;> simp

@[simp] theorem TransitionApplicationToActive_history (ports : Ports ω) (w : World ω) (x : String) :
    (TransitionApplicationToActive ports w x).1.history = w.history := by
  unfold TransitionApplicationToActive
  (repeat' split) <;> simp

@[simp] theorem MaterializeRepositories_history (ports : Ports ω) (w : World ω) (x : String) :
    (MaterializeRepositories ports w x).1.history = w.history := by
  unfold MaterializeRepositories
  (repeat' split) <;> simp

@[simp] theorem ApplyBranchProtection_history (ports : Ports ω) (w : World ω) (x : String) :
    (ApplyBranchProtection ports w x).1.history = w.history := by
  unfold ApplyBranchProtection
  (repeat' split) <;> simp

@[simp] theorem ProvisionSecrets_history (ports : Ports ω) (w : World ω) (x : String) :
    (ProvisionSecrets ports w x).1.history = w.history := by
  unfold ProvisionSecrets
  (repeat' split) <;> simp

@[simp] theorem CreateSecretBindings_history (ports : Ports ω) (w : World ω) (x : String) :
    (CreateSecretBindings ports w x).1.history = w.history := by
  unfold CreateSecretBindings
  (repeat' split) <;> simp

@[simp] theorem VerifyGitOpsReconciliation_history (ports : Ports ω) (w : World ω) (x : String) :
    (VerifyGitOpsReconciliation ports w x).1.history = w.history := by
  unfold VerifyGitOpsReconciliation
  (repeat' split) <;> simp

@[simp] theorem FinalizeApplicationEnvironmentProvisioning_history (ports : Ports ω) (w : World ω) (x : String) :
    (FinalizeApplicationEnvironmentProvisioning ports w x).1.history = w.history := by
  unfold FinalizeApplicationEnvironmentProvisioning
  split
  · rfl
  · simp only []
    split_ifs
    · rfl
    · (repeat' split) <;> rfl

@[simp] theorem PerformSecretRotation_history (ports : Ports ω) (w : World ω) (x : String) :
    (PerformSecretRotation ports w x).1.history = w.history := rfl

@[simp] theorem UpdateSecretBindingsForSecret_history (ports : Ports ω) (w : World ω) (x : String) :
    (UpdateSecretBindingsForSecret ports w x).1.history = w.history := by
  unfold UpdateSecretBindingsForSecret
  split
  · rfl
  · simp only []
    split_ifs <;> rfl

@[simp] theorem CompleteSecretRotationActivity_history (ports : Ports ω) (w : World ω) (x : String) :
    (CompleteSecretRotationActivity ports w x).1.history = w.history := by
  unfold CompleteSecretRotationActivity
  (repeat' split) <;> simp

end activities

/-! ## C19: a workflow started without an id -/

/-- C19. Each of the four workflows, started with an empty id, returns a
non-retryable application error of type bad_input; the history of the run is
what it was (no activity is scheduled, no timer is started, no signal is
received) and the world behind the ports is untouched. -/
theorem C19_empty_id_is_bad_input {ω : Type} (ports : Ports ω) (rt : Runtime) (w : World ω) :
    ((ApplicationOnboarding ports rt w { ApplicationID := "" }).2 =
        error.application "ApplicationID is required" "bad_input" true error.nil ∧
      (ApplicationOnboarding ports rt w { ApplicationID := "" }).1.history = w.history ∧
      (ApplicationOnboarding ports rt w { ApplicationID := "" }).1.outside = w.outside) ∧
    ((ApplicationActivation ports rt w { ApplicationID := "" }).2 =
        error.application "ApplicationID is required" "bad_input" true error.nil ∧
      (ApplicationActivation ports rt w { ApplicationID := "" }).1.history = w.history ∧
      (ApplicationActivation ports rt w { ApplicationID := "" }).1.outside = w.outside) ∧
    ((ApplicationEnvironmentProvisioning ports rt w { ApplicationEnvironmentID := "" }).2 =
        error.application "ApplicationEnvironmentID is required" "bad_input" true
          error.nil ∧
      (ApplicationEnvironmentProvisioning ports rt w
        { ApplicationEnvironmentID := "" }).1.history = w.history ∧
      (ApplicationEnvironmentProvisioning ports rt w
        { ApplicationEnvironmentID := "" }).1.outside = w.outside) ∧
    ((SecretRotation ports rt w { SecretID := "" }).2 =
        error.application "SecretID is required" "bad_input" true error.nil ∧
      (SecretRotation ports rt w { SecretID := "" }).1.history = w.history ∧
      (SecretRotation ports rt w { SecretID := "" }).1.outside = w.outside) := by
  refine ⟨⟨?_, ?_, ?_⟩, ⟨?_, ?_, ?_⟩, ⟨?_, ?_, ?_⟩, ⟨?_, ?_, ?_⟩⟩
  · simp [ApplicationOnboarding, ApplicationOnboarding.body, NewNonRetryableApplicationError]
  · simp only [ApplicationOnboarding, ApplicationOnboarding.body, if_true,
      ObserveWorkflowDuration_history]
    split_ifs <;> simp
  · simp only [ApplicationOnboarding, ApplicationOnboarding.body, if_true,
      ObserveWorkflowDuration_outside]
    split_ifs <;> simp
  · simp [ApplicationActivation, ApplicationActivation.body, NewNonRetryableApplicationError]
  · simp only [ApplicationActivation, ApplicationActivation.body, if_true,
      ObserveWorkflowDuration_history]
    split_ifs <;> simp
  · simp only [ApplicationActivation, ApplicationActivation.body, if_true,
      ObserveWorkflowDuration_outside]
    split_ifs <;> simp
  · simp [ApplicationEnvironmentProvisioning, ApplicationEnvironmentProvisioning.body,
      NewNonRetryableApplicationError]
  · simp only [ApplicationEnvironmentProvisioning, ApplicationEnvironmentProvisioning.body,
      if_true, ObserveWorkflowDuration_history]
    split_ifs <;> simp
  · simp only [ApplicationEnvironmentProvisioning, ApplicationEnvironmentProvisioning.body,
      if_true, ObserveWorkflowDuration_outside]
    split_ifs <;> simp
  · simp [SecretRotation, SecretRotation.body, NewNonRetryableApplicationError]
  · simp only [SecretRotation, SecretRotation.body, if_true, ObserveWorkflowDuration_history]
    split_ifs <;> simp
  · simp only [SecretRotation, SecretRotation.body, if_true, ObserveWorkflowDuration_outside]
    split_ifs <;> simp

section waits
variable {ω : Type}

theorem waitForSecurityScanPassed_timeout (rt : Runtime) (w : World ω)
    (h : ∀ t, rt.signalAfter = some t → 15 * Minute < t) :
    waitForSecurityScanPassed rt w =
      ({ w with history := w.history ++
          [HistoryEvent.timerStarted (15 * Minute), HistoryEvent.timerFired (15 * Minute)] },
        NewNonRetryableApplicationError "security scan timeout" "security_scan_timeout"
          error.nil) := by
  unfold waitForSecurityScanPassed selectSignalOrTimer
  cases hs : rt.signalAfter with
  | none => simp
  | some t =>
    have := h t hs
    have h2 : ¬ t ≤ 15 * Minute := by omega
    simp [h2]

theorem waitForRotationValidatedExternally_timeout (rt : Runtime) (w : World ω)
    (h : ∀ t, rt.signalAfter = some t → 60 * Minute < t) :
    waitForRotationValidatedExternally rt w =
      ({ w with history := w.history ++
          [HistoryEvent.timerStarted (60 * Minute), HistoryEvent.timerFired (60 * Minute)] },
        NewNonRetryableApplicationError "secret rotation timeout" "secret_rotation_timeout"
          error.nil) := by
  unfold waitForRotationValidatedExternally selectSignalOrTimer
  cases hs : rt.signalAfter with
  | none => simp
  | some t =>
    have := h t hs
    have h2 : ¬ t ≤ 60 * Minute := by omega
    simp [h2]

/-- A workflow is its body run on a world with the same history and outside. -/
theorem ApplicationOnboarding_eq_body (ports : Ports ω) (rt : Runtime) (w : World ω)
    (i : ApplicationOnboardingInput) :
    ∃ w0 : World ω, w0.history = w.history ∧ w0.outside = w.outside ∧
      (ApplicationOnboarding ports rt w i).2 = (ApplicationOnboarding.body ports rt w0 i).2 ∧
      (ApplicationOnboarding ports rt w i).1.history =
        (ApplicationOnboarding.body ports rt w0 i).1.history ∧
      (ApplicationOnboarding ports rt w i).1.outside =
        (ApplicationOnboarding.body ports rt w0 i).1.outside := by
  unfold ApplicationOnboarding
  by_cases h : rt.info.Attempt > 1
  · exact ⟨ObserveWorkflowRetries w "ApplicationOnboarding" 1, by simp, by simp,
      by simp [h], by simp [h], by simp [h]⟩
  · exact ⟨w, rfl, rfl, by simp [h], by simp [h], by simp [h]⟩

theorem SecretRotation_eq_body (ports : Ports ω) (rt : Runtime) (w : World ω)
    (i : SecretRotationInput) :
    ∃ w0 : World ω, w0.history = w.history ∧ w0.outside = w.outside ∧
      (SecretRotation ports rt w i).2 = (SecretRotation.body ports rt w0 i).2 ∧
      (SecretRotation ports rt w i).1.history =
        (SecretRotation.body ports rt w0 i).1.history ∧
      (SecretRotation ports rt w i).1.outside =
        (SecretRotation.body ports rt w0 i).1.outside := by
  unfold SecretRotation
  by_cases h : rt.info.Attempt > 1
  · exact ⟨ObserveWorkflowRetries w "SecretRotation" 1, by simp, by simp,
      by simp [h], by simp [h], by simp [h]⟩
  · exact ⟨w, rfl, rfl, by simp [h], by simp [h], by simp [h]⟩

theorem ApplicationEnvironmentProvisioning_eq_body (ports : Ports ω) (rt : Runtime)
    (w : World ω) (i : ApplicationEnvironmentProvisioningInput) :
    ∃ w0 : World ω, w0.history = w.history ∧ w0.outside = w.outside ∧
      (ApplicationEnvironmentProvisioning ports rt w i).2 =
        (ApplicationEnvironmentProvisioning.body ports w0 i).2 ∧
      (ApplicationEnvironmentProvisioning ports rt w i).1.history =
        (ApplicationEnvironmentProvisioning.body ports w0 i).1.history ∧
      (ApplicationEnvironmentProvisioning ports rt w i).1.outside =
        (ApplicationEnvironmentProvisioning.body ports w0 i).1.outside := by
  unfold ApplicationEnvironmentProvisioning
  by_cases h : rt.info.Attempt > 1
  · exact ⟨ObserveWorkflowRetries w "ApplicationEnvironmentProvisioning" 1, by simp, by simp,
      by simp [h], by simp [h], by simp [h]⟩
  · exact ⟨w, rfl, rfl, by simp [h], by simp [h], by simp [h]⟩

theorem ApplicationOnboarding_body_timeout (ports : Ports ω) (rt : Runtime) (w : World ω)
    (x : String) (hx : x ≠ "") (hw : w.history = [])
    (h : ∀ t, rt.signalAfter = some t → 15 * Minute < t) :
    (HistoryEvent.timerStarted (15 * Minute) ∈
        (ApplicationOnboarding.body ports rt w { ApplicationID := x }).1.history →
      (ApplicationOnboarding.body ports rt w { ApplicationID := x }).2 =
        NewNonRetryableApplicationError "security scan timeout" "security_scan_timeout"
          error.nil) ∧
    "TransitionApplicationToOnboarding" ∉ scheduledActivities
      (ApplicationOnboarding.body ports rt w { ApplicationID := x }).1.history := by
  simp only [ApplicationOnboarding.body, hx, if_false,
    waitForSecurityScanPassed_timeout _ _ h]
  split_ifs with h1 h2 h3 h4 h5 h6
  all_goals simp only [ne_eq, not_not] at *
  all_goals first
    | (simp [NewNonRetryableApplicationError] at h5; done)
    | simp [ExecuteActivity_history, scheduledActivities, hw, *]

/-- An activity whose first attempt succeeds is executed once. -/
theorem ExecuteActivity_of_success (opts : ActivityOptions) (name : String)
    (activity : World ω → String → World ω × error) (w : World ω) (input : String)
    (h : (activity { w with history := w.history ++
      [HistoryEvent.activityScheduled name input] } input).2 = error.nil) :
    ExecuteActivity opts name activity w input =
      ({ (activity { w with history := w.history ++
            [HistoryEvent.activityScheduled name input] } input).1 with
          history := (activity { w with history := w.history ++
            [HistoryEvent.activityScheduled name input] } input).1.history ++
              [HistoryEvent.activityCompleted name] }, error.nil) := by
  unfold ExecuteActivity
  simp only []
  rw [attempt_of_success (fun w => activity w input) _ _ h]
  simp [h]

theorem ExecuteActivity_PerformSecretRotation (ports : Ports ω) (w : World ω) (x : String) :
    ExecuteActivity activityOptions "PerformSecretRotation" (PerformSecretRotation ports) w x =
      ({ w with history := w.history ++
          [HistoryEvent.activityScheduled "PerformSecretRotation" x,
            HistoryEvent.activityCompleted "PerformSecretRotation"] }, error.nil) := by
  rw [ExecuteActivity_of_success _ _ _ _ _ (by rfl)]
  simp [PerformSecretRotation]

theorem SecretRotation_body_timeout (ports : Ports ω) (rt : Runtime) (w : World ω)
    (x : String) (hx : x ≠ "") (hw : w.history = [])
    (h : ∀ t, rt.signalAfter = some t → 60 * Minute < t) :
    (SecretRotation.body ports rt w { SecretID := x }).2 =
        NewNonRetryableApplicationError "secret rotation timeout" "secret_rotation_timeout"
          error.nil ∧
    scheduledActivities (SecretRotation.body ports rt w { SecretID := x }).1.history =
      ["PerformSecretRotation"] := by
  simp [SecretRotation.body, hx, waitForRotationValidatedExternally_timeout _ _ h,
    ExecuteActivity_PerformSecretRotation, NewNonRetryableApplicationError,
    scheduledActivities, hw]

end waits

/-- C16: the timer wins when the signal does not arrive. When SecurityScanPassed
does not arrive within 900 seconds of the start of the wait of
ApplicationOnboarding, a run that started the wait fails with the non-retryable
error of type security_scan_timeout, and no run schedules
TransitionApplicationToOnboarding; when RotationValidatedExternally does not
arrive within 3600 seconds, SecretRotation fails with the non-retryable error of
type secret_rotation_timeout and schedules PerformSecretRotation only, so neither
UpdateSecretBindingsForSecret nor CompleteSecretRotationActivity. -/
theorem C16_timer_wins {ω : Type} (ports : Ports ω) (rt : Runtime) (o : ω) (x : String)
    (hx : x ≠ "") :
    ((∀ t, rt.signalAfter = some t → 900 < t) →
      (HistoryEvent.timerStarted 900 ∈
          (ApplicationOnboarding ports rt (World.start o) { ApplicationID := x }).1.history →
        (ApplicationOnboarding ports rt (World.start o) { ApplicationID := x }).2 =
            error.application "security scan timeout" "security_scan_timeout" true error.nil ∧
          isNonRetryable
            (ApplicationOnboarding ports rt (World.start o) { ApplicationID := x }).2 = true) ∧
      "TransitionApplicationToOnboarding" ∉ scheduledActivities
        (ApplicationOnboarding ports rt (World.start o) { ApplicationID := x }).1.history) ∧
    ((∀ t, rt.signalAfter = some t → 3600 < t) →
      (SecretRotation ports rt (World.start o) { SecretID := x }).2 =
          error.application "secret rotation timeout" "secret_rotation_timeout" true
            error.nil ∧
        isNonRetryable (SecretRotation ports rt (World.start o) { SecretID := x }).2 = true ∧
        "UpdateSecretBindingsForSecret" ∉ scheduledActivities
          (SecretRotation ports rt (World.start o) { SecretID := x }).1.history ∧
        "CompleteSecretRotationActivity" ∉ scheduledActivities
          (SecretRotation ports rt (World.start o) { SecretID := x }).1.history) := by
  constructor
  · intro h
    obtain ⟨w0, hh, -, e2, eh, -⟩ :=
      ApplicationOnboarding_eq_body ports rt (World.start o) { ApplicationID := x }
    have hb := ApplicationOnboarding_body_timeout ports rt w0 x hx (by rw [hh]; rfl) h
    rw [e2, eh]
    refine ⟨fun hm => ?_, hb.2⟩
    have := hb.1 hm
    rw [this]
    exact ⟨rfl, rfl⟩
  · intro h
    obtain ⟨w0, hh, -, e2, eh, -⟩ :=
      SecretRotation_eq_body ports rt (World.start o) { SecretID := x }
    have hb := SecretRotation_body_timeout ports rt w0 x hx (by rw [hh]; rfl) h
    rw [e2, eh, hb.1, hb.2]
    exact ⟨rfl, rfl, by decide, by decide⟩

theorem C16_timer_wins_witness :
    (ApplicationOnboarding noPorts silentRuntime (World.start ())
        { ApplicationID := "app-1" }).2 =
      error.application "security scan timeout" "security_scan_timeout" true error.nil ∧
    (SecretRotation noPorts silentRuntime (World.start ()) { SecretID := "sec-1" }).2 =
      error.application "secret rotation timeout" "secret_rotation_timeout" true error.nil :=
  ⟨(((C16_timer_wins noPorts silentRuntime () "app-1" (by decide)).1
      (by intro t ht; cases ht)).1 (by decide)).1,
   ((C16_timer_wins noPorts silentRuntime () "sec-1" (by decide)).2
      (by intro t ht; cases ht)).1⟩

section requests

theorem Appended.refl (allowed log : List Request) : Appended allowed log log :=
  ⟨[], by simp, by simp⟩

theorem Appended.trans {allowed a b c : List Request} (h1 : Appended allowed a b)
    (h2 : Appended allowed b c) : Appended allowed a c := by
  obtain ⟨s1, e1, p1⟩ := h1
  obtain ⟨s2, e2, p2⟩ := h2
  refine ⟨s1 ++ s2, by rw [e2, e1, List.append_assoc], ?_⟩
  intro req hreq
  rcases List.mem_append.mp hreq with h | h
  · exact p1 req h
  · exact p2 req h

theorem Appended.mono {allowed allowed2 a b : List Request} (h : Appended allowed a b)
    (hsub : ∀ req ∈ allowed, req ∈ allowed2) : Appended allowed2 a b := by
  obtain ⟨s, e, p⟩ := h
  exact ⟨s, e, fun req hreq => hsub req (p req hreq)⟩

theorem Appended.one {allowed log : List Request} {req : Request} (h : req ∈ allowed) :
    Appended allowed log (log ++ [req]) :=
  ⟨[req], rfl, by simpa using h⟩

/-- The attempts of an activity append only what each attempt appends. -/
theorem ExecuteActivity_appended (allowed : List Request) (opts : ActivityOptions)
    (name : String) (activity : World (List Request) → String → World (List Request) × error)
    (input : String)
    (h : ∀ w, Appended allowed w.outside (activity w input).1.outside)
    (w : World (List Request)) :
    Appended allowed w.outside (ExecuteActivity opts name activity w input).1.outside := by
  have hp := attempt_outside_rel (Appended allowed) (fun _ _ _ h1 h2 => h1.trans h2)
    (fun w => activity w input) h (opts.RetryPolicy.MaximumAttempts - 1)
    { w with history := w.history ++ [HistoryEvent.activityScheduled name input] }
  unfold ExecuteActivity
  simp only [] at hp ⊢
  split
  · exact hp
  · exact hp

variable (respond : Responder) (cpURL ewURL token : String)
  (unmarshal : String → String × String)

/-- Each attempt of CreateCodeRepositoryForApplication sends one request. -/
theorem CreateCodeRepositoryForApplication_http_outside (w : World (List Request)) (x : String) :
    (CreateCodeRepositoryForApplication (httpPorts respond cpURL ewURL token unmarshal) w x).1.outside =
      w.outside ++ [postRequest (cpURL ++ "/commands/code-repositories") token
        [("id", .str ("code-" ++ x)), ("applicationId", .str x)]] := by
  simp only [CreateCodeRepositoryForApplication, httpPorts, controlplanehttp.Client.onboardingPort, controlplanehttp.Client.DeclareCodeRepository, controlplanehttp.Client.send, mapControlPlaneError_outside,
    recordingClient, postRequest]
  (repeat' split) <;> simp_all

/-- Each attempt of CreateDeploymentRepositoryForApplication sends one request. -/
theorem CreateDeploymentRepositoryForApplication_http_outside (w : World (List Request)) (x : String) :
    (CreateDeploymentRepositoryForApplication (httpPorts respond cpURL ewURL token unmarshal) w x).1.outside =
      w.outside ++ [postRequest (cpURL ++ "/commands/deployment-repositories") token
        [("id", .str ("dep-" ++ x)), ("applicationId", .str x),
          ("deploymentModel", .str "GitOpsPerApplication")]] := by
  simp only [CreateDeploymentRepositoryForApplication, httpPorts, controlplanehttp.Client.onboardingPort, controlplanehttp.Client.DeclareDeploymentRepository, controlplanehttp.Client.send, mapControlPlaneError_outside,
    recordingClient, postRequest]
  (repeat' split) <;> simp_all

/-- Each attempt of CreateGitOpsIntegrationForApplication sends one request. -/
theorem CreateGitOpsIntegrationForApplication_http_outside (w : World (List Request)) (x : String) :
    (CreateGitOpsIntegrationForApplication (httpPorts respond cpURL ewURL token unmarshal) w x).1.outside =
      w.outside ++ [postRequest (cpURL ++ "/commands/gitops-integrations") token
        [("id", .str ("gi-" ++ x)), ("applicationId", .str x),
          ("deploymentRepositoryId", .str ("dep-" ++ x))]] := by
  simp only [CreateGitOpsIntegrationForApplication, httpPorts, controlplanehttp.Client.onboardingPort, controlplanehttp.Client.DeclareGitOpsIntegration, controlplanehttp.Client.send, mapControlPlaneError_outside,
    recordingClient, postRequest]
  (repeat' split) <;> simp_all

/-- Each attempt of TransitionApplicationToOnboarding sends one request. -/
theorem TransitionApplicationToOnboarding_http_outside (w : World (List Request)) (x : String) :
    (TransitionApplicationToOnboarding (httpPorts respond cpURL ewURL token unmarshal) w x).1.outside =
      w.outside ++ [postRequest (cpURL ++ "/commands/applications/start-onboarding") token
        [("id", .str x)]] := by
  simp only [TransitionApplicationToOnboarding, httpPorts, controlplanehttp.Client.onboardingPort, controlplanehttp.Client.MarkApplicationOnboarding, controlplanehttp.Client.send, mapControlPlaneError_outside,
    recordingClient, postRequest]
  (repeat' split) <;> simp_all

/-- Each attempt of MaterializeRepositories sends one request. -/
theorem MaterializeRepositories_http_outside (w : World (List Request)) (x : String) :
    (MaterializeRepositories (httpPorts respond cpURL ewURL token unmarshal) w x).1.outside =
      w.outside ++ [postRequest (ewURL ++ "/github/repos") token
        [("owner", .str "platform"), ("name", .str ("appenv-" ++ x)), ("private", .bool true)]] := by
  simp only [MaterializeRepositories, httpPorts, gitproviderhttp.Client.gitProvider, gitproviderhttp.Client.CreateRepository, mapExecutionWorkersError_outside,
    recordingClient, postRequest]
  (repeat' split) <;> simp_all

/-- Each attempt of ApplyBranchProtection sends one request. -/
theorem ApplyBranchProtection_http_outside (w : World (List Request)) (x : String) :
    (ApplyBranchProtection (httpPorts respond cpURL ewURL token unmarshal) w x).1.outside =
      w.outside ++ [postRequest (ewURL ++ "/appenv/branch-protection") token
        [("applicationEnvironmentId", .str x)]] := by
  simp only [ApplyBranchProtection, httpPorts, appenvprovhttp.Client.provider, appenvprovhttp.Client.ApplyBranchProtection, appenvprovhttp.Client.post, mapExecutionWorkersError_outside,
    recordingClient, postRequest]
  (repeat' split) <;> simp_all

/-- Each attempt of ProvisionSecrets sends one request. -/
theorem ProvisionSecrets_http_outside (w : World (List Request)) (x : String) :
    (ProvisionSecrets (httpPorts respond cpURL ewURL token unmarshal) w x).1.outside =
      w.outside ++ [postRequest (ewURL ++ "/appenv/secrets") token
        [("applicationEnvironmentId", .str x)]] := by
  simp only [ProvisionSecrets, httpPorts, appenvprovhttp.Client.provider, appenvprovhttp.Client.ProvisionSecrets, appenvprovhttp.Client.post, mapExecutionWorkersError_outside,
    recordingClient, postRequest]
  (repeat' split) <;> simp_all

/-- Each attempt of CreateSecretBindings sends one request. -/
theorem CreateSecretBindings_http_outside (w : World (List Request)) (x : String) :
    (CreateSecretBindings (httpPorts respond cpURL ewURL token unmarshal) w x).1.outside =
      w.outside ++ [postRequest (ewURL ++ "/appenv/secret-bindings") token
        [("applicationEnvironmentId", .str x)]] := by
  simp only [CreateSecretBindings, httpPorts, appenvprovhttp.Client.provider, appenvprovhttp.Client.CreateSecretBindings, appenvprovhttp.Client.post, mapExecutionWorkersError_outside,
    recordingClient, postRequest]
  (repeat' split) <;> simp_all

/-- Each attempt of VerifyGitOpsReconciliation sends one request. -/
theorem VerifyGitOpsReconciliation_http_outside (w : World (List Request)) (x : String) :
    (VerifyGitOpsReconciliation (httpPorts respond cpURL ewURL token unmarshal) w x).1.outside =
      w.outside ++ [postRequest (ewURL ++ "/appenv/gitops-verify") token
        [("applicationEnvironmentId", .str x)]] := by
  simp only [VerifyGitOpsReconciliation, httpPorts, appenvprovhttp.Client.provider, appenvprovhttp.Client.VerifyGitOpsReconciliation, appenvprovhttp.Client.post, mapExecutionWorkersError_outside,
    recordingClient, postRequest]
  (repeat' split) <;> simp_all

/-- Each attempt of FinalizeApplicationEnvironmentProvisioning sends one request. -/
theorem FinalizeApplicationEnvironmentProvisioning_http_outside (w : World (List Request)) (x : String) :
    (FinalizeApplicationEnvironmentProvisioning (httpPorts respond cpURL ewURL token unmarshal) w x).1.outside =
      w.outside ++ [postRequest (cpURL ++ "/commands/application-environments/complete-provisioning") token
        [("id", .str x)]] := by
  simp only [FinalizeApplicationEnvironmentProvisioning, httpPorts, controlplanehttp.Client.controlPlaneAPI, controlplanehttp.Client.CompleteApplicationEnvironmentProvisioning, controlplanehttp.Client.send, ObserveDownstreamError,
    recordingClient, postRequest]
  (repeat' split) <;> simp_all

/-- Each attempt of UpdateSecretBindingsForSecret sends one request. -/
theorem UpdateSecretBindingsForSecret_http_outside (w : World (List Request)) (x : String) :
    (UpdateSecretBindingsForSecret (httpPorts respond cpURL ewURL token unmarshal) w x).1.outside =
      w.outside ++ [postRequest (ewURL ++ "/secrets/bindings/update") token [("secretId", .str x)]] := by
  simp only [UpdateSecretBindingsForSecret, httpPorts, secretbindingshttp.Client.rotationPort, secretbindingshttp.Client.UpdateSecretBindingsForSecret,
    recordingClient, postRequest]
  (repeat' split) <;> simp_all

/-- Each attempt of CompleteSecretRotationActivity sends one request. -/
theorem CompleteSecretRotationActivity_http_outside (w : World (List Request)) (x : String) :
    (CompleteSecretRotationActivity (httpPorts respond cpURL ewURL token unmarshal) w x).1.outside =
      w.outside ++ [postRequest (cpURL ++ "/commands/secrets/complete-rotation") token [("id", .str x)]] := by
  simp only [CompleteSecretRotationActivity, httpPorts, controlplanehttp.Client.secretRotationPort, controlplanehttp.Client.CompleteSecretRotation, controlplanehttp.Client.send, mapControlPlaneError_outside,
    recordingClient, postRequest]
  (repeat' split) <;> simp_all

/-- The loop of DeclareApplicationEnvironments sends requests for the
environments it is given only. -/
theorem declareEach_appended (a : String) (envs : List String) (o : List Request) :
    Appended
      (envs.map fun envID =>
        postRequest (cpURL ++ "/commands/application-environments") token
          [("id", .str (a ++ "-" ++ envID)), ("applicationId", .str a),
            ("environmentId", .str envID)])
      o
      (controlplanehttp.Client.declareEach
        { baseURL := cpURL, httpClient := recordingClient respond,
          internalAuthToken := token, unmarshal := unmarshal } a envs o).1 := by
  induction envs generalizing o with
  | nil => exact Appended.refl _ _
  | cons e rest ih =>
    unfold controlplanehttp.Client.declareEach
    simp only [controlplanehttp.Client.send, recordingClient]
    split
    next o2 err heq =>
      obtain ⟨rfl, -⟩ := Prod.mk.inj heq
      exact Appended.one (by simp [postRequest])
    next o2 resp heq =>
      obtain ⟨rfl, -⟩ := Prod.mk.inj heq
      split
      · split <;> exact Appended.one (by simp [postRequest])
      · exact (Appended.one (by simp [postRequest])).trans
          ((ih _).mono (fun req hreq => List.mem_cons_of_mem _ hreq))

/-- Each attempt of DeclareApplicationEnvironmentsForApplication sends the request
for env-dev, and after it at most the one for env-prod. -/
theorem DeclareApplicationEnvironmentsForApplication_http_outside
    (w : World (List Request)) (x : String) :
    Appended
      [postRequest (cpURL ++ "/commands/application-environments") token
        [("id", .str (x ++ "-env-dev")), ("applicationId", .str x),
          ("environmentId", .str "env-dev")],
       postRequest (cpURL ++ "/commands/application-environments") token
        [("id", .str (x ++ "-env-prod")), ("applicationId", .str x),
          ("environmentId", .str "env-prod")]]
      w.outside
      (DeclareApplicationEnvironmentsForApplication
        (httpPorts respond cpURL ewURL token unmarshal) w x).1.outside := by
  have e1 : x ++ "-" ++ "env-dev" = x ++ "-env-dev" := by rw [String.append_assoc]; rfl
  have e2 : x ++ "-" ++ "env-prod" = x ++ "-env-prod" := by rw [String.append_assoc]; rfl
  have h := declareEach_appended respond cpURL token unmarshal x ["env-dev", "env-prod"]
    w.outside
  simp only [List.map, e1, e2] at h
  simpa only [DeclareApplicationEnvironmentsForApplication, httpPorts,
    controlplanehttp.Client.onboardingPort,
    controlplanehttp.Client.DeclareApplicationEnvironments,
    mapControlPlaneError_outside] using h

theorem ExecuteActivity_CreateCodeRepositoryForApplication_2xx
    (h2xx : ∀ log req, ∃ resp, respond log req = Except.ok resp ∧
      200 ≤ resp.StatusCode ∧ resp.StatusCode < 300)
    (w : World (List Request)) (x : String) :
    ExecuteActivity activityOptions "CreateCodeRepositoryForApplication"
        (CreateCodeRepositoryForApplication (httpPorts respond cpURL ewURL token unmarshal)) w x =
      ({ outside := w.outside ++ [postRequest (cpURL ++ "/commands/code-repositories") token
        [("id", .str ("code-" ++ x)), ("applicationId", .str x)]],
         history := w.history ++ [HistoryEvent.activityScheduled "CreateCodeRepositoryForApplication" x,
           HistoryEvent.activityCompleted "CreateCodeRepositoryForApplication"],
         metrics := w.metrics }, error.nil) := by
  have hact : ∀ w : World (List Request),
      CreateCodeRepositoryForApplication (httpPorts respond cpURL ewURL token unmarshal) w x =
        ({ w with outside := w.outside ++ [postRequest (cpURL ++ "/commands/code-repositories") token
        [("id", .str ("code-" ++ x)), ("applicationId", .str x)]] }, error.nil) := by
    intro w
    obtain ⟨resp, hr, h1, h2⟩ := h2xx w.outside (postRequest (cpURL ++ "/commands/code-repositories") token
        [("id", .str ("code-" ++ x)), ("applicationId", .str x)])
    have hn : ¬ (resp.StatusCode < 200 ∨ resp.StatusCode ≥ 300) := by omega
    simp only [postRequest] at hr
    simp [CreateCodeRepositoryForApplication, httpPorts, controlplanehttp.Client.onboardingPort, controlplanehttp.Client.DeclareCodeRepository, controlplanehttp.Client.send, mapControlPlaneError,
      recordingClient, postRequest, hr, hn]
  rw [ExecuteActivity_of_success _ _ _ _ _ (by rw [hact])]
  simp [hact]

theorem ExecuteActivity_CreateDeploymentRepositoryForApplication_2xx
    (h2xx : ∀ log req, ∃ resp, respond log req = Except.ok resp ∧
      200 ≤ resp.StatusCode ∧ resp.StatusCode < 300)
    (w : World (List Request)) (x : String) :
    ExecuteActivity activityOptions "CreateDeploymentRepositoryForApplication"
        (CreateDeploymentRepositoryForApplication (httpPorts respond cpURL ewURL token unmarshal)) w x =
      ({ outside := w.outside ++ [postRequest (cpURL ++ "/commands/deployment-repositories") token
        [("id", .str ("dep-" ++ x)), ("applicationId", .str x),
          ("deploymentModel", .str "GitOpsPerApplication")]],
         history := w.history ++ [HistoryEvent.activityScheduled "CreateDeploymentRepositoryForApplication" x,
           HistoryEvent.activityCompleted "CreateDeploymentRepositoryForApplication"],
         metrics := w.metrics }, error.nil) := by
  have hact : ∀ w : World (List Request),
      CreateDeploymentRepositoryForApplication (httpPorts respond cpURL ewURL token unmarshal) w x =
        ({ w with outside := w.outside ++ [postRequest (cpURL ++ "/commands/deployment-repositories") token
        [("id", .str ("dep-" ++ x)), ("applicationId", .str x),
          ("deploymentModel", .str "GitOpsPerApplication")]] }, error.nil) := by
    intro w
    obtain ⟨resp, hr, h1, h2⟩ := h2xx w.outside (postRequest (cpURL ++ "/commands/deployment-repositories") token
        [("id", .str ("dep-" ++ x)), ("applicationId", .str x),
          ("deploymentModel", .str "GitOpsPerApplication")])
    have hn : ¬ (resp.StatusCode < 200 ∨ resp.StatusCode ≥ 300) := by omega
    simp only [postRequest] at hr
    simp [CreateDeploymentRepositoryForApplication, httpPorts, controlplanehttp.Client.onboardingPort, controlplanehttp.Client.DeclareDeploymentRepository, controlplanehttp.Client.send, mapControlPlaneError,
      recordingClient, postRequest, hr, hn]
  rw [ExecuteActivity_of_success _ _ _ _ _ (by rw [hact])]
  simp [hact]

theorem ExecuteActivity_CreateGitOpsIntegrationForApplication_2xx
    (h2xx : ∀ log req, ∃ resp, respond log req = Except.ok resp ∧
      200 ≤ resp.StatusCode ∧ resp.StatusCode < 300)
    (w : World (List Request)) (x : String) :
    ExecuteActivity activityOptions "CreateGitOpsIntegrationForApplication"
        (CreateGitOpsIntegrationForApplication (httpPorts respond cpURL ewURL token unmarshal)) w x =
      ({ outside := w.outside ++ [postRequest (cpURL ++ "/commands/gitops-integrations") token
        [("id", .str ("gi-" ++ x)), ("applicationId", .str x),
          ("deploymentRepositoryId", .str ("dep-" ++ x))]],
         history := w.history ++ [HistoryEvent.activityScheduled "CreateGitOpsIntegrationForApplication" x,
           HistoryEvent.activityCompleted "CreateGitOpsIntegrationForApplication"],
         metrics := w.metrics }, error.nil) := by
  have hact : ∀ w : World (List Request),
      CreateGitOpsIntegrationForApplication (httpPorts respond cpURL ewURL token unmarshal) w x =
        ({ w with outside := w.outside ++ [postRequest (cpURL ++ "/commands/gitops-integrations") token
        [("id", .str ("gi-" ++ x)), ("applicationId", .str x),
          ("deploymentRepositoryId", .str ("dep-" ++ x))]] }, error.nil) := by
    intro w
    obtain ⟨resp, hr, h1, h2⟩ := h2xx w.outside (postRequest (cpURL ++ "/commands/gitops-integrations") token
        [("id", .str ("gi-" ++ x)), ("applicationId", .str x),
          ("deploymentRepositoryId", .str ("dep-" ++ x))])
    have hn : ¬ (resp.StatusCode < 200 ∨ resp.StatusCode ≥ 300) := by omega
    simp only [postRequest] at hr
    simp [CreateGitOpsIntegrationForApplication, httpPorts, controlplanehttp.Client.onboardingPort, controlplanehttp.Client.DeclareGitOpsIntegration, controlplanehttp.Client.send, mapControlPlaneError,
      recordingClient, postRequest, hr, hn]
  rw [ExecuteActivity_of_success _ _ _ _ _ (by rw [hact])]
  simp [hact]

theorem ExecuteActivity_TransitionApplicationToOnboarding_2xx
    (h2xx : ∀ log req, ∃ resp, respond log req = Except.ok resp ∧
      200 ≤ resp.StatusCode ∧ resp.StatusCode < 300)
    (w : World (List Request)) (x : String) :
    ExecuteActivity activityOptions "TransitionApplicationToOnboarding"
        (TransitionApplicationToOnboarding (httpPorts respond cpURL ewURL token unmarshal)) w x =
      ({ outside := w.outside ++ [postRequest (cpURL ++ "/commands/applications/start-onboarding") token
        [("id", .str x)]],
         history := w.history ++ [HistoryEvent.activityScheduled "TransitionApplicationToOnboarding" x,
           HistoryEvent.activityCompleted "TransitionApplicationToOnboarding"],
         metrics := w.metrics }, error.nil) := by
  have hact : ∀ w : World (List Request),
      TransitionApplicationToOnboarding (httpPorts respond cpURL ewURL token unmarshal) w x =
        ({ w with outside := w.outside ++ [postRequest (cpURL ++ "/commands/applications/start-onboarding") token
        [("id", .str x)]] }, error.nil) := by
    intro w
    obtain ⟨resp, hr, h1, h2⟩ := h2xx w.outside (postRequest (cpURL ++ "/commands/applications/start-onboarding") token
        [("id", .str x)])
    have hn : ¬ (resp.StatusCode < 200 ∨ resp.StatusCode ≥ 300) := by omega
    simp only [postRequest] at hr
    simp [TransitionApplicationToOnboarding, httpPorts, controlplanehttp.Client.onboardingPort, controlplanehttp.Client.MarkApplicationOnboarding, controlplanehttp.Client.send, mapControlPlaneError,
      recordingClient, postRequest, hr, hn]
  rw [ExecuteActivity_of_success _ _ _ _ _ (by rw [hact])]
  simp [hact]

theorem ExecuteActivity_MaterializeRepositories_2xx
    (h2xx : ∀ log req, ∃ resp, respond log req = Except.ok resp ∧
      200 ≤ resp.StatusCode ∧ resp.StatusCode < 300)
    (w : World (List Request)) (x : String) :
    ExecuteActivity activityOptions "MaterializeRepositories"
        (MaterializeRepositories (httpPorts respond cpURL ewURL token unmarshal)) w x =
      ({ outside := w.outside ++ [postRequest (ewURL ++ "/github/repos") token
        [("owner", .str "platform"), ("name", .str ("appenv-" ++ x)), ("private", .bool true)]],
         history := w.history ++ [HistoryEvent.activityScheduled "MaterializeRepositories" x,
           HistoryEvent.activityCompleted "MaterializeRepositories"],
         metrics := w.metrics }, error.nil) := by
  have hact : ∀ w : World (List Request),
      MaterializeRepositories (httpPorts respond cpURL ewURL token unmarshal) w x =
        ({ w with outside := w.outside ++ [postRequest (ewURL ++ "/github/repos") token
        [("owner", .str "platform"), ("name", .str ("appenv-" ++ x)), ("private", .bool true)]] }, error.nil) := by
    intro w
    obtain ⟨resp, hr, h1, h2⟩ := h2xx w.outside (postRequest (ewURL ++ "/github/repos") token
        [("owner", .str "platform"), ("name", .str ("appenv-" ++ x)), ("private", .bool true)])
    have hn : ¬ (resp.StatusCode < 200 ∨ resp.StatusCode ≥ 300) := by omega
    simp only [postRequest] at hr
    simp [MaterializeRepositories, httpPorts, gitproviderhttp.Client.gitProvider, gitproviderhttp.Client.CreateRepository, mapExecutionWorkersError,
      recordingClient, postRequest, hr, hn]
  rw [ExecuteActivity_of_success _ _ _ _ _ (by rw [hact])]
  simp [hact]

theorem ExecuteActivity_ApplyBranchProtection_2xx
    (h2xx : ∀ log req, ∃ resp, respond log req = Except.ok resp ∧
      200 ≤ resp.StatusCode ∧ resp.StatusCode < 300)
    (w : World (List Request)) (x : String) :
    ExecuteActivity activityOptions "ApplyBranchProtection"
        (ApplyBranchProtection (httpPorts respond cpURL ewURL token unmarshal)) w x =
      ({ outside := w.outside ++ [postRequest (ewURL ++ "/appenv/branch-protection") token
        [("applicationEnvironmentId", .str x)]],
         history := w.history ++ [HistoryEvent.activityScheduled "ApplyBranchProtection" x,
           HistoryEvent.activityCompleted "ApplyBranchProtection"],
         metrics := w.metrics }, error.nil) := by
  have hact : ∀ w : World (List Request),
      ApplyBranchProtection (httpPorts respond cpURL ewURL token unmarshal) w x =
        ({ w with outside := w.outside ++ [postRequest (ewURL ++ "/appenv/branch-protection") token
        [("applicationEnvironmentId", .str x)]] }, error.nil) := by
    intro w
    obtain ⟨resp, hr, h1, h2⟩ := h2xx w.outside (postRequest (ewURL ++ "/appenv/branch-protection") token
        [("applicationEnvironmentId", .str x)])
    have hn : ¬ (resp.StatusCode < 200 ∨ resp.StatusCode ≥ 300) := by omega
    simp only [postRequest] at hr
    simp [ApplyBranchProtection, httpPorts, appenvprovhttp.Client.provider, appenvprovhttp.Client.ApplyBranchProtection, appenvprovhttp.Client.post, mapExecutionWorkersError,
      recordingClient, postRequest, hr, hn]
  rw [ExecuteActivity_of_success _ _ _ _ _ (by rw [hact])]
  simp [hact]

theorem ExecuteActivity_ProvisionSecrets_2xx
    (h2xx : ∀ log req, ∃ resp, respond log req = Except.ok resp ∧
      200 ≤ resp.StatusCode ∧ resp.StatusCode < 300)
    (w : World (List Request)) (x : String) :
    ExecuteActivity activityOptions "ProvisionSecrets"
        (ProvisionSecrets (httpPorts respond cpURL ewURL token unmarshal)) w x =
      ({ outside := w.outside ++ [postRequest (ewURL ++ "/appenv/secrets") token
        [("applicationEnvironmentId", .str x)]],
         history := w.history ++ [HistoryEvent.activityScheduled "ProvisionSecrets" x,
           HistoryEvent.activityCompleted "ProvisionSecrets"],
         metrics := w.metrics }, error.nil) := by
  have hact : ∀ w : World (List Request),
      ProvisionSecrets (httpPorts respond cpURL ewURL token unmarshal) w x =
        ({ w with outside := w.outside ++ [postRequest (ewURL ++ "/appenv/secrets") token
        [("applicationEnvironmentId", .str x)]] }, error.nil) := by
    intro w
    obtain ⟨resp, hr, h1, h2⟩ := h2xx w.outside (postRequest (ewURL ++ "/appenv/secrets") token
        [("applicationEnvironmentId", .str x)])
    have hn : ¬ (resp.StatusCode < 200 ∨ resp.StatusCode ≥ 300) := by omega
    simp only [postRequest] at hr
    simp [ProvisionSecrets, httpPorts, appenvprovhttp.Client.provider, appenvprovhttp.Client.ProvisionSecrets, appenvprovhttp.Client.post, mapExecutionWorkersError,
      recordingClient, postRequest, hr, hn]
  rw [ExecuteActivity_of_success _ _ _ _ _ (by rw [hact])]
  simp [hact]

theorem ExecuteActivity_CreateSecretBindings_2xx
    (h2xx : ∀ log req, ∃ resp, respond log req = Except.ok resp ∧
      200 ≤ resp.StatusCode ∧ resp.StatusCode < 300)
    (w : World (List Request)) (x : String) :
    ExecuteActivity activityOptions "CreateSecretBindings"
        (CreateSecretBindings (httpPorts respond cpURL ewURL token unmarshal)) w x =
      ({ outside := w.outside ++ [postRequest (ewURL ++ "/appenv/secret-bindings") token
        [("applicationEnvironmentId", .str x)]],
         history := w.history ++ [HistoryEvent.activityScheduled "CreateSecretBindings" x,
           HistoryEvent.activityCompleted "CreateSecretBindings"],
         metrics := w.metrics }, error.nil) := by
  have hact : ∀ w : World (List Request),
      CreateSecretBindings (httpPorts respond cpURL ewURL token unmarshal) w x =
        ({ w with outside := w.outside ++ [postRequest (ewURL ++ "/appenv/secret-bindings") token
        [("applicationEnvironmentId", .str x)]] }, error.nil) := by
    intro w
    obtain ⟨resp, hr, h1, h2⟩ := h2xx w.outside (postRequest (ewURL ++ "/appenv/secret-bindings") token
        [("applicationEnvironmentId", .str x)])
    have hn : ¬ (resp.StatusCode < 200 ∨ resp.StatusCode ≥ 300) := by omega
    simp only [postRequest] at hr
    simp [CreateSecretBindings, httpPorts, appenvprovhttp.Client.provider, appenvprovhttp.Client.CreateSecretBindings, appenvprovhttp.Client.post, mapExecutionWorkersError,
      recordingClient, postRequest, hr, hn]
  rw [ExecuteActivity_of_success _ _ _ _ _ (by rw [hact])]
  simp [hact]

theorem ExecuteActivity_VerifyGitOpsReconciliation_2xx
    (h2xx : ∀ log req, ∃ resp, respond log req = Except.ok resp ∧
      200 ≤ resp.StatusCode ∧ resp.StatusCode < 300)
    (w : World (List Request)) (x : String) :
    ExecuteActivity activityOptions "VerifyGitOpsReconciliation"
        (VerifyGitOpsReconciliation (httpPorts respond cpURL ewURL token unmarshal)) w x =
      ({ outside := w.outside ++ [postRequest (ewURL ++ "/appenv/gitops-verify") token
        [("applicationEnvironmentId", .str x)]],
         history := w.history ++ [HistoryEvent.activityScheduled "VerifyGitOpsReconciliation" x,
           HistoryEvent.activityCompleted "VerifyGitOpsReconciliation"],
         metrics := w.metrics }, error.nil) := by
  have hact : ∀ w : World (List Request),
      VerifyGitOpsReconciliation (httpPorts respond cpURL ewURL token unmarshal) w x =
        ({ w with outside := w.outside ++ [postRequest (ewURL ++ "/appenv/gitops-verify") token
        [("applicationEnvironmentId", .str x)]] }, error.nil) := by
    intro w
    obtain ⟨resp, hr, h1, h2⟩ := h2xx w.outside (postRequest (ewURL ++ "/appenv/gitops-verify") token
        [("applicationEnvironmentId", .str x)])
    have hn : ¬ (resp.StatusCode < 200 ∨ resp.StatusCode ≥ 300) := by omega
    simp only [postRequest] at hr
    simp [VerifyGitOpsReconciliation, httpPorts, appenvprovhttp.Client.provider, appenvprovhttp.Client.VerifyGitOpsReconciliation, appenvprovhttp.Client.post, mapExecutionWorkersError,
      recordingClient, postRequest, hr, hn]
  rw [ExecuteActivity_of_success _ _ _ _ _ (by rw [hact])]
  simp [hact]

theorem ExecuteActivity_FinalizeApplicationEnvironmentProvisioning_2xx
    (h2xx : ∀ log req, ∃ resp, respond log req = Except.ok resp ∧
      200 ≤ resp.StatusCode ∧ resp.StatusCode < 300)
    (w : World (List Request)) (x : String) :
    ExecuteActivity activityOptions "FinalizeApplicationEnvironmentProvisioning"
        (FinalizeApplicationEnvironmentProvisioning (httpPorts respond cpURL ewURL token unmarshal)) w x =
      ({ outside := w.outside ++ [postRequest (cpURL ++ "/commands/application-environments/complete-provisioning") token
        [("id", .str x)]],
         history := w.history ++ [HistoryEvent.activityScheduled "FinalizeApplicationEnvironmentProvisioning" x,
           HistoryEvent.activityCompleted "FinalizeApplicationEnvironmentProvisioning"],
         metrics := w.metrics }, error.nil) := by
  have hact : ∀ w : World (List Request),
      FinalizeApplicationEnvironmentProvisioning (httpPorts respond cpURL ewURL token unmarshal) w x =
        ({ w with outside := w.outside ++ [postRequest (cpURL ++ "/commands/application-environments/complete-provisioning") token
        [("id", .str x)]] }, error.nil) := by
    intro w
    obtain ⟨resp, hr, h1, h2⟩ := h2xx w.outside (postRequest (cpURL ++ "/commands/application-environments/complete-provisioning") token
        [("id", .str x)])
    have hn : ¬ (resp.StatusCode < 200 ∨ resp.StatusCode ≥ 300) := by omega
    simp only [postRequest] at hr
    simp [FinalizeApplicationEnvironmentProvisioning, httpPorts, controlplanehttp.Client.controlPlaneAPI, controlplanehttp.Client.CompleteApplicationEnvironmentProvisioning, controlplanehttp.Client.send,
      recordingClient, postRequest, hr, hn]
  rw [ExecuteActivity_of_success _ _ _ _ _ (by rw [hact])]
  simp [hact]

theorem ExecuteActivity_DeclareApplicationEnvironmentsForApplication_2xx
    (h2xx : ∀ log req, ∃ resp, respond log req = Except.ok resp ∧
      200 ≤ resp.StatusCode ∧ resp.StatusCode < 300)
    (w : World (List Request)) (x : String) :
    ExecuteActivity activityOptions "DeclareApplicationEnvironmentsForApplication"
        (DeclareApplicationEnvironmentsForApplication
          (httpPorts respond cpURL ewURL token unmarshal)) w x =
      ({ outside := w.outside ++
          [postRequest (cpURL ++ "/commands/application-environments") token
            [("id", .str (x ++ "-env-dev")), ("applicationId", .str x),
              ("environmentId", .str "env-dev")],
           postRequest (cpURL ++ "/commands/application-environments") token
            [("id", .str (x ++ "-env-prod")), ("applicationId", .str x),
              ("environmentId", .str "env-prod")]],
         history := w.history ++
           [HistoryEvent.activityScheduled "DeclareApplicationEnvironmentsForApplication" x,
             HistoryEvent.activityCompleted "DeclareApplicationEnvironmentsForApplication"],
         metrics := w.metrics }, error.nil) := by
  have e1 : x ++ "-" ++ "env-dev" = x ++ "-env-dev" := by rw [String.append_assoc]; rfl
  have e2 : x ++ "-" ++ "env-prod" = x ++ "-env-prod" := by rw [String.append_assoc]; rfl
  have hact : ∀ w : World (List Request),
      DeclareApplicationEnvironmentsForApplication
          (httpPorts respond cpURL ewURL token unmarshal) w x =
        ({ w with outside := w.outside ++
          [postRequest (cpURL ++ "/commands/application-environments") token
            [("id", .str (x ++ "-env-dev")), ("applicationId", .str x),
              ("environmentId", .str "env-dev")],
           postRequest (cpURL ++ "/commands/application-environments") token
            [("id", .str (x ++ "-env-prod")), ("applicationId", .str x),
              ("environmentId", .str "env-prod")]] }, error.nil) := by
    intro w
    obtain ⟨resp, hr, h1, h2⟩ := h2xx w.outside
      (postRequest (cpURL ++ "/commands/application-environments") token
        [("id", .str (x ++ "-env-dev")), ("applicationId", .str x),
          ("environmentId", .str "env-dev")])
    obtain ⟨resp2, hr2, h3, h4⟩ := h2xx
      (w.outside ++ [postRequest (cpURL ++ "/commands/application-environments") token
        [("id", .str (x ++ "-env-dev")), ("applicationId", .str x),
          ("environmentId", .str "env-dev")]])
      (postRequest (cpURL ++ "/commands/application-environments") token
        [("id", .str (x ++ "-env-prod")), ("applicationId", .str x),
          ("environmentId", .str "env-prod")])
    have hn : ¬ (resp.StatusCode < 200 ∨ resp.StatusCode ≥ 300) := by omega
    have hn2 : ¬ (resp2.StatusCode < 200 ∨ resp2.StatusCode ≥ 300) := by omega
    simp only [postRequest] at hr hr2
    simp [DeclareApplicationEnvironmentsForApplication, httpPorts,
      controlplanehttp.Client.onboardingPort,
      controlplanehttp.Client.DeclareApplicationEnvironments,
      controlplanehttp.Client.declareEach, controlplanehttp.Client.send,
      mapControlPlaneError, recordingClient, postRequest, e1, e2, hr, hr2, hn, hn2]
  rw [ExecuteActivity_of_success _ _ _ _ _ (by rw [hact])]
  simp [hact]

/-! ## What the execution of an activity adds to the log -/

theorem ExecuteActivity_CreateCodeRepositoryForApplication_appended (allowed : List Request) (x : String)
    (h : postRequest (cpURL ++ "/commands/code-repositories") token
        [("id", .str ("code-" ++ x)), ("applicationId", .str x)] ∈ allowed)
    (w : World (List Request)) :
    Appended allowed w.outside
      (ExecuteActivity activityOptions "CreateCodeRepositoryForApplication"
        (CreateCodeRepositoryForApplication (httpPorts respond cpURL ewURL token unmarshal)) w x).1.outside :=
  ExecuteActivity_appended allowed _ _ _ _
    (fun w => by
      rw [CreateCodeRepositoryForApplication_http_outside]
      exact Appended.one h) w

theorem ExecuteActivity_CreateDeploymentRepositoryForApplication_appended (allowed : List Request) (x : String)
    (h : postRequest (cpURL ++ "/commands/deployment-repositories") token
        [("id", .str ("dep-" ++ x)), ("applicationId", .str x),
          ("deploymentModel", .str "GitOpsPerApplication")] ∈ allowed)
    (w : World (List Request)) :
    Appended allowed w.outside
      (ExecuteActivity activityOptions "CreateDeploymentRepositoryForApplication"
        (CreateDeploymentRepositoryForApplication (httpPorts respond cpURL ewURL token unmarshal)) w x).1.outside :=
  ExecuteActivity_appended allowed _ _ _ _
    (fun w => by
      rw [CreateDeploymentRepositoryForApplication_http_outside]
      exact Appended.one h) w

theorem ExecuteActivity_CreateGitOpsIntegrationForApplication_appended (allowed : List Request) (x : String)
    (h : postRequest (cpURL ++ "/commands/gitops-integrations") token
        [("id", .str ("gi-" ++ x)), ("applicationId", .str x),
          ("deploymentRepositoryId", .str ("dep-" ++ x))] ∈ allowed)
    (w : World (List Request)) :
    Appended allowed w.outside
      (ExecuteActivity activityOptions "CreateGitOpsIntegrationForApplication"
        (CreateGitOpsIntegrationForApplication (httpPorts respond cpURL ewURL token unmarshal)) w x).1.outside :=
  ExecuteActivity_appended allowed _ _ _ _
    (fun w => by
      rw [CreateGitOpsIntegrationForApplication_http_outside]
      exact Appended.one h) w

theorem ExecuteActivity_TransitionApplicationToOnboarding_appended (allowed : List Request) (x : String)
    (h : postRequest (cpURL ++ "/commands/applications/start-onboarding") token
        [("id", .str x)] ∈ allowed)
    (w : World (List Request)) :
    Appended allowed w.outside
      (ExecuteActivity activityOptions "TransitionApplicationToOnboarding"
        (TransitionApplicationToOnboarding (httpPorts respond cpURL ewURL token unmarshal)) w x).1.outside :=
  ExecuteActivity_appended allowed _ _ _ _
    (fun w => by
      rw [TransitionApplicationToOnboarding_http_outside]
      exact Appended.one h) w

theorem ExecuteActivity_MaterializeRepositories_appended (allowed : List Request) (x : String)
    (h : postRequest (ewURL ++ "/github/repos") token
        [("owner", .str "platform"), ("name", .str ("appenv-" ++ x)), ("private", .bool true)] ∈ allowed)
    (w : World (List Request)) :
    Appended allowed w.outside
      (ExecuteActivity activityOptions "MaterializeRepositories"
        (MaterializeRepositories (httpPorts respond cpURL ewURL token unmarshal)) w x).1.outside :=
  ExecuteActivity_appended allowed _ _ _ _
    (fun w => by
      rw [MaterializeRepositories_http_outside]
      exact Appended.one h) w

theorem ExecuteActivity_ApplyBranchProtection_appended (allowed : List Request) (x : String)
    (h : postRequest (ewURL ++ "/appenv/branch-protection") token
        [("applicationEnvironmentId", .str x)] ∈ allowed)
    (w : World (List Request)) :
    Appended allowed w.outside
      (ExecuteActivity activityOptions "ApplyBranchProtection"
        (ApplyBranchProtection (httpPorts respond cpURL ewURL token unmarshal)) w x).1.outside :=
  ExecuteActivity_appended allowed _ _ _ _
    (fun w => by
      rw [ApplyBranchProtection_http_outside]
      exact Appended.one h) w

theorem ExecuteActivity_ProvisionSecrets_appended (allowed : List Request) (x : String)
    (h : postRequest (ewURL ++ "/appenv/secrets") token
        [("applicationEnvironmentId", .str x)] ∈ allowed)
    (w : World (List Request)) :
    Appended allowed w.outside
      (ExecuteActivity activityOptions "ProvisionSecrets"
        (ProvisionSecrets (httpPorts respond cpURL ewURL token unmarshal)) w x).1.outside :=
  ExecuteActivity_appended allowed _ _ _ _
    (fun w => by
      rw [ProvisionSecrets_http_outside]
      exact Appended.one h) w

theorem ExecuteActivity_CreateSecretBindings_appended (allowed : List Request) (x : String)
    (h : postRequest (ewURL ++ "/appenv/secret-bindings") token
        [("applicationEnvironmentId", .str x)] ∈ allowed)
    (w : World (List Request)) :
    Appended allowed w.outside
      (ExecuteActivity activityOptions "CreateSecretBindings"
        (CreateSecretBindings (httpPorts respond cpURL ewURL token unmarshal)) w x).1.outside :=
  ExecuteActivity_appended allowed _ _ _ _
    (fun w => by
      rw [CreateSecretBindings_http_outside]
      exact Appended.one h) w

theorem ExecuteActivity_VerifyGitOpsReconciliation_appended (allowed : List Request) (x : String)
    (h : postRequest (ewURL ++ "/appenv/gitops-verify") token
        [("applicationEnvironmentId", .str x)] ∈ allowed)
    (w : World (List Request)) :
    Appended allowed w.outside
      (ExecuteActivity activityOptions "VerifyGitOpsReconciliation"
        (VerifyGitOpsReconciliation (httpPorts respond cpURL ewURL token unmarshal)) w x).1.outside :=
  ExecuteActivity_appended allowed _ _ _ _
    (fun w => by
      rw [VerifyGitOpsReconciliation_http_outside]
      exact Appended.one h) w

theorem ExecuteActivity_FinalizeApplicationEnvironmentProvisioning_appended (allowed : List Request) (x : String)
    (h : postRequest (cpURL ++ "/commands/application-environments/complete-provisioning") token
        [("id", .str x)] ∈ allowed)
    (w : World (List Request)) :
    Appended allowed w.outside
      (ExecuteActivity activityOptions "FinalizeApplicationEnvironmentProvisioning"
        (FinalizeApplicationEnvironmentProvisioning (httpPorts respond cpURL ewURL token unmarshal)) w x).1.outside :=
  ExecuteActivity_appended allowed _ _ _ _
    (fun w => by
      rw [FinalizeApplicationEnvironmentProvisioning_http_outside]
      exact Appended.one h) w

theorem ExecuteActivity_DeclareApplicationEnvironmentsForApplication_appended
    (allowed : List Request) (x : String)
    (h1 : postRequest (cpURL ++ "/commands/application-environments") token
        [("id", .str (x ++ "-env-dev")), ("applicationId", .str x),
          ("environmentId", .str "env-dev")] ∈ allowed)
    (h2 : postRequest (cpURL ++ "/commands/application-environments") token
        [("id", .str (x ++ "-env-prod")), ("applicationId", .str x),
          ("environmentId", .str "env-prod")] ∈ allowed)
    (w : World (List Request)) :
    Appended allowed w.outside
      (ExecuteActivity activityOptions "DeclareApplicationEnvironmentsForApplication"
        (DeclareApplicationEnvironmentsForApplication
          (httpPorts respond cpURL ewURL token unmarshal)) w x).1.outside :=
  ExecuteActivity_appended allowed _ _ _ _
    (fun w => (DeclareApplicationEnvironmentsForApplication_http_outside respond cpURL ewURL
      token unmarshal w x).mono (by
        intro req hreq
        simp only [List.mem_cons, List.mem_singleton, List.not_mem_nil, or_false] at hreq
        rcases hreq with rfl | rfl
        · exact h1
        · exact h2)) w

end requests

section onboarding

@[simp] theorem waitForSecurityScanPassed_outside {ω : Type} (rt : Runtime) (w : World ω) :
    (waitForSecurityScanPassed rt w).1.outside = w.outside := by
  unfold waitForSecurityScanPassed selectSignalOrTimer
  (repeat' split) <;> rfl

theorem waitForSecurityScanPassed_history {ω : Type} (rt : Runtime) (w : World ω) :
    (waitForSecurityScanPassed rt w).1.history = w.history ++
      [HistoryEvent.timerStarted 900,
        if (waitForSecurityScanPassed rt w).2 = error.nil then
          HistoryEvent.signalReceived securityScanPassedSignalName
        else HistoryEvent.timerFired 900] := by
  unfold waitForSecurityScanPassed selectSignalOrTimer
  (repeat' split) <;> simp_all [NewNonRetryableApplicationError, Minute, Second]

theorem waitForSecurityScanPassed_signal {ω : Type} (rt : Runtime) (w : World ω)
    (h : ∃ t, rt.signalAfter = some t ∧ t ≤ 900) :
    waitForSecurityScanPassed rt w =
      ({ w with history := w.history ++ [HistoryEvent.timerStarted 900,
          HistoryEvent.signalReceived securityScanPassedSignalName] }, error.nil) := by
  obtain ⟨t, ht, hle⟩ := h
  simp [waitForSecurityScanPassed, selectSignalOrTimer, ht, hle, Minute, Second]

variable (respond : Responder) (cpURL ewURL token : String)
  (unmarshal : String → String × String)

theorem ApplicationOnboarding_body_2xx
    (h2xx : ∀ log req, ∃ resp, respond log req = Except.ok resp ∧
      200 ≤ resp.StatusCode ∧ resp.StatusCode < 300)
    (rt : Runtime) (hsig : ∃ t, rt.signalAfter = some t ∧ t ≤ 900)
    (w : World (List Request)) (a : String) (ha : a ≠ "") :
    (ApplicationOnboarding.body (httpPorts respond cpURL ewURL token unmarshal) rt w
        { ApplicationID := a }).2 = error.nil ∧
    (ApplicationOnboarding.body (httpPorts respond cpURL ewURL token unmarshal) rt w
        { ApplicationID := a }).1.outside = w.outside ++ onboardingRequests cpURL token a := by
  simp [ApplicationOnboarding.body, ha,
    ExecuteActivity_CreateCodeRepositoryForApplication_2xx respond cpURL ewURL token
      unmarshal h2xx,
    ExecuteActivity_CreateDeploymentRepositoryForApplication_2xx respond cpURL ewURL token
      unmarshal h2xx,
    ExecuteActivity_CreateGitOpsIntegrationForApplication_2xx respond cpURL ewURL token
      unmarshal h2xx,
    ExecuteActivity_DeclareApplicationEnvironmentsForApplication_2xx respond cpURL ewURL token
      unmarshal h2xx,
    ExecuteActivity_TransitionApplicationToOnboarding_2xx respond cpURL ewURL token
      unmarshal h2xx,
    waitForSecurityScanPassed_signal rt _ hsig, onboardingRequests]

theorem ApplicationOnboarding_body_failure_1 (rt : Runtime) (w : World (List Request))
    (hw : w.history = []) (a : String) (ha : a ≠ "") (e : error)
    (hm : HistoryEvent.activityFailed "CreateCodeRepositoryForApplication" e ∈
        (ApplicationOnboarding.body (httpPorts respond cpURL ewURL token unmarshal) rt w
          { ApplicationID := a }).1.history) :
    Appended ((onboardingRequests cpURL token a).take 1) w.outside
      (ApplicationOnboarding.body (httpPorts respond cpURL ewURL token unmarshal) rt w
          { ApplicationID := a }).1.outside := by
  revert hm
  simp only [ApplicationOnboarding.body, ha, if_false]
  split_ifs with h1 h2 h3 h4 h5 h6
  all_goals simp only [ne_eq, not_not] at *
  all_goals first
    | (intro hm
       simp [ExecuteActivity_history, waitForSecurityScanPassed_history, hw, *] at hm
       done)
    | (intro _
       simp only [ObserveDomainEvent_outside, waitForSecurityScanPassed_outside]
       exact (ExecuteActivity_CreateCodeRepositoryForApplication_appended respond cpURL ewURL token
        unmarshal ((onboardingRequests cpURL token a).take 1) a (by simp [onboardingRequests]) _))

theorem ApplicationOnboarding_body_failure_2 (rt : Runtime) (w : World (List Request))
    (hw : w.history = []) (a : String) (ha : a ≠ "") (e : error)
    (hm : HistoryEvent.activityFailed "CreateDeploymentRepositoryForApplication" e ∈
        (ApplicationOnboarding.body (httpPorts respond cpURL ewURL token unmarshal) rt w
          { ApplicationID := a }).1.history) :
    Appended ((onboardingRequests cpURL token a).take 2) w.outside
      (ApplicationOnboarding.body (httpPorts respond cpURL ewURL token unmarshal) rt w
          { ApplicationID := a }).1.outside := by
  revert hm
  simp only [ApplicationOnboarding.body, ha, if_false]
  split_ifs with h1 h2 h3 h4 h5 h6
  all_goals simp only [ne_eq, not_not] at *
  all_goals first
    | (intro hm
       simp [ExecuteActivity_history, waitForSecurityScanPassed_history, hw, *] at hm
       done)
    | (intro _
       simp only [ObserveDomainEvent_outside, waitForSecurityScanPassed_outside]
       exact ((ExecuteActivity_CreateCodeRepositoryForApplication_appended respond cpURL ewURL token
        unmarshal ((onboardingRequests cpURL token a).take 2) a (by simp [onboardingRequests]) _).trans
      (ExecuteActivity_CreateDeploymentRepositoryForApplication_appended respond cpURL ewURL token
        unmarshal ((onboardingRequests cpURL token a).take 2) a (by simp [onboardingRequests]) _)))

theorem ApplicationOnboarding_body_failure_3 (rt : Runtime) (w : World (List Request))
    (hw : w.history = []) (a : String) (ha : a ≠ "") (e : error)
    (hm : HistoryEvent.activityFailed "CreateGitOpsIntegrationForApplication" e ∈
        (ApplicationOnboarding.body (httpPorts respond cpURL ewURL token unmarshal) rt w
          { ApplicationID := a }).1.history) :
    Appended ((onboardingRequests cpURL token a).take 3) w.outside
      (ApplicationOnboarding.body (httpPorts respond cpURL ewURL token unmarshal) rt w
          { ApplicationID := a }).1.outside := by
  revert hm
  simp only [ApplicationOnboarding.body, ha, if_false]
  split_ifs with h1 h2 h3 h4 h5 h6
  all_goals simp only [ne_eq, not_not] at *
  all_goals first
    | (intro hm
       simp [ExecuteActivity_history, waitForSecurityScanPassed_history, hw, *] at hm
       done)
    | (intro _
       simp only [ObserveDomainEvent_outside, waitForSecurityScanPassed_outside]
       exact (((ExecuteActivity_CreateCodeRepositoryForApplication_appended respond cpURL ewURL token
        unmarshal ((onboardingRequests cpURL token a).take 3) a (by simp [onboardingRequests]) _).trans
      (ExecuteActivity_CreateDeploymentRepositoryForApplication_appended respond cpURL ewURL token
        unmarshal ((onboardingRequests cpURL token a).take 3) a (by simp [onboardingRequests]) _)).trans
      (ExecuteActivity_CreateGitOpsIntegrationForApplication_appended respond cpURL ewURL token
        unmarshal ((onboardingRequests cpURL token a).take 3) a (by simp [onboardingRequests]) _)))

theorem ApplicationOnboarding_body_failure_4 (rt : Runtime) (w : World (List Request))
    (hw : w.history = []) (a : String) (ha : a ≠ "") (e : error)
    (hm : HistoryEvent.activityFailed "DeclareApplicationEnvironmentsForApplication" e ∈
        (ApplicationOnboarding.body (httpPorts respond cpURL ewURL token unmarshal) rt w
          { ApplicationID := a }).1.history) :
    Appended ((onboardingRequests cpURL token a).take 5) w.outside
      (ApplicationOnboarding.body (httpPorts respond cpURL ewURL token unmarshal) rt w
          { ApplicationID := a }).1.outside := by
  revert hm
  simp only [ApplicationOnboarding.body, ha, if_false]
  split_ifs with h1 h2 h3 h4 h5 h6
  all_goals simp only [ne_eq, not_not] at *
  all_goals first
    | (intro hm
       simp [ExecuteActivity_history, waitForSecurityScanPassed_history, hw, *] at hm
       done)
    | (intro _
       simp only [ObserveDomainEvent_outside, waitForSecurityScanPassed_outside]
       exact ((((ExecuteActivity_CreateCodeRepositoryForApplication_appended respond cpURL ewURL token
        unmarshal ((onboardingRequests cpURL token a).take 5) a (by simp [onboardingRequests]) _).trans
      (ExecuteActivity_CreateDeploymentRepositoryForApplication_appended respond cpURL ewURL token
        unmarshal ((onboardingRequests cpURL token a).take 5) a (by simp [onboardingRequests]) _)).trans
      (ExecuteActivity_CreateGitOpsIntegrationForApplication_appended respond cpURL ewURL token
        unmarshal ((onboardingRequests cpURL token a).take 5) a (by simp [onboardingRequests]) _)).trans
      (ExecuteActivity_DeclareApplicationEnvironmentsForApplication_appended respond cpURL ewURL token
        unmarshal ((onboardingRequests cpURL token a).take 5) a (by simp [onboardingRequests]) (by simp [onboardingRequests]) _)))

theorem ApplicationOnboarding_body_failure_5 (rt : Runtime) (w : World (List Request))
    (hw : w.history = []) (a : String) (ha : a ≠ "")
    (hm : HistoryEvent.timerFired 900 ∈
        (ApplicationOnboarding.body (httpPorts respond cpURL ewURL token unmarshal) rt w
          { ApplicationID := a }).1.history) :
    Appended ((onboardingRequests cpURL token a).take 5) w.outside
      (ApplicationOnboarding.body (httpPorts respond cpURL ewURL token unmarshal) rt w
          { ApplicationID := a }).1.outside := by
  revert hm
  simp only [ApplicationOnboarding.body, ha, if_false]
  split_ifs with h1 h2 h3 h4 h5 h6
  all_goals simp only [ne_eq, not_not] at *
  all_goals first
    | (intro hm
       simp [ExecuteActivity_history, waitForSecurityScanPassed_history, hw, *] at hm
       done)
    | (intro _
       simp only [ObserveDomainEvent_outside, waitForSecurityScanPassed_outside]
       exact ((((ExecuteActivity_CreateCodeRepositoryForApplication_appended respond cpURL ewURL token
        unmarshal ((onboardingRequests cpURL token a).take 5) a (by simp [onboardingRequests]) _).trans
      (ExecuteActivity_CreateDeploymentRepositoryForApplication_appended respond cpURL ewURL token
        unmarshal ((onboardingRequests cpURL token a).take 5) a (by simp [onboardingRequests]) _)).trans
      (ExecuteActivity_CreateGitOpsIntegrationForApplication_appended respond cpURL ewURL token
        unmarshal ((onboardingRequests cpURL token a).take 5) a (by simp [onboardingRequests]) _)).trans
      (ExecuteActivity_DeclareApplicationEnvironmentsForApplication_appended respond cpURL ewURL token
        unmarshal ((onboardingRequests cpURL token a).take 5) a (by simp [onboardingRequests]) (by simp [onboardingRequests]) _)))

end onboarding

/-- C17: the requests of ApplicationOnboarding through the HTTP adapter of the
control plane, for a non-empty applicationId `a`. When every request is answered
2xx and SecurityScanPassed arrives within the 900 seconds, the run succeeds and
the requests received are exactly the six that the specification lists, in its
order, and they are distinct. When a step fails (an activity, or the wait by its
timer), every request received belongs to the steps up to that one: the first
1, 2, 3 or 5 of the list, so no later request was sent. -/
theorem C17_onboarding_requests (respond : Responder) (cpURL ewURL token : String)
    (unmarshal : String → String × String) (rt : Runtime) (log : List Request) (a : String)
    (ha : a ≠ "") :
    let r := ApplicationOnboarding (httpPorts respond cpURL ewURL token unmarshal) rt
      (World.start log) { ApplicationID := a }
    ((∀ log req, ∃ resp, respond log req = Except.ok resp ∧
          200 ≤ resp.StatusCode ∧ resp.StatusCode < 300) →
      (∃ t, rt.signalAfter = some t ∧ t ≤ 900) →
        r.2 = error.nil ∧ r.1.outside = log ++ onboardingRequests cpURL token a) ∧
    (onboardingRequests cpURL token a).Nodup ∧
    (∀ e, HistoryEvent.activityFailed "CreateCodeRepositoryForApplication" e ∈ r.1.history →
      Appended ((onboardingRequests cpURL token a).take 1) log r.1.outside) ∧
    (∀ e, HistoryEvent.activityFailed "CreateDeploymentRepositoryForApplication" e ∈
        r.1.history →
      Appended ((onboardingRequests cpURL token a).take 2) log r.1.outside) ∧
    (∀ e, HistoryEvent.activityFailed "CreateGitOpsIntegrationForApplication" e ∈
        r.1.history →
      Appended ((onboardingRequests cpURL token a).take 3) log r.1.outside) ∧
    (∀ e, HistoryEvent.activityFailed "DeclareApplicationEnvironmentsForApplication" e ∈
        r.1.history →
      Appended ((onboardingRequests cpURL token a).take 5) log r.1.outside) ∧
    (HistoryEvent.timerFired 900 ∈ r.1.history →
      Appended ((onboardingRequests cpURL token a).take 5) log r.1.outside) := by
  intro r
  obtain ⟨w0, hh, ho, e2, eh, eo⟩ :=
    ApplicationOnboarding_eq_body (httpPorts respond cpURL ewURL token unmarshal) rt
      (World.start log) { ApplicationID := a }
  have hw : w0.history = [] := by rw [hh]; rfl
  have hlog : w0.outside = log := by rw [ho]; rfl
  simp only [r]
  rw [e2, eh, eo, ← hlog]
  refine ⟨fun h2xx hsig => ApplicationOnboarding_body_2xx respond cpURL ewURL token unmarshal
      h2xx rt hsig w0 a ha, ?_,
    fun e hm => ApplicationOnboarding_body_failure_1 respond cpURL ewURL token unmarshal rt w0
      hw a ha e hm,
    fun e hm => ApplicationOnboarding_body_failure_2 respond cpURL ewURL token unmarshal rt w0
      hw a ha e hm,
    fun e hm => ApplicationOnboarding_body_failure_3 respond cpURL ewURL token unmarshal rt w0
      hw a ha e hm,
    fun e hm => ApplicationOnboarding_body_failure_4 respond cpURL ewURL token unmarshal rt w0
      hw a ha e hm,
    fun hm => ApplicationOnboarding_body_failure_5 respond cpURL ewURL token unmarshal rt w0
      hw a ha hm⟩
  simp [onboardingRequests, postRequest]

theorem C17_onboarding_requests_witness :
    (ApplicationOnboarding (httpPorts created "http://cp" "http://ew" "" noPayload)
        promptRuntime (World.start []) { ApplicationID := "app-1" }).1.outside =
      onboardingRequests "http://cp" "" "app-1" :=
  ((C17_onboarding_requests created "http://cp" "http://ew" "" noPayload promptRuntime []
    "app-1" (by decide)).1
      (fun _ _ => ⟨_, rfl, by decide, by decide⟩) ⟨0, rfl, by decide⟩).2

section provisioning

theorem provisioning_loop_history {ω : Type} (ports : Ports ω) (w : World ω) (x : String)
    (hw : w.history = []) :
    let r := ApplicationEnvironmentProvisioning.loop activityOptions x (provisioningSteps ports) w
    scheduledActivities r.1.history <+: provisioningOrder ∧
    (r.2 = error.nil → r.1.history =
      provisioningOrder.flatMap fun name =>
        [HistoryEvent.activityScheduled name x, HistoryEvent.activityCompleted name]) ∧
    (r.2 ≠ error.nil → ∃ name,
      r.1.history.getLast? = some (HistoryEvent.activityFailed name r.2) ∧
      (scheduledActivities r.1.history).getLast? = some name) := by
  intro r
  simp only [r, ApplicationEnvironmentProvisioning.loop, provisioningSteps]
  split_ifs with h1 h2 h3 h4 h5 h6
  all_goals simp only [ne_eq, not_not] at *
  all_goals simp [ExecuteActivity_history, scheduledActivities, provisioningOrder, hw, *]

variable (respond : Responder) (cpURL ewURL token : String)
  (unmarshal : String → String × String)

theorem provisioning_loop_2xx
    (h2xx : ∀ log req, ∃ resp, respond log req = Except.ok resp ∧
      200 ≤ resp.StatusCode ∧ resp.StatusCode < 300)
    (w : World (List Request)) (x : String) :
    (ApplicationEnvironmentProvisioning.loop activityOptions x
        (provisioningSteps (httpPorts respond cpURL ewURL token unmarshal)) w).2 = error.nil ∧
    (ApplicationEnvironmentProvisioning.loop activityOptions x
        (provisioningSteps (httpPorts respond cpURL ewURL token unmarshal)) w).1.outside =
      w.outside ++ provisioningRequests cpURL ewURL token x := by
  simp [ApplicationEnvironmentProvisioning.loop, provisioningSteps,
    ExecuteActivity_MaterializeRepositories_2xx respond cpURL ewURL token unmarshal h2xx,
    ExecuteActivity_ApplyBranchProtection_2xx respond cpURL ewURL token unmarshal h2xx,
    ExecuteActivity_ProvisionSecrets_2xx respond cpURL ewURL token unmarshal h2xx,
    ExecuteActivity_CreateSecretBindings_2xx respond cpURL ewURL token unmarshal h2xx,
    ExecuteActivity_VerifyGitOpsReconciliation_2xx respond cpURL ewURL token unmarshal h2xx,
    ExecuteActivity_FinalizeApplicationEnvironmentProvisioning_2xx respond cpURL ewURL token unmarshal h2xx,
    provisioningRequests]

theorem provisioning_loop_failure_1 (w : World (List Request)) (hw : w.history = [])
    (x : String) (e : error)
    (hm : HistoryEvent.activityFailed "MaterializeRepositories" e ∈
        (ApplicationEnvironmentProvisioning.loop activityOptions x
          (provisioningSteps (httpPorts respond cpURL ewURL token unmarshal)) w).1.history) :
    Appended ((provisioningRequests cpURL ewURL token x).take 1) w.outside
      (ApplicationEnvironmentProvisioning.loop activityOptions x
          (provisioningSteps (httpPorts respond cpURL ewURL token unmarshal)) w).1.outside := by
  revert hm
  simp only [ApplicationEnvironmentProvisioning.loop, provisioningSteps]
  split_ifs with h1 h2 h3 h4 h5 h6
  all_goals simp only [ne_eq, not_not] at *
  all_goals first
    | (intro hm
       simp [ExecuteActivity_history, hw, *] at hm
       done)
    | (intro _
       simp only [ObserveDomainEvent_outside]
       exact (ExecuteActivity_MaterializeRepositories_appended respond cpURL ewURL token
        unmarshal ((provisioningRequests cpURL ewURL token x).take 1) x
        (by simp [provisioningRequests]) _))

theorem provisioning_loop_failure_2 (w : World (List Request)) (hw : w.history = [])
    (x : String) (e : error)
    (hm : HistoryEvent.activityFailed "ApplyBranchProtection" e ∈
        (ApplicationEnvironmentProvisioning.loop activityOptions x
          (provisioningSteps (httpPorts respond cpURL ewURL token unmarshal)) w).1.history) :
    Appended ((provisioningRequests cpURL ewURL token x).take 2) w.outside
      (ApplicationEnvironmentProvisioning.loop activityOptions x
          (provisioningSteps (httpPorts respond cpURL ewURL token unmarshal)) w).1.outside := by
  revert hm
  simp only [ApplicationEnvironmentProvisioning.loop, provisioningSteps]
  split_ifs with h1 h2 h3 h4 h5 h6
  all_goals simp only [ne_eq, not_not] at *
  all_goals first
    | (intro hm
       simp [ExecuteActivity_history, hw, *] at hm
       done)
    | (intro _
       simp only [ObserveDomainEvent_outside]
       exact ((ExecuteActivity_MaterializeRepositories_appended respond cpURL ewURL token
        unmarshal ((provisioningRequests cpURL ewURL token x).take 2) x
        (by simp [provisioningRequests]) _).trans
      (ExecuteActivity_ApplyBranchProtection_appended respond cpURL ewURL token
        unmarshal ((provisioningRequests cpURL ewURL token x).take 2) x
        (by simp [provisioningRequests]) _)))

theorem provisioning_loop_failure_3 (w : World (List Request)) (hw : w.history = [])
    (x : String) (e : error)
    (hm : HistoryEvent.activityFailed "ProvisionSecrets" e ∈
        (ApplicationEnvironmentProvisioning.loop activityOptions x
          (provisioningSteps (httpPorts respond cpURL ewURL token unmarshal)) w).1.history) :
    Appended ((provisioningRequests cpURL ewURL token x).take 3) w.outside
      (ApplicationEnvironmentProvisioning.loop activityOptions x
          (provisioningSteps (httpPorts respond cpURL ewURL token unmarshal)) w).1.outside := by
  revert hm
  simp only [ApplicationEnvironmentProvisioning.loop, provisioningSteps]
  split_ifs with h1 h2 h3 h4 h5 h6
  all_goals simp only [ne_eq, not_not] at *
  all_goals first
    | (intro hm
       simp [ExecuteActivity_history, hw, *] at hm
       done)
    | (intro _
       simp only [ObserveDomainEvent_outside]
       exact (((ExecuteActivity_MaterializeRepositories_appended respond cpURL ewURL token
        unmarshal ((provisioningRequests cpURL ewURL token x).take 3) x
        (by simp [provisioningRequests]) _).trans
      (ExecuteActivity_ApplyBranchProtection_appended respond cpURL ewURL token
        unmarshal ((provisioningRequests cpURL ewURL token x).take 3) x
        (by simp [provisioningRequests]) _)).trans
      (ExecuteActivity_ProvisionSecrets_appended respond cpURL ewURL token
        unmarshal ((provisioningRequests cpURL ewURL token x).take 3) x
        (by simp [provisioningRequests]) _)))

theorem provisioning_loop_failure_4 (w : World (List Request)) (hw : w.history = [])
    (x : String) (e : error)
    (hm : HistoryEvent.activityFailed "CreateSecretBindings" e ∈
        (ApplicationEnvironmentProvisioning.loop activityOptions x
          (provisioningSteps (httpPorts respond cpURL ewURL token unmarshal)) w).1.history) :
    Appended ((provisioningRequests cpURL ewURL token x).take 4) w.outside
      (ApplicationEnvironmentProvisioning.loop activityOptions x
          (provisioningSteps (httpPorts respond cpURL ewURL token unmarshal)) w).1.outside := by
  revert hm
  simp only [ApplicationEnvironmentProvisioning.loop, provisioningSteps]
  split_ifs with h1 h2 h3 h4 h5 h6
  all_goals simp only [ne_eq, not_not] at *
  all_goals first
    | (intro hm
       simp [ExecuteActivity_history, hw, *] at hm
       done)
    | (intro _
       simp only [ObserveDomainEvent_outside]
       exact ((((ExecuteActivity_MaterializeRepositories_appended respond cpURL ewURL token
        unmarshal ((provisioningRequests cpURL ewURL token x).take 4) x
        (by simp [provisioningRequests]) _).trans
      (ExecuteActivity_ApplyBranchProtection_appended respond cpURL ewURL token
        unmarshal ((provisioningRequests cpURL ewURL token x).take 4) x
        (by simp [provisioningRequests]) _)).trans
      (ExecuteActivity_ProvisionSecrets_appended respond cpURL ewURL token
        unmarshal ((provisioningRequests cpURL ewURL token x).take 4) x
        (by simp [provisioningRequests]) _)).trans
      (ExecuteActivity_CreateSecretBindings_appended respond cpURL ewURL token
        unmarshal ((provisioningRequests cpURL ewURL token x).take 4) x
        (by simp [provisioningRequests]) _)))

theorem provisioning_loop_failure_5 (w : World (List Request)) (hw : w.history = [])
    (x : String) (e : error)
    (hm : HistoryEvent.activityFailed "VerifyGitOpsReconciliation" e ∈
        (ApplicationEnvironmentProvisioning.loop activityOptions x
          (provisioningSteps (httpPorts respond cpURL ewURL token unmarshal)) w).1.history) :
    Appended ((provisioningRequests cpURL ewURL token x).take 5) w.outside
      (ApplicationEnvironmentProvisioning.loop activityOptions x
          (provisioningSteps (httpPorts respond cpURL ewURL token unmarshal)) w).1.outside := by
  revert hm
  simp only [ApplicationEnvironmentProvisioning.loop, provisioningSteps]
  split_ifs with h1 h2 h3 h4 h5 h6
  all_goals simp only [ne_eq, not_not] at *
  all_goals first
    | (intro hm
       simp [ExecuteActivity_history, hw, *] at hm
       done)
    | (intro _
       simp only [ObserveDomainEvent_outside]
       exact (((((ExecuteActivity_MaterializeRepositories_appended respond cpURL ewURL token
        unmarshal ((provisioningRequests cpURL ewURL token x).take 5) x
        (by simp [provisioningRequests]) _).trans
      (ExecuteActivity_ApplyBranchProtection_appended respond cpURL ewURL token
        unmarshal ((provisioningRequests cpURL ewURL token x).take 5) x
        (by simp [provisioningRequests]) _)).trans
      (ExecuteActivity_ProvisionSecrets_appended respond cpURL ewURL token
        unmarshal ((provisioningRequests cpURL ewURL token x).take 5) x
        (by simp [provisioningRequests]) _)).trans
      (ExecuteActivity_CreateSecretBindings_appended respond cpURL ewURL token
        unmarshal ((provisioningRequests cpURL ewURL token x).take 5) x
        (by simp [provisioningRequests]) _)).trans
      (ExecuteActivity_VerifyGitOpsReconciliation_appended respond cpURL ewURL token
        unmarshal ((provisioningRequests cpURL ewURL token x).take 5) x
        (by simp [provisioningRequests]) _)))

theorem provisioning_loop_failure_6 (w : World (List Request)) (hw : w.history = [])
    (x : String) (e : error)
    (hm : HistoryEvent.activityFailed "FinalizeApplicationEnvironmentProvisioning" e ∈
        (ApplicationEnvironmentProvisioning.loop activityOptions x
          (provisioningSteps (httpPorts respond cpURL ewURL token unmarshal)) w).1.history) :
    Appended ((provisioningRequests cpURL ewURL token x).take 6) w.outside
      (ApplicationEnvironmentProvisioning.loop activityOptions x
          (provisioningSteps (httpPorts respond cpURL ewURL token unmarshal)) w).1.outside := by
  revert hm
  simp only [ApplicationEnvironmentProvisioning.loop, provisioningSteps]
  split_ifs with h1 h2 h3 h4 h5 h6
  all_goals simp only [ne_eq, not_not] at *
  all_goals first
    | (intro hm
       simp [ExecuteActivity_history, hw, *] at hm
       done)
    | (intro _
       simp only [ObserveDomainEvent_outside]
       exact ((((((ExecuteActivity_MaterializeRepositories_appended respond cpURL ewURL token
        unmarshal ((provisioningRequests cpURL ewURL token x).take 6) x
        (by simp [provisioningRequests]) _).trans
      (ExecuteActivity_ApplyBranchProtection_appended respond cpURL ewURL token
        unmarshal ((provisioningRequests cpURL ewURL token x).take 6) x
        (by simp [provisioningRequests]) _)).trans
      (ExecuteActivity_ProvisionSecrets_appended respond cpURL ewURL token
        unmarshal ((provisioningRequests cpURL ewURL token x).take 6) x
        (by simp [provisioningRequests]) _)).trans
      (ExecuteActivity_CreateSecretBindings_appended respond cpURL ewURL token
        unmarshal ((provisioningRequests cpURL ewURL token x).take 6) x
        (by simp [provisioningRequests]) _)).trans
      (ExecuteActivity_VerifyGitOpsReconciliation_appended respond cpURL ewURL token
        unmarshal ((provisioningRequests cpURL ewURL token x).take 6) x
        (by simp [provisioningRequests]) _)).trans
      (ExecuteActivity_FinalizeApplicationEnvironmentProvisioning_appended respond cpURL ewURL token
        unmarshal ((provisioningRequests cpURL ewURL token x).take 6) x
        (by simp [provisioningRequests]) _)))

/-- Two paths under the same base URL are the same URL only when they are the
same path. -/
theorem url_eq_iff (base p q : String) : base ++ p = base ++ q ↔ p = q := by
  constructor
  · intro h
    have hd := congrArg String.data h
    simp only [String.data_append] at hd
    exact String.ext (List.append_cancel_left hd)
  · rintro rfl
    rfl

theorem provisioningRequests_nodup (x : String) :
    (provisioningRequests cpURL ewURL token x).Nodup := by
  simp [provisioningRequests, postRequest, url_eq_iff]

end provisioning

/-- C18: ApplicationEnvironmentProvisioning on a non-empty applicationEnvironmentId.
With any ports, the activities that a run schedules are an initial part of the six
in the order of the specification; a run that succeeds has scheduled and completed
each of the six once, in that order; a run that fails returns the error of the
activity that failed, which is the last one scheduled. Through the HTTP adapters,
when every request is answered 2xx the run succeeds and the requests received are
exactly the six of the specification in its order, and they are distinct; when
the activity at position k of the order fails, the requests received are all among
the first k + 1, so that a failure before the last activity sends no
complete-provisioning request. -/
theorem C18_provisioning_in_order {ω : Type} (ports : Ports ω) (rt : Runtime) (o : ω)
    (respond : Responder) (cpURL ewURL token : String) (unmarshal : String → String × String)
    (log : List Request) (x : String) (hx : x ≠ "") :
    let r := ApplicationEnvironmentProvisioning ports rt (World.start o)
      { ApplicationEnvironmentID := x }
    let h := ApplicationEnvironmentProvisioning (httpPorts respond cpURL ewURL token unmarshal)
      rt (World.start log) { ApplicationEnvironmentID := x }
    scheduledActivities r.1.history <+: provisioningOrder ∧
    (r.2 = error.nil → r.1.history =
      provisioningOrder.flatMap fun name =>
        [HistoryEvent.activityScheduled name x, HistoryEvent.activityCompleted name]) ∧
    (r.2 ≠ error.nil → ∃ name,
      r.1.history.getLast? = some (HistoryEvent.activityFailed name r.2) ∧
      (scheduledActivities r.1.history).getLast? = some name) ∧
    ((∀ log req, ∃ resp, respond log req = Except.ok resp ∧
          200 ≤ resp.StatusCode ∧ resp.StatusCode < 300) →
      h.2 = error.nil ∧ h.1.outside = log ++ provisioningRequests cpURL ewURL token x) ∧
    (provisioningRequests cpURL ewURL token x).Nodup ∧
    (∀ k name e, provisioningOrder[k]? = some name →
      HistoryEvent.activityFailed name e ∈ h.1.history →
      Appended ((provisioningRequests cpURL ewURL token x).take (k + 1)) log h.1.outside) := by
  intro r h
  obtain ⟨w0, hh, -, e2, eh, -⟩ :=
    ApplicationEnvironmentProvisioning_eq_body ports rt (World.start o)
      { ApplicationEnvironmentID := x }
  obtain ⟨v0, vh, vo, f2, fh, fo⟩ :=
    ApplicationEnvironmentProvisioning_eq_body (httpPorts respond cpURL ewURL token unmarshal)
      rt (World.start log) { ApplicationEnvironmentID := x }
  have hw : w0.history = [] := by rw [hh]; rfl
  have hv : v0.history = [] := by rw [vh]; rfl
  have hlog : v0.outside = log := by rw [vo]; rfl
  have hb := provisioning_loop_history ports w0 x hw
  simp only [r, h]
  rw [e2, eh, f2, fh, fo, ← hlog]
  simp only [ApplicationEnvironmentProvisioning.body, hx, if_false]
  refine ⟨hb.1, hb.2.1, hb.2.2, fun h2xx => provisioning_loop_2xx respond cpURL ewURL token
    unmarshal h2xx v0 x, provisioningRequests_nodup cpURL ewURL token x, ?_⟩
  intro k name e hk hm
  match k, hk with
  | 0, hk =>
    obtain rfl : "MaterializeRepositories" = name := by simpa [provisioningOrder] using hk
    exact provisioning_loop_failure_1 respond cpURL ewURL token unmarshal v0 hv x e hm
  | 1, hk =>
    obtain rfl : "ApplyBranchProtection" = name := by simpa [provisioningOrder] using hk
    exact provisioning_loop_failure_2 respond cpURL ewURL token unmarshal v0 hv x e hm
  | 2, hk =>
    obtain rfl : "ProvisionSecrets" = name := by simpa [provisioningOrder] using hk
    exact provisioning_loop_failure_3 respond cpURL ewURL token unmarshal v0 hv x e hm
  | 3, hk =>
    obtain rfl : "CreateSecretBindings" = name := by simpa [provisioningOrder] using hk
    exact provisioning_loop_failure_4 respond cpURL ewURL token unmarshal v0 hv x e hm
  | 4, hk =>
    obtain rfl : "VerifyGitOpsReconciliation" = name := by
      simpa [provisioningOrder] using hk
    exact provisioning_loop_failure_5 respond cpURL ewURL token unmarshal v0 hv x e hm
  | 5, hk =>
    obtain rfl : "FinalizeApplicationEnvironmentProvisioning" = name := by
      simpa [provisioningOrder] using hk
    exact provisioning_loop_failure_6 respond cpURL ewURL token unmarshal v0 hv x e hm
  | k + 6, hk => simp [provisioningOrder] at hk

theorem C18_provisioning_in_order_witness :
    (ApplicationEnvironmentProvisioning (httpPorts created "http://cp" "http://ew" "" noPayload)
        promptRuntime (World.start []) { ApplicationEnvironmentID := "appenv-1" }).1.outside =
      provisioningRequests "http://cp" "http://ew" "" "appenv-1" :=
  ((C18_provisioning_in_order noPorts promptRuntime () created "http://cp" "http://ew" ""
    noPayload [] "appenv-1" (by decide)).2.2.2.1
      (fun _ _ => ⟨_, rfl, by decide, by decide⟩)).2

/-- C15: what UpdateSecretBindingsForSecret does with a 4xx of the Execution
Worker. When POST /secrets/bindings/update is answered with a status from 400 to
499, the activity returns the error of the adapter as it is: it is not an
application error, so it is neither non-retryable nor of type
execution_workers_client_error, and no metric is recorded, so the counter of
downstream errors is not incremented. -/
theorem C15_update_bindings_4xx_unclassified (respond : Responder)
    (cpURL ewURL token : String) (unmarshal : String → String × String)
    (w : World (List Request)) (x : String) (resp : Response)
    (hr : respond w.outside
      (postRequest (ewURL ++ "/secrets/bindings/update") token [("secretId", .str x)]) =
        Except.ok resp)
    (h4 : 400 ≤ resp.StatusCode ∧ resp.StatusCode < 500) :
    let r := UpdateSecretBindingsForSecret (httpPorts respond cpURL ewURL token unmarshal) w x
    r.2 = error.secretbindings resp.StatusCode resp.Body ∧
    r.2.asApplication = none ∧
    isNonRetryable r.2 = false ∧
    r.1.metrics = w.metrics := by
  have hn : resp.StatusCode < 200 ∨ resp.StatusCode ≥ 300 := by omega
  simp only [postRequest] at hr
  simp [UpdateSecretBindingsForSecret, httpPorts, secretbindingshttp.Client.rotationPort,
    secretbindingshttp.Client.UpdateSecretBindingsForSecret, recordingClient, hr, hn,
    secretbindingshttp.newErrorFromResponse, isNonRetryable, error.asApplication]

theorem C15_update_bindings_4xx_unclassified_witness :
    (UpdateSecretBindingsForSecret (httpPorts badRequest "http://cp" "http://ew" "" noPayload)
        (World.start []) "sec-1").2 = error.secretbindings 400 "bad request" ∧
    (ExecuteActivity activityOptions "UpdateSecretBindingsForSecret"
        (UpdateSecretBindingsForSecret
          (httpPorts badRequest "http://cp" "http://ew" "" noPayload))
        (World.start []) "sec-1").1.outside =
      List.replicate 5
        (postRequest "http://ew/secrets/bindings/update" "" [("secretId", .str "sec-1")]) ∧
    (ExecuteActivity activityOptions "UpdateSecretBindingsForSecret"
        (UpdateSecretBindingsForSecret
          (httpPorts badRequest "http://cp" "http://ew" "" noPayload))
        (World.start []) "sec-1").1.metrics = [] :=
  ⟨(C15_update_bindings_4xx_unclassified badRequest "http://cp" "http://ew" "" noPayload
      (World.start []) "sec-1" { StatusCode := 400, Body := "bad request" } rfl
      (by decide)).1, by decide, by decide⟩

/-! ## C29: the classification inlined in the last activity of provisioning -/

/-- C29. FinalizeApplicationEnvironmentProvisioning classifies as
mapControlPlaneError does: when the control-plane client is set, the result of
the activity (the error returned and the observations recorded) is the result of
mapControlPlaneError on the error that the client returned, for every client
and so for every error; when no client is set it returns nil. -/
theorem C29_finalize_is_mapControlPlaneError {ω : Type} (ports : Ports ω) (w : World ω)
    (x : String) :
    FinalizeApplicationEnvironmentProvisioning ports w x =
      match ports.controlPlaneClient with
      | none => (w, error.nil)
      | some client =>
        mapControlPlaneError
          { w with outside := (client.CompleteApplicationEnvironmentProvisioning w.outside x).1 }
          (client.CompleteApplicationEnvironmentProvisioning w.outside x).2 := by
  unfold FinalizeApplicationEnvironmentProvisioning mapControlPlaneError
  cases ports.controlPlaneClient with
  | none => rfl
  | some client => rfl

/-! ## C28: the secrets that commands can produce -/

theorem Items.mem_put {α : Type} [Keyed α] {xs : Items α} {x y : α} (h : y ∈ xs.put x) :
    y = x ∨ y ∈ xs := by
  induction xs with
  | nil =>
    simp [Items.put] at h
    exact Or.inl h
  | cons z zs ih =>
    by_cases hk : Keyed.key z = Keyed.key x
    · simp [Items.put, hk] at h
      rcases h with h | h
      · exact Or.inl h
      · exact Or.inr (List.mem_cons_of_mem _ h)
    · simp [Items.put, hk] at h
      rcases h with h | h
      · exact Or.inr (h ▸ List.mem_cons_self _ _)
      · rcases ih h with h2 | h2
        · exact Or.inl h2
        · exact Or.inr (List.mem_cons_of_mem _ h2)

theorem declared_ne_active : SecretStateDeclared ≠ SecretStateActive := by decide

theorem declared_ne_rotating : SecretStateDeclared ≠ SecretStateRotating := by decide

theorem secretsDeclared_step {st : Store} (h : st.SecretsDeclared) (now : Nat) (c : Command) :
    (run st now c).1.SecretsDeclared := by
  obtain ⟨hs, hb⟩ := h
  cases c
  case CreateTeam i n cb =>
    rw [run_CreateTeam]
    split <;> exact ⟨hs, hb⟩
  case CreateApplication i n t cb =>
    rw [run_CreateApplication]
    (repeat' split) <;> exact ⟨hs, hb⟩
  case ApproveApplication i cb =>
    rw [run_ApproveApplication]
    (repeat' split) <;> exact ⟨hs, hb⟩
  case StartApplicationOnboarding i cb =>
    rw [run_StartApplicationOnboarding]
    (repeat' split) <;> exact ⟨hs, hb⟩
  case ActivateApplication i cb =>
    rw [run_ActivateApplication]
    (repeat' split) <;> exact ⟨hs, hb⟩
  case DeprecateApplication i cb =>
    rw [run_DeprecateApplication]
    (repeat' split) <;> exact ⟨hs, hb⟩
  case CreateEnvironment i n cb =>
    rw [run_CreateEnvironment]
    (repeat' split) <;> exact ⟨hs, hb⟩
  case DeclareApplicationEnvironment i a e cb =>
    rw [run_DeclareApplicationEnvironment]
    (repeat' split) <;> exact ⟨hs, hb⟩
  case CompleteApplicationEnvironmentProvisioning i cb =>
    rw [run_CompleteApplicationEnvironmentProvisioning]
    (repeat' split) <;> exact ⟨hs, hb⟩
  case DeclareCodeRepository i a cb =>
    rw [run_DeclareCodeRepository]
    (repeat' split) <;> exact ⟨hs, hb⟩
  case DeclareDeploymentRepository i a m cb =>
    rw [run_DeclareDeploymentRepository]
    (repeat' split) <;> exact ⟨hs, hb⟩
  case DeclareGitOpsIntegration i a d cb =>
    rw [run_DeclareGitOpsIntegration]
    (repeat' split) <;> exact ⟨hs, hb⟩
  case CreateSecret i o p s cb =>
    rw [run_CreateSecret]
    split
    · exact ⟨hs, hb⟩
    · split
      · exact ⟨hs, hb⟩
      · split
        · refine ⟨?_, hb⟩
          intro y hy
          rcases Items.mem_put hy with rfl | hy
          · rfl
          · exact hs y hy
        · exact ⟨hs, hb⟩
  case StartSecretRotation i cb =>
    rw [run_StartSecretRotation]
    split
    · rename_i sec hsec
      have hd := hs sec (Items.mem_of_get hsec)
      rw [if_neg (by rw [hd]; exact declared_ne_active)]
      exact ⟨hs, hb⟩
    · exact ⟨hs, hb⟩
  case CompleteSecretRotation i cb =>
    rw [run_CompleteSecretRotation]
    split
    · rename_i sec hsec
      have hd := hs sec (Items.mem_of_get hsec)
      rw [if_neg (by rw [hd]; exact declared_ne_rotating)]
      exact ⟨hs, hb⟩
    · exact ⟨hs, hb⟩
  case DeclareSecretBinding i s t ty cb =>
    rw [run_DeclareSecretBinding]
    split
    · exact ⟨hs, hb⟩
    · split
      · rename_i sec hsec
        have hd := hs sec (Items.mem_of_get hsec)
        rw [if_neg (by rw [hd]; exact declared_ne_active)]
        exact ⟨hs, hb⟩
      · exact ⟨hs, hb⟩

theorem reachable_secretsDeclared {st : Store} (h : Reachable st) : st.SecretsDeclared := by
  induction h with
  | empty => exact ⟨by simp [Store.empty], rfl⟩
  | step now c _ ih => exact secretsDeclared_step ih now c

/-- C28. In every store reachable from the empty store by commands, every stored
secret is in state Declared and no secret binding is stored; and on such a store
StartSecretRotation, CompleteSecretRotation and DeclareSecretBinding return an
error, whatever their arguments. -/
theorem C28_secrets_stay_declared (st : Store) (h : Reachable st) :
    (∀ s ∈ st.secrets, s.State = SecretStateDeclared) ∧
    st.secretBindings = [] ∧
    (∀ now id by_, (run st now (.StartSecretRotation id by_)).2 ≠ error.nil) ∧
    (∀ now id by_, (run st now (.CompleteSecretRotation id by_)).2 ≠ error.nil) ∧
    (∀ now id secretID targetID targetType by_,
      (run st now (.DeclareSecretBinding id secretID targetID targetType by_)).2 ≠
        error.nil) := by
  obtain ⟨hs, hb⟩ := reachable_secretsDeclared h
  refine ⟨hs, hb, ?_, ?_, ?_⟩
  · intro now id by_
    rw [run_StartSecretRotation]
    split
    · rename_i sec hsec
      have hd := hs sec (Items.mem_of_get hsec)
      rw [if_neg (by rw [hd]; exact declared_ne_active)]
      exact fun hnil => by cases hnil
    · exact fun hnil => by cases hnil
  · intro now id by_
    rw [run_CompleteSecretRotation]
    split
    · rename_i sec hsec
      have hd := hs sec (Items.mem_of_get hsec)
      rw [if_neg (by rw [hd]; exact declared_ne_rotating)]
      exact fun hnil => by cases hnil
    · exact fun hnil => by cases hnil
  · intro now id secretID targetID targetType by_
    rw [run_DeclareSecretBinding]
    split
    · exact fun hnil => by cases hnil
    · split
      · rename_i sec hsec
        have hd := hs sec (Items.mem_of_get hsec)
        rw [if_neg (by rw [hd]; exact declared_ne_active)]
        exact fun hnil => by cases hnil
      · exact fun hnil => by cases hnil

/-- Witness of C28: the sample store is reachable, its secret sec-1 is Declared,
and starting a rotation of sec-1 fails. -/
theorem C28_secrets_stay_declared_witness :
    Reachable sampleStore ∧
    (sampleStore.secrets.map fun s => (s.ID, s.State)) = [("sec-1", SecretStateDeclared)] ∧
    (run sampleStore 9 (.StartSecretRotation "sec-1" "api")).2 ≠ error.nil :=
  ⟨reachable_runAll Reachable.empty sampleTrace, by decide,
    (C28_secrets_stay_declared sampleStore
      (reachable_runAll Reachable.empty sampleTrace)).2.2.1 9 "sec-1" "api"⟩

section events

variable {ω : Type}

@[simp] theorem domainEvents_append (a b : List Metric) :
    domainEvents (a ++ b) = domainEvents a ++ domainEvents b := by
  simp [domainEvents]

@[simp] theorem ObserveDomainEvent_domainEvents (w : World ω) (e r : String) :
    domainEvents (ObserveDomainEvent w e r).metrics = domainEvents w.metrics ++ [(e, r)] := by
  simp [ObserveDomainEvent, domainEvents]

@[simp] theorem ObserveDownstreamError_domainEvents (w : World ω) (t c : String) (s : Int) :
    domainEvents (ObserveDownstreamError w t c s).metrics = domainEvents w.metrics := by
  simp [ObserveDownstreamError, domainEvents]

@[simp] theorem ObserveWorkflowDuration_domainEvents (w : World ω) (n r : String) :
    domainEvents (ObserveWorkflowDuration w n r).metrics = domainEvents w.metrics := by
  simp [ObserveWorkflowDuration, domainEvents]

@[simp] theorem ObserveWorkflowRetries_domainEvents (w : World ω) (n : String) (k : Int) :
    domainEvents (ObserveWorkflowRetries w n k).metrics = domainEvents w.metrics := by
  unfold ObserveWorkflowRetries
  simp only []
  split_ifs <;> simp [domainEvents]

@[simp] theorem mapControlPlaneError_domainEvents (w : World ω) (err : error) :
    domainEvents (mapControlPlaneError w err).1.metrics = domainEvents w.metrics := by
  unfold mapControlPlaneError
  (repeat' split) <;> simp

@[simp] theorem mapExecutionWorkersError_domainEvents (w : World ω) (err : error) :
    domainEvents (mapExecutionWorkersError w err).1.metrics = domainEvents w.metrics := by
  unfold mapExecutionWorkersError
  (repeat' split) <;> simp

@[simp] theorem CreateCodeRepositoryForApplication_domainEvents (ports : Ports ω) (w : World ω)
    (x : String) :
    domainEvents (CreateCodeRepositoryForApplication ports w x).1.metrics = domainEvents w.metrics := by
  unfold CreateCodeRepositoryForApplication
  (repeat' split) <;> simp

@[simp] theorem CreateDeploymentRepositoryForApplication_domainEvents (ports : Ports ω) (w : World ω)
    (x : String) :
    domainEvents (CreateDeploymentRepositoryForApplication ports w x).1.metrics = domainEvents w.metrics := by
  unfold CreateDeploymentRepositoryForApplication
  (repeat' split) <;> simp

@[simp] theorem CreateGitOpsIntegrationForApplication_domainEvents (ports : Ports ω) (w : World ω)
    (x : String) :
    domainEvents (CreateGitOpsIntegrationForApplication ports w x).1.metrics = domainEvents w.metrics := by
  unfold CreateGitOpsIntegrationForApplication
  (repeat' split) <;> simp

@[simp] theorem DeclareApplicationEnvironmentsForApplication_domainEvents (ports : Ports ω) (w : World ω)
    (x : String) :
    domainEvents (DeclareApplicationEnvironmentsForApplication ports w x).1.metrics = domainEvents w.metrics := by
  unfold DeclareApplicationEnvironmentsForApplication
  (repeat' split) <;> simp

@[simp] theorem TransitionApplicationToOnboarding_domainEvents (ports : Ports ω) (w : World ω)
    (x : String) :
    domainEvents (TransitionApplicationToOnboarding ports w x).1.metrics = domainEvents w.metrics := by
  unfold TransitionApplicationToOnboarding
  (repeat' split) <;> simp

@[simp] theorem TransitionApplicationToActive_domainEvents (ports : Ports ω) (w : World ω)
    (x : String) :
    domainEvents (TransitionApplicationToActive ports w x).1.metrics = domainEvents w.metrics := by
  unfold TransitionApplicationToActive
  (repeat' split) <;> simp

@[simp] theorem MaterializeRepositories_domainEvents (ports : Ports ω) (w : World ω)
    (x : String) :
    domainEvents (MaterializeRepositories ports w x).1.metrics = domainEvents w.metrics := by
  unfold MaterializeRepositories
  (repeat' split) <;> simp

@[simp] theorem ApplyBranchProtection_domainEvents (ports : Ports ω) (w : World ω)
    (x : String) :
    domainEvents (ApplyBranchProtection ports w x).1.metrics = domainEvents w.metrics := by
  unfold ApplyBranchProtection
  (repeat' split) <;> simp

@[simp] theorem ProvisionSecrets_domainEvents (ports : Ports ω) (w : World ω)
    (x : String) :
    domainEvents (ProvisionSecrets ports w x).1.metrics = domainEvents w.metrics := by
  unfold ProvisionSecrets
  (repeat' split) <;> simp

@[simp] theorem CreateSecretBindings_domainEvents (ports : Ports ω) (w : World ω)
    (x : String) :
    domainEvents (CreateSecretBindings ports w x).1.metrics = domainEvents w.metrics := by
  unfold CreateSecretBindings
  (repeat' split) <;> simp

@[simp] theorem VerifyGitOpsReconciliation_domainEvents (ports : Ports ω) (w : World ω)
    (x : String) :
    domainEvents (VerifyGitOpsReconciliation ports w x).1.metrics = domainEvents w.metrics := by
  unfold VerifyGitOpsReconciliation
  (repeat' split) <;> simp

@[simp] theorem CompleteSecretRotationActivity_domainEvents (ports : Ports ω) (w : World ω)
    (x : String) :
    domainEvents (CompleteSecretRotationActivity ports w x).1.metrics = domainEvents w.metrics := by
  unfold CompleteSecretRotationActivity
  (repeat' split) <;> simp

@[simp] theorem FinalizeApplicationEnvironmentProvisioning_domainEvents (ports : Ports ω)
    (w : World ω) (x : String) :
    domainEvents (FinalizeApplicationEnvironmentProvisioning ports w x).1.metrics =
      domainEvents w.metrics := by
  unfold FinalizeApplicationEnvironmentProvisioning
  split
  · rfl
  · simp only []
    split_ifs
    · rfl
    · (repeat' split) <;> simp

@[simp] theorem PerformSecretRotation_domainEvents (ports : Ports ω) (w : World ω)
    (x : String) :
    domainEvents (PerformSecretRotation ports w x).1.metrics = domainEvents w.metrics := rfl

@[simp] theorem UpdateSecretBindingsForSecret_domainEvents (ports : Ports ω) (w : World ω)
    (x : String) :
    domainEvents (UpdateSecretBindingsForSecret ports w x).1.metrics =
      domainEvents w.metrics := by
  unfold UpdateSecretBindingsForSecret
  split
  · rfl
  · simp only []
    split_ifs <;> rfl

/-- The execution of an activity that records no domain event records none. -/
theorem ExecuteActivity_domainEvents (opts : ActivityOptions) (name : String)
    (activity : World ω → String → World ω × error)
    (hact : ∀ w x, domainEvents (activity w x).1.metrics = domainEvents w.metrics)
    (w : World ω) (input : String) :
    domainEvents (ExecuteActivity opts name activity w input).1.metrics =
      domainEvents w.metrics := by
  have hp := attempt_preserves (fun w : World ω => domainEvents w.metrics)
    (fun w => activity w input) (fun w => hact w input)
    (opts.RetryPolicy.MaximumAttempts - 1)
    { w with history := w.history ++ [HistoryEvent.activityScheduled name input] }
  unfold ExecuteActivity
  simp only [] at hp ⊢
  split
  · exact hp
  · exact hp

@[simp] theorem waitForSecurityScanPassed_metrics (rt : Runtime) (w : World ω) :
    (waitForSecurityScanPassed rt w).1.metrics = w.metrics := by
  unfold waitForSecurityScanPassed selectSignalOrTimer
  (repeat' split) <;> rfl

@[simp] theorem waitForRotationValidatedExternally_metrics (rt : Runtime) (w : World ω) :
    (waitForRotationValidatedExternally rt w).1.metrics = w.metrics := by
  unfold waitForRotationValidatedExternally selectSignalOrTimer
  (repeat' split) <;> rfl

theorem ApplicationOnboarding_body_domainEvents (ports : Ports ω) (rt : Runtime) (w : World ω)
    (x : String) (hx : x ≠ "") :
    domainEvents (ApplicationOnboarding.body ports rt w { ApplicationID := x }).1.metrics =
      domainEvents w.metrics ++
        [if (ApplicationOnboarding.body ports rt w { ApplicationID := x }).2 = error.nil then
          ("workflow_application_onboarding_completed", "success")
        else ("workflow_application_onboarding_failed", "error")] := by
  simp only [ApplicationOnboarding.body, hx, if_false]
  split_ifs <;> simp_all [ExecuteActivity_domainEvents]

theorem ApplicationEnvironmentProvisioning_body_domainEvents (ports : Ports ω) (w : World ω)
    (x : String) (hx : x ≠ "") :
    domainEvents (ApplicationEnvironmentProvisioning.body ports w
        { ApplicationEnvironmentID := x }).1.metrics =
      domainEvents w.metrics ++
        [if (ApplicationEnvironmentProvisioning.body ports w
            { ApplicationEnvironmentID := x }).2 = error.nil then
          ("workflow_appenv_provisioning_completed", "success")
        else ("workflow_appenv_provisioning_failed", "error")] := by
  simp only [ApplicationEnvironmentProvisioning.body, hx, if_false,
    ApplicationEnvironmentProvisioning.loop, provisioningSteps]
  split_ifs <;> simp_all [ExecuteActivity_domainEvents]

theorem SecretRotation_body_domainEvents (ports : Ports ω) (rt : Runtime) (w : World ω)
    (x : String) (hx : x ≠ "") :
    domainEvents (SecretRotation.body ports rt w { SecretID := x }).1.metrics =
      domainEvents w.metrics ++
        [if (SecretRotation.body ports rt w { SecretID := x }).2 = error.nil then
          ("workflow_secret_rotation_completed", "success")
        else ("workflow_secret_rotation_failed", "error")] := by
  simp only [SecretRotation.body, hx, if_false]
  split_ifs <;> simp_all [ExecuteActivity_domainEvents]

end events

/-! ## C25: the domain event of a run -/

/-- C25 as stated fails for a run started with an empty id: it returns the
bad_input error and records no domain event, in each of the three workflows. -/
theorem C25_counterexample :
    ((ApplicationOnboarding noPorts silentRuntime (World.start ())
        { ApplicationID := "" }).2 ≠ error.nil ∧
      domainEvents (ApplicationOnboarding noPorts silentRuntime (World.start ())
        { ApplicationID := "" }).1.metrics = []) ∧
    ((ApplicationEnvironmentProvisioning noPorts silentRuntime (World.start ())
        { ApplicationEnvironmentID := "" }).2 ≠ error.nil ∧
      domainEvents (ApplicationEnvironmentProvisioning noPorts silentRuntime (World.start ())
        { ApplicationEnvironmentID := "" }).1.metrics = []) ∧
    ((SecretRotation noPorts silentRuntime (World.start ()) { SecretID := "" }).2 ≠
        error.nil ∧
      domainEvents (SecretRotation noPorts silentRuntime (World.start ())
        { SecretID := "" }).1.metrics = []) :=
  ⟨⟨by decide, by decide⟩, ⟨by decide, by decide⟩, ⟨by decide, by decide⟩⟩

/-- C25, amended. For all ports, every runtime and every non-empty id, a run of
ApplicationOnboarding, ApplicationEnvironmentProvisioning or SecretRotation
records exactly one domain event: the completed event of the workflow with
result success when the run returns nil, and its failed event with result error
when it returns an error. A run started with an empty id records no domain
event. -/
theorem C25_one_domain_event {ω : Type} (ports : Ports ω) (rt : Runtime) (w : World ω)
    (x : String) (hx : x ≠ "") :
    domainEvents (ApplicationOnboarding ports rt w { ApplicationID := x }).1.metrics =
      domainEvents w.metrics ++
        [if (ApplicationOnboarding ports rt w { ApplicationID := x }).2 = error.nil then
          ("workflow_application_onboarding_completed", "success")
        else ("workflow_application_onboarding_failed", "error")] ∧
    domainEvents (ApplicationEnvironmentProvisioning ports rt w
        { ApplicationEnvironmentID := x }).1.metrics =
      domainEvents w.metrics ++
        [if (ApplicationEnvironmentProvisioning ports rt w
            { ApplicationEnvironmentID := x }).2 = error.nil then
          ("workflow_appenv_provisioning_completed", "success")
        else ("workflow_appenv_provisioning_failed", "error")] ∧
    domainEvents (SecretRotation ports rt w { SecretID := x }).1.metrics =
      domainEvents w.metrics ++
        [if (SecretRotation ports rt w { SecretID := x }).2 = error.nil then
          ("workflow_secret_rotation_completed", "success")
        else ("workflow_secret_rotation_failed", "error")] ∧
    domainEvents (ApplicationOnboarding ports rt w { ApplicationID := "" }).1.metrics =
      domainEvents w.metrics ∧
    domainEvents (ApplicationEnvironmentProvisioning ports rt w
      { ApplicationEnvironmentID := "" }).1.metrics = domainEvents w.metrics ∧
    domainEvents (SecretRotation ports rt w { SecretID := "" }).1.metrics =
      domainEvents w.metrics := by
  refine ⟨?_, ?_, ?_, ?_, ?_, ?_⟩
  · unfold ApplicationOnboarding
    simp only [ObserveWorkflowDuration_domainEvents]
    rw [ApplicationOnboarding_body_domainEvents ports rt _ x hx]
    split_ifs <;> simp
  · unfold ApplicationEnvironmentProvisioning
    simp only [ObserveWorkflowDuration_domainEvents]
    rw [ApplicationEnvironmentProvisioning_body_domainEvents ports _ x hx]
    split_ifs <;> simp
  · unfold SecretRotation
    simp only [ObserveWorkflowDuration_domainEvents]
    rw [SecretRotation_body_domainEvents ports rt _ x hx]
    split_ifs <;> simp
  · unfold ApplicationOnboarding
    simp only [ObserveWorkflowDuration_domainEvents, ApplicationOnboarding.body, if_true]
    split_ifs <;> simp
  · unfold ApplicationEnvironmentProvisioning
    simp only [ObserveWorkflowDuration_domainEvents, ApplicationEnvironmentProvisioning.body,
      if_true]
    split_ifs <;> simp
  · unfold SecretRotation
    simp only [ObserveWorkflowDuration_domainEvents, SecretRotation.body, if_true]
    split_ifs <;> simp

/-- Witness of C25, amended: a rotation of sec-1 whose signal never arrives
records the failed event, once. -/
theorem C25_one_domain_event_witness :
    domainEvents (SecretRotation noPorts silentRuntime (World.start ())
        { SecretID := "sec-1" }).1.metrics =
      [("workflow_secret_rotation_failed", "error")] :=
  (C25_one_domain_event noPorts silentRuntime (World.start ()) "sec-1" (by decide)).2.2.1

/-! # The HTTP surface of the control plane: theorems -/

section httpapiTheorems

open httpapi

/-! ## C22: the bodies of the error responses -/

/-- C22 as stated fails for a request without its required field, with a wrong
method and with a body that does not decode: the body of the response is the
plain text of `httpx.WriteText`, not a JSON object. -/
theorem C22_counterexample :
    ((memServer "").approveApplication sampleStore 9 (postOf [])).response =
      { Status := 400, Body := Body.text "id is required" } ∧
    ((memServer "").approveApplication sampleStore 9
        { Method := MethodGet, Body := some [("id", "app-1")] }).response =
      { Status := 405, Body := Body.text "method not allowed" } ∧
    ((memServer "").approveApplication sampleStore 9 { Method := MethodPost }).response =
      { Status := 400, Body := Body.text "invalid json" } ∧
    ((memServer "test-token").startApplicationOnboarding sampleStore 9
        (postOf [("id", "app-1")])).response =
      { Status := 401, Body := Body.text "missing or invalid internal auth token" } :=
  ⟨by decide, by decide, by decide, by decide⟩

/-- The statuses that `writeDomainError` answers with, and the code of its body. -/
theorem writeDomainError_shape (err : error) :
    ((writeDomainError err).1 = 400 ∨ (writeDomainError err).1 = 404 ∨
      (writeDomainError err).1 = 409 ∨ (writeDomainError err).1 = 500) ∧
    (writeDomainError err).2.Code ≠ "" ∧
    (writeDomainError err).2.Message = err.Error := by
  refine ⟨?_, ?_, rfl⟩
  · simp only [writeDomainError, StatusNotFound, StatusConflict, StatusInternalServerError,
      StatusBadRequest]
    split_ifs <;> simp
  · simp only [writeDomainError]
    split_ifs with h
    · decide
    · exact h

theorem writeDomainError_status_ge (err : error) : 400 ≤ (writeDomainError err).1 := by
  rcases (writeDomainError_shape err).1 with h | h | h | h <;> omega

section shapes

variable {σ : Type} (s : Server σ) (st : σ) (now : Nat) (r : httpapi.Request)

theorem createTeam_shaped : (s.createTeam st now r).Shaped st := by
  simp only [Server.createTeam, Outcome.Shaped]
  (repeat' split) <;>
  simp only [RequireMethod, DecodeJSON, requireInternalAuth, WriteText,
    writeDomainErrorResponse] at * <;>
  (repeat' split at *) <;>
  (try simp_all) <;>
  (try subst_vars) <;>
  first
    | decide
    | exact ⟨_, by assumption, rfl, rfl⟩
    | exact Or.inr (Or.inl ⟨_, _, by decide, rfl⟩)

theorem createApplication_shaped : (s.createApplication st now r).Shaped st := by
  simp only [Server.createApplication, Outcome.Shaped]
  (repeat' split) <;>
  simp only [RequireMethod, DecodeJSON, requireInternalAuth, WriteText,
    writeDomainErrorResponse] at * <;>
  (repeat' split at *) <;>
  (try simp_all) <;>
  (try subst_vars) <;>
  first
    | decide
    | exact ⟨_, by assumption, rfl, rfl⟩
    | exact Or.inr (Or.inl ⟨_, _, by decide, rfl⟩)

theorem approveApplication_shaped : (s.approveApplication st now r).Shaped st := by
  simp only [Server.approveApplication, Outcome.Shaped]
  (repeat' split) <;>
  simp only [RequireMethod, DecodeJSON, requireInternalAuth, WriteText,
    writeDomainErrorResponse] at * <;>
  (repeat' split at *) <;>
  (try simp_all) <;>
  (try subst_vars) <;>
  first
    | decide
    | exact ⟨_, by assumption, rfl, rfl⟩
    | exact Or.inr (Or.inl ⟨_, _, by decide, rfl⟩)

theorem deprecateApplication_shaped : (s.deprecateApplication st now r).Shaped st := by
  simp only [Server.deprecateApplication, Outcome.Shaped]
  (repeat' split) <;>
  simp only [RequireMethod, DecodeJSON, requireInternalAuth, WriteText,
    writeDomainErrorResponse] at * <;>
  (repeat' split at *) <;>
  (try simp_all) <;>
  (try subst_vars) <;>
  first
    | decide
    | exact ⟨_, by assumption, rfl, rfl⟩
    | exact Or.inr (Or.inl ⟨_, _, by decide, rfl⟩)

theorem startApplicationOnboarding_shaped : (s.startApplicationOnboarding st now r).Shaped st := by
  simp only [Server.startApplicationOnboarding, Outcome.Shaped]
  (repeat' split) <;>
  simp only [RequireMethod, DecodeJSON, requireInternalAuth, WriteText,
    writeDomainErrorResponse] at * <;>
  (repeat' split at *) <;>
  (try simp_all) <;>
  (try subst_vars) <;>
  first
    | decide
    | exact ⟨_, by assumption, rfl, rfl⟩
    | exact Or.inr (Or.inl ⟨_, _, by decide, rfl⟩)

theorem activateApplication_shaped : (s.activateApplication st now r).Shaped st := by
  simp only [Server.activateApplication, Outcome.Shaped]
  (repeat' split) <;>
  simp only [RequireMethod, DecodeJSON, requireInternalAuth, WriteText,
    writeDomainErrorResponse] at * <;>
  (repeat' split at *) <;>
  (try simp_all) <;>
  (try subst_vars) <;>
  first
    | decide
    | exact ⟨_, by assumption, rfl, rfl⟩
    | exact Or.inr (Or.inl ⟨_, _, by decide, rfl⟩)

theorem createSecret_shaped : (s.createSecret st now r).Shaped st := by
  simp only [Server.createSecret, Outcome.Shaped]
  (repeat' split) <;>
  simp only [RequireMethod, DecodeJSON, requireInternalAuth, WriteText,
    writeDomainErrorResponse] at * <;>
  (repeat' split at *) <;>
  (try simp_all) <;>
  (try subst_vars) <;>
  first
    | decide
    | exact ⟨_, by assumption, rfl, rfl⟩
    | exact Or.inr (Or.inl ⟨_, _, by decide, rfl⟩)

theorem declareSecretBinding_shaped : (s.declareSecretBinding st now r).Shaped st := by
  simp only [Server.declareSecretBinding, Outcome.Shaped]
  (repeat' split) <;>
  simp only [RequireMethod, DecodeJSON, requireInternalAuth, WriteText,
    writeDomainErrorResponse] at * <;>
  (repeat' split at *) <;>
  (try simp_all) <;>
  (try subst_vars) <;>
  first
    | decide
    | exact ⟨_, by assumption, rfl, rfl⟩
    | exact Or.inr (Or.inl ⟨_, _, by decide, rfl⟩)

theorem startSecretRotation_shaped : (s.startSecretRotation st now r).Shaped st := by
  simp only [Server.startSecretRotation, Outcome.Shaped]
  (repeat' split) <;>
  simp only [RequireMethod, DecodeJSON, requireInternalAuth, WriteText,
    writeDomainErrorResponse] at * <;>
  (repeat' split at *) <;>
  (try simp_all) <;>
  (try subst_vars) <;>
  first
    | decide
    | exact ⟨_, by assumption, rfl, rfl⟩
    | exact Or.inr (Or.inl ⟨_, _, by decide, rfl⟩)

theorem completeSecretRotation_shaped : (s.completeSecretRotation st now r).Shaped st := by
  simp only [Server.completeSecretRotation, Outcome.Shaped]
  (repeat' split) <;>
  simp only [RequireMethod, DecodeJSON, requireInternalAuth, WriteText,
    writeDomainErrorResponse] at * <;>
  (repeat' split at *) <;>
  (try simp_all) <;>
  (try subst_vars) <;>
  first
    | decide
    | exact ⟨_, by assumption, rfl, rfl⟩
    | exact Or.inr (Or.inl ⟨_, _, by decide, rfl⟩)

theorem declareCodeRepository_shaped : (s.declareCodeRepository st now r).Shaped st := by
  simp only [Server.declareCodeRepository, Outcome.Shaped]
  (repeat' split) <;>
  simp only [RequireMethod, DecodeJSON, requireInternalAuth, WriteText,
    writeDomainErrorResponse] at * <;>
  (repeat' split at *) <;>
  (try simp_all) <;>
  (try subst_vars) <;>
  first
    | decide
    | exact ⟨_, by assumption, rfl, rfl⟩
    | exact Or.inr (Or.inl ⟨_, _, by decide, rfl⟩)

theorem declareDeploymentRepository_shaped : (s.declareDeploymentRepository st now r).Shaped st := by
  simp only [Server.declareDeploymentRepository, Outcome.Shaped]
  (repeat' split) <;>
  simp only [RequireMethod, DecodeJSON, requireInternalAuth, WriteText,
    writeDomainErrorResponse] at * <;>
  (repeat' split at *) <;>
  (try simp_all) <;>
  (try subst_vars) <;>
  first
    | decide
    | exact ⟨_, by assumption, rfl, rfl⟩
    | exact Or.inr (Or.inl ⟨_, _, by decide, rfl⟩)

theorem declareGitOpsIntegration_shaped : (s.declareGitOpsIntegration st now r).Shaped st := by
  simp only [Server.declareGitOpsIntegration, Outcome.Shaped]
  (repeat' split) <;>
  simp only [RequireMethod, DecodeJSON, requireInternalAuth, WriteText,
    writeDomainErrorResponse] at * <;>
  (repeat' split at *) <;>
  (try simp_all) <;>
  (try subst_vars) <;>
  first
    | decide
    | exact ⟨_, by assumption, rfl, rfl⟩
    | exact Or.inr (Or.inl ⟨_, _, by decide, rfl⟩)

theorem getApplication_shaped : (s.getApplication st now r).Shaped st := by
  simp only [Server.getApplication, Outcome.Shaped]
  (repeat' split) <;>
  simp only [RequireMethod, DecodeJSON, requireInternalAuth, WriteText,
    writeDomainErrorResponse] at * <;>
  (repeat' split at *) <;>
  (try simp_all) <;>
  (try subst_vars) <;>
  first
    | decide
    | exact ⟨_, by assumption, rfl, rfl⟩
    | exact Or.inr (Or.inl ⟨_, _, by decide, rfl⟩)

theorem getEnvironment_shaped : (s.getEnvironment st now r).Shaped st := by
  simp only [Server.getEnvironment, Outcome.Shaped]
  (repeat' split) <;>
  simp only [RequireMethod, DecodeJSON, requireInternalAuth, WriteText,
    writeDomainErrorResponse] at * <;>
  (repeat' split at *) <;>
  (try simp_all) <;>
  (try subst_vars) <;>
  first
    | decide
    | exact ⟨_, by assumption, rfl, rfl⟩
    | exact Or.inr (Or.inl ⟨_, _, by decide, rfl⟩)

theorem getApplicationEnvironment_shaped : (s.getApplicationEnvironment st now r).Shaped st := by
  simp only [Server.getApplicationEnvironment, Outcome.Shaped]
  (repeat' split) <;>
  simp only [RequireMethod, DecodeJSON, requireInternalAuth, WriteText,
    writeDomainErrorResponse] at * <;>
  (repeat' split at *) <;>
  (try simp_all) <;>
  (try subst_vars) <;>
  first
    | decide
    | exact ⟨_, by assumption, rfl, rfl⟩
    | exact Or.inr (Or.inl ⟨_, _, by decide, rfl⟩)

end shapes



/-- C22, amended. Every response of a command or query handler is one of three:
the answer of writeDomainError to the error that the service returned, with a
status of 400 or above and a JSON body of the shape code and message whose code
is not empty; a plain text with one of the fixed messages, for a wrong method
(405), a body that does not decode (400), a missing required field (400) or a
failed internal auth (401), written before the service is invoked, the store
unchanged; or a success with status 200, 201 or 202, whose body is neither. -/
theorem C22_error_bodies {σ : Type} (s : Server σ) (st : σ) (now : Nat)
    (r : httpapi.Request) (e : Endpoint) :
    (∃ err, err ≠ error.nil ∧
      (s.handle st now r e).response =
        { Status := (writeDomainError err).1, Body := Body.error (writeDomainError err).2 } ∧
      400 ≤ (writeDomainError err).1 ∧ (writeDomainError err).2.Code ≠ "") ∨
    (∃ status msg, (status, msg) ∈ plainTextErrors ∧
      (s.handle st now r e).response = { Status := status, Body := Body.text msg } ∧
      (s.handle st now r e).store = st) ∨
    (((s.handle st now r e).response.Status = 200 ∨
        (s.handle st now r e).response.Status = 201 ∨
        (s.handle st now r e).response.Status = 202) ∧
      (∀ msg, (s.handle st now r e).response.Body ≠ Body.text msg) ∧
      ∀ resp, (s.handle st now r e).response.Body ≠ Body.error resp) := by
  have h : (s.handle st now r e).Shaped st := by
    cases e
    · exact createTeam_shaped s st now r
    · exact createApplication_shaped s st now r
    · exact approveApplication_shaped s st now r
    · exact deprecateApplication_shaped s st now r
    · exact startApplicationOnboarding_shaped s st now r
    · exact activateApplication_shaped s st now r
    · exact createSecret_shaped s st now r
    · exact declareSecretBinding_shaped s st now r
    · exact startSecretRotation_shaped s st now r
    · exact completeSecretRotation_shaped s st now r
    · exact declareCodeRepository_shaped s st now r
    · exact declareDeploymentRepository_shaped s st now r
    · exact declareGitOpsIntegration_shaped s st now r
    · exact getApplication_shaped s st now r
    · exact getEnvironment_shaped s st now r
    · exact getApplicationEnvironment_shaped s st now r
  rcases h with ⟨err, hne, hr⟩ | h | h
  · exact Or.inl ⟨err, hne, hr, writeDomainError_status_ge err,
      (writeDomainError_shape err).2.1⟩
  · exact Or.inr (Or.inl h)
  · exact Or.inr (Or.inr h)

/-! ## C23: internal auth -/

/-- C23. For the handlers of start-onboarding, activate and complete-rotation:
when INTERNAL_AUTH_TOKEN is not empty and the X-Internal-Token header of the
request is absent or differs from it, the response is the 401, the store is
unchanged and no event is observed, whatever the method and the body. When
INTERNAL_AUTH_TOKEN is empty the headers are ignored, and a request that
carries the enforced token is handled exactly as with an empty token. In both
of these cases the request is processed: it is never answered 401, and a POST
with a non-empty id invokes the service command, and the outcome is the store
that the command returns with the 202, or with the response of
writeDomainError when the command returns an error. -/
theorem C23_internal_auth {σ : Type} (services : Services σ) (st : σ) (now : Nat)
    (r : httpapi.Request) (e : Endpoint)
    (he : e = Endpoint.startApplicationOnboarding ∨ e = Endpoint.activateApplication ∨
      e = Endpoint.completeSecretRotation) :
    (∀ token, token ≠ "" → r.headerGet internalAuthHeader ≠ token →
      ((Server.mk services token).handle st now r e).response =
          { Status := 401, Body := Body.text "missing or invalid internal auth token" } ∧
        ((Server.mk services token).handle st now r e).store = st ∧
        ((Server.mk services token).handle st now r e).metrics = []) ∧
    (∀ header, (Server.mk services "").handle st now { r with Header := header } e =
      (Server.mk services "").handle st now r e) ∧
    (∀ token, r.headerGet internalAuthHeader = token →
      (Server.mk services token).handle st now r e =
        (Server.mk services "").handle st now r e) ∧
    (∀ token, token = "" ∨ r.headerGet internalAuthHeader = token →
      ((Server.mk services token).handle st now r e).response.Status ≠ 401) ∧
    (∀ token req, token = "" ∨ r.headerGet internalAuthHeader = token →
      r.Method = MethodPost → r.Body = some req → field req "id" ≠ "" →
      (e = Endpoint.startApplicationOnboarding →
        (Server.mk services token).handle st now r e =
          (let res := services.StartApplicationOnboarding st (field req "id") "workflow-engine"
           if res.2 ≠ .nil then
             ⟨res.1, [Metric.domainEvent "application_onboarding_started" "error"],
               writeDomainErrorResponse res.2⟩
           else
             ⟨res.1, [Metric.domainEvent "application_onboarding_started" "success"],
               { Status := 202, Body := Body.empty }⟩)) ∧
      (e = Endpoint.activateApplication →
        (Server.mk services token).handle st now r e =
          (let res := services.ActivateApplication st (field req "id") "workflow-engine"
           if res.2 ≠ .nil then
             ⟨res.1, [Metric.domainEvent "application_activated" "error"],
               writeDomainErrorResponse res.2⟩
           else
             ⟨res.1, [Metric.domainEvent "application_activated" "success"],
               { Status := 202, Body := Body.empty }⟩)) ∧
      (e = Endpoint.completeSecretRotation →
        (Server.mk services token).handle st now r e =
          (let res := services.CompleteSecretRotation st (field req "id") "workflow-engine"
           if res.2 ≠ .nil then
             ⟨res.1, [Metric.domainEvent "secret_rotation_completed" "error"],
               writeDomainErrorResponse res.2⟩
           else
             ⟨res.1, [Metric.domainEvent "secret_rotation_completed" "success"],
               { Status := 202, Body := Body.empty }⟩))) := by
  have hauth : ∀ token, token = "" ∨ r.headerGet internalAuthHeader = token →
      requireInternalAuth token r = none := by
    intro token ht
    by_cases h0 : token = ""
    · simp [requireInternalAuth, h0]
    · rcases ht with ht | ht
      · exact absurd ht h0
      · simp [requireInternalAuth, h0, ht]
  have hstatus : ∀ err : error, (writeDomainErrorResponse err).Status ≠ 401 := by
    intro err
    simp only [writeDomainErrorResponse, writeDomainError]
    split_ifs <;> decide
  rcases he with rfl | rfl | rfl
  all_goals
    refine ⟨?_, ?_, ?_, ?_, ?_⟩
    · intro token ht hh
      simp [Server.handle, Server.startApplicationOnboarding, Server.activateApplication,
        Server.completeSecretRotation, requireInternalAuth, ht, hh, WriteText,
        StatusUnauthorized]
    · intro header
      simp [Server.handle, Server.startApplicationOnboarding, Server.activateApplication,
        Server.completeSecretRotation, requireInternalAuth, RequireMethod, DecodeJSON]
    · intro token ht
      by_cases h0 : token = ""
      · subst h0
        rfl
      · simp [Server.handle, Server.startApplicationOnboarding, Server.activateApplication,
          Server.completeSecretRotation, requireInternalAuth, h0, ht]
    · intro token ht
      simp only [Server.handle, Server.startApplicationOnboarding, Server.activateApplication,
        Server.completeSecretRotation, hauth token ht]
      by_cases hm : r.Method = MethodPost
      · cases hb : r.Body with
        | none => simp [RequireMethod, hm, DecodeJSON, hb, WriteText, StatusBadRequest]
        | some req =>
          by_cases hid : field req "id" = ""
          · simp [RequireMethod, hm, DecodeJSON, hb, hid, WriteText, StatusBadRequest]
          · simp only [RequireMethod, hm, DecodeJSON, hb, hid, ne_eq, not_true, if_false]
            split
            · exact hstatus _
            · simp [StatusAccepted]
      · simp [RequireMethod, hm, WriteText, StatusMethodNotAllowed]
    · intro token req ht hm hb hid
      simp [Server.handle, Server.startApplicationOnboarding, Server.activateApplication,
        Server.completeSecretRotation, hauth token ht, RequireMethod, hm, DecodeJSON, hb, hid,
        StatusAccepted]

/-- Witness of C23: with the token test-token enforced, a start-onboarding
request without the header is answered 401 and the sample store is unchanged;
with no token configured the request for the approved app-1 is answered 202 and
app-1 is Onboarding afterwards; and a request that carries test-token is
handled as with no token configured. -/
theorem C23_internal_auth_witness :
    ((memServer "test-token").handle sampleStore 9 (postOf [("id", "app-1")])
        Endpoint.startApplicationOnboarding).response.Status = 401 ∧
    ((memServer "test-token").handle sampleStore 9 (postOf [("id", "app-1")])
        Endpoint.startApplicationOnboarding).store = sampleStore ∧
    ((memServer "").handle approvedStore 9 (postOf [("id", "app-1")])
        Endpoint.startApplicationOnboarding).response.Status = 202 ∧
    (((memServer "").handle approvedStore 9 (postOf [("id", "app-1")])
        Endpoint.startApplicationOnboarding).store.applications.get "app-1").map
      (fun app => app.State) = some ApplicationStateOnboarding ∧
    (memServer "test-token").handle approvedStore 9
        { Method := MethodPost, Header := [(internalAuthHeader, "test-token")],
          Body := some [("id", "app-1")] }
        Endpoint.startApplicationOnboarding =
      (memServer "").handle approvedStore 9
        { Method := MethodPost, Header := [(internalAuthHeader, "test-token")],
          Body := some [("id", "app-1")] }
        Endpoint.startApplicationOnboarding :=
  have h := (C23_internal_auth memServices sampleStore 9 (postOf [("id", "app-1")])
    Endpoint.startApplicationOnboarding (Or.inl rfl)).1 "test-token" (by decide) (by decide)
  have h5 := ((C23_internal_auth memServices approvedStore 9 (postOf [("id", "app-1")])
    Endpoint.startApplicationOnboarding (Or.inl rfl)).2.2.2.2 "" [("id", "app-1")]
    (Or.inl rfl) rfl rfl (by decide)).1 rfl
  have h3 := (C23_internal_auth memServices approvedStore 9
    { Method := MethodPost, Header := [(internalAuthHeader, "test-token")],
      Body := some [("id", "app-1")] }
    Endpoint.startApplicationOnboarding (Or.inl rfl)).2.2.1 "test-token" (by decide)
  ⟨congrArg httpapi.Response.Status h.1, h.2.1,
    (congrArg (fun o => o.response.Status) h5).trans (by decide),
    (congrArg (fun o => (o.store.applications.get "app-1").map (fun app => app.State))
      h5).trans (by decide), h3⟩

/-! ## C21: a command that fails because the store failed -/

/-- C21: what the approve handler answers when the store fails. For every
services whose application repository fails in GetByID with an error `err`, a
well-formed approve request is answered 404 with the code application_not_found
and a message that ends in the text of `err`; and when the lookup finds a
Proposed application and Save fails with an error `err` that holds no platform
error, it is answered 400 with the code unknown_error and a message that ends in
the text of `err`. Neither answer is the 500 of an infrastructure failure. -/
theorem C21_store_failure_answers {σ : Type} (s : Server σ) (apps : ApplicationRepository σ)
    (st : σ) (now : Nat) (id : String) (hs : s.services.Applications = some apps)
    (hid : id ≠ "") :
    (∀ err, (apps.GetByID st id).2 = err → err ≠ error.nil →
      (s.approveApplication st now (postOf [("id", id)])).response =
        { Status := 404,
          Body := Body.error { Code := "application_not_found",
                               Message := "application not found: " ++ err.Error } }) ∧
    (∀ app err, apps.GetByID st id = (some app, error.nil) →
      app.State = ApplicationStateProposed →
      (apps.Save st { app with State := ApplicationStateApproved }).2 = err →
      err ≠ error.nil → err.asPlatform = none →
      (s.approveApplication st now (postOf [("id", id)])).response =
        { Status := 400,
          Body := Body.error { Code := "unknown_error",
                               Message := "saving approved application: " ++ err.Error } }) := by
  have hf : field [("id", id)] "id" = id := by simp [field, List.lookup]
  constructor
  · intro err he hne
    have hsvc : s.services.ApproveApplication st id "api" =
        (st, NotFound "application_not_found" "application not found" err) := by
      unfold Services.ApproveApplication
      rw [hs]
      simp only []
      split
      · rename_i app heq
        rw [heq] at he
        exact absurd he.symm hne
      · rename_i x e2 _ heq
        rw [heq] at he
        simp only [] at he
        rw [he]
    have hmsg : (NotFound "application_not_found" "application not found" err).Error =
        "application not found: " ++ err.Error := by
      cases err with
      | nil => exact absurd rfl hne
      | _ => simp [NotFound, error.Error, String.append_assoc]
    simp only [Server.approveApplication, RequireMethod, DecodeJSON, postOf, hf, hid, hsvc]
    simp [writeDomainErrorResponse, writeDomainError, IsKind, Code, NotFound,
      error.asPlatform, KindNotFound, StatusNotFound, error.Error] at hmsg ⊢
  · intro app err hget hstate hsave hne hplat
    have hsvc : (s.services.ApproveApplication st id "api").2 =
        error.errorf "saving approved application" err := by
      unfold Services.ApproveApplication
      rw [hs]
      simp only [hget, hstate, saveResult, hsave]
      simp [hne]
    have hne2 : (s.services.ApproveApplication st id "api").2 ≠ error.nil := by
      rw [hsvc]
      exact fun h => by cases h
    simp only [Server.approveApplication, RequireMethod, DecodeJSON, postOf, hf, hid]
    simp [hne2, hsvc, writeDomainErrorResponse, writeDomainError, IsKind, Code,
      error.asPlatform, hplat, StatusBadRequest, error.Error]

/-- Witness of C21: with an unreachable application store the approve request
for app-1 is answered 404; and on the server with the team repository on an
unreachable Postgres, creating a team is answered 400 with the code
unknown_error, and creating an application of team-1 is answered 404 with the
code team_not_found, each with the cause in its message. -/
theorem C21_store_failure_answers_witness :
    (brokenApplicationsServer.approveApplication sampleStore 9
        (postOf [("id", "app-1")])).response =
      { Status := 404,
        Body := Body.error { Code := "application_not_found",
                             Message := "application not found: connection refused" } } ∧
    (pgServer.createTeam sampleStore 9 (postOf [("id", "team-2"), ("name", "Core")])).response =
      { Status := 400,
        Body := Body.error { Code := "unknown_error",
                             Message := "saving team: saving team: connection refused" } } ∧
    (pgServer.createApplication sampleStore 9
        (postOf [("id", "app-3"), ("name", "App"), ("teamId", "team-1")])).response =
      { Status := 404,
        Body := Body.error
          { Code := "team_not_found",
            Message := "team not found: scanning team: connection refused" } } :=
  ⟨(C21_store_failure_answers brokenApplicationsServer brokenRepository sampleStore 9 "app-1"
      rfl (by decide)).1
      (error.other "connection refused") rfl (by decide),
    by decide, by decide⟩

end httpapiTheorems

/-! ## C24: two commands on the same entity -/

/-- The two atomic steps of a call, taken with nothing in between, are the
command. -/
theorem ApproveApplication_steps {σ : Type} (s : Services σ) (st : σ) (id by_ : String) :
    Services.ApproveApplication.step s
        (Services.ApproveApplication.step s st (.called id by_)).1
        (Services.ApproveApplication.step s st (.called id by_)).2 =
      ((s.ApproveApplication st id by_).1, .returned (s.ApproveApplication st id by_).2) := by
  unfold Services.ApproveApplication
  cases hs : s.Applications with
  | none => simp [Services.ApproveApplication.step, hs]
  | some apps =>
    simp only [Services.ApproveApplication.step, hs]
    generalize apps.GetByID st id = r
    rcases r with ⟨_ | app, e⟩ <;> cases e <;>
      simp [Services.ApproveApplication.step, hs]
    split_ifs <;> simp [Services.ApproveApplication.step, hs]

/-- C24 as stated fails: two calls of ApproveApplication on the Proposed app-1
whose lookups both run before either save both return nil. -/
theorem C24_counterexample :
    sampleStore.applications.get "app-1" = some sampleApp1 ∧
    sampleApp1.State = ApplicationStateProposed ∧
    (Services.approveConcurrently memServices [false, true, false, true]
        (sampleStore, .called "app-1" "alice", .called "app-1" "bob")).2 =
      (.returned error.nil, .returned error.nil) :=
  ⟨by decide, by decide, by decide⟩

/-- Two approvals of one application, one after the other: the second finds the
state the first has written. -/
theorem ApproveApplication_twice (st : Store) (n1 n2 : Nat) (id by1 by2 : String)
    (h : (run st n1 (.ApproveApplication id by1)).2 = .nil) :
    (run (run st n1 (.ApproveApplication id by1)).1 n2 (.ApproveApplication id by2)).2 =
      Domain "application_invalid_state_for_approval"
        "application can only be approved from Proposed state" .nil := by
  cases hg : st.applications.get id with
  | none =>
    rw [run_ApproveApplication] at h
    simp [hg, NotFound] at h
  | some app =>
    by_cases hp : app.State = ApplicationStateProposed
    · have hk : Keyed.key ({ app with State := ApplicationStateApproved } : Application) = id :=
        (Items.key_of_get hg : Keyed.key app = id)
      have hst : (run st n1 (.ApproveApplication id by1)).1 =
          { st with applications :=
              st.applications.put { app with State := ApplicationStateApproved } } := by
        rw [run_ApproveApplication]
        simp [hg, hp]
      have hget : (run st n1 (.ApproveApplication id by1)).1.applications.get id =
          some { app with State := ApplicationStateApproved } := by
        rw [hst]
        simp [Items.get_put_of_key _ hk]
      rw [run_ApproveApplication, hget]
      have hne : ¬ ApplicationStateApproved = ApplicationStateProposed := by decide
      simp [hne]
    · rw [run_ApproveApplication] at h
      simp [hg, hp, Domain] at h

/-- Two declarations of one (application, environment) pair, one after the
other: the second finds the entity the first has written. -/
theorem DeclareApplicationEnvironment_twice (st : Store) (n1 n2 : Nat)
    (id1 id2 a e by1 by2 : String)
    (h : (run st n1 (.DeclareApplicationEnvironment id1 a e by1)).2 = .nil) :
    (run (run st n1 (.DeclareApplicationEnvironment id1 a e by1)).1 n2
        (.DeclareApplicationEnvironment id2 a e by2)).2 ≠ .nil := by
  have hst : (run st n1 (.DeclareApplicationEnvironment id1 a e by1)).1 =
      { st with
          applicationEnvironments := st.applicationEnvironments.put
            { ID := id1, ApplicationID := a, EnvironmentID := e,
              State := ApplicationEnvironmentStateDeclared,
              Metadata := { CreatedBy := by1, CreatedAt := n1 } } } := by
    rw [run_DeclareApplicationEnvironment] at h ⊢
    split_ifs at h ⊢
    all_goals first
      | rfl
      | simp [Conflict, NotFound] at h
  have hget : (st.applicationEnvironments.put
      ({ ID := id1, ApplicationID := a, EnvironmentID := e,
         State := ApplicationEnvironmentStateDeclared,
         Metadata := { CreatedBy := by1, CreatedAt := n1 } } : ApplicationEnvironment)).get id1 =
      some { ID := id1, ApplicationID := a, EnvironmentID := e,
             State := ApplicationEnvironmentStateDeclared,
             Metadata := { CreatedBy := by1, CreatedAt := n1 } } := by
    rw [Items.get_put]
    simp [Keyed.key]
  have hfind := Items.find_isSome_of_get
    (fun ae : ApplicationEnvironment => ae.ApplicationID == a && ae.EnvironmentID == e)
    hget (by simp)
  rw [run_DeclareApplicationEnvironment, hst]
  simp only [hfind]
  split_ifs <;> simp [Conflict, NotFound]

/-- C24 (amended): two ApproveApplication commands on one application id, or
two DeclareApplicationEnvironment commands for one (application, environment)
pair, that run one after the other do not both succeed. The lookup with its
checks and the save are two repository calls with no lock held from one to the
other: when the lookups of two approvals of a Proposed application both run
before either save, both approvals return nil. -/
theorem C24_serial_at_most_one (st : Store) (n1 n2 : Nat) :
    (∀ id by1 by2 : String,
      (run st n1 (.ApproveApplication id by1)).2 = .nil →
      (run (run st n1 (.ApproveApplication id by1)).1 n2
        (.ApproveApplication id by2)).2 ≠ .nil) ∧
    (∀ id1 id2 a e by1 by2 : String,
      (run st n1 (.DeclareApplicationEnvironment id1 a e by1)).2 = .nil →
      (run (run st n1 (.DeclareApplicationEnvironment id1 a e by1)).1 n2
        (.DeclareApplicationEnvironment id2 a e by2)).2 ≠ .nil) ∧
    (∀ (id by1 by2 : String) (app : Application),
      st.applications.get id = some app →
      app.State = ApplicationStateProposed →
      (Services.approveConcurrently memServices [false, true, false, true]
          (st, .called id by1, .called id by2)).2 =
        (.returned error.nil, .returned error.nil)) := by
  refine ⟨fun id by1 by2 h => ?_, fun id1 id2 a e by1 by2 h =>
    DeclareApplicationEnvironment_twice st n1 n2 id1 id2 a e by1 by2 h, ?_⟩
  · rw [ApproveApplication_twice st n1 n2 id by1 by2 h]
    decide
  · intro id by1 by2 app hg hp
    simp [Services.approveConcurrently, Services.ApproveApplication.step, memServices,
      memoryrepo.NewApplicationRepository, saveResult, hg, hp]

theorem C24_serial_at_most_one_witness :
    (run sampleStore 0 (.ApproveApplication "app-1" "alice")).2 = .nil ∧
    (run (run sampleStore 0 (.ApproveApplication "app-1" "alice")).1 1
      (.ApproveApplication "app-1" "bob")).2 ≠ .nil ∧
    (Services.approveConcurrently memServices [false, true, false, true]
        (sampleStore, .called "app-1" "alice", .called "app-1" "bob")).2 =
      (.returned error.nil, .returned error.nil) :=
  ⟨by decide,
   (C24_serial_at_most_one sampleStore 0 1).1 "app-1" "alice" "bob" (by decide),
   (C24_serial_at_most_one sampleStore 0 1).2.2 "app-1" "alice" "bob" sampleApp1
     (by decide) (by decide)⟩

/-! ## The execution workers -/

section workerTheorems

theorem appenv_name_ne_empty (x : String) : ¬ "appenv-" ++ x = "" := by
  intro h
  have h2 := congrArg String.length h
  simp only [String.length_append] at h2
  have h3 : "appenv-".length = 7 := by decide
  have h4 : "".length = 0 := by decide
  omega

/-- A request of the workflow engine passes the internal auth of a worker that
has the same INTERNAL_AUTH_TOKEN. -/
theorem requireInternalAuth_received (env : Env) (token : String) (req : Request)
    (henv : env "INTERNAL_AUTH_TOKEN" = token) (hreq : req.Header = requestHeader token) :
    worker.requireInternalAuth env (receivedByWorker req) = none := by
  by_cases ht : token = ""
  · simp [worker.requireInternalAuth, config.Require, henv, ht]
  · simp [worker.requireInternalAuth, config.Require, henv, ht, receivedByWorker,
      worker.Request.headerGet, hreq, requestHeader, internalAuthHeader, List.lookup]

/-- C26: what the two handlers pass to GitHub. For the application environment x the
/github/repos handler, given the request of MaterializeRepositories with owner
"platform", calls the GitHub client with the organisation "" and the name
"appenv-"+x, while the /appenv/branch-protection handler calls it with the
owner "platform" and the repository "appenv-"+x: the names agree, the owner of
the request is not passed on. -/
theorem C26_owner_dropped (env : Env) (out : worker.Outside) (ewURL token x : String)
    (hauth : env "INTERNAL_AUTH_TOKEN" = token) (hgh : env "GITHUB_TOKEN" ≠ "")
    (hx : x ≠ "") :
    (worker.handleCreateGitHubRepo env out (createRepositoryPost ewURL token x)).calls =
      [.githubCreate (worker.githubBaseURL env out).1 (env "GITHUB_TOKEN") ""
        ("appenv-" ++ x) true] ∧
    (worker.handleAppEnvBranchProtection env out
        (appEnvPost ewURL "/appenv/branch-protection" token x)).calls =
      [.githubUpdateBranchProtection (worker.githubBaseURL env out).1 (env "GITHUB_TOKEN")
        "platform" ("appenv-" ++ x) "main" 1] := by
  have ha1 := requireInternalAuth_received env token
    (postRequest (ewURL ++ "/github/repos") token
      [("owner", .str "platform"), ("name", .str ("appenv-" ++ x)), ("private", .bool true)])
    hauth rfl
  have ha2 := requireInternalAuth_received env token
    (postRequest (ewURL ++ "/appenv/branch-protection") token
      [("applicationEnvironmentId", .str x)]) hauth rfl
  have hn := appenv_name_ne_empty x
  constructor
  · unfold worker.handleCreateGitHubRepo createRepositoryPost
    rw [ha1]
    simp only [receivedByWorker, postRequest, worker.RequireMethod, worker.DecodeJSON,
      worker.createRepoRequest.decode, worker.stringMember, worker.boolMember, List.lookup,
      config.Require, Option.bind, ne_eq, not_true, if_false]
    simp [hn, hgh]
    cases out.github _ <;> rfl
  · unfold worker.handleAppEnvBranchProtection appEnvPost
    rw [ha2]
    simp only [receivedByWorker, postRequest, worker.RequireMethod, worker.DecodeJSON,
      worker.appEnvRequest.decode, worker.stringMember, List.lookup,
      config.Require, Option.bind, Option.map, ne_eq, not_true, if_false]
    simp [hx, hgh]
    cases out.github _ <;> rfl

theorem C26_owner_dropped_witness :
    (worker.handleCreateGitHubRepo configuredEnv (obligingOutside "t")
        (createRepositoryPost "http://execution-workers:8082" "" "ae-1")).calls =
      [.githubCreate "https://api.github.com/" "gh-token" "" "appenv-ae-1" true] ∧
    (worker.handleAppEnvBranchProtection configuredEnv (obligingOutside "t")
        (appEnvPost "http://execution-workers:8082" "/appenv/branch-protection" "" "ae-1")).calls =
      [.githubUpdateBranchProtection "https://api.github.com/" "gh-token"
        "platform" "appenv-ae-1" "main" 1] :=
  C26_owner_dropped configuredEnv (obligingOutside "t") "http://execution-workers:8082" ""
    "ae-1" (by decide) (by decide) (by decide)

/-- What `handleAppEnvAction` does when its endpoint is not configured. -/
theorem handleAppEnvAction_unconfigured (env : Env) (out : worker.Outside) (r : worker.Request)
    (x endpointEnvVar domainEvent t1 t2 t3 t4 t5 t6 t7 t8 : String)
    (hauth : worker.requireInternalAuth env r = none) (hm : r.Method = MethodPost)
    (hbody : r.Body.bind worker.appEnvRequest.decode = some { ApplicationEnvironmentID := x })
    (hx : x ≠ "") (hvar : env endpointEnvVar = "") :
    worker.handleAppEnvAction env out r endpointEnvVar domainEvent t1 t2 t3 t4 t5 t6 t7 t8 =
      { calls := [], logs := [("error", t1)], events := [(domainEvent, "error")],
        response := worker.WriteText StatusInternalServerError t2 } := by
  simp [worker.handleAppEnvAction, hauth, worker.RequireMethod, hm, worker.DecodeJSON, hbody,
    hx, config.Get, hvar]

/-- What `handleAppEnvAction` does when its endpoint is configured and
parses. -/
theorem handleAppEnvAction_calls (env : Env) (out : worker.Outside) (r : worker.Request)
    (x endpointEnvVar domainEvent t1 t2 t3 t4 t5 t6 t7 t8 : String)
    (hauth : worker.requireInternalAuth env r = none) (hm : r.Method = MethodPost)
    (hbody : r.Body.bind worker.appEnvRequest.decode = some { ApplicationEnvironmentID := x })
    (hx : x ≠ "") (hvar : env endpointEnvVar ≠ "")
    (hparse : out.parseError (env endpointEnvVar) = .nil) :
    (worker.handleAppEnvAction env out r endpointEnvVar domainEvent
        t1 t2 t3 t4 t5 t6 t7 t8).calls =
      [.post (env endpointEnvVar) "application/json"
        ("\x7b\"applicationEnvironmentId\":\"" ++ x ++ "\"\x7d")] := by
  simp only [worker.handleAppEnvAction, hauth, worker.RequireMethod, hm, worker.DecodeJSON,
    hbody, hx, config.Get, hvar, hparse, ne_eq, not_true, if_false, not_false_eq_true, if_true]
  cases out.Do _ with
  | error e => rfl
  | ok status => simp only []; split <;> rfl

/-- C27 as stated fails: with APPENV_GITOPS_VERIFY_ENDPOINT unset, the POST of
the workflow engine for ae-1 makes no call and is answered 500. -/
theorem C27_counterexample :
    configuredEnv "APPENV_GITOPS_VERIFY_ENDPOINT" = "" ∧
    (worker.handleAppEnvGitOpsVerify configuredEnv (obligingOutside "t")
        (appEnvPost "http://execution-workers:8082" "/appenv/gitops-verify" "" "ae-1")) =
      { calls := [],
        logs := [("error", "APPENV_GITOPS_VERIFY_ENDPOINT not configured")],
        events := [("appenv_gitops_verified", "error")],
        response := { Status := 500,
                      Body := .text "APPENV_GITOPS_VERIFY_ENDPOINT not configured" } } :=
  ⟨by decide, by decide⟩

/-- C27 (amended): when the forward endpoint of an /appenv handler is not
configured, an authorised POST with a non-empty applicationEnvironmentId makes
no outbound call; the handler logs an error, records its domain event with
the result error and answers 500 with the text "<VARIABLE> not configured". -/
theorem C27_unconfigured_endpoint_answers_500 (env : Env) (out : worker.Outside)
    (r : worker.Request) (x envVar event : String)
    (handler : Env → worker.Outside → worker.Request → worker.Outcome)
    (hmem : (envVar, event, handler) ∈ appEnvActions)
    (hauth : worker.requireInternalAuth env r = none) (hm : r.Method = MethodPost)
    (hbody : r.Body.bind worker.appEnvRequest.decode = some { ApplicationEnvironmentID := x })
    (hx : x ≠ "") (hvar : env envVar = "") :
    handler env out r =
      { calls := [],
        logs := [("error", envVar ++ " not configured")],
        events := [(event, "error")],
        response := { Status := 500, Body := .text (envVar ++ " not configured") } } := by
  simp only [appEnvActions, List.mem_cons, Prod.mk.injEq, List.mem_nil_iff, or_false] at hmem
  rcases hmem with ⟨rfl, rfl, rfl⟩ | ⟨rfl, rfl, rfl⟩ | ⟨rfl, rfl, rfl⟩
  · exact handleAppEnvAction_unconfigured env out r x _ _ _ _ _ _ _ _ _ _ hauth hm hbody hx hvar
  · exact handleAppEnvAction_unconfigured env out r x _ _ _ _ _ _ _ _ _ _ hauth hm hbody hx hvar
  · exact handleAppEnvAction_unconfigured env out r x _ _ _ _ _ _ _ _ _ _ hauth hm hbody hx hvar

theorem C27_unconfigured_endpoint_answers_500_witness :
    worker.handleAppEnvSecretBindings configuredEnv (obligingOutside "t")
        (appEnvPost "http://execution-workers:8082" "/appenv/secret-bindings" "" "ae-1") =
      { calls := [],
        logs := [("error", "APPENV_SECRET_BINDINGS_ENDPOINT" ++ " not configured")],
        events := [("appenv_secret_bindings_created", "error")],
        response := { Status := 500,
                      Body := .text ("APPENV_SECRET_BINDINGS_ENDPOINT" ++ " not configured") } } :=
  C27_unconfigured_endpoint_answers_500 configuredEnv (obligingOutside "t")
    (appEnvPost "http://execution-workers:8082" "/appenv/secret-bindings" "" "ae-1")
    "ae-1" "APPENV_SECRET_BINDINGS_ENDPOINT" "appenv_secret_bindings_created"
    worker.handleAppEnvSecretBindings (by simp [appEnvActions]) (by decide) (by decide)
    (by decide) (by decide) (by decide)

/-- C30: what the handlers forward. The body that an /appenv handler
forwards is the identifier between two fixed pieces of text, with nothing
escaped. For an identifier that holds a double quote the string of the
forwarded object ends at that quote, and for an identifier that ends in a
backslash the closing quote of the text is escaped. In
handleSecretBindingsUpdate a secret id and a rotated token that hold quotes
forward the same text as another pair of secret id and token, so no decoder
gives back both pairs. -/
theorem C30_forwarded_body_unescaped :
    (∀ (env : Env) (out : worker.Outside) (ewURL token x : String),
      env "INTERNAL_AUTH_TOKEN" = token → x ≠ "" →
      env "APPENV_SECRETS_ENDPOINT" ≠ "" →
      out.parseError (env "APPENV_SECRETS_ENDPOINT") = .nil →
      (worker.handleAppEnvSecrets env out (appEnvPost ewURL "/appenv/secrets" token x)).calls =
        [.post (env "APPENV_SECRETS_ENDPOINT") "application/json"
          ("\x7b\"applicationEnvironmentId\":\"" ++ x ++ "\"\x7d")]) ∧
    (worker.handleAppEnvSecrets configuredEnv (obligingOutside "t")
        (appEnvPost "http://execution-workers:8082" "/appenv/secrets" "" "a\"b")).calls =
      [.post "http://provisioner/secrets" "application/json"
        "\x7b\"applicationEnvironmentId\":\"a\"b\"\x7d"] ∧
    (worker.handleAppEnvSecrets configuredEnv (obligingOutside "t")
        (appEnvPost "http://execution-workers:8082" "/appenv/secrets" "" "a\\")).calls =
      [.post "http://provisioner/secrets" "application/json"
        "\x7b\"applicationEnvironmentId\":\"a\\\"\x7d"] ∧
    (worker.handleSecretBindingsUpdate configuredEnv (obligingOutside "b\",\"token\":\"c")
        (secretBindingsPost "http://execution-workers:8082" "" "a")).calls =
      [.harborRotate "http://harbor/rotate" "robot" "secret",
       .post "http://bindings/update" "application/json"
        "\x7b\"secretId\":\"a\",\"token\":\"b\",\"token\":\"c\"\x7d"] ∧
    (worker.handleSecretBindingsUpdate configuredEnv (obligingOutside "c")
        (secretBindingsPost "http://execution-workers:8082" "" "a\",\"token\":\"b")).calls =
      [.harborRotate "http://harbor/rotate" "robot" "secret",
       .post "http://bindings/update" "application/json"
        "\x7b\"secretId\":\"a\",\"token\":\"b\",\"token\":\"c\"\x7d"] := by
  refine ⟨?_, by decide, by decide, by decide, by decide⟩
  intro env out ewURL token x hauth hx hvar hparse
  exact handleAppEnvAction_calls env out _ x _ _ _ _ _ _ _ _ _ _
    (requireInternalAuth_received env token _ hauth rfl) rfl rfl hx hvar hparse

theorem C30_forwarded_body_unescaped_witness :
    (worker.handleAppEnvSecrets configuredEnv (obligingOutside "t")
        (appEnvPost "http://execution-workers:8082" "/appenv/secrets" "" "a\",\"x\":\"b")).calls =
      [.post "http://provisioner/secrets" "application/json"
        ("\x7b\"applicationEnvironmentId\":\"" ++ "a\",\"x\":\"b" ++ "\"\x7d")] :=
  C30_forwarded_body_unescaped.1 configuredEnv (obligingOutside "t")
    "http://execution-workers:8082" "" "a\",\"x\":\"b" (by decide) (by decide) (by decide)
    (by decide)

end workerTheorems

end NuevoIDP
